import Mathlib

/-!
# UEAudioSystem: voxel grid and A* pathfinder

A shallow embedding of `MapGrid.cpp`, `GridNode.h` and `Pathfinder.cpp`.

Conventions of the embedding.

* `float`/`double` quantities are idealised as rationals (`ℚ`); `int` is `Int`
  (signed overflow is undefined behaviour in C++, the embedding describes the
  executions on which it does not occur).
* A `FGridNode*` into the grid's flat array `Nodes` is the `Nat` offset of the
  element; `nullptr` is `none`.
* Engine queries (sphere overlap, line trace) are function parameters.
* Loops whose trip count is not syntactically bounded carry a fuel argument;
  running out of fuel, like dereferencing `nullptr`, yields `none`.
-/

namespace UEAudioSystem

/-! ## Engine types and math -/

/-- Engine vector `FVector`. -/
structure FVector where
  X : ℚ
  Y : ℚ
  Z : ℚ
deriving DecidableEq

namespace FVector

/-- Component-wise difference `A - B`. -/
def sub (A B : FVector) : FVector := ⟨A.X - B.X, A.Y - B.Y, A.Z - B.Z⟩

/-- The operator `FVector - float`: the scalar is subtracted from each component. -/
def subScalar (A : FVector) (s : ℚ) : FVector := ⟨A.X - s, A.Y - s, A.Z - s⟩

/-- The operator `FVector / float`. -/
def divScalar (A : FVector) (s : ℚ) : FVector := ⟨A.X / s, A.Y / s, A.Z / s⟩

/-- Dot product `A.Dot(B)`. -/
def Dot (A B : FVector) : ℚ := A.X * B.X + A.Y * B.Y + A.Z * B.Z

end FVector

namespace FMath

/-- Engine `FMath::RoundToInt(F)`, which is `FloorToInt(F + 0.5)`. -/
def RoundToInt (F : ℚ) : Int := Rat.floor (F + 1 / 2)

/-- Engine `FMath::Clamp(X, Min, Max)`, which is `Max(Min(X, MaxValue), MinValue)`. -/
def Clamp (X Min Max : Int) : Int := max (min X Max) Min

/-- Implicit C++ conversion of a floating value to `int`: truncation towards zero. -/
def TruncToInt (F : ℚ) : Int := Int.tdiv F.num F.den

end FMath

/-! ## `GridNode.h` -/

/-- Voxel cell `FGridNode`; the field defaults are those of the C++ member initialisers. -/
structure FGridNode where
  Parent : Option Nat := none
  GridX : Int := -1
  GridY : Int := -1
  GridZ : Int := -1
  GCost : Int := -1
  HCost : Int := -1
  bWalkable : Bool := false
  WorldCoordinate : FVector := ⟨0, 0, 0⟩
deriving DecidableEq

instance : Inhabited FGridNode := ⟨{}⟩

namespace FGridNode

/-- Constructor `FGridNode(bIsWalkable, WorldCoord, GridX, GridY, GridZ)`. -/
def mk5 (bIsWalkable : Bool) (WorldCoord : FVector) (GridX GridY GridZ : Int) : FGridNode :=
  { GridX := GridX, GridY := GridY, GridZ := GridZ, bWalkable := bIsWalkable,
    WorldCoordinate := WorldCoord }

/-- Accessor `IsWalkable()`. -/
def IsWalkable (n : FGridNode) : Bool := n.bWalkable

/-- Accessor `GetWorldCoordinate()`. -/
def GetWorldCoordinate (n : FGridNode) : FVector := n.WorldCoordinate

/-- Accessor `GetFCost()`: the sum of `GCost` and `HCost`. -/
def GetFCost (n : FGridNode) : Int := n.GCost + n.HCost

end FGridNode

/-! ## `MapGrid.h` / `MapGrid.cpp` -/

/-- Grid actor `AMapGrid`. `ActorLocation` stands for `GetActorLocation()`. -/
structure AMapGrid where
  Nodes : List FGridNode := []
  NodeRadius : ℚ := 50
  NodeDiameter : ℚ := 0
  GridSize : FVector := ⟨100, 100, 100⟩
  GridArrayLengthX : Int := 0
  GridArrayLengthY : Int := 0
  GridArrayLengthZ : Int := 0
  GridBottomLeftLocation : FVector := ⟨0, 0, 0⟩
  bDrawPath : Bool := true
  ActorLocation : FVector := ⟨0, 0, 0⟩
deriving DecidableEq

instance : Inhabited AMapGrid := ⟨{}⟩

namespace AMapGrid

/-- Dereference of a node pointer: `Nodes[p]`. -/
def node (g : AMapGrid) (p : Nat) : FGridNode := g.Nodes.getD p default

/-- Method `AMapGrid::GetIndex`. -/
def GetIndex (g : AMapGrid) (IndexX IndexY IndexZ : Int) : Int :=
  IndexX * g.GridArrayLengthY * g.GridArrayLengthZ + IndexZ * g.GridArrayLengthY + IndexY

/-- Method `AMapGrid::AddToArray`: `Nodes[GetIndex(x, y, z)] = Node`. -/
def AddToArray (g : AMapGrid) (IndexX IndexY IndexZ : Int) (Node : FGridNode) : AMapGrid :=
  { g with Nodes := g.Nodes.set (g.GetIndex IndexX IndexY IndexZ).toNat Node }

/-- Method `AMapGrid::GetNodeFromArray`: the pointer `&Nodes[GetIndex(x, y, z)]`. -/
def GetNodeFromArray (g : AMapGrid) (IndexX IndexY IndexZ : Int) : Nat :=
  (g.GetIndex IndexX IndexY IndexZ).toNat

/-- Centre of cell `(x, y, z)` as computed in the body of the `CreateGrid` loops. -/
def NodePos (g : AMapGrid) (GridBottomLeft : FVector) (x y z : Int) : FVector :=
  ⟨GridBottomLeft.X + (x * g.NodeDiameter + g.NodeRadius),
   GridBottomLeft.Y + (y * g.NodeDiameter + g.NodeRadius),
   GridBottomLeft.Z + (z * g.NodeDiameter + g.NodeRadius)⟩

/-- Body of the innermost `CreateGrid` loop. `Overlap pos radius` tells whether
`SphereOverlapActors` reported at least one blocking actor. -/
def CreateGridCell (Overlap : FVector → ℚ → Bool) (GridBottomLeft : FVector)
    (g : AMapGrid) (x y z : Int) : AMapGrid :=
  let P := g.NodePos GridBottomLeft x y z
  g.AddToArray x y z (FGridNode.mk5 (!Overlap P g.NodeRadius) P x y z)

/-- First half of `AMapGrid::CreateGrid`: the cell counts, the allocation of `Nodes`
(default-constructed elements) and the bottom-left corner. -/
def CreateGridInit (g : AMapGrid) : AMapGrid :=
  let LX := FMath.RoundToInt (g.GridSize.X / g.NodeDiameter)
  let LY := FMath.RoundToInt (g.GridSize.Y / g.NodeDiameter)
  let LZ := FMath.RoundToInt (g.GridSize.Z / g.NodeDiameter)
  { g with
    GridArrayLengthX := LX, GridArrayLengthY := LY, GridArrayLengthZ := LZ,
    Nodes := List.replicate (LX * LY * LZ).toNat default,
    GridBottomLeftLocation :=
      ⟨g.ActorLocation.X - g.GridSize.X / 2, g.ActorLocation.Y - g.GridSize.Y / 2,
       g.ActorLocation.Z⟩ }

/-- Second half of `AMapGrid::CreateGrid`: the three nested `for` loops. -/
def CreateGridLoops (Overlap : FVector → ℚ → Bool) (g1 : AMapGrid) : AMapGrid :=
  (List.range g1.GridArrayLengthX.toNat).foldl
    (fun gx (x : Nat) =>
      (List.range g1.GridArrayLengthY.toNat).foldl
        (fun gy (y : Nat) =>
          (List.range g1.GridArrayLengthZ.toNat).foldl
            (fun gz (z : Nat) =>
              CreateGridCell Overlap g1.GridBottomLeftLocation gz x y z) gy)
        gx)
    g1

/-- Method `AMapGrid::CreateGrid`. A negative element count makes `new[]` fail: `none`. -/
def CreateGrid (Overlap : FVector → ℚ → Bool) (g : AMapGrid) : Option AMapGrid :=
  let g1 := CreateGridInit g
  if g1.GridArrayLengthX * g1.GridArrayLengthY * g1.GridArrayLengthZ < 0 then none
  else some (CreateGridLoops Overlap g1)

/-- Method `AMapGrid::BeginPlay` (debug drawing omitted). -/
def BeginPlay (Overlap : FVector → ℚ → Bool) (g : AMapGrid) : Option AMapGrid :=
  CreateGrid Overlap { g with NodeDiameter := g.NodeRadius * 2 }

/-- Method `AMapGrid::IsOutOfBounds`. -/
def IsOutOfBounds (g : AMapGrid) (GridX GridY GridZ : Int) : Bool :=
  GridX < 0 || GridX > g.GridArrayLengthX - 1 || GridY < 0 || GridY > g.GridArrayLengthY - 1
    || GridZ < 0 || GridZ > g.GridArrayLengthZ - 1

/-- Method `AMapGrid::GetNodeFromWorldLocation`. -/
def GetNodeFromWorldLocation (g : AMapGrid) (WorldLoc : FVector) : Nat :=
  let GridRelative := WorldLoc.sub g.GridBottomLeftLocation
  let GridRelative := (GridRelative.subScalar g.NodeRadius).divScalar g.NodeDiameter
  let x := FMath.Clamp (FMath.RoundToInt GridRelative.X) 0 (g.GridArrayLengthX - 1)
  let y := FMath.Clamp (FMath.RoundToInt GridRelative.Y) 0 (g.GridArrayLengthY - 1)
  let z := FMath.Clamp (FMath.RoundToInt GridRelative.Z) 0 (g.GridArrayLengthZ - 1)
  g.GetNodeFromArray x y z

/-- The three nested loops of `GetNeighbours` list their offsets in this order. -/
def NeighbourOffsets : List (Int × Int × Int) :=
  ([-1, 0, 1] : List Int).flatMap fun x =>
    ([-1, 0, 1] : List Int).flatMap fun y =>
      ([-1, 0, 1] : List Int).map fun z => (x, y, z)

/-- Method `AMapGrid::GetNeighbours`. -/
def GetNeighbours (g : AMapGrid) (Node : Nat) : List Nat :=
  NeighbourOffsets.filterMap fun o =>
    if o.1 = 0 ∧ o.2.1 = 0 ∧ o.2.2 = 0 then none
    else
      let GridX := (g.node Node).GridX + o.1
      let GridY := (g.node Node).GridY + o.2.1
      let GridZ := (g.node Node).GridZ + o.2.2
      if g.IsOutOfBounds GridX GridY GridZ then none
      else some (g.GetNodeFromArray GridX GridY GridZ)

/-- The triple `(x, y, z)` is a valid grid coordinate. -/
def InBounds (g : AMapGrid) (x y z : Int) : Prop :=
  (0 ≤ x ∧ x < g.GridArrayLengthX) ∧ (0 ≤ y ∧ y < g.GridArrayLengthY) ∧
    (0 ≤ z ∧ z < g.GridArrayLengthZ)

instance (g : AMapGrid) (x y z : Int) : Decidable (g.InBounds x y z) := by
  unfold InBounds; infer_instance

/-- What `CreateGrid` stores for cell `(x, y, z)`. -/
def CellNode (Overlap : FVector → ℚ → Bool) (g : AMapGrid) (x y z : Int) : FGridNode :=
  FGridNode.mk5 (!Overlap (g.NodePos g.GridBottomLeftLocation x y z) g.NodeRadius)
    (g.NodePos g.GridBottomLeftLocation x y z) x y z

/-- Shape of a grid as `CreateGrid` leaves it and as searches keep it: at least one cell
per axis, one array slot per cell, and every slot carrying its own coordinates and
cell centre. The scratch fields `GCost`, `HCost`, `Parent` are unconstrained. -/
structure WellFormed (g : AMapGrid) : Prop where
  posX : 0 < g.GridArrayLengthX
  posY : 0 < g.GridArrayLengthY
  posZ : 0 < g.GridArrayLengthZ
  size : g.Nodes.length
    = (g.GridArrayLengthX * g.GridArrayLengthY * g.GridArrayLengthZ).toNat
  coords : ∀ x y z, g.InBounds x y z →
    (g.node (g.GetNodeFromArray x y z)).GridX = x ∧
    (g.node (g.GetNodeFromArray x y z)).GridY = y ∧
    (g.node (g.GetNodeFromArray x y z)).GridZ = z
  centre : ∀ x y z, g.InBounds x y z →
    (g.node (g.GetNodeFromArray x y z)).WorldCoordinate
      = g.NodePos g.GridBottomLeftLocation x y z

/-- The grid `g'` differs from `g` at most in the contents of `Nodes`. -/
def SameFrame (g g' : AMapGrid) : Prop :=
  g'.NodeRadius = g.NodeRadius ∧ g'.NodeDiameter = g.NodeDiameter ∧
  g'.GridSize = g.GridSize ∧ g'.GridArrayLengthX = g.GridArrayLengthX ∧
  g'.GridArrayLengthY = g.GridArrayLengthY ∧ g'.GridArrayLengthZ = g.GridArrayLengthZ ∧
  g'.GridBottomLeftLocation = g.GridBottomLeftLocation ∧ g'.bDrawPath = g.bDrawPath ∧
  g'.ActorLocation = g.ActorLocation ∧ g'.Nodes.length = g.Nodes.length

/-- Update of the node behind pointer `p`: `*p = f(*p)`. -/
def setNode (g : AMapGrid) (p : Nat) (f : FGridNode → FGridNode) : AMapGrid :=
  { g with Nodes := g.Nodes.set p (f (g.node p)) }

end AMapGrid

/-! ## Engine binary heap on `TArray<FGridNode*>` -/

/-- Predicate `HeapPred` of `Pathfinder.cpp`: f-cost first, h-cost on a tie. -/
def HeapPred (Left Right : FGridNode) : Bool :=
  if Left.GetFCost = Right.GetFCost then decide (Left.HCost < Right.HCost)
  else decide (Left.GetFCost < Right.GetFCost)

/-- Engine `Swap(Heap[i], Heap[j])`. -/
def heapSwap (Heap : List Nat) (i j : Nat) : List Nat :=
  (Heap.set i (Heap.getD j 0)).set j (Heap.getD i 0)

/-- Engine `AlgoImpl::HeapSiftUp` with root index 0. The predicate dereferences the
stored pointers in the grid `g`. The loop lowers `NodeIndex` on every turn, so
`NodeIndex` turns are enough: `fuel` is set to it by the callers. -/
def HeapSiftUp (g : AMapGrid) : Nat → List Nat → Nat → List Nat
  | 0, Heap, _ => Heap
  | fuel + 1, Heap, NodeIndex =>
    if NodeIndex > 0 then
      let ParentIndex := (NodeIndex - 1) / 2
      if !HeapPred (g.node (Heap.getD NodeIndex 0)) (g.node (Heap.getD ParentIndex 0)) then Heap
      else HeapSiftUp g fuel (heapSwap Heap NodeIndex ParentIndex) ParentIndex
    else Heap

/-- The choice of `MinChildIndex` in the body of `AlgoImpl::HeapSiftDown`: the left child,
or the right one when it exists and the left one does not precede it. -/
def HeapMinChildIndex (g : AMapGrid) (Heap : List Nat) (Index Count : Nat) : Nat :=
  let LeftChildIndex := 2 * Index + 1
  let RightChildIndex := LeftChildIndex + 1
  if RightChildIndex < Count then
    if HeapPred (g.node (Heap.getD LeftChildIndex 0)) (g.node (Heap.getD RightChildIndex 0))
    then LeftChildIndex else RightChildIndex
  else LeftChildIndex

/-- Engine `AlgoImpl::HeapSiftDown`. The loop raises `Index` on every turn and stops at a
leaf, so `Count` turns are enough: `fuel` is set to it by the callers. -/
def HeapSiftDown (g : AMapGrid) : Nat → List Nat → Nat → Nat → List Nat
  | 0, Heap, _, _ => Heap
  | fuel + 1, Heap, Index, Count =>
    if 2 * Index + 1 ≥ Count then Heap
    else
      let MinChildIndex := HeapMinChildIndex g Heap Index Count
      if !HeapPred (g.node (Heap.getD MinChildIndex 0)) (g.node (Heap.getD Index 0)) then Heap
      else HeapSiftDown g fuel (heapSwap Heap Index MinChildIndex) MinChildIndex Count

/-- Engine `TArray::HeapPush`: add at the end, then sift up. -/
def HeapPush (g : AMapGrid) (Heap : List Nat) (InItem : Nat) : List Nat :=
  let Heap1 := Heap ++ [InItem]
  HeapSiftUp g (Heap1.length - 1) Heap1 (Heap1.length - 1)

/-- Engine `TArray::HeapPop`: take element 0, `RemoveAtSwap(0)` (the last element moves
into slot 0), then sift down from the root. Returns the popped item and the new array. -/
def HeapPop (g : AMapGrid) (Heap : List Nat) : Nat × List Nat :=
  let OutItem := Heap.getD 0 0
  let Heap1 := (Heap.set 0 (Heap.getD (Heap.length - 1) 0)).dropLast
  (OutItem, HeapSiftDown g Heap1.length Heap1 0 Heap1.length)

/-! ## `Pathfinder.h` / `Pathfinder.cpp` -/

/-- Class `FPathfinder`; the grid is passed to the methods explicitly. -/
structure FPathfinder where
  OldEndNode : Option Nat := none
deriving DecidableEq

/-- Locals of `FindPath` that live across loop iterations, with the grid they mutate. -/
structure SearchState where
  Grid : AMapGrid
  ToBeChecked : List Nat
  Visited : List Nat
deriving DecidableEq

/-- What a call of `FindPath` leaves behind: the return value, the two output
parameters, and the mutated grid and pathfinder. -/
structure FindPathResult where
  Return : Bool
  Path : List Nat
  bOutPlayerHasMoved : Bool
  Grid : AMapGrid
  Pathfinder : FPathfinder
deriving DecidableEq

namespace FPathfinder

/-- Method `FPathfinder::GetCostToNode`: the squared distance, converted to `int`. -/
def GetCostToNode (g : AMapGrid) (From To : Nat) : Int :=
  let DirectionalVector :=
    (g.node To).GetWorldCoordinate.sub (g.node From).GetWorldCoordinate
  FMath.TruncToInt (DirectionalVector.Dot DirectionalVector)

/-- Method `FPathfinder::GetTargetNode`. `LineTrace a b` tells whether
`LineTraceSingleForObjects` from `a` to `b` reported a hit. -/
def GetTargetNode (g : AMapGrid) (LineTrace : FVector → FVector → Bool)
    (PlayerLocation TargetLocation : FVector) : Nat :=
  let TargetNode := g.GetNodeFromWorldLocation TargetLocation
  if !(g.node TargetNode).IsWalkable then
    match (g.GetNeighbours TargetNode).find? fun Neighbour =>
        (g.node Neighbour).IsWalkable &&
          !LineTrace (g.node Neighbour).GetWorldCoordinate PlayerLocation with
    | some Neighbour => Neighbour
    | none => TargetNode
  else TargetNode

/-- The loop of `FPathfinder::GetPath`; `Path.Add` appends. Following a null `Parent`
crashes the program: `none`. -/
def GetPathLoop (g : AMapGrid) (StartNode : Nat) : Nat → Nat → List Nat → Option (List Nat)
  | 0, _, _ => none
  | fuel + 1, Current, Path =>
    if Current = StartNode then some Path
    else
      match (g.node Current).Parent with
      | none => none
      | some Parent => GetPathLoop g StartNode fuel Parent (Path ++ [Current])

/-- Method `FPathfinder::GetPath`. A parent chain without repetition has at most as many
links as the grid has nodes. -/
def GetPath (g : AMapGrid) (StartNode EndNode : Nat) : Option (List Nat) :=
  GetPathLoop g StartNode (g.Nodes.length + 1) EndNode []

/-- Body of the `for (Neighbour : GetNeighbours(Current))` loop of `FindPath`. -/
def RelaxNeighbour (EndNode Current : Nat) (s : SearchState) (Neighbour : Nat) : SearchState :=
  if !(s.Grid.node Neighbour).IsWalkable || decide (Neighbour ∈ s.Visited) then s
  else
    let NewGCostToNeighbour :=
      (s.Grid.node Current).GCost + GetCostToNode s.Grid Current Neighbour
    if decide (NewGCostToNeighbour < (s.Grid.node Neighbour).GCost)
        || !decide (Neighbour ∈ s.ToBeChecked) then
      let g1 := s.Grid.setNode Neighbour fun n =>
        { n with
          GCost := NewGCostToNeighbour
          HCost := GetCostToNode s.Grid Neighbour EndNode
          Parent := some Current }
      if !decide (Neighbour ∈ s.ToBeChecked) then
        { s with Grid := g1, ToBeChecked := HeapPush g1 s.ToBeChecked Neighbour }
      else { s with Grid := g1 }
    else s

/-- The `while (!ToBeChecked.IsEmpty())` loop of `FindPath` and the code after it.
Yields the return value, the output path and the final locals. -/
def SearchLoop (StartNode EndNode : Nat) :
    Nat → SearchState → Option (Bool × List Nat × SearchState)
  | 0, _ => none
  | fuel + 1, s =>
    if s.ToBeChecked.isEmpty then some (false, [], s)
    else
      let Current := (HeapPop s.Grid s.ToBeChecked).1
      let s1 : SearchState :=
        { s with
          ToBeChecked := (HeapPop s.Grid s.ToBeChecked).2
          Visited := s.Visited.insert Current }
      if Current = EndNode then
        (GetPath s1.Grid StartNode EndNode).map fun Path => (true, Path, s1)
      else
        SearchLoop StartNode EndNode fuel
          ((s1.Grid.GetNeighbours Current).foldl (RelaxNeighbour EndNode Current) s1)

/-- Method `FPathfinder::FindPath`. Every turn of the loop moves one more node into
`Visited`, so one turn per node and a last one to see the empty heap are enough. -/
def FindPath (pf : FPathfinder) (g : AMapGrid) (LineTrace : FVector → FVector → Bool)
    (PlayerLocation From To : FVector) (Path : List Nat) : Option FindPathResult :=
  let StartNode := g.GetNodeFromWorldLocation From
  let EndNode := GetTargetNode g LineTrace PlayerLocation To
  if some EndNode = pf.OldEndNode then
    some { Return := true, Path := Path, bOutPlayerHasMoved := false, Grid := g,
           Pathfinder := pf }
  else
    let pf1 : FPathfinder := if !g.bDrawPath then { pf with OldEndNode := some EndNode } else pf
    let g1 := g.setNode StartNode fun n => { n with GCost := 0, HCost := 0 }
    let s0 : SearchState :=
      { Grid := g1, ToBeChecked := HeapPush g1 [] StartNode, Visited := [] }
    (SearchLoop StartNode EndNode (g.Nodes.length + 1) s0).map fun r =>
      { Return := r.1, Path := r.2.1, bOutPlayerHasMoved := true, Grid := r.2.2.Grid,
        Pathfinder := pf1 }

end FPathfinder

/-- Default-placed grid of the scenario tests: actor at the origin, radius 50. -/
def exampleGrid (sx sy sz : ℚ) : AMapGrid := { GridSize := ⟨sx, sy, sz⟩ }

/-! ## Example grids -/

/-- No blocking geometry anywhere. -/
def noOverlap : FVector → ℚ → Bool := fun _ _ => false

/-- The scenario grid: size 300 x 300 x 300, cell radius 50, actor at the origin, after
`BeginPlay` has set the diameter to 100. -/
def scenarioActor : AMapGrid := { exampleGrid 300 300 300 with NodeDiameter := 100 }

/-- The 27 nodes `CreateGrid` builds for `scenarioActor` in an empty world. -/
def grid27 : AMapGrid :=
  AMapGrid.CreateGridLoops noOverlap (AMapGrid.CreateGridInit scenarioActor)

/-- No line trace ever hits. -/
def noTrace : FVector → FVector → Bool := fun _ _ => false

/-- A grid actor whose X size is zero (cell counts 0 x 1 x 1). -/
def zeroSizeActor : AMapGrid := { exampleGrid 0 100 100 with NodeDiameter := 100 }

/-- A grid actor with two negative sizes (cell counts -1 x -1 x 1). -/
def negativeSizeActor : AMapGrid := { exampleGrid (-100) (-100) 100 with NodeDiameter := 100 }

/-- Two cells in a row, both walkable: node 0 is cell `(0,0,0)`, node 1 is cell `(1,0,0)`. -/
def grid2 : AMapGrid :=
  AMapGrid.CreateGridLoops noOverlap
    (AMapGrid.CreateGridInit { exampleGrid 200 100 100 with NodeDiameter := 100 })

/-- The grid `grid2` with path drawing switched off. -/
def grid2Quiet : AMapGrid := { grid2 with bDrawPath := false }

/-- World position of the centre of node 0 of `grid2`. -/
def grid2Pos0 : FVector := ⟨-50, 0, 50⟩

/-- World position of the centre of node 1 of `grid2`. -/
def grid2Pos1 : FVector := ⟨50, 0, 50⟩

/-- Result of a first `FindPath` call on `grid2Quiet`, from node 0 to node 1. -/
def grid2QuietFirst : FindPathResult :=
  (FPathfinder.FindPath {} grid2Quiet noTrace grid2Pos1 grid2Pos0 grid2Pos1 []).getD
    ⟨false, [], false, grid2Quiet, {}⟩

/-- Result of a first `FindPath` call on `grid2`, from node 0 to node 1. -/
def grid2First : FindPathResult :=
  (FPathfinder.FindPath {} grid2 noTrace grid2Pos1 grid2Pos0 grid2Pos1 []).getD
    ⟨false, [], false, grid2, {}⟩

/-! ## Vocabulary of the search proofs -/

/-- The fields fixed when the grid is built (coordinates, walkability, centre) agree. -/
def FGridNode.SameCell (a b : FGridNode) : Prop :=
  b.GridX = a.GridX ∧ b.GridY = a.GridY ∧ b.GridZ = a.GridZ ∧ b.bWalkable = a.bWalkable ∧
    b.WorldCoordinate = a.WorldCoordinate

/-- The grid `g'` is `g` up to the scratch fields `GCost`, `HCost`, `Parent` of its nodes. -/
def AMapGrid.SameCells (g g' : AMapGrid) : Prop :=
  g.SameFrame g' ∧ ∀ p, (g.node p).SameCell (g'.node p)

/-- The pointer `n` addresses the node of an in-bounds cell. -/
def AMapGrid.ValidNode (g : AMapGrid) (n : Nat) : Prop :=
  ∃ x y z, g.InBounds x y z ∧ n = g.GetNodeFromArray x y z

/-- One step of the search graph: from `a` to a walkable 26-neighbour `b` of `a`. -/
def AMapGrid.Edge (g : AMapGrid) (a b : Nat) : Prop :=
  b ∈ g.GetNeighbours a ∧ (g.node b).IsWalkable = true

/-- The node `b` is `a` or is reached from `a` by a chain of steps of the search graph. -/
def AMapGrid.Reachable (g : AMapGrid) (a b : Nat) : Prop :=
  Relation.ReflTransGen g.Edge a b

namespace FPathfinder

/-- The list `Path` is what following `Parent` links from `v` down to `StartNode`
collects: `v` first, then its parent, and so on, `StartNode` excluded; every link goes
from a node to one of which it is a walkable neighbour, as seen in the grid `g0`. -/
def IsParentChain (g0 g : AMapGrid) (StartNode : Nat) : Nat → List Nat → Prop
  | v, [] => v = StartNode
  | v, a :: t =>
    v ≠ StartNode ∧ a = v ∧
      ∃ p, (g.node v).Parent = some p ∧ g0.Edge p v ∧ IsParentChain g0 g StartNode p t

/-- The visited nodes, newest first: each one is the start node or has its parent among
the nodes visited before it. -/
def VisitedOrdered (g0 g : AMapGrid) (StartNode : Nat) : List Nat → Prop
  | [] => True
  | v :: B =>
    (v = StartNode ∨ ∃ p, (g.node v).Parent = some p ∧ p ∈ B ∧ g0.Edge p v) ∧
      VisitedOrdered g0 g StartNode B

/-- Invariant of the search. `g0` is the grid the search started on, `Pending v m` marks
the edges out of a visited node that the neighbour loop has not looked at yet. -/
structure SearchInv (g0 : AMapGrid) (StartNode EndNode : Nat) (Pending : Nat → Nat → Prop)
    (s : SearchState) : Prop where
  cells : g0.SameCells s.Grid
  valid : ∀ n, n ∈ s.ToBeChecked ∨ n ∈ s.Visited → g0.ValidNode n
  reach : ∀ n, n ∈ s.ToBeChecked ∨ n ∈ s.Visited → g0.Reachable StartNode n
  closed : ∀ v ∈ s.Visited, ∀ m, g0.Edge v m →
    Pending v m ∨ m ∈ s.Visited ∨ m ∈ s.ToBeChecked
  endNot : EndNode ∉ s.Visited
  start : StartNode ∈ s.Visited ∨ StartNode ∈ s.ToBeChecked
  nodupH : s.ToBeChecked.Nodup
  nodupV : s.Visited.Nodup
  disj : ∀ n, n ∈ s.ToBeChecked → n ∉ s.Visited
  parentH : ∀ n ∈ s.ToBeChecked, n = StartNode ∨
    ∃ p, (s.Grid.node n).Parent = some p ∧ p ∈ s.Visited ∧ g0.Edge p n
  ordered : VisitedOrdered g0 s.Grid StartNode s.Visited

end FPathfinder

/-- What the search loop guarantees about its result `r` (return value, output path,
final locals) for a search from `StartNode` to `EndNode` started on the grid `g0`. -/
structure FPathfinder.SearchPost (g0 : AMapGrid) (StartNode EndNode : Nat)
    (r : Bool × List Nat × SearchState) : Prop where
  found_iff : r.1 = true ↔ g0.Reachable StartNode EndNode
  notFound_path : r.1 = false → r.2.1 = []
  cells : g0.SameCells r.2.2.Grid
  chain : r.1 = true → FPathfinder.IsParentChain g0 r.2.2.Grid StartNode EndNode r.2.1

instance (g : AMapGrid) (a b : Nat) : Decidable (g.Edge a b) := by
  unfold AMapGrid.Edge; infer_instance

/-- Total edge cost of a route written target first: the sum of `GetCostToNode` over
its consecutive pairs. -/
def RouteCost (g : AMapGrid) : List Nat → Int
  | a :: b :: t => FPathfinder.GetCostToNode g b a + RouteCost g (b :: t)
  | _ => 0

/-- Blocking geometry around exactly one point. -/
def overlapAt (P : FVector) : FVector → ℚ → Bool := fun Q _ => decide (Q = P)

/-- A grid actor of size 400 x 300 x 100 at the origin (cell counts 4 x 3 x 1). -/
def actor12 : AMapGrid := { exampleGrid 400 300 100 with NodeDiameter := 100 }

/-- The 4 x 3 x 1 grid whose cell `(1, 0, 0)` (node 3, centre `(-50, -100, 50)`) is
blocked. Node `3 * x + y` is cell `(x, y, 0)`. -/
def grid12Blocked : AMapGrid :=
  AMapGrid.CreateGridLoops (overlapAt ⟨-50, -100, 50⟩) (AMapGrid.CreateGridInit actor12)

/-- Centre of cell `(3, 1, 0)`, node 10, of `grid12Blocked`. -/
def grid12Pos10 : FVector := ⟨150, 0, 50⟩

/-- Centre of cell `(0, 0, 0)`, node 0, of `grid12Blocked`. -/
def grid12Pos0 : FVector := ⟨-150, -100, 50⟩

/-- Result of `FindPath` on `grid12Blocked` from node 10 to node 0. -/
def grid12First : FindPathResult :=
  (FPathfinder.FindPath {} grid12Blocked noTrace grid12Pos0 grid12Pos10 grid12Pos0 []).getD
    ⟨false, [], false, grid12Blocked, {}⟩

/-- A grid actor of size 200 x 100 x 100 at the origin (cell counts 2 x 1 x 1). -/
def actor2 : AMapGrid := { exampleGrid 200 100 100 with NodeDiameter := 100 }

/-- The two-cell grid whose cell `(0, 0, 0)` (node 0) is blocked; node 1 is walkable. -/
def grid2Blocked0 : AMapGrid :=
  AMapGrid.CreateGridLoops (overlapAt grid2Pos0) (AMapGrid.CreateGridInit actor2)

/-- A grid actor of size 300 x 100 x 100 at the origin (cell counts 3 x 1 x 1), with
path drawing switched off. -/
def actor3 : AMapGrid :=
  { exampleGrid 300 100 100 with NodeDiameter := 100, bDrawPath := false }

/-- Three cells in a row with the middle one (node 1, centre `(0, 0, 50)`) blocked. -/
def grid3BlockedMid : AMapGrid :=
  AMapGrid.CreateGridLoops (overlapAt ⟨0, 0, 50⟩) (AMapGrid.CreateGridInit actor3)

/-- Centre of node 0 of `grid3BlockedMid`. -/
def grid3Pos0 : FVector := ⟨-100, 0, 50⟩

/-- Centre of node 2 of `grid3BlockedMid`. -/
def grid3Pos2 : FVector := ⟨100, 0, 50⟩

/-- Result of a first `FindPath` call on `grid3BlockedMid`, from node 0 to node 2. -/
def grid3First : FindPathResult :=
  (FPathfinder.FindPath {} grid3BlockedMid noTrace grid3Pos2 grid3Pos0 grid3Pos2 []).getD
    ⟨true, [], false, grid3BlockedMid, {}⟩

/-! ## Vocabulary of the all-walkable search -/

/-- The grid after the three assignments `Neighbour->GCost`, `->HCost`, `->Parent` in the
neighbour loop of `FindPath`. -/
def FPathfinder.relaxedGrid (EndNode Current : Nat) (s : SearchState) (Neighbour : Nat) :
    AMapGrid :=
  s.Grid.setNode Neighbour fun n =>
    { n with
      GCost := (s.Grid.node Current).GCost + FPathfinder.GetCostToNode s.Grid Current Neighbour
      HCost := FPathfinder.GetCostToNode s.Grid Neighbour EndNode
      Parent := some Current }

/-- Engine `FMath::Clamp` on floats, idealised as rationals: `Max(Min(X, Max), Min)`. -/
def FMath.ClampF (X Min Max : ℚ) : ℚ := max (min X Max) Min

/-- Engine `FHitResult`, the fields the audio components read. `Component` identifies the
primitive component that was hit (`GetComponent()`). -/
structure FHitResult where
  bBlockingHit : Bool := false
  ImpactPoint : FVector := ⟨0, 0, 0⟩
  Component : Nat := 0
deriving DecidableEq

instance : Inhabited FHitResult := ⟨{}⟩

/-- Engine `USoundAttenuation`: `Attenuation.FalloffDistance` and the value that
`Attenuation.GetMaxFalloffDistance()` returns. -/
structure USoundAttenuation where
  FalloffDistance : ℚ := 0
  MaxFalloffDistance : ℚ := 0
deriving DecidableEq

/-- Engine `UAudioComponent`, the fields the audio components read or write. `Owner` is the
owning actor, `PlayStartTime` the start time of the last `Play` call. -/
structure UAudioComponent where
  Owner : Nat := 0
  ComponentLocation : FVector := ⟨0, 0, 0⟩
  AttenuationSettings : Option USoundAttenuation := none
  VolumeMultiplier : ℚ := 1
  bEnableLowPassFilter : Bool := false
  LowPassFilterFrequency : ℚ := 20000
  SourceEffectChain : Option Nat := none
  PlayStartTime : Option ℚ := none
deriving DecidableEq

instance : Inhabited UAudioComponent := ⟨{}⟩

namespace UAudioComponent

/-- Engine `UAudioComponent::GetComponentLocation`. -/
def GetComponentLocation (c : UAudioComponent) : FVector := c.ComponentLocation

/-- Engine `UAudioComponent::SetVolumeMultiplier`. -/
def SetVolumeMultiplier (c : UAudioComponent) (NewVolumeMultiplier : ℚ) : UAudioComponent :=
  { c with VolumeMultiplier := NewVolumeMultiplier }

/-- Engine `UAudioComponent::SetLowPassFilterEnabled`. -/
def SetLowPassFilterEnabled (c : UAudioComponent) (InLowPassFilterEnabled : Bool) :
    UAudioComponent :=
  { c with bEnableLowPassFilter := InLowPassFilterEnabled }

/-- Engine `UAudioComponent::SetLowPassFilterFrequency`. -/
def SetLowPassFilterFrequency (c : UAudioComponent) (InLowPassFilterFrequency : ℚ) :
    UAudioComponent :=
  { c with LowPassFilterFrequency := InLowPassFilterFrequency }

/-- Engine `USceneComponent::SetWorldLocation`. -/
def SetWorldLocation (c : UAudioComponent) (NewLocation : FVector) : UAudioComponent :=
  { c with ComponentLocation := NewLocation }

end UAudioComponent

/-- The engine queries the audio components make. `Dist` is `FVector::Dist`, whose value
(a square root) is taken as the engine returns it. The two traces are
`UKismetSystemLibrary::LineTraceMultiForObjects` (its out hits) and
`LineTraceSingleForObjects` (whether the out hit blocks) for the component's
`AudioBlockingTypes`, from a start to an end location with a list of ignored actors.
`GetUsedMaterials` and `GetClosestPointOnCollision` are the queries on a hit component,
`CameraLocation` is `CameraComp->GetComponentLocation()` and `OwnerLocation` is
`GetOwner()->GetActorLocation()`. -/
structure UWorld where
  Dist : FVector → FVector → ℚ
  LineTraceMultiForObjects : FVector → FVector → List Nat → List FHitResult
  LineTraceSingleForObjects : FVector → FVector → List Nat → Bool
  GetUsedMaterials : Nat → List Nat
  GetClosestPointOnCollision : Nat → FVector → FVector
  CameraLocation : FVector
  OwnerLocation : FVector

/-- Engine `TMap::Contains` on a map kept as an association list. -/
def TMap.Contains {V : Type} (m : List (Nat × V)) (Key : Nat) : Bool := (m.lookup Key).isSome

/-- Engine `TMap::operator[]` on a map kept as an association list; the lookup of an absent
key trips an engine assertion and is never made by the code modelled here. -/
def TMap.Get {V : Type} [Inhabited V] (m : List (Nat × V)) (Key : Nat) : V :=
  (m.lookup Key).getD default

/-- Engine `TMap::Remove`. -/
def TMap.Remove {V : Type} (m : List (Nat × V)) (Key : Nat) : List (Nat × V) :=
  m.filter fun kv => kv.1 != Key

/-- Engine `TMap::Add`: the value of an existing key is replaced. -/
def TMap.Add {V : Type} (m : List (Nat × V)) (Key : Nat) (Value : V) : List (Nat × V) :=
  if TMap.Contains m Key then m.map fun kv => if kv.1 == Key then (Key, Value) else kv
  else m ++ [(Key, Value)]

/-! ## Audio occlusion (`AudioOcclusionComponent.cpp`) -/

/-- Class `UAudioOcclusionComponent`, with the defaults of its header. `Owner` is the
actor the component is attached to, `AudioComponents` the tracked sources. -/
structure UAudioOcclusionComponent where
  Owner : Nat := 0
  AudioComponents : List Nat := []
  MaterialOcclusionMap : List (Nat × ℚ) := []
  MaxMeshDistanceToBlockAllAudio : ℚ := 900
  DistanceToWallToStopAddingLowPass : ℚ := 700
  MaxLowPassFrequency : ℚ := 17000
  DistanceToWallOffset : ℚ := 60
  LowPassTimer : ℚ := 0
  LowPassUpdateDelay : ℚ := 1 / 10
  bEnabled : Bool := true
deriving DecidableEq

/-- What a call of `UpdateAudioComp` leaves behind: the component, the source, and the line
traces made, each as its start and end location, in call order. -/
structure UpdateAudioCompResult where
  This : UAudioOcclusionComponent
  AudioComp : UAudioComponent
  Traces : List (FVector × FVector)

namespace UAudioOcclusionComponent

/-- Method `UAudioOcclusionComponent::DoLineTrace`: the out hits; the returned flag of the
engine's object-type multi trace tells whether any hit was found. -/
def DoLineTrace (_this : UAudioOcclusionComponent) (W : UWorld)
    (StartLocation EndLocation : FVector) (ActorsToIgnore : List Nat) : Bool × List FHitResult :=
  let HitResultsOut := W.LineTraceMultiForObjects StartLocation EndLocation ActorsToIgnore
  (!HitResultsOut.isEmpty, HitResultsOut)

/-- Method `UAudioOcclusionComponent::GetThicknessValue`. -/
def GetThicknessValue (this : UAudioOcclusionComponent) (W : UWorld)
    (HitResultFromPlayer HitResultFromAudio : FHitResult) : ℚ :=
  let RayTravelDistance := W.Dist HitResultFromPlayer.ImpactPoint HitResultFromAudio.ImpactPoint
  let RayTravelDistance := RayTravelDistance / this.MaxMeshDistanceToBlockAllAudio
  FMath.ClampF RayTravelDistance 0 1

/-- Method `UAudioOcclusionComponent::GetMaterialValue`. -/
def GetMaterialValue (this : UAudioOcclusionComponent) (W : UWorld) (HitResult : FHitResult) :
    ℚ :=
  let Materials := W.GetUsedMaterials HitResult.Component
  match Materials.find? fun Material => TMap.Contains this.MaterialOcclusionMap Material with
  | some Material => TMap.Get this.MaterialOcclusionMap Material
  | none => 1

/-- Method `UAudioOcclusionComponent::GetOcclusionValue`. -/
def GetOcclusionValue (this : UAudioOcclusionComponent) (W : UWorld)
    (HitResultFromPlayer HitResultFromAudio : FHitResult) : ℚ :=
  let ThicknessValue := this.GetThicknessValue W HitResultFromPlayer HitResultFromAudio
  let MaterialValue := this.GetMaterialValue W HitResultFromPlayer
  let OccValue := ThicknessValue * MaterialValue
  FMath.ClampF OccValue 0 1

/-- Method `UAudioOcclusionComponent::GetLowPassValueBasedOnDistanceToMesh`. -/
def GetLowPassValueBasedOnDistanceToMesh (this : UAudioOcclusionComponent) (W : UWorld)
    (HitResultFromPlayer : FHitResult) : ℚ :=
  let ClosestPointOnMeshToPlayer :=
    W.GetClosestPointOnCollision HitResultFromPlayer.Component W.CameraLocation
  let DistanceFromPlayerToMeshPoint := W.Dist ClosestPointOnMeshToPlayer W.CameraLocation
  FMath.ClampF (DistanceFromPlayerToMeshPoint - this.DistanceToWallOffset) 0
    this.DistanceToWallToStopAddingLowPass / this.DistanceToWallToStopAddingLowPass

/-- Method `UAudioOcclusionComponent::ResetAudioComponentOnNoBlock`. -/
def ResetAudioComponentOnNoBlock (AudioComponent : UAudioComponent) : UAudioComponent :=
  let AudioComponent :=
    if AudioComponent.VolumeMultiplier ≠ 1 then AudioComponent.SetVolumeMultiplier 1
    else AudioComponent
  AudioComponent.SetLowPassFilterEnabled false

/-- Method `UAudioOcclusionComponent::SetLowPassFilter`. Element 0 of the hits exists at
the only call, which is made after a trace that found a hit. -/
def SetLowPassFilter (this : UAudioOcclusionComponent) (W : UWorld)
    (AudioComp : UAudioComponent) (HitResultFromPlayer : List FHitResult) : UAudioComponent :=
  let AudioComp := AudioComp.SetLowPassFilterEnabled true
  let Frequency := this.MaxLowPassFrequency *
    this.GetLowPassValueBasedOnDistanceToMesh W (HitResultFromPlayer.getD 0 default)
  let Frequency := FMath.ClampF Frequency 200 this.MaxLowPassFrequency
  AudioComp.SetLowPassFilterFrequency Frequency

/-- The summing loop of `UAudioOcclusionComponent::UpdateAudioComp`: index `i` runs over
`HitResultsFromAudio`, already reversed, and adds the occlusion value of the pair of hits
at `i`. -/
def TotalOccValueLoop (this : UAudioOcclusionComponent) (W : UWorld)
    (HitResultsFromPlayer HitResultsFromAudio : List FHitResult) : ℚ :=
  (List.range HitResultsFromAudio.length).foldl
    (fun TotalOccValue (i : Nat) =>
      TotalOccValue + this.GetOcclusionValue W (HitResultsFromPlayer.getD i default)
        (HitResultsFromAudio.getD i default))
    0

/-- Method `UAudioOcclusionComponent::UpdateAudioComp`. -/
def UpdateAudioComp (this : UAudioOcclusionComponent) (W : UWorld) (AudioComp : UAudioComponent)
    (_DeltaTime : ℚ) : UpdateAudioCompResult :=
  let ActorsToIgnoreInLineTrace := [this.Owner, AudioComp.Owner]
  let FromPlayer := this.DoLineTrace W W.CameraLocation AudioComp.GetComponentLocation
    ActorsToIgnoreInLineTrace
  let HitResultsFromPlayer := FromPlayer.2
  let Traces := [(W.CameraLocation, AudioComp.GetComponentLocation)]
  if !FromPlayer.1 then
    { This := this, AudioComp := ResetAudioComponentOnNoBlock AudioComp, Traces := Traces }
  else
    let HitResultsFromAudio := (this.DoLineTrace W AudioComp.GetComponentLocation
      W.CameraLocation ActorsToIgnoreInLineTrace).2
    let Traces := Traces ++ [(AudioComp.GetComponentLocation, W.CameraLocation)]
    if HitResultsFromAudio.length ≠ HitResultsFromPlayer.length then
      { This := this, AudioComp := AudioComp, Traces := Traces }
    else
      let HitResultsFromAudio := HitResultsFromAudio.reverse
      let TotalOccValue := this.TotalOccValueLoop W HitResultsFromPlayer HitResultsFromAudio
      let TotalOccValue := FMath.ClampF TotalOccValue 0 1
      let AudioComp :=
        AudioComp.SetVolumeMultiplier (FMath.ClampF (1 - TotalOccValue) (1 / 100) 1)
      if this.LowPassTimer > this.LowPassUpdateDelay then
        { This := this, AudioComp := this.SetLowPassFilter W AudioComp HitResultsFromPlayer,
          Traces := Traces }
      else
        { This := this, AudioComp := AudioComp, Traces := Traces }

end UAudioOcclusionComponent

/-- A distance for example worlds: the sum of the coordinate differences, which is the
distance of two points that differ in one coordinate only. -/
def axisDist (A B : FVector) : ℚ := |A.X - B.X| + |A.Y - B.Y| + |A.Z - B.Z|

/-- Hit of the listener-to-source ray of `wallWorld`: the near face of the wall. -/
def wallHitFromPlayer : FHitResult :=
  { bBlockingHit := true, ImpactPoint := ⟨400, 0, 0⟩, Component := 7 }

/-- Hit of the source-to-listener ray of `wallWorld`: the far face of the wall. -/
def wallHitFromAudio : FHitResult :=
  { bBlockingHit := true, ImpactPoint := ⟨500, 0, 0⟩, Component := 7 }

/-- A listener at the origin and a source at `(1000, 0, 0)` with a wall, component 7 of
material 3, between `x = 400` and `x = 500`. -/
def wallWorld : UWorld where
  Dist := axisDist
  LineTraceMultiForObjects := fun Start End _ =>
    if Start = ⟨0, 0, 0⟩ ∧ End = ⟨1000, 0, 0⟩ then [wallHitFromPlayer]
    else if Start = ⟨1000, 0, 0⟩ ∧ End = ⟨0, 0, 0⟩ then [wallHitFromAudio]
    else []
  LineTraceSingleForObjects := fun Start End _ =>
    (Start = ⟨0, 0, 0⟩ ∧ End = ⟨1000, 0, 0⟩) ∨ (Start = ⟨1000, 0, 0⟩ ∧ End = ⟨0, 0, 0⟩)
  GetUsedMaterials := fun _ => [3]
  GetClosestPointOnCollision := fun _ _ => ⟨400, 0, 0⟩
  CameraLocation := ⟨0, 0, 0⟩
  OwnerLocation := ⟨0, 0, 0⟩

/-- The source of `wallWorld`, owned by actor 1. -/
def wallSource : UAudioComponent :=
  { Owner := 1, ComponentLocation := ⟨1000, 0, 0⟩,
    AttenuationSettings := some { FalloffDistance := 3000, MaxFalloffDistance := 3000 } }

/-- A line trace that reports a hit exactly for rays starting at `p`. -/
def traceFrom (p : FVector) : FVector → FVector → Bool := fun a _ => decide (a = p)

/-- The volume `UpdateAudioComp` sets for a blocked source whose two hit lists have equal
length: the expression of its body, named for the statements about it. -/
def UAudioOcclusionComponent.occludedVolume (this : UAudioOcclusionComponent) (W : UWorld)
    (AudioComp : UAudioComponent) : ℚ :=
  FMath.ClampF (1 - FMath.ClampF (this.TotalOccValueLoop W
    (W.LineTraceMultiForObjects W.CameraLocation AudioComp.ComponentLocation
      [this.Owner, AudioComp.Owner])
    (W.LineTraceMultiForObjects AudioComp.ComponentLocation W.CameraLocation
      [this.Owner, AudioComp.Owner]).reverse) 0 1) (1 / 100) 1

/-- A listener at the origin and a source at `(1000, 0, 0)` whose listener-to-source ray
returns `FromPlayer` and whose source-to-listener ray returns `FromAudio`; every hit
component has material 3 and its closest point to the listener is `(400, 0, 0)`. -/
def rayWorld (FromPlayer FromAudio : List FHitResult) : UWorld where
  Dist := axisDist
  LineTraceMultiForObjects := fun Start End _ =>
    if Start = ⟨0, 0, 0⟩ ∧ End = ⟨1000, 0, 0⟩ then FromPlayer
    else if Start = ⟨1000, 0, 0⟩ ∧ End = ⟨0, 0, 0⟩ then FromAudio
    else []
  LineTraceSingleForObjects := fun Start End _ =>
    (Start = ⟨0, 0, 0⟩ ∧ End = ⟨1000, 0, 0⟩ ∧ FromPlayer ≠ []) ∨
      (Start = ⟨1000, 0, 0⟩ ∧ End = ⟨0, 0, 0⟩ ∧ FromAudio ≠ [])
  GetUsedMaterials := fun _ => [3]
  GetClosestPointOnCollision := fun _ _ => ⟨400, 0, 0⟩
  CameraLocation := ⟨0, 0, 0⟩
  OwnerLocation := ⟨0, 0, 0⟩

/-- The world of `wallSource` with nothing between listener and source. -/
def clearWorld : UWorld := rayWorld [] []

/-- The world of `wallSource` with the wall of `wallWorld` made 300 thick: the far face is
at `x = 700`. -/
def thickWallWorld : UWorld :=
  rayWorld [wallHitFromPlayer]
    [{ bBlockingHit := true, ImpactPoint := ⟨700, 0, 0⟩, Component := 7 }]

/-- The world of `wallSource` in which the listener-to-source ray reports one hit and the
opposed ray two. -/
def mismatchWorld : UWorld :=
  rayWorld [wallHitFromPlayer]
    [wallHitFromAudio, { bBlockingHit := true, ImpactPoint := ⟨450, 0, 0⟩, Component := 8 }]

/-- A source of `wallWorld` that an earlier tick left attenuated and filtered. -/
def wallSourceMuffled : UAudioComponent :=
  { wallSource with
    VolumeMultiplier := 1 / 2, bEnableLowPassFilter := true, LowPassFilterFrequency := 5000 }

/-! ## Sound propagation (`SoundPropagationComponent.cpp`) -/

/-- Engine `FMath::FInterpConstantTo`: the target itself when the squared distance to it is
below `UE_SMALL_NUMBER` (1e-8), otherwise a step of at most `InterpSpeed * DeltaTime`
towards it. -/
def FMath.FInterpConstantTo (Current Target DeltaTime InterpSpeed : ℚ) : ℚ :=
  let Dist := Target - Current
  if Dist * Dist < 1 / 100000000 then Target
  else
    let Step := InterpSpeed * DeltaTime
    Current + FMath.ClampF Dist (-Step) Step

/-- Component-wise sum `A + B`. -/
def FVector.add (A B : FVector) : FVector := ⟨A.X + B.X, A.Y + B.Y, A.Z + B.Z⟩

/-- The operator `FVector * float`. -/
def FVector.mulScalar (A : FVector) (s : ℚ) : FVector := ⟨A.X * s, A.Y * s, A.Z * s⟩

/-- Engine `FVector::Equals` with its default tolerance `UE_KINDA_SMALL_NUMBER` (1e-4). -/
def FVector.Equals (A V : FVector) : Bool :=
  decide (|A.X - V.X| ≤ 1 / 10000) && decide (|A.Y - V.Y| ≤ 1 / 10000) &&
    decide (|A.Z - V.Z| ≤ 1 / 10000)

/-- Engine `FMath::VInterpConstantTo`, which `UKismetMathLibrary::VInterpTo_Constant`
forwards to; `Dist Target Current` is the size of the difference vector. -/
def FMath.VInterpConstantTo (Dist : FVector → FVector → ℚ) (Current Target : FVector)
    (DeltaTime InterpSpeed : ℚ) : FVector :=
  let Delta := Target.sub Current
  let DeltaM := Dist Target Current
  let MaxStep := InterpSpeed * DeltaTime
  if DeltaM > MaxStep then
    if MaxStep > 0 then
      let DeltaN := Delta.divScalar DeltaM
      Current.add (DeltaN.mulScalar MaxStep)
    else Current
  else Target

/-- Engine `UAudioComponent::SetSourceEffectChain`. -/
def UAudioComponent.SetSourceEffectChain (c : UAudioComponent)
    (InSourceEffectChain : Option Nat) : UAudioComponent :=
  { c with SourceEffectChain := InSourceEffectChain }

/-- Engine `UAudioComponent::Play`. -/
def UAudioComponent.Play (c : UAudioComponent) (StartTime : ℚ) : UAudioComponent :=
  { c with PlayStartTime := some StartTime }

/-- Class `UAudioPlayTimes`: the play time recorded for each audio component. -/
structure UAudioPlayTimes where
  PlayTimes : List (Nat × ℚ) := []
deriving DecidableEq

/-- Method `UAudioPlayTimes::GetPlayTime`. -/
def UAudioPlayTimes.GetPlayTime (this : UAudioPlayTimes) (AudioComp : Nat) : ℚ :=
  if TMap.Contains this.PlayTimes AudioComp then TMap.Get this.PlayTimes AudioComp else -1

/-- Class `USoundPropagationComponent`, with the defaults of its header. An audio component
pointer is the component's index in the list of the level's audio components, a node
pointer the node's offset into the grid's `Nodes`. -/
structure USoundPropagationComponent where
  Owner : Nat := 0
  AudioComponents : List Nat := []
  Pathfinder : FPathfinder := {}
  PropagatedSounds : List (Nat × Nat) := []
  PropagatedSoundAttenuation : Option USoundAttenuation := none
  PropagateLerpSpeed : ℚ := 3500
  GridNodeDiameter : ℚ := 0
  bEnabled : Bool := true
  AudioPlayTimes : UAudioPlayTimes := {}
  PropagatedVolumeOffset : ℚ := 0
  Paths : List (Nat × List Nat) := []
  PropagationSourceEffectChain : Option Nat := none
  PropVolumeLerpSpeed : ℚ := 1 / 2
deriving DecidableEq

/-- What the methods of `USoundPropagationComponent` read and write: the component, the
grid its pathfinder points to, the audio components of the level, and the start locations
of the line traces `DoLineTrace` has made, in call order. -/
structure PropagationState where
  This : USoundPropagationComponent := {}
  Grid : AMapGrid := {}
  Comps : List UAudioComponent := []
  Traces : List FVector := []
deriving DecidableEq

namespace PropagationState

/-- Dereference of an audio component pointer. -/
def comp (s : PropagationState) (p : Nat) : UAudioComponent := s.Comps.getD p default

/-- Write through an audio component pointer. -/
def setComp (s : PropagationState) (p : Nat) (f : UAudioComponent → UAudioComponent) :
    PropagationState :=
  { s with Comps := s.Comps.set p (f (s.comp p)) }

end PropagationState

namespace USoundPropagationComponent

/-- Method `USoundPropagationComponent::DoLineTrace`: `bBlockingHit` of the out hit of the
ray from `StartLoc` to the camera, and the state with the ray noted. -/
def DoLineTrace (W : UWorld) (s : PropagationState) (StartLoc : FVector)
    (ActorsToIgnore : List Nat) : Bool × PropagationState :=
  (W.LineTraceSingleForObjects StartLoc W.CameraLocation ActorsToIgnore,
    { s with Traces := s.Traces ++ [StartLoc] })

/-- Method `USoundPropagationComponent::RemovePropagatedSound`. -/
def RemovePropagatedSound (s : PropagationState) (AudioComp : Nat) (DeltaTime : ℚ) :
    PropagationState :=
  if TMap.Contains s.This.PropagatedSounds AudioComp then
    let PropAudio := TMap.Get s.This.PropagatedSounds AudioComp
    let NewVolume := FMath.FInterpConstantTo (s.comp PropAudio).VolumeMultiplier (1 / 100)
      DeltaTime s.This.PropVolumeLerpSpeed
    s.setComp PropAudio fun c => c.SetVolumeMultiplier NewVolume
  else s

/-- Method `USoundPropagationComponent::SpawnPropagatedSound`: the duplicate is a new
audio component, appended to the level's components; its pointer is returned. -/
def SpawnPropagatedSound (s : PropagationState) (AudioComp : Nat) (SpawnLocation : FVector)
    (_PathSize : Nat) : PropagationState × Nat :=
  let PropagatedAudioComp := s.Comps.length
  let c := s.comp AudioComp
  let c := c.SetWorldLocation SpawnLocation
  let c := { c with AttenuationSettings := s.This.PropagatedSoundAttenuation }
  let c := c.SetSourceEffectChain s.This.PropagationSourceEffectChain
  let PlayTime := s.This.AudioPlayTimes.GetPlayTime AudioComp
  let c := c.Play PlayTime
  ({ s with
      Comps := s.Comps ++ [c]
      This := { s.This with
        PropagatedSounds := TMap.Add s.This.PropagatedSounds AudioComp PropagatedAudioComp } },
    PropagatedAudioComp)

/-- Method `USoundPropagationComponent::MovePropagatedAudioComp`. -/
def MovePropagatedAudioComp (W : UWorld) (s : PropagationState) (PropAudioComp ToNode : Nat)
    (DeltaTime : ℚ) : PropagationState :=
  let CurrentLoc := (s.comp PropAudioComp).GetComponentLocation
  let TargetLoc := (s.Grid.node ToNode).GetWorldCoordinate
  let InterpolatedLoc :=
    FMath.VInterpConstantTo W.Dist CurrentLoc TargetLoc DeltaTime s.This.PropagateLerpSpeed
  s.setComp PropAudioComp fun c => c.SetWorldLocation InterpolatedLoc

/-- Method `USoundPropagationComponent::SetPropagatedSoundVolume`; `none` when the source
has no attenuation settings to dereference. -/
def SetPropagatedSoundVolume (s : PropagationState) (AudioComp PropAudioComp PathSize : Nat)
    (DeltaTime : ℚ) : Option PropagationState :=
  match (s.comp AudioComp).AttenuationSettings with
  | none => none
  | some Attenuation =>
    let FalloffDistance := Attenuation.MaxFalloffDistance
    let DistanceFromPropToOriginal : Int :=
      FMath.TruncToInt ((PathSize : ℚ) * s.This.GridNodeDiameter)
    let TargetVolume :=
      1 - FMath.ClampF ((DistanceFromPropToOriginal : ℚ) / FalloffDistance) 0 1
    let NewVolume := FMath.FInterpConstantTo (s.comp PropAudioComp).VolumeMultiplier
      TargetVolume DeltaTime s.This.PropVolumeLerpSpeed
    some (s.setComp PropAudioComp fun c => c.SetVolumeMultiplier NewVolume)

/-- The `for` loop of `UpdateSoundPropagation` up to its first blocked ray: over the
indices still to visit, the first index `i` whose node's ray to the camera is blocked, if
any, and the state with the rays made so far noted. -/
def ScanPath (W : UWorld) (ActorsToIgnore : List Nat) (Path : List Nat) :
    List Nat → PropagationState → Option Nat × PropagationState
  | [], s => (none, s)
  | i :: rest, s =>
    let HitResult := DoLineTrace W s (s.Grid.node (Path.getD i 0)).GetWorldCoordinate
      ActorsToIgnore
    if !HitResult.1 then ScanPath W ActorsToIgnore Path rest HitResult.2
    else (some i, HitResult.2)

/-- The body of the `for` loop of `UpdateSoundPropagation` after the ray of `Path[i]` was
blocked, up to its `break`. -/
def PlacePropagatedSound (W : UWorld) (s : PropagationState) (AudioComp : Nat)
    (DeltaTime : ℚ) (Path : List Nat) (i : Nat) : Option PropagationState :=
  if !TMap.Contains s.This.PropagatedSounds AudioComp then
    let Spawned := SpawnPropagatedSound s AudioComp
      (s.Grid.node (Path.getD (i - 1) 0)).GetWorldCoordinate Path.length
    SetPropagatedSoundVolume Spawned.1 AudioComp Spawned.2 Path.length DeltaTime
  else
    let PropAudioComp := TMap.Get s.This.PropagatedSounds AudioComp
    let s :=
      if !(s.comp PropAudioComp).GetComponentLocation.Equals
          (s.Grid.node (Path.getD (i - 1) 0)).GetWorldCoordinate then
        MovePropagatedAudioComp W s PropAudioComp (Path.getD (i - 1) 0) DeltaTime
      else s
    SetPropagatedSoundVolume s AudioComp PropAudioComp Path.length DeltaTime

/-- The path `UpdateSoundPropagation` goes on with after a successful `FindPath`: the
stored path of the source when the target was reported unchanged and a path is stored,
otherwise the path `FindPath` put out, which is then stored. -/
def StorePath (s : PropagationState) (AudioComp : Nat) (Found : FindPathResult) :
    List Nat × PropagationState :=
  if !Found.bOutPlayerHasMoved && TMap.Contains s.This.Paths AudioComp then
    (TMap.Get s.This.Paths AudioComp, s)
  else
    (Found.Path,
      { s with This := { s.This with Paths := TMap.Add s.This.Paths AudioComp Found.Path } })

/-- The part of `UpdateSoundPropagation` after a successful `FindPath`: the path is taken
from the store or stored, scanned from index 1 for the first blocked ray, and the
secondary source is placed there. The debug drawing is left out. -/
def PropagateAlongPath (W : UWorld) (s : PropagationState) (AudioComp : Nat) (DeltaTime : ℚ)
    (ActorsToIgnore : List Nat) (Found : FindPathResult) : Option PropagationState :=
  let Stored := StorePath s AudioComp Found
  let Path := Stored.1
  let Scan := ScanPath W ActorsToIgnore Path (List.range' 1 (Path.length - 1)) Stored.2
  match Scan.1 with
  | none => some Scan.2
  | some i => PlacePropagatedSound W Scan.2 AudioComp DeltaTime Path i

/-- Method `USoundPropagationComponent::UpdateSoundPropagation`; `none` when `FindPath` or
`SetPropagatedSoundVolume` does not return. -/
def UpdateSoundPropagation (W : UWorld) (s : PropagationState) (AudioComp : Nat)
    (DeltaTime : ℚ) : Option PropagationState :=
  let ActorsToIgnore := [s.This.Owner, (s.comp AudioComp).Owner]
  let HitResultToPlayer :=
    DoLineTrace W s (s.comp AudioComp).GetComponentLocation ActorsToIgnore
  let s := HitResultToPlayer.2
  if !HitResultToPlayer.1 then some (RemovePropagatedSound s AudioComp DeltaTime)
  else
    match FPathfinder.FindPath s.This.Pathfinder s.Grid
        (fun Start End => W.LineTraceSingleForObjects Start End [s.This.Owner])
        W.OwnerLocation (s.comp AudioComp).GetComponentLocation W.OwnerLocation [] with
    | none => none
    | some Found =>
      let s : PropagationState :=
        { s with Grid := Found.Grid, This := { s.This with Pathfinder := Found.Pathfinder } }
      if !Found.Return then some (RemovePropagatedSound s AudioComp DeltaTime)
      else PropagateAlongPath W s AudioComp DeltaTime ActorsToIgnore Found

end USoundPropagationComponent

/-- A source in cell `(0, 0, 0)` of `grid12Blocked` and a listener in a corner of cell
`(3, 1, 0)`, node 10, with a pillar next to the listener that hides it from every point
with `X <= 150`: from the source and from the centre of every cell. -/
def pillarWorld : UWorld where
  Dist := axisDist
  LineTraceMultiForObjects := fun _ _ _ => []
  LineTraceSingleForObjects := fun Start _ _ => decide (Start.X ≤ 150)
  GetUsedMaterials := fun _ => []
  GetClosestPointOnCollision := fun _ P => P
  CameraLocation := ⟨195, 45, 50⟩
  OwnerLocation := ⟨195, 45, 50⟩

/-- The world of `pillarWorld` without the pillar: no ray is blocked. -/
def openWorld : UWorld :=
  { pillarWorld with LineTraceSingleForObjects := fun _ _ _ => false }

/-- The source of `pillarWorld`, owned by actor 1, with falloff distance 3000. -/
def pillarSource : UAudioComponent :=
  { Owner := 1, ComponentLocation := grid12Pos0,
    AttenuationSettings := some { FalloffDistance := 3000, MaxFalloffDistance := 3000 } }

/-- The propagation state before the first tick in `pillarWorld`: the grid `grid12Blocked`,
the one source, no secondary source and no stored path. -/
def pillarState : PropagationState :=
  { This := { AudioComponents := [0], GridNodeDiameter := 100 }, Grid := grid12Blocked,
    Comps := [pillarSource] }

/-- A state with a secondary source, component 1, registered for the source and fading
at volume 0.01005, in a component whose volume speed was set to 0.001. -/
def fadingState : PropagationState :=
  { This := { AudioComponents := [0], GridNodeDiameter := 100, PropagatedSounds := [(0, 1)],
              PropVolumeLerpSpeed := 1 / 1000 },
    Grid := grid12Blocked,
    Comps := [pillarSource,
      { pillarSource with ComponentLocation := grid12Pos10, VolumeMultiplier := 201 / 20000 }] }

/-- A world in which every ray is blocked, with the listener at the centre of cell
`(2, 0, 0)` of `grid3BlockedMid`. -/
def enclosedWorld : UWorld :=
  { pillarWorld with
    LineTraceSingleForObjects := fun _ _ _ => true
    CameraLocation := grid3Pos2
    OwnerLocation := grid3Pos2 }

/-- A source in cell `(0, 0, 0)` of `grid3BlockedMid`, whose blocked middle cell cuts it
off from the listener's cell, with a secondary source, component 1, at volume 1/2. -/
def enclosedState : PropagationState :=
  { This := { AudioComponents := [0], GridNodeDiameter := 100, PropagatedSounds := [(0, 1)] },
    Grid := grid3BlockedMid,
    Comps := [{ pillarSource with ComponentLocation := grid3Pos0 },
      { pillarSource with ComponentLocation := grid3Pos2, VolumeMultiplier := 1 / 2 }] }

/-- The total occlusion as the specification words it: the clamp to `[0, 1]` of the sum,
over the hit pairs, of thickness-factor times material-factor, where the thickness-factor
is `clamp(distance / MaxMeshDistanceToBlockAllAudio, 0, 1)` and the material-factor is the
table value of the listener-side hit. No contribution is clamped on its own. -/
def UAudioOcclusionComponent.TotalOcclusionSpec (this : UAudioOcclusionComponent) (W : UWorld)
    (HitResultsFromPlayer HitResultsFromAudio : List FHitResult) : ℚ :=
  FMath.ClampF
    (((List.range HitResultsFromAudio.length).map fun (i : Nat) =>
      FMath.ClampF
          (W.Dist (HitResultsFromPlayer.getD i default).ImpactPoint
              (HitResultsFromAudio.getD i default).ImpactPoint
            / this.MaxMeshDistanceToBlockAllAudio) 0 1
        * this.GetMaterialValue W (HitResultsFromPlayer.getD i default)).sum)
    0 1

/-- The world of `wallSource` with two walls: the first 100 thick of material 3, the
second 50 thick of material 5; the hit component `c` has the one material `c - 4`. -/
def twoWallWorld : UWorld :=
  { rayWorld
      [wallHitFromPlayer, { bBlockingHit := true, ImpactPoint := ⟨700, 0, 0⟩, Component := 9 }]
      [{ bBlockingHit := true, ImpactPoint := ⟨750, 0, 0⟩, Component := 9 }, wallHitFromAudio]
    with GetUsedMaterials := fun c => [c - 4] }

/-- Body of the loop of `USoundPropagationComponent::ActorWithCompDestroyed` for one audio
component of the destroyed actor; `TArray::Remove` takes out every occurrence. -/
def USoundPropagationComponent.RemoveAudioComp (this : USoundPropagationComponent)
    (AudioComp : Nat) : USoundPropagationComponent :=
  let this := { this with AudioComponents := this.AudioComponents.filter (· != AudioComp) }
  let this :=
    if TMap.Contains this.PropagatedSounds AudioComp then
      { this with PropagatedSounds := TMap.Remove this.PropagatedSounds AudioComp }
    else this
  if TMap.Contains this.Paths AudioComp then
    { this with Paths := TMap.Remove this.Paths AudioComp }
  else this

/-- Method `USoundPropagationComponent::ActorWithCompDestroyed`. `GetComponents` yields the
audio components whose owner is the destroyed actor. -/
def USoundPropagationComponent.ActorWithCompDestroyed (s : PropagationState)
    (DestroyedActor : Nat) : PropagationState :=
  let Comps := (List.range s.Comps.length).filter fun p => (s.comp p).Owner == DestroyedActor
  { s with This := Comps.foldl USoundPropagationComponent.RemoveAudioComp s.This }

/-- A state with three tracked sources: components 0 and 2 owned by actor 1, component 1
owned by actor 2, each with a stored path and a registered secondary source. -/
def threeSourceState : PropagationState :=
  { This :=
      { AudioComponents := [0, 1, 2],
        PropagatedSounds := [(0, 3), (1, 4), (2, 5)],
        Paths := [(0, [10, 7]), (1, [10]), (2, [10, 7, 4])] },
    Grid := grid12Blocked,
    Comps := [{ Owner := 1 }, { Owner := 2 }, { Owner := 1 }, { Owner := 1 }, { Owner := 2 },
      { Owner := 1 }] }

/-- The locals of `FPathfinder::FindPath` when its `while` loop is entered: the start node
has its costs reset and is the one element of the heap. -/
def FPathfinder.SearchInit (g : AMapGrid) (StartNode : Nat) : SearchState :=
  let g1 := g.setNode StartNode fun n => { n with GCost := 0, HCost := 0 }
  { Grid := g1, ToBeChecked := HeapPush g1 [] StartNode, Visited := [] }

/-- One turn of the `while` loop of `FPathfinder::FindPath` that does not return: the root
of the heap is popped and marked visited, and its neighbours are relaxed. -/
def FPathfinder.SearchTurn (EndNode : Nat) (s : SearchState) : SearchState :=
  let Current := (HeapPop s.Grid s.ToBeChecked).1
  let s1 : SearchState :=
    { s with
      ToBeChecked := (HeapPop s.Grid s.ToBeChecked).2
      Visited := s.Visited.insert Current }
  (s1.Grid.GetNeighbours Current).foldl (FPathfinder.RelaxNeighbour EndNode Current) s1

/-- The locals of `FPathfinder::FindPath` after `n` turns of its loop. -/
def FPathfinder.SearchTurns (EndNode : Nat) : Nat → SearchState → SearchState
  | 0, s => s
  | n + 1, s => FPathfinder.SearchTurns EndNode n (FPathfinder.SearchTurn EndNode s)

/-- A grid actor of size 500 x 400 x 100 at the origin (cell counts 5 x 4 x 1) whose
path drawing is switched off. -/
def actor20 : AMapGrid :=
  { exampleGrid 500 400 100 with NodeDiameter := 100, bDrawPath := false }

/-- The grid of `actor20` with a wall in the row `y = 2` over the columns `x = 0 .. 3`;
only the column `x = 4` lets through. Node `4 * x + y` is cell `(x, y, 0)`. -/
def gridWall20 : AMapGrid :=
  AMapGrid.CreateGridLoops
    (fun P _ => decide (P ∈ ([⟨-200, 50, 50⟩, ⟨-100, 50, 50⟩, ⟨0, 50, 50⟩, ⟨100, 50, 50⟩] :
      List FVector)))
    (AMapGrid.CreateGridInit actor20)

/-- The world of `gridWall20`: the listener stands in cell `(0, 3, 0)`, node 3, behind the
wall, which hides it from every point with `Y < 50`. -/
def wallWorld20 : UWorld where
  Dist := axisDist
  LineTraceMultiForObjects := fun _ _ _ => []
  LineTraceSingleForObjects := fun Start _ _ => decide (Start.Y < 50)
  GetUsedMaterials := fun _ => []
  GetClosestPointOnCollision := fun _ P => P
  CameraLocation := ⟨-200, 150, 50⟩
  OwnerLocation := ⟨-200, 150, 50⟩

/-- Two tracked sources in front of the wall of `gridWall20`: component 0 of actor 1 in
cell `(0, 0, 0)`, node 0, and component 1 of actor 2 in cell `(1, 0, 0)`, node 4; no
secondary source and no stored path yet. -/
def twoSourceState : PropagationState :=
  { This := { AudioComponents := [0, 1], GridNodeDiameter := 100 },
    Grid := gridWall20,
    Comps := [{ pillarSource with ComponentLocation := ⟨-200, -150, 50⟩ },
      { pillarSource with Owner := 2, ComponentLocation := ⟨-100, -150, 50⟩ }] }

/-- The grids `g` and `g'` hold the same costs in the node `n`. -/
def AMapGrid.AgreeAt (g g' : AMapGrid) (n : Nat) : Prop :=
  (g'.node n).GCost = (g.node n).GCost ∧ (g'.node n).HCost = (g.node n).HCost

/-- Two runs of the search, on grids that are the same up to scratch fields, are at the
same point: the heaps and the visited sets are equal, the grids hold the same costs in
every node of the heap or the visited set, and every such node other than the start node
has the same parent in both, a visited node. -/
structure FPathfinder.Coupled (StartNode : Nat) (s s' : SearchState) : Prop where
  heap : s'.ToBeChecked = s.ToBeChecked
  visited : s'.Visited = s.Visited
  cells : s.Grid.SameCells s'.Grid
  costs : ∀ n, n ∈ s.ToBeChecked ∨ n ∈ s.Visited → s.Grid.AgreeAt s'.Grid n
  parents : ∀ n, n ∈ s.ToBeChecked ∨ n ∈ s.Visited → n ≠ StartNode →
    (s'.Grid.node n).Parent = (s.Grid.node n).Parent ∧
      ∃ p, (s.Grid.node n).Parent = some p ∧ p ∈ s.Visited

/-- The grid `gridWall20` with scratch values left behind in two nodes: node 8 holds
costs an earlier search could have written and a parent link to node 12, and node 7, a
cell every path around the wall to node 3 runs through, holds a huge g-cost and a parent
link to itself. -/
def staleWall20 : AMapGrid :=
  (gridWall20.setNode 8 fun n => { n with GCost := 1, HCost := 2, Parent := some 12 }).setNode 7
    fun n => { n with GCost := 900000, HCost := 0, Parent := some 7 }

/-- The world of `pillarWorld` with the pillar replaced by an obstacle that hides the
listener from the centre of cell `(0, 0, 0)` only: the one blocked ray is the one that
starts at `grid12Pos0`. -/
def shadowWorld : UWorld :=
  { pillarWorld with LineTraceSingleForObjects := fun Start _ _ => decide (Start = grid12Pos0) }

/-! ## `TickComponent` of the two audio components -/

/-- What `UAudioOcclusionComponent::TickComponent` reads and writes: the component, the
audio components of the level, addressed by their index in `Comps`, and the line traces
made, in call order. -/
structure OcclusionState where
  This : UAudioOcclusionComponent := {}
  Comps : List UAudioComponent := []
  Traces : List (FVector × FVector) := []

namespace OcclusionState

/-- Dereference of an audio component pointer. -/
def comp (s : OcclusionState) (p : Nat) : UAudioComponent := s.Comps.getD p default

/-- Engine `IsValid` on an audio component pointer: the pointer addresses a component of
the level. -/
def IsValid (s : OcclusionState) (p : Nat) : Bool := decide (p < s.Comps.length)

end OcclusionState

namespace UAudioOcclusionComponent

/-- Body of the `for` loop of `UAudioOcclusionComponent::TickComponent`; `none` when the
source has no attenuation settings to dereference. -/
def TickAudioComp (W : UWorld) (DeltaTime : ℚ) (s : OcclusionState) (AudioComp : Nat) :
    Option OcclusionState :=
  if !s.IsValid AudioComp then some s
  else
    let DistanceToAudio := W.Dist W.OwnerLocation (s.comp AudioComp).GetComponentLocation
    match (s.comp AudioComp).AttenuationSettings with
    | none => none
    | some Attenuation =>
      if Attenuation.FalloffDistance > DistanceToAudio then
        let Updated := s.This.UpdateAudioComp W (s.comp AudioComp) DeltaTime
        some { This := Updated.This, Comps := s.Comps.set AudioComp Updated.AudioComp,
               Traces := s.Traces ++ Updated.Traces }
      else some s

/-- The `for` loop of `UAudioOcclusionComponent::TickComponent` over the tracked sources
still to visit. -/
def TickLoop (W : UWorld) (DeltaTime : ℚ) : List Nat → OcclusionState → Option OcclusionState
  | [], s => some s
  | AudioComp :: rest, s =>
    match TickAudioComp W DeltaTime s AudioComp with
    | none => none
    | some s1 => TickLoop W DeltaTime rest s1

/-- Method `UAudioOcclusionComponent::TickComponent`. -/
def TickComponent (W : UWorld) (s : OcclusionState) (DeltaTime : ℚ) : Option OcclusionState :=
  if !s.This.bEnabled then some s
  else
    let s : OcclusionState :=
      { s with This := { s.This with LowPassTimer := s.This.LowPassTimer + DeltaTime } }
    match TickLoop W DeltaTime s.This.AudioComponents s with
    | none => none
    | some s =>
      if s.This.LowPassTimer > s.This.LowPassUpdateDelay then
        some { s with This := { s.This with LowPassTimer := 0 } }
      else some s

end UAudioOcclusionComponent

/-- Engine `IsValid` on an audio component pointer: the pointer addresses a component of
the level. -/
def PropagationState.IsValid (s : PropagationState) (p : Nat) : Bool :=
  decide (p < s.Comps.length)

namespace USoundPropagationComponent

/-- Body of the `for` loop of `USoundPropagationComponent::TickComponent`; `none` when the
source has no attenuation settings to dereference or the update does not return. -/
def TickAudioComp (W : UWorld) (DeltaTime : ℚ) (s : PropagationState) (AudioComp : Nat) :
    Option PropagationState :=
  if !s.IsValid AudioComp then some s
  else
    let DistanceToAudio := W.Dist W.OwnerLocation (s.comp AudioComp).GetComponentLocation
    match (s.comp AudioComp).AttenuationSettings with
    | none => none
    | some Attenuation =>
      if Attenuation.FalloffDistance > DistanceToAudio then
        UpdateSoundPropagation W s AudioComp DeltaTime
      else some s

/-- The `for` loop of `USoundPropagationComponent::TickComponent` over the tracked sources
still to visit. -/
def TickLoop (W : UWorld) (DeltaTime : ℚ) :
    List Nat → PropagationState → Option PropagationState
  | [], s => some s
  | AudioComp :: rest, s =>
    match TickAudioComp W DeltaTime s AudioComp with
    | none => none
    | some s1 => TickLoop W DeltaTime rest s1

/-- Method `USoundPropagationComponent::TickComponent`. -/
def TickComponent (W : UWorld) (s : PropagationState) (DeltaTime : ℚ) :
    Option PropagationState :=
  if !s.This.bEnabled then some s
  else TickLoop W DeltaTime s.This.AudioComponents s

/-- The engine ticking the component frame after frame: one `TickComponent` call per
element of `Frames`, each in the world as it is in that frame and with that frame's
`DeltaTime`. -/
def Ticks : List (UWorld × ℚ) → PropagationState → Option PropagationState
  | [], s => some s
  | Frame :: rest, s =>
    match TickComponent Frame.1 s Frame.2 with
    | none => none
    | some s1 => Ticks rest s1

end USoundPropagationComponent

/-- The state of the occlusion component of the listener of `wallWorld` tracking the one
source `wallSource`, component 0, with the given value of the low-pass timer. -/
def wallOcclusion (Timer : ℚ) : OcclusionState :=
  { This := { AudioComponents := [0], LowPassTimer := Timer }, Comps := [wallSource] }

/-- The audio component `c'` is `c` up to the fields the occlusion component writes:
volume multiplier, low-pass flag and low-pass frequency. -/
def UAudioComponent.SameSource (c c' : UAudioComponent) : Prop :=
  c'.Owner = c.Owner ∧ c'.ComponentLocation = c.ComponentLocation ∧
  c'.AttenuationSettings = c.AttenuationSettings ∧
  c'.SourceEffectChain = c.SourceEffectChain ∧ c'.PlayStartTime = c.PlayStartTime

/-- The source `c` is blocked: the ray from the listener to it, the first trace of
`UpdateAudioComp`, finds a hit. -/
def UAudioOcclusionComponent.Blocked (this : UAudioOcclusionComponent) (W : UWorld)
    (c : UAudioComponent) : Prop :=
  W.LineTraceMultiForObjects W.CameraLocation c.ComponentLocation [this.Owner, c.Owner] ≠ []

/-- The two traces of `UpdateAudioComp` for the source `c` find equally many hits. -/
def UAudioOcclusionComponent.HitsMatch (this : UAudioOcclusionComponent) (W : UWorld)
    (c : UAudioComponent) : Prop :=
  (W.LineTraceMultiForObjects c.ComponentLocation W.CameraLocation
      [this.Owner, c.Owner]).length
    = (W.LineTraceMultiForObjects W.CameraLocation c.ComponentLocation
      [this.Owner, c.Owner]).length

/-- The cutoff `SetLowPassFilter` computes for the source `c`, as an expression of its
body. -/
def UAudioOcclusionComponent.lowPassCutoff (this : UAudioOcclusionComponent) (W : UWorld)
    (c : UAudioComponent) : ℚ :=
  FMath.ClampF
    (this.MaxLowPassFrequency *
      this.GetLowPassValueBasedOnDistanceToMesh W
        ((W.LineTraceMultiForObjects W.CameraLocation c.ComponentLocation
          [this.Owner, c.Owner]).getD 0 default))
    200 this.MaxLowPassFrequency

/-- The source `c` is within its fall-off distance of the listener, the condition under
which `TickComponent` updates it. -/
def UAudioOcclusionComponent.InRange (W : UWorld) (c : UAudioComponent) : Prop :=
  ∃ A, c.AttenuationSettings = some A ∧
    A.FalloffDistance > W.Dist W.OwnerLocation c.ComponentLocation

/-- From the state `s` to the state `s'` the registry of secondary sources has only
grown: every entry of `s` is an entry of `s'`, a registry with one entry per source still
has one entry per source, the registry has not shrunk, and the level has gained exactly
one audio component per new entry; the tracked sources and the enabled flag are the
same. -/
structure PropagationState.RegistryKept (s s' : PropagationState) : Prop where
  entries : ∀ a p, s.This.PropagatedSounds.lookup a = some p →
    s'.This.PropagatedSounds.lookup a = some p
  single : (s.This.PropagatedSounds.map Prod.fst).Nodup →
    (s'.This.PropagatedSounds.map Prod.fst).Nodup
  spawned : s'.Comps.length + s.This.PropagatedSounds.length
    = s.Comps.length + s'.This.PropagatedSounds.length
  grown : s.This.PropagatedSounds.length ≤ s'.This.PropagatedSounds.length
  tracked : s'.This.AudioComponents = s.This.AudioComponents
  enabled : s'.This.bEnabled = s.This.bEnabled

/-! # Theorems -/

/-! ## Index arithmetic -/

theorem AMapGrid.GetIndex_nonneg (g : AMapGrid) (x y z : Int) (h : g.InBounds x y z) :
    0 ≤ g.GetIndex x y z := by
  obtain ⟨⟨hx0, hx1⟩, ⟨hy0, hy1⟩, ⟨hz0, hz1⟩⟩ := h
  unfold AMapGrid.GetIndex
  have hY : 0 ≤ g.GridArrayLengthY := by omega
  have hZ : 0 ≤ g.GridArrayLengthZ := by omega
  have h1 : 0 ≤ x * g.GridArrayLengthY * g.GridArrayLengthZ :=
    mul_nonneg (mul_nonneg hx0 hY) hZ
  have h2 : 0 ≤ z * g.GridArrayLengthY := mul_nonneg hz0 hY
  omega

theorem AMapGrid.GetIndex_lt (g : AMapGrid) (x y z : Int) (h : g.InBounds x y z) :
    g.GetIndex x y z < g.GridArrayLengthX * g.GridArrayLengthY * g.GridArrayLengthZ := by
  obtain ⟨⟨hx0, hx1⟩, ⟨hy0, hy1⟩, ⟨hz0, hz1⟩⟩ := h
  unfold AMapGrid.GetIndex
  have hY : 0 ≤ g.GridArrayLengthY := by omega
  have hZ : 0 ≤ g.GridArrayLengthZ := by omega
  have h1 : x * (g.GridArrayLengthY * g.GridArrayLengthZ)
      ≤ (g.GridArrayLengthX - 1) * (g.GridArrayLengthY * g.GridArrayLengthZ) :=
    mul_le_mul_of_nonneg_right (by omega) (mul_nonneg hY hZ)
  have h2 : z * g.GridArrayLengthY ≤ (g.GridArrayLengthZ - 1) * g.GridArrayLengthY :=
    mul_le_mul_of_nonneg_right (by omega) hY
  nlinarith

/-- Quotient and remainder of a sum `q * m + r` with `0 ≤ r < m` are unique. -/
theorem divmod_unique {m q r q' r' : Int} (hr : 0 ≤ r ∧ r < m) (hr' : 0 ≤ r' ∧ r' < m)
    (h : q * m + r = q' * m + r') : q = q' ∧ r = r' := by
  have hm : 0 < m := by omega
  have e1 := (Int.ediv_emod_unique (a := q * m + r) (q := q) (r := r) hm).2
    ⟨by ring, hr.1, hr.2⟩
  have e2 := (Int.ediv_emod_unique (a := q * m + r) (q := q') (r := r') hm).2
    ⟨by rw [h]; ring, hr'.1, hr'.2⟩
  exact ⟨e1.1.symm.trans e2.1, e1.2.symm.trans e2.2⟩

theorem AMapGrid.GetIndex_inj (g : AMapGrid) (x y z x' y' z' : Int)
    (h : g.InBounds x y z) (h' : g.InBounds x' y' z')
    (he : g.GetIndex x y z = g.GetIndex x' y' z') : x = x' ∧ y = y' ∧ z = z' := by
  obtain ⟨_, hy, hz⟩ := h
  obtain ⟨_, hy', hz'⟩ := h'
  unfold AMapGrid.GetIndex at he
  have e1 : (x * g.GridArrayLengthZ + z) * g.GridArrayLengthY + y
      = (x' * g.GridArrayLengthZ + z') * g.GridArrayLengthY + y' := by
    linear_combination he
  obtain ⟨e2, e3⟩ := divmod_unique hy hy' e1
  obtain ⟨e4, e5⟩ := divmod_unique hz hz' e2
  exact ⟨e4, e3, e5⟩

theorem AMapGrid.GetNodeFromArray_lt (g : AMapGrid) (x y z : Int) (h : g.InBounds x y z) :
    g.GetNodeFromArray x y z
      < (g.GridArrayLengthX * g.GridArrayLengthY * g.GridArrayLengthZ).toNat := by
  have h0 := g.GetIndex_nonneg x y z h
  have h1 := g.GetIndex_lt x y z h
  unfold AMapGrid.GetNodeFromArray
  omega

theorem AMapGrid.GetNodeFromArray_inj (g : AMapGrid) (x y z x' y' z' : Int)
    (h : g.InBounds x y z) (h' : g.InBounds x' y' z')
    (he : g.GetNodeFromArray x y z = g.GetNodeFromArray x' y' z') :
    x = x' ∧ y = y' ∧ z = z' := by
  have h0 := g.GetIndex_nonneg x y z h
  have h0' := g.GetIndex_nonneg x' y' z' h'
  unfold AMapGrid.GetNodeFromArray at he
  exact g.GetIndex_inj x y z x' y' z' h h' (by omega)

theorem FMath.Clamp_mem (X L : Int) (hL : 0 < L) :
    0 ≤ FMath.Clamp X 0 (L - 1) ∧ FMath.Clamp X 0 (L - 1) < L := by
  unfold FMath.Clamp
  omega

/-! ## `CreateGrid` -/

theorem foldl_range_inv {σ : Type} (f : σ → Nat → σ) (I : Nat → σ → Prop) (n : Nat)
    (init : σ) (h0 : I 0 init) (hstep : ∀ k s, k < n → I k s → I (k + 1) (f s k)) :
    I n ((List.range n).foldl f init) := by
  induction n with
  | zero => simpa using h0
  | succ m ih =>
    rw [List.range_succ, List.foldl_append]
    simp only [List.foldl_cons, List.foldl_nil]
    exact hstep m _ (Nat.lt_succ_self m)
      (ih (fun k s hk hI => hstep k s (Nat.lt_succ_of_lt hk) hI))

theorem AMapGrid.SameFrame.frame_refl (g : AMapGrid) : g.SameFrame g :=
  ⟨rfl, rfl, rfl, rfl, rfl, rfl, rfl, rfl, rfl, rfl⟩

theorem AMapGrid.SameFrame.frame_trans {g g' g'' : AMapGrid} (h : g.SameFrame g')
    (h' : g'.SameFrame g'') : g.SameFrame g'' := by
  obtain ⟨a1, a2, a3, a4, a5, a6, a7, a8, a9, a10⟩ := h
  obtain ⟨b1, b2, b3, b4, b5, b6, b7, b8, b9, b10⟩ := h'
  exact ⟨b1.trans a1, b2.trans a2, b3.trans a3, b4.trans a4, b5.trans a5, b6.trans a6,
    b7.trans a7, b8.trans a8, b9.trans a9, b10.trans a10⟩

theorem AMapGrid.SameFrame.getIndex {g g' : AMapGrid} (h : g.SameFrame g') (x y z : Int) :
    g'.GetIndex x y z = g.GetIndex x y z := by
  obtain ⟨_, _, _, _, a5, a6, _⟩ := h
  unfold AMapGrid.GetIndex
  rw [a5, a6]

theorem AMapGrid.SameFrame.getNodeFromArray {g g' : AMapGrid} (h : g.SameFrame g')
    (x y z : Int) : g'.GetNodeFromArray x y z = g.GetNodeFromArray x y z := by
  unfold AMapGrid.GetNodeFromArray
  rw [h.getIndex]

theorem AMapGrid.SameFrame.inBounds {g g' : AMapGrid} (h : g.SameFrame g') (x y z : Int) :
    g'.InBounds x y z ↔ g.InBounds x y z := by
  obtain ⟨_, _, _, a4, a5, a6, _⟩ := h
  unfold AMapGrid.InBounds
  rw [a4, a5, a6]

theorem AMapGrid.SameFrame.nodePos {g g' : AMapGrid} (h : g.SameFrame g') (B : FVector)
    (x y z : Int) : g'.NodePos B x y z = g.NodePos B x y z := by
  obtain ⟨a1, a2, _⟩ := h
  unfold AMapGrid.NodePos
  rw [a1, a2]

theorem AMapGrid.node_set_same (g : AMapGrid) (p : Nat) (n : FGridNode)
    (hp : p < g.Nodes.length) :
    ({ g with Nodes := g.Nodes.set p n } : AMapGrid).node p = n := by
  simp [AMapGrid.node, List.getD_eq_getElem?_getD, List.getElem?_set, hp]

theorem AMapGrid.node_set_other (g : AMapGrid) (p q : Nat) (n : FGridNode) (hpq : p ≠ q) :
    ({ g with Nodes := g.Nodes.set p n } : AMapGrid).node q = g.node q := by
  simp [AMapGrid.node, List.getD_eq_getElem?_getD, List.getElem?_set, hpq]

/-- One turn of the innermost loop writes its own cell and leaves every other cell. -/
theorem AMapGrid.CreateGridCell_step (Overlap : FVector → ℚ → Bool) (g1 g' : AMapGrid)
    (hf : g1.SameFrame g') (x y z : Int) (hb : g1.InBounds x y z)
    (hlen : g1.Nodes.length
      = (g1.GridArrayLengthX * g1.GridArrayLengthY * g1.GridArrayLengthZ).toNat) :
    g1.SameFrame (AMapGrid.CreateGridCell Overlap g1.GridBottomLeftLocation g' x y z) ∧
    (AMapGrid.CreateGridCell Overlap g1.GridBottomLeftLocation g' x y z).node
        (g1.GetNodeFromArray x y z) = AMapGrid.CellNode Overlap g1 x y z ∧
    ∀ x' y' z', g1.InBounds x' y' z' → ¬ (x' = x ∧ y' = y ∧ z' = z) →
      (AMapGrid.CreateGridCell Overlap g1.GridBottomLeftLocation g' x y z).node
        (g1.GetNodeFromArray x' y' z') = g'.node (g1.GetNodeFromArray x' y' z') := by
  have hidx : (g'.GetIndex x y z).toNat = g1.GetNodeFromArray x y z := by
    rw [hf.getIndex]; rfl
  have hlt : g1.GetNodeFromArray x y z < g'.Nodes.length := by
    rw [hf.2.2.2.2.2.2.2.2.2, hlen]
    exact g1.GetNodeFromArray_lt x y z hb
  refine ⟨?_, ?_, ?_⟩
  · obtain ⟨a1, a2, a3, a4, a5, a6, a7, a8, a9, a10⟩ := hf
    exact ⟨a1, a2, a3, a4, a5, a6, a7, a8, a9, by
      simp [AMapGrid.CreateGridCell, AMapGrid.AddToArray, a10]⟩
  · unfold AMapGrid.CreateGridCell AMapGrid.AddToArray
    simp only [hidx]
    rw [AMapGrid.node_set_same _ _ _ hlt]
    unfold AMapGrid.CellNode
    rw [hf.nodePos, hf.1]
  · intro x' y' z' hb' hne
    unfold AMapGrid.CreateGridCell AMapGrid.AddToArray
    simp only [hidx]
    apply AMapGrid.node_set_other
    intro he
    exact hne (g1.GetNodeFromArray_inj x' y' z' x y z hb' hb he.symm)

/-- The three loops of `CreateGrid` fill every in-bounds cell with its `CellNode`. -/
theorem AMapGrid.CreateGridLoops_spec (Overlap : FVector → ℚ → Bool) (g1 : AMapGrid)
    (hlen : g1.Nodes.length
      = (g1.GridArrayLengthX * g1.GridArrayLengthY * g1.GridArrayLengthZ).toNat) :
    g1.SameFrame (AMapGrid.CreateGridLoops Overlap g1) ∧
    ∀ x y z, g1.InBounds x y z →
      (AMapGrid.CreateGridLoops Overlap g1).node (g1.GetNodeFromArray x y z)
        = AMapGrid.CellNode Overlap g1 x y z := by
  unfold AMapGrid.CreateGridLoops
  have H := foldl_range_inv
    (fun gx (x : Nat) =>
      (List.range g1.GridArrayLengthY.toNat).foldl
        (fun gy (y : Nat) =>
          (List.range g1.GridArrayLengthZ.toNat).foldl
            (fun gz (z : Nat) =>
              AMapGrid.CreateGridCell Overlap g1.GridBottomLeftLocation gz x y z) gy)
        gx)
    (fun k s => g1.SameFrame s ∧ ∀ x y z, g1.InBounds x y z → x < (k : Int) →
      s.node (g1.GetNodeFromArray x y z) = AMapGrid.CellNode Overlap g1 x y z)
    g1.GridArrayLengthX.toNat g1
    ⟨AMapGrid.SameFrame.frame_refl g1, fun x y z hb hx => by have := hb.1.1; omega⟩ ?_
  · exact ⟨H.1, fun x y z hb => H.2 x y z hb (by have := hb.1.2; omega)⟩
  intro kx sx hkx hIx
  have Hy := foldl_range_inv
    (fun gy (y : Nat) =>
      (List.range g1.GridArrayLengthZ.toNat).foldl
        (fun gz (z : Nat) =>
          AMapGrid.CreateGridCell Overlap g1.GridBottomLeftLocation gz kx y z) gy)
    (fun k s => g1.SameFrame s ∧ ∀ x y z, g1.InBounds x y z →
      (x < (kx : Int) ∨ (x = kx ∧ y < (k : Int))) →
      s.node (g1.GetNodeFromArray x y z) = AMapGrid.CellNode Overlap g1 x y z)
    g1.GridArrayLengthY.toNat sx
    ⟨hIx.1, fun x y z hb hx => by
      rcases hx with hx | ⟨_, hy⟩
      · exact hIx.2 x y z hb hx
      · have := hb.2.1.1; omega⟩ ?_
  · refine ⟨Hy.1, fun x y z hb hx => Hy.2 x y z hb ?_⟩
    have := hb.2.1.2
    omega
  intro ky sy hky hIy
  have Hz := foldl_range_inv
    (fun gz (z : Nat) =>
      AMapGrid.CreateGridCell Overlap g1.GridBottomLeftLocation gz kx ky z)
    (fun k s => g1.SameFrame s ∧ ∀ x y z, g1.InBounds x y z →
      (x < (kx : Int) ∨ (x = kx ∧ y < (ky : Int)) ∨ (x = kx ∧ y = ky ∧ z < (k : Int))) →
      s.node (g1.GetNodeFromArray x y z) = AMapGrid.CellNode Overlap g1 x y z)
    g1.GridArrayLengthZ.toNat sy
    ⟨hIy.1, fun x y z hb hx => by
      rcases hx with hx | hx | ⟨_, _, hz⟩
      · exact hIy.2 x y z hb (Or.inl hx)
      · exact hIy.2 x y z hb (Or.inr hx)
      · have := hb.2.2.1; omega⟩ ?_
  · refine ⟨Hz.1, fun x y z hb hx => Hz.2 x y z hb ?_⟩
    have := hb.2.2.2
    omega
  intro kz sz hkz hIz
  have hb0 : g1.InBounds kx ky kz := by
    unfold AMapGrid.InBounds
    omega
  obtain ⟨c1, c2, c3⟩ := AMapGrid.CreateGridCell_step Overlap g1 sz hIz.1 kx ky kz hb0 hlen
  refine ⟨c1, fun x y z hb hx => ?_⟩
  by_cases he : x = kx ∧ y = ky ∧ z = kz
  · obtain ⟨e1, e2, e3⟩ := he
    rw [e1, e2, e3]
    exact c2
  · rw [c3 x y z hb he]
    apply hIz.2 x y z hb
    omega

theorem AMapGrid.CreateGridInit_length (g : AMapGrid) :
    (AMapGrid.CreateGridInit g).Nodes.length
      = ((AMapGrid.CreateGridInit g).GridArrayLengthX
          * (AMapGrid.CreateGridInit g).GridArrayLengthY
          * (AMapGrid.CreateGridInit g).GridArrayLengthZ).toNat := by
  simp [AMapGrid.CreateGridInit]

/-- A grid built by `CreateGrid` holds, at every in-bounds cell, the node the loop body
constructs for that cell; the array has one slot per cell. -/
theorem AMapGrid.CreateGrid_spec (Overlap : FVector → ℚ → Bool) (g g' : AMapGrid)
    (h : AMapGrid.CreateGrid Overlap g = some g') :
    (AMapGrid.CreateGridInit g).SameFrame g' ∧
    g'.Nodes.length
      = (g'.GridArrayLengthX * g'.GridArrayLengthY * g'.GridArrayLengthZ).toNat ∧
    ∀ x y z, g'.InBounds x y z →
      g'.node (g'.GetNodeFromArray x y z) = AMapGrid.CellNode Overlap g' x y z := by
  unfold AMapGrid.CreateGrid at h
  simp only at h
  split at h
  · exact absurd h (by simp)
  · have hg : AMapGrid.CreateGridLoops Overlap (AMapGrid.CreateGridInit g) = g' :=
      Option.some.inj h
    obtain ⟨hf, hc⟩ := AMapGrid.CreateGridLoops_spec Overlap (AMapGrid.CreateGridInit g)
      (AMapGrid.CreateGridInit_length g)
    rw [hg] at hf hc
    refine ⟨hf, ?_, ?_⟩
    · rw [hf.2.2.2.2.2.2.2.2.2, hf.2.2.2.1, hf.2.2.2.2.1, hf.2.2.2.2.2.1]
      exact AMapGrid.CreateGridInit_length g
    · intro x y z hb
      rw [hf.getNodeFromArray]
      rw [hc x y z ((hf.inBounds x y z).1 hb)]
      unfold AMapGrid.CellNode
      rw [hf.nodePos, hf.1, hf.2.2.2.2.2.2.1]

/-- A grid built by `CreateGrid` with at least one cell per axis is well formed. -/
theorem AMapGrid.CreateGrid_wellFormed (Overlap : FVector → ℚ → Bool) (g g' : AMapGrid)
    (h : AMapGrid.CreateGrid Overlap g = some g') (hx : 0 < g'.GridArrayLengthX)
    (hy : 0 < g'.GridArrayLengthY) (hz : 0 < g'.GridArrayLengthZ) : g'.WellFormed := by
  obtain ⟨_, hlen, hc⟩ := AMapGrid.CreateGrid_spec Overlap g g' h
  refine ⟨hx, hy, hz, hlen, ?_, ?_⟩
  · intro x y z hb
    rw [hc x y z hb]
    exact ⟨rfl, rfl, rfl⟩
  · intro x y z hb
    rw [hc x y z hb]
    rfl

/-! ## `GetNodeFromWorldLocation` and `GetNeighbours` -/

theorem AMapGrid.GetNodeFromWorldLocation_inBounds (g : AMapGrid) (hx : 0 < g.GridArrayLengthX)
    (hy : 0 < g.GridArrayLengthY) (hz : 0 < g.GridArrayLengthZ) (WorldLoc : FVector) :
    ∃ x y z, g.InBounds x y z ∧
      g.GetNodeFromWorldLocation WorldLoc = g.GetNodeFromArray x y z :=
  ⟨_, _, _, ⟨FMath.Clamp_mem _ _ hx, FMath.Clamp_mem _ _ hy, FMath.Clamp_mem _ _ hz⟩, rfl⟩

theorem AMapGrid.IsOutOfBounds_eq_false (g : AMapGrid) (x y z : Int) :
    g.IsOutOfBounds x y z = false ↔ g.InBounds x y z := by
  unfold AMapGrid.IsOutOfBounds AMapGrid.InBounds
  simp only [Bool.or_eq_false_iff, decide_eq_false_iff_not]
  omega

theorem AMapGrid.NeighbourOffsets_eq : AMapGrid.NeighbourOffsets =
    [(-1, -1, -1), (-1, -1, 0), (-1, -1, 1), (-1, 0, -1), (-1, 0, 0), (-1, 0, 1),
     (-1, 1, -1), (-1, 1, 0), (-1, 1, 1), (0, -1, -1), (0, -1, 0), (0, -1, 1),
     (0, 0, -1), (0, 0, 0), (0, 0, 1), (0, 1, -1), (0, 1, 0), (0, 1, 1),
     (1, -1, -1), (1, -1, 0), (1, -1, 1), (1, 0, -1), (1, 0, 0), (1, 0, 1),
     (1, 1, -1), (1, 1, 0), (1, 1, 1)] := by
  decide

theorem AMapGrid.mem_NeighbourOffsets (o : Int × Int × Int) :
    o ∈ AMapGrid.NeighbourOffsets ↔
      (o.1 = -1 ∨ o.1 = 0 ∨ o.1 = 1) ∧ (o.2.1 = -1 ∨ o.2.1 = 0 ∨ o.2.1 = 1) ∧
        (o.2.2 = -1 ∨ o.2.2 = 0 ∨ o.2.2 = 1) := by
  obtain ⟨a, b, c⟩ := o
  simp only [AMapGrid.NeighbourOffsets, List.mem_flatMap, List.mem_map, List.mem_cons,
    List.mem_singleton, Prod.mk.injEq, List.not_mem_nil, or_false]
  constructor
  · rintro ⟨x, hx, y, hy, z, hz, rfl, rfl, rfl⟩
    exact ⟨hx, hy, hz⟩
  · rintro ⟨hx, hy, hz⟩
    exact ⟨a, hx, b, hy, c, hz, rfl, rfl, rfl⟩

theorem AMapGrid.NeighbourOffsets_nodup : AMapGrid.NeighbourOffsets.Nodup := by
  decide

theorem AMapGrid.NeighbourOffsets_nonzero_length :
    (AMapGrid.NeighbourOffsets.filter
      fun o => decide (¬ (o.1 = 0 ∧ o.2.1 = 0 ∧ o.2.2 = 0))).length = 26 := by
  decide

/-- Membership in `GetNeighbours`, in terms of the coordinates stored in the node. -/
theorem AMapGrid.mem_GetNeighbours (g : AMapGrid) (n m : Nat) :
    m ∈ g.GetNeighbours n ↔
      ∃ o ∈ AMapGrid.NeighbourOffsets, ¬ (o.1 = 0 ∧ o.2.1 = 0 ∧ o.2.2 = 0) ∧
        g.InBounds ((g.node n).GridX + o.1) ((g.node n).GridY + o.2.1)
          ((g.node n).GridZ + o.2.2) ∧
        m = g.GetNodeFromArray ((g.node n).GridX + o.1) ((g.node n).GridY + o.2.1)
          ((g.node n).GridZ + o.2.2) := by
  unfold AMapGrid.GetNeighbours
  rw [List.mem_filterMap]
  constructor
  · rintro ⟨o, ho, hf⟩
    refine ⟨o, ho, ?_⟩
    by_cases hz : o.1 = 0 ∧ o.2.1 = 0 ∧ o.2.2 = 0
    · rw [if_pos hz] at hf
      exact absurd hf (by simp)
    · rw [if_neg hz] at hf
      by_cases hb : g.IsOutOfBounds ((g.node n).GridX + o.1) ((g.node n).GridY + o.2.1)
          ((g.node n).GridZ + o.2.2) = true
      · simp only [hb, if_true] at hf
        exact absurd hf (by simp)
      · have hb' := Bool.eq_false_iff.2 hb
        simp only [hb', Bool.false_eq_true, if_false] at hf
        exact ⟨hz, (g.IsOutOfBounds_eq_false _ _ _).1 hb', (Option.some.inj hf).symm⟩
  · rintro ⟨o, ho, hz, hb, rfl⟩
    refine ⟨o, ho, ?_⟩
    rw [if_neg hz]
    simp only [(g.IsOutOfBounds_eq_false _ _ _).2 hb, Bool.false_eq_true, if_false]

theorem filterMap_ite_length {α β : Type} (l : List α) (p : α → Prop) [DecidablePred p]
    (h : α → β) :
    (l.filterMap fun a => if p a then none else some (h a)).length
      = (l.filter fun a => decide (¬ p a)).length := by
  induction l with
  | nil => rfl
  | cons a t ih =>
    by_cases hp : p a
    · simp [List.filterMap_cons, List.filter_cons, hp, ih]
    · simp [List.filterMap_cons, List.filter_cons, hp, ih]

/-- The four facts about `GetNeighbours` on a well-formed grid, for the node of an
in-bounds cell `(x, y, z)`. -/
theorem AMapGrid.GetNeighbours_spec (g : AMapGrid) (hwf : g.WellFormed) (x y z : Int)
    (hb : g.InBounds x y z) :
    (g.GetNeighbours (g.GetNodeFromArray x y z)).Nodup ∧
    (∀ m, m ∈ g.GetNeighbours (g.GetNodeFromArray x y z) ↔
      ∃ dx dy dz : Int, (dx = -1 ∨ dx = 0 ∨ dx = 1) ∧ (dy = -1 ∨ dy = 0 ∨ dy = 1) ∧
        (dz = -1 ∨ dz = 0 ∨ dz = 1) ∧ ¬ (dx = 0 ∧ dy = 0 ∧ dz = 0) ∧
        g.InBounds (x + dx) (y + dy) (z + dz) ∧
        m = g.GetNodeFromArray (x + dx) (y + dy) (z + dz)) ∧
    g.GetNodeFromArray x y z ∉ g.GetNeighbours (g.GetNodeFromArray x y z) ∧
    ((0 < x ∧ x < g.GridArrayLengthX - 1) → (0 < y ∧ y < g.GridArrayLengthY - 1) →
      (0 < z ∧ z < g.GridArrayLengthZ - 1) →
      (g.GetNeighbours (g.GetNodeFromArray x y z)).length = 26) := by
  obtain ⟨cx, cy, cz⟩ := hwf.coords x y z hb
  have hmem : ∀ m, m ∈ g.GetNeighbours (g.GetNodeFromArray x y z) ↔
      ∃ dx dy dz : Int, (dx = -1 ∨ dx = 0 ∨ dx = 1) ∧ (dy = -1 ∨ dy = 0 ∨ dy = 1) ∧
        (dz = -1 ∨ dz = 0 ∨ dz = 1) ∧ ¬ (dx = 0 ∧ dy = 0 ∧ dz = 0) ∧
        g.InBounds (x + dx) (y + dy) (z + dz) ∧
        m = g.GetNodeFromArray (x + dx) (y + dy) (z + dz) := by
    intro m
    rw [AMapGrid.mem_GetNeighbours, cx, cy, cz]
    constructor
    · rintro ⟨⟨dx, dy, dz⟩, ho, hz, hib, hm⟩
      obtain ⟨h1, h2, h3⟩ := (AMapGrid.mem_NeighbourOffsets _).1 ho
      exact ⟨dx, dy, dz, h1, h2, h3, hz, hib, hm⟩
    · rintro ⟨dx, dy, dz, h1, h2, h3, hz, hib, hm⟩
      exact ⟨(dx, dy, dz), (AMapGrid.mem_NeighbourOffsets _).2 ⟨h1, h2, h3⟩, hz, hib, hm⟩
  refine ⟨?_, hmem, ?_, ?_⟩
  · unfold AMapGrid.GetNeighbours
    apply List.Nodup.filterMap _ AMapGrid.NeighbourOffsets_nodup
    intro o o' m hm hm'
    rw [cx, cy, cz] at hm hm'
    simp only [Option.mem_def] at hm hm'
    by_cases hz : o.1 = 0 ∧ o.2.1 = 0 ∧ o.2.2 = 0
    · rw [if_pos hz] at hm
      exact absurd hm (by simp)
    by_cases hz' : o'.1 = 0 ∧ o'.2.1 = 0 ∧ o'.2.2 = 0
    · rw [if_pos hz'] at hm'
      exact absurd hm' (by simp)
    rw [if_neg hz] at hm
    rw [if_neg hz'] at hm'
    by_cases hb1 : g.IsOutOfBounds (x + o.1) (y + o.2.1) (z + o.2.2) = true
    · simp only [hb1, if_true] at hm
      exact absurd hm (by simp)
    by_cases hb2 : g.IsOutOfBounds (x + o'.1) (y + o'.2.1) (z + o'.2.2) = true
    · simp only [hb2, if_true] at hm'
      exact absurd hm' (by simp)
    have hb1' := Bool.eq_false_iff.2 hb1
    have hb2' := Bool.eq_false_iff.2 hb2
    simp only [hb1', Bool.false_eq_true, if_false] at hm
    simp only [hb2', Bool.false_eq_true, if_false] at hm'
    have he := (Option.some.inj hm).trans (Option.some.inj hm').symm
    obtain ⟨e1, e2, e3⟩ := g.GetNodeFromArray_inj _ _ _ _ _ _
      ((g.IsOutOfBounds_eq_false _ _ _).1 hb1') ((g.IsOutOfBounds_eq_false _ _ _).1 hb2') he
    obtain ⟨a, b, c⟩ := o
    obtain ⟨a', b', c'⟩ := o'
    simp only at e1 e2 e3
    simp only [Prod.mk.injEq]
    omega
  · intro hself
    obtain ⟨dx, dy, dz, _, _, _, hz, hib, hm⟩ := (hmem _).1 hself
    obtain ⟨e1, e2, e3⟩ := g.GetNodeFromArray_inj _ _ _ _ _ _ hb hib hm
    exact hz (by omega)
  · intro hx hy hz
    unfold AMapGrid.GetNeighbours
    rw [cx, cy, cz]
    have hcongr : ∀ o ∈ AMapGrid.NeighbourOffsets,
        (if o.1 = 0 ∧ o.2.1 = 0 ∧ o.2.2 = 0 then none
          else if g.IsOutOfBounds (x + o.1) (y + o.2.1) (z + o.2.2) = true then none
          else some (g.GetNodeFromArray (x + o.1) (y + o.2.1) (z + o.2.2)))
        = (if o.1 = 0 ∧ o.2.1 = 0 ∧ o.2.2 = 0 then none
          else some (g.GetNodeFromArray (x + o.1) (y + o.2.1) (z + o.2.2))) := by
      intro o ho
      obtain ⟨h1, h2, h3⟩ := (AMapGrid.mem_NeighbourOffsets o).1 ho
      have hib : g.IsOutOfBounds (x + o.1) (y + o.2.1) (z + o.2.2) = false := by
        rw [AMapGrid.IsOutOfBounds_eq_false]
        unfold AMapGrid.InBounds
        omega
      simp only [hib, Bool.false_eq_true, if_false]
    rw [List.filterMap_congr hcongr, filterMap_ite_length]
    exact AMapGrid.NeighbourOffsets_nonzero_length

/-! ## Example grids -/

theorem grid27_created : AMapGrid.CreateGrid noOverlap scenarioActor = some grid27 := by
  decide!

theorem grid27_wellFormed : grid27.WellFormed :=
  AMapGrid.CreateGrid_wellFormed noOverlap scenarioActor grid27 grid27_created
    (by decide!) (by decide!) (by decide!)

/-! ## Claims about the grid -/

/-- C1: on a grid with at least one cell per axis, `GetNodeFromWorldLocation` returns,
for every world position, a node whose stored grid coordinates lie inside the grid:
`0 ≤ x < GridArrayLengthX`, `0 ≤ y < GridArrayLengthY`, `0 ≤ z < GridArrayLengthZ`. -/
theorem GetNodeFromWorldLocation_coordinates_in_bounds (g : AMapGrid) (hwf : g.WellFormed)
    (WorldLoc : FVector) :
    g.InBounds (g.node (g.GetNodeFromWorldLocation WorldLoc)).GridX
      (g.node (g.GetNodeFromWorldLocation WorldLoc)).GridY
      (g.node (g.GetNodeFromWorldLocation WorldLoc)).GridZ := by
  obtain ⟨x, y, z, hb, he⟩ :=
    g.GetNodeFromWorldLocation_inBounds hwf.posX hwf.posY hwf.posZ WorldLoc
  obtain ⟨cx, cy, cz⟩ := hwf.coords x y z hb
  rw [he, cx, cy, cz]
  exact hb

/-- Witness of C1: a position a million units off the 27-node grid. -/
theorem GetNodeFromWorldLocation_coordinates_in_bounds_witness :
    grid27.WellFormed ∧
    grid27.InBounds
      (grid27.node (grid27.GetNodeFromWorldLocation ⟨1000000, -1000000, 77⟩)).GridX
      (grid27.node (grid27.GetNodeFromWorldLocation ⟨1000000, -1000000, 77⟩)).GridY
      (grid27.node (grid27.GetNodeFromWorldLocation ⟨1000000, -1000000, 77⟩)).GridZ :=
  ⟨grid27_wellFormed,
    GetNodeFromWorldLocation_coordinates_in_bounds grid27 grid27_wellFormed
      ⟨1000000, -1000000, 77⟩⟩

/-- C2: for in-bounds triples, `GetIndex(x, y, z) = x*LY*LZ + z*LY + y` lies in
`[0, LX*LY*LZ)`, and two in-bounds triples with the same index are the same triple. -/
theorem GetIndex_in_range_and_injective (g : AMapGrid) (x y z x' y' z' : Int)
    (h : g.InBounds x y z) (h' : g.InBounds x' y' z') :
    g.GetIndex x y z
        = x * g.GridArrayLengthY * g.GridArrayLengthZ + z * g.GridArrayLengthY + y ∧
    0 ≤ g.GetIndex x y z ∧
    g.GetIndex x y z < g.GridArrayLengthX * g.GridArrayLengthY * g.GridArrayLengthZ ∧
    (g.GetIndex x y z = g.GetIndex x' y' z' → x = x' ∧ y = y' ∧ z = z') :=
  ⟨rfl, g.GetIndex_nonneg x y z h, g.GetIndex_lt x y z h,
    g.GetIndex_inj x y z x' y' z' h h'⟩

/-- Witness of C2: cells `(1, 2, 0)` and `(2, 0, 1)` of the 27-node grid. -/
theorem GetIndex_in_range_and_injective_witness :
    grid27.InBounds 1 2 0 ∧ grid27.InBounds 2 0 1 ∧
    (grid27.GetIndex 1 2 0
        = 1 * grid27.GridArrayLengthY * grid27.GridArrayLengthZ
          + 0 * grid27.GridArrayLengthY + 2 ∧
      0 ≤ grid27.GetIndex 1 2 0 ∧
      grid27.GetIndex 1 2 0
        < grid27.GridArrayLengthX * grid27.GridArrayLengthY * grid27.GridArrayLengthZ ∧
      (grid27.GetIndex 1 2 0 = grid27.GetIndex 2 0 1 →
        (1 : Int) = 2 ∧ (2 : Int) = 0 ∧ (0 : Int) = 1)) :=
  ⟨by decide!, by decide!,
    GetIndex_in_range_and_injective grid27 1 2 0 2 0 1 (by decide!) (by decide!)⟩

/-- C4: for the node of an in-bounds cell `(x, y, z)`, `GetNeighbours` returns, without
duplicates, exactly the nodes of the in-bounds cells `(x+dx, y+dy, z+dz)` with
`dx, dy, dz ∈ {-1, 0, 1}` not all zero; the node itself is not among them; and a node
with no coordinate on the border has exactly 26 neighbours. -/
theorem GetNeighbours_exactly_in_bounds_offsets (g : AMapGrid) (hwf : g.WellFormed)
    (x y z : Int) (hb : g.InBounds x y z) :
    (g.GetNeighbours (g.GetNodeFromArray x y z)).Nodup ∧
    (∀ m, m ∈ g.GetNeighbours (g.GetNodeFromArray x y z) ↔
      ∃ dx dy dz : Int, (dx = -1 ∨ dx = 0 ∨ dx = 1) ∧ (dy = -1 ∨ dy = 0 ∨ dy = 1) ∧
        (dz = -1 ∨ dz = 0 ∨ dz = 1) ∧ ¬ (dx = 0 ∧ dy = 0 ∧ dz = 0) ∧
        g.InBounds (x + dx) (y + dy) (z + dz) ∧
        m = g.GetNodeFromArray (x + dx) (y + dy) (z + dz)) ∧
    g.GetNodeFromArray x y z ∉ g.GetNeighbours (g.GetNodeFromArray x y z) ∧
    ((0 < x ∧ x < g.GridArrayLengthX - 1) → (0 < y ∧ y < g.GridArrayLengthY - 1) →
      (0 < z ∧ z < g.GridArrayLengthZ - 1) →
      (g.GetNeighbours (g.GetNodeFromArray x y z)).length = 26) :=
  g.GetNeighbours_spec hwf x y z hb

/-- Witness of C4: the centre cell `(1, 1, 1)` of the 27-node grid has 26 neighbours. -/
theorem GetNeighbours_exactly_in_bounds_offsets_witness :
    grid27.WellFormed ∧ grid27.InBounds 1 1 1 ∧
    (0 < (1 : Int) ∧ (1 : Int) < grid27.GridArrayLengthX - 1) ∧
    (0 < (1 : Int) ∧ (1 : Int) < grid27.GridArrayLengthY - 1) ∧
    (0 < (1 : Int) ∧ (1 : Int) < grid27.GridArrayLengthZ - 1) ∧
    (grid27.GetNeighbours (grid27.GetNodeFromArray 1 1 1)).length = 26 :=
  ⟨grid27_wellFormed, by decide!, by decide!, by decide!, by decide!,
    (GetNeighbours_exactly_in_bounds_offsets grid27 grid27_wellFormed 1 1 1
      (by decide!)).2.2.2 (by decide!) (by decide!) (by decide!)⟩

/-! ## `CreateGrid` with a non-positive cell count -/

theorem foldl_range_id {σ : Type} (f : σ → Nat → σ) (n : Nat) (init : σ)
    (h : ∀ k s, k < n → f s k = s) : (List.range n).foldl f init = init :=
  foldl_range_inv f (fun _ s => s = init) n init rfl
    (fun k s hk hs => by rw [h k s hk, hs])

theorem AMapGrid.CreateGridLoops_nonpositive (Overlap : FVector → ℚ → Bool) (g1 : AMapGrid)
    (h : g1.GridArrayLengthX ≤ 0 ∨ g1.GridArrayLengthY ≤ 0 ∨ g1.GridArrayLengthZ ≤ 0) :
    AMapGrid.CreateGridLoops Overlap g1 = g1 := by
  unfold AMapGrid.CreateGridLoops
  apply foldl_range_id
  intro kx sx hkx
  apply foldl_range_id
  intro ky sy hky
  apply foldl_range_id
  intro kz sz hkz
  omega

/-- C3 (amended): `CreateGrid` has no dimension check. When a per-axis cell count is
non-positive the loops populate no node; the call fails only if the product of the
three counts is negative (the allocation), and otherwise completes, leaving the
default-constructed array of that many nodes (none when a count is zero). -/
theorem CreateGrid_nonpositive_count_populates_nothing (Overlap : FVector → ℚ → Bool)
    (g : AMapGrid)
    (h : (AMapGrid.CreateGridInit g).GridArrayLengthX ≤ 0 ∨
      (AMapGrid.CreateGridInit g).GridArrayLengthY ≤ 0 ∨
      (AMapGrid.CreateGridInit g).GridArrayLengthZ ≤ 0) :
    AMapGrid.CreateGrid Overlap g
      = if (AMapGrid.CreateGridInit g).GridArrayLengthX
            * (AMapGrid.CreateGridInit g).GridArrayLengthY
            * (AMapGrid.CreateGridInit g).GridArrayLengthZ < 0 then none
        else some (AMapGrid.CreateGridInit g) := by
  unfold AMapGrid.CreateGrid
  simp only [AMapGrid.CreateGridLoops_nonpositive Overlap _ h]

/-- Witness of C3 (amended): the actor of size 0 x 100 x 100. -/
theorem CreateGrid_nonpositive_count_populates_nothing_witness :
    ((AMapGrid.CreateGridInit zeroSizeActor).GridArrayLengthX ≤ 0 ∨
      (AMapGrid.CreateGridInit zeroSizeActor).GridArrayLengthY ≤ 0 ∨
      (AMapGrid.CreateGridInit zeroSizeActor).GridArrayLengthZ ≤ 0) ∧
    AMapGrid.CreateGrid noOverlap zeroSizeActor
      = if (AMapGrid.CreateGridInit zeroSizeActor).GridArrayLengthX
            * (AMapGrid.CreateGridInit zeroSizeActor).GridArrayLengthY
            * (AMapGrid.CreateGridInit zeroSizeActor).GridArrayLengthZ < 0 then none
        else some (AMapGrid.CreateGridInit zeroSizeActor) :=
  ⟨by decide!, CreateGrid_nonpositive_count_populates_nothing noOverlap zeroSizeActor
    (by decide!)⟩

/-- C3 (counterexample): with size 0 x 100 x 100 the X count is 0, yet `CreateGrid`
completes and hands back a grid (with an empty node array); with size
-100 x -100 x 100 the counts are -1, -1, 1, and `CreateGrid` completes with one
allocated, never populated node. Neither is treated as an error. -/
theorem CreateGrid_accepts_nonpositive_dimensions :
    (AMapGrid.CreateGridInit zeroSizeActor).GridArrayLengthX = 0 ∧
    (AMapGrid.CreateGrid noOverlap zeroSizeActor).map (fun g => g.Nodes) = some [] ∧
    (AMapGrid.CreateGridInit negativeSizeActor).GridArrayLengthX = -1 ∧
    (AMapGrid.CreateGridInit negativeSizeActor).GridArrayLengthY = -1 ∧
    (AMapGrid.CreateGrid noOverlap negativeSizeActor).map (fun g => g.Nodes)
      = some [default] := by
  decide!

/-! ## `FindPath`: the unchanged-target shortcut -/

theorem grid2Quiet_first :
    FPathfinder.FindPath {} grid2Quiet noTrace grid2Pos1 grid2Pos0 grid2Pos1 []
      = some grid2QuietFirst := by
  decide!

/-- C10 (amended): when the grid's `bDrawPath` is off and a call of `FindPath` is
followed by a call that resolves to the same target node, the second call returns
success with `bOutPlayerHasMoved = false`, hands back the caller's path as it was, and
touches neither the grid's nodes nor the pathfinder (the search is not run). -/
theorem FindPath_same_target_unchanged (pf : FPathfinder) (g : AMapGrid)
    (LineTrace LineTrace' : FVector → FVector → Bool)
    (PlayerLocation From To PlayerLocation' From' To' : FVector) (Path Path' : List Nat)
    (r1 : FindPathResult) (hdraw : g.bDrawPath = false)
    (h1 : FPathfinder.FindPath pf g LineTrace PlayerLocation From To Path = some r1)
    (hsame : FPathfinder.GetTargetNode r1.Grid LineTrace' PlayerLocation' To'
      = FPathfinder.GetTargetNode g LineTrace PlayerLocation To) :
    FPathfinder.FindPath r1.Pathfinder r1.Grid LineTrace' PlayerLocation' From' To' Path'
      = some { Return := true, Path := Path', bOutPlayerHasMoved := false,
               Grid := r1.Grid, Pathfinder := r1.Pathfinder } := by
  have hold : r1.Pathfinder.OldEndNode
      = some (FPathfinder.GetTargetNode g LineTrace PlayerLocation To) := by
    unfold FPathfinder.FindPath at h1
    simp only at h1
    split at h1
    · next hc =>
      rw [← Option.some.inj h1]
      exact hc.symm
    · obtain ⟨r, _, hr⟩ := Option.map_eq_some'.1 h1
      rw [← hr]
      simp [hdraw]
  unfold FPathfinder.FindPath
  simp only [hsame, hold, if_true]

/-- Witness of C10 (amended): two calls from node 0 to node 1 on `grid2Quiet`. -/
theorem FindPath_same_target_unchanged_witness :
    grid2Quiet.bDrawPath = false ∧
    FPathfinder.FindPath {} grid2Quiet noTrace grid2Pos1 grid2Pos0 grid2Pos1 []
      = some grid2QuietFirst ∧
    FPathfinder.GetTargetNode grid2QuietFirst.Grid noTrace grid2Pos1 grid2Pos1
      = FPathfinder.GetTargetNode grid2Quiet noTrace grid2Pos1 grid2Pos1 ∧
    FPathfinder.FindPath grid2QuietFirst.Pathfinder grid2QuietFirst.Grid noTrace grid2Pos1
        grid2Pos0 grid2Pos1 [7]
      = some { Return := true, Path := [7], bOutPlayerHasMoved := false,
               Grid := grid2QuietFirst.Grid, Pathfinder := grid2QuietFirst.Pathfinder } :=
  ⟨by decide!, grid2Quiet_first, by decide!,
    FindPath_same_target_unchanged {} grid2Quiet noTrace noTrace grid2Pos1 grid2Pos0
      grid2Pos1 grid2Pos1 grid2Pos0 grid2Pos1 [] [7] grid2QuietFirst (by decide!)
      grid2Quiet_first (by decide!)⟩

/-- C10 (counterexample): on `grid2`, whose `bDrawPath` has its default value `true`, two
consecutive calls resolve to the same target node 1, and the second call, entered with
an empty path, still reports `bOutPlayerHasMoved = true` and writes the path `[1]`:
the search ran again. -/
theorem FindPath_same_target_searches_again_when_drawing :
    grid2.bDrawPath = true ∧
    FPathfinder.FindPath {} grid2 noTrace grid2Pos1 grid2Pos0 grid2Pos1 []
      = some grid2First ∧
    FPathfinder.GetTargetNode grid2 noTrace grid2Pos1 grid2Pos1 = 1 ∧
    FPathfinder.GetTargetNode grid2First.Grid noTrace grid2Pos1 grid2Pos1 = 1 ∧
    (FPathfinder.FindPath grid2First.Pathfinder grid2First.Grid noTrace grid2Pos1 grid2Pos0
        grid2Pos1 []).map (fun r2 => (r2.Return, r2.bOutPlayerHasMoved, r2.Path))
      = some (true, true, [1]) :=
  ⟨by decide!, by decide!, by decide!, by decide!, by decide!⟩

/-! ## The binary heap keeps its elements -/

theorem heapSwap_length (H : List Nat) (i j : Nat) : (heapSwap H i j).length = H.length := by
  simp [heapSwap]

theorem heapSwap_perm (H : List Nat) (i j : Nat) (hi : i < H.length) (hj : j < H.length) :
    (heapSwap H i j).Perm H := by
  rw [List.perm_iff_count]
  intro x
  unfold heapSwap
  have hj' : j < (H.set i (H.getD j 0)).length := by simpa using hj
  rw [List.count_set _ _ _ _ hj', List.count_set _ _ _ _ hi]
  have e1 : H.getD i 0 = H[i] := by simp [List.getD_eq_getElem?_getD, hi]
  have e2 : H.getD j 0 = H[j] := by simp [List.getD_eq_getElem?_getD, hj]
  have e3 : (H.set i (H.getD j 0))[j] = H[j] := by
    rw [List.getElem_set]
    split
    · next h => subst h; exact e2
    · rfl
  rw [e3, e1, e2]
  have hc : (if (H[i] == x) = true then 1 else 0) ≤ List.count x H := by
    split
    · next h =>
      have : x ∈ H := by
        have := List.getElem_mem hi
        simpa [beq_iff_eq.1 h] using (beq_iff_eq.1 h) ▸ this
      exact List.count_pos_iff.2 this
    · exact Nat.zero_le _
  omega

theorem HeapSiftUp_perm (g : AMapGrid) (fuel : Nat) (H : List Nat) (NodeIndex : Nat)
    (h : NodeIndex < H.length) : (HeapSiftUp g fuel H NodeIndex).Perm H := by
  induction fuel generalizing H NodeIndex with
  | zero => exact List.Perm.refl _
  | succ k ih =>
    unfold HeapSiftUp
    split
    · next hpos =>
      simp only
      split
      · exact List.Perm.refl _
      · have hp : (NodeIndex - 1) / 2 < H.length := by omega
        exact (ih (heapSwap H NodeIndex ((NodeIndex - 1) / 2)) ((NodeIndex - 1) / 2)
          (by rw [heapSwap_length]; exact hp)).trans (heapSwap_perm H _ _ h hp)
    · exact List.Perm.refl _

theorem HeapMinChildIndex_lt (g : AMapGrid) (H : List Nat) (Index Count : Nat)
    (h : 2 * Index + 1 < Count) :
    HeapMinChildIndex g H Index Count < Count ∧ Index < HeapMinChildIndex g H Index Count := by
  unfold HeapMinChildIndex
  simp only
  split
  · split <;> omega
  · omega

theorem HeapSiftDown_perm (g : AMapGrid) (fuel : Nat) (H : List Nat) (Index Count : Nat)
    (hI : Index < Count) (hC : Count ≤ H.length) :
    (HeapSiftDown g fuel H Index Count).Perm H := by
  induction fuel generalizing H Index with
  | zero => exact List.Perm.refl _
  | succ k ih =>
    unfold HeapSiftDown
    split
    · exact List.Perm.refl _
    · next hleaf =>
      have hm := HeapMinChildIndex_lt g H Index Count (by omega)
      simp only
      split
      · exact List.Perm.refl _
      · exact (ih (heapSwap H Index _) _ hm.1 (by rw [heapSwap_length]; exact hC)).trans
          (heapSwap_perm H _ _ (by omega) (by omega))

theorem HeapPush_perm (g : AMapGrid) (H : List Nat) (x : Nat) :
    (HeapPush g H x).Perm (x :: H) := by
  unfold HeapPush
  simp only
  exact (HeapSiftUp_perm g _ _ _ (by simp)).trans (List.perm_append_singleton x H)

theorem HeapPop_perm (g : AMapGrid) (H : List Nat) (hne : H ≠ []) :
    H.Perm ((HeapPop g H).1 :: (HeapPop g H).2) := by
  unfold HeapPop
  simp only
  cases H with
  | nil => exact absurd rfl hne
  | cons a t =>
    by_cases ht : t = []
    · subst ht
      simp [HeapSiftDown]
    · have hlast : (a :: t).getD ((a :: t).length - 1) 0 = t.getLast ht := by
        cases t with
        | nil => exact absurd rfl ht
        | cons b u =>
          simp [List.getD_eq_getElem?_getD, List.getLast_eq_getElem]
      have h1 : ((a :: t).set 0 ((a :: t).getD ((a :: t).length - 1) 0)).dropLast
          = t.getLast ht :: t.dropLast := by
        rw [hlast]
        cases t with
        | nil => exact absurd rfl ht
        | cons b u => simp [List.dropLast]
      rw [h1]
      simp only [List.getD_cons_zero]
      refine List.Perm.cons a ?_
      have h2 : t.Perm (t.getLast ht :: t.dropLast) := by
        conv_lhs => rw [← List.dropLast_append_getLast ht]
        exact List.perm_append_singleton _ _
      refine h2.trans (List.Perm.symm ?_)
      exact HeapSiftDown_perm g _ _ 0 _ (by simp) (le_refl _)

/-! ## Grids up to scratch fields -/

theorem AMapGrid.node_setNode (g : AMapGrid) (p q : Nat) (f : FGridNode → FGridNode) :
    (g.setNode p f).node q
      = if q = p ∧ p < g.Nodes.length then f (g.node p) else g.node q := by
  unfold AMapGrid.setNode
  by_cases hq : q = p
  · subst hq
    by_cases hl : q < g.Nodes.length
    · rw [if_pos ⟨rfl, hl⟩]
      exact AMapGrid.node_set_same g q _ hl
    · rw [if_neg (fun h => hl h.2)]
      have hl' : g.Nodes.length ≤ q := Nat.le_of_not_lt hl
      simp [AMapGrid.node, List.getD_eq_getElem?_getD, List.getElem?_set, hl,
        List.getElem?_eq_none hl']
  · rw [if_neg (fun h => hq h.1)]
    exact AMapGrid.node_set_other g p q _ (fun h => hq h.symm)

theorem AMapGrid.node_setNode_other (g : AMapGrid) (p q : Nat) (f : FGridNode → FGridNode)
    (h : q ≠ p) : (g.setNode p f).node q = g.node q := by
  rw [AMapGrid.node_setNode, if_neg (fun hc => h hc.1)]

theorem AMapGrid.node_setNode_same (g : AMapGrid) (p : Nat) (f : FGridNode → FGridNode)
    (h : p < g.Nodes.length) : (g.setNode p f).node p = f (g.node p) := by
  rw [AMapGrid.node_setNode, if_pos ⟨rfl, h⟩]

theorem FGridNode.SameCell.cell_refl (a : FGridNode) : a.SameCell a := ⟨rfl, rfl, rfl, rfl, rfl⟩

theorem FGridNode.SameCell.cell_trans {a b c : FGridNode} (h : a.SameCell b) (h' : b.SameCell c) :
    a.SameCell c := by
  obtain ⟨a1, a2, a3, a4, a5⟩ := h
  obtain ⟨b1, b2, b3, b4, b5⟩ := h'
  exact ⟨b1.trans a1, b2.trans a2, b3.trans a3, b4.trans a4, b5.trans a5⟩

theorem AMapGrid.SameCells.cells_refl (g : AMapGrid) : g.SameCells g :=
  ⟨AMapGrid.SameFrame.frame_refl g, fun _ => FGridNode.SameCell.cell_refl _⟩

theorem AMapGrid.SameCells.cells_trans {g g' g'' : AMapGrid} (h : g.SameCells g')
    (h' : g'.SameCells g'') : g.SameCells g'' :=
  ⟨h.1.frame_trans h'.1, fun p => (h.2 p).cell_trans (h'.2 p)⟩

/-- Writing scratch fields of one node keeps the grid up to scratch fields. -/
theorem AMapGrid.setNode_sameCells (g : AMapGrid) (p : Nat) (f : FGridNode → FGridNode)
    (hf : ∀ n : FGridNode, n.SameCell (f n)) : g.SameCells (g.setNode p f) := by
  refine ⟨⟨rfl, rfl, rfl, rfl, rfl, rfl, rfl, rfl, rfl, ?_⟩, ?_⟩
  · simp [AMapGrid.setNode]
  · intro q
    rw [AMapGrid.node_setNode]
    split
    · next h => rw [h.1]; exact hf _
    · exact FGridNode.SameCell.cell_refl _

theorem AMapGrid.SameCells.getNeighbours {g g' : AMapGrid} (h : g.SameCells g') (n : Nat) :
    g'.GetNeighbours n = g.GetNeighbours n := by
  obtain ⟨hf, hc⟩ := h
  obtain ⟨c1, c2, c3, _, _⟩ := hc n
  obtain ⟨_, _, _, a4, a5, a6, _⟩ := hf
  unfold AMapGrid.GetNeighbours AMapGrid.IsOutOfBounds AMapGrid.GetNodeFromArray
    AMapGrid.GetIndex
  rw [c1, c2, c3, a4, a5, a6]

theorem AMapGrid.SameCells.isWalkable {g g' : AMapGrid} (h : g.SameCells g') (n : Nat) :
    (g'.node n).IsWalkable = (g.node n).IsWalkable := (h.2 n).2.2.2.1

theorem AMapGrid.SameCells.getCostToNode {g g' : AMapGrid} (h : g.SameCells g') (a b : Nat) :
    FPathfinder.GetCostToNode g' a b = FPathfinder.GetCostToNode g a b := by
  unfold FPathfinder.GetCostToNode FGridNode.GetWorldCoordinate
  rw [(h.2 a).2.2.2.2, (h.2 b).2.2.2.2]

theorem AMapGrid.SameCells.wellFormed {g g' : AMapGrid} (h : g.SameCells g')
    (hwf : g.WellFormed) : g'.WellFormed := by
  obtain ⟨hf, hc⟩ := h
  have hf' := hf
  obtain ⟨a1, a2, a3, a4, a5, a6, a7, a8, a9, a10⟩ := hf'
  refine ⟨a4 ▸ hwf.posX, a5 ▸ hwf.posY, a6 ▸ hwf.posZ, ?_, ?_, ?_⟩
  · rw [a10, a4, a5, a6]; exact hwf.size
  · intro x y z hb
    have hb' := (hf.inBounds x y z).1 hb
    rw [hf.getNodeFromArray]
    obtain ⟨c1, c2, c3, _, _⟩ := hc (g.GetNodeFromArray x y z)
    rw [c1, c2, c3]
    exact hwf.coords x y z hb'
  · intro x y z hb
    have hb' := (hf.inBounds x y z).1 hb
    rw [hf.getNodeFromArray, (hc _).2.2.2.2, a7, hf.nodePos]
    exact hwf.centre x y z hb'

theorem AMapGrid.ValidNode.lt {g : AMapGrid} (hwf : g.WellFormed) {n : Nat}
    (h : g.ValidNode n) : n < g.Nodes.length := by
  obtain ⟨x, y, z, hb, rfl⟩ := h
  rw [hwf.size]
  exact g.GetNodeFromArray_lt x y z hb

theorem AMapGrid.ValidNode.coords {g : AMapGrid} (hwf : g.WellFormed) {n : Nat}
    (h : g.ValidNode n) :
    g.InBounds (g.node n).GridX (g.node n).GridY (g.node n).GridZ ∧
      n = g.GetNodeFromArray (g.node n).GridX (g.node n).GridY (g.node n).GridZ := by
  obtain ⟨x, y, z, hb, rfl⟩ := h
  obtain ⟨c1, c2, c3⟩ := hwf.coords x y z hb
  rw [c1, c2, c3]
  exact ⟨hb, rfl⟩

theorem AMapGrid.validNode_of_mem_GetNeighbours (g : AMapGrid) {n m : Nat}
    (h : m ∈ g.GetNeighbours n) : g.ValidNode m := by
  obtain ⟨o, _, _, hb, hm⟩ := (g.mem_GetNeighbours n m).1 h
  exact ⟨_, _, _, hb, hm⟩

theorem AMapGrid.validNode_GetNodeFromWorldLocation (g : AMapGrid) (hwf : g.WellFormed)
    (WorldLoc : FVector) : g.ValidNode (g.GetNodeFromWorldLocation WorldLoc) := by
  obtain ⟨x, y, z, hb, he⟩ :=
    g.GetNodeFromWorldLocation_inBounds hwf.posX hwf.posY hwf.posZ WorldLoc
  exact ⟨x, y, z, hb, he⟩

/-- Being a 26-neighbour is symmetric between nodes of in-bounds cells. -/
theorem AMapGrid.GetNeighbours_symm (g : AMapGrid) (hwf : g.WellFormed) {n m : Nat}
    (hn : g.ValidNode n) (h : m ∈ g.GetNeighbours n) : n ∈ g.GetNeighbours m := by
  obtain ⟨x, y, z, hb, rfl⟩ := hn
  obtain ⟨dx, dy, dz, h1, h2, h3, hnz, hb', rfl⟩ :=
    ((g.GetNeighbours_spec hwf x y z hb).2.1 m).1 h
  refine ((g.GetNeighbours_spec hwf _ _ _ hb').2.1 _).2
    ⟨-dx, -dy, -dz, by omega, by omega, by omega, by omega, ?_, ?_⟩
  · have e1 : x + dx + -dx = x := by omega
    have e2 : y + dy + -dy = y := by omega
    have e3 : z + dz + -dz = z := by omega
    rw [e1, e2, e3]
    exact hb
  · have e1 : x + dx + -dx = x := by omega
    have e2 : y + dy + -dy = y := by omega
    have e3 : z + dz + -dz = z := by omega
    rw [e1, e2, e3]

/-! ## The neighbour loop keeps the search invariant -/

theorem foldl_inv_prefix {σ α : Type} (f : σ → α → σ) (I : List α → σ → Prop) (l : List α)
    (init : σ) (h0 : I [] init)
    (hstep : ∀ pre a s, a ∈ l → I pre s → I (pre ++ [a]) (f s a)) :
    I l (l.foldl f init) := by
  suffices H : ∀ (t pre : List α) (s : σ), (∀ a ∈ t, a ∈ l) → I pre s →
      I (pre ++ t) (t.foldl f s) by
    simpa using H l [] init (fun a h => h) h0
  intro t
  induction t with
  | nil =>
    intro pre s _ h
    simpa using h
  | cons a t ih =>
    intro pre s hsub h
    have := ih (pre ++ [a]) (f s a) (fun b hb => hsub b (List.mem_cons_of_mem _ hb))
      (hstep pre a s (hsub a (List.mem_cons_self _ _)) h)
    simpa using this

namespace FPathfinder

theorem VisitedOrdered_congr (g0 g g' : AMapGrid) (S : Nat) (L : List Nat)
    (h : ∀ v ∈ L, (g'.node v).Parent = (g.node v).Parent)
    (ho : VisitedOrdered g0 g S L) : VisitedOrdered g0 g' S L := by
  induction L with
  | nil => trivial
  | cons v B ih =>
    obtain ⟨h1, h2⟩ := ho
    refine ⟨?_, ih (fun w hw => h w (List.mem_cons_of_mem _ hw)) h2⟩
    rw [h v (List.mem_cons_self _ _)]
    exact h1

theorem IsParentChain_congr (g0 g g' : AMapGrid) (S : Nat)
    (h : ∀ v, (g'.node v).Parent = (g.node v).Parent) (v : Nat) (P : List Nat)
    (hc : IsParentChain g0 g S v P) : IsParentChain g0 g' S v P := by
  induction P generalizing v with
  | nil => exact hc
  | cons a t ih =>
    obtain ⟨h1, h2, p, h3, h4, h5⟩ := hc
    exact ⟨h1, h2, p, by rw [h v]; exact h3, h4, ih p h5⟩

theorem RelaxNeighbour_visited (E c : Nat) (s : SearchState) (m : Nat) :
    (RelaxNeighbour E c s m).Visited = s.Visited := by
  unfold RelaxNeighbour
  split
  · rfl
  · simp only
    split
    · split <;> rfl
    · rfl

/-- A neighbour that needs no update: the invariant moves on to the next neighbour. -/
theorem SearchInv.skip {g0 : AMapGrid} {S E c : Nat} {pre : List Nat} {s : SearchState}
    (hinv : SearchInv g0 S E (fun v m' => v = c ∧ m' ∉ pre) s) (m : Nat)
    (hm : g0.Edge c m → m ∈ s.Visited ∨ m ∈ s.ToBeChecked) :
    SearchInv g0 S E (fun v m' => v = c ∧ m' ∉ pre ++ [m]) s := by
  refine { hinv with closed := ?_ }
  intro v hv m' he
  rcases hinv.closed v hv m' he with ⟨rfl, hp⟩ | h | h
  · by_cases hmm : m' = m
    · subst hmm
      exact Or.inr (hm he)
    · exact Or.inl ⟨rfl, by simp [hp, hmm]⟩
  · exact Or.inr (Or.inl h)
  · exact Or.inr (Or.inr h)

/-- A neighbour whose scratch fields are rewritten and that is in the heap afterwards. -/
theorem SearchInv.update {g0 : AMapGrid} (hwf : g0.WellFormed) {S E c : Nat}
    {pre : List Nat} {s : SearchState}
    (hinv : SearchInv g0 S E (fun v m' => v = c ∧ m' ∉ pre) s) (m : Nat)
    (hc : c ∈ s.Visited) (hm : g0.Edge c m) (hv : m ∉ s.Visited)
    (f : FGridNode → FGridNode) (hf : ∀ n : FGridNode, n.SameCell (f n))
    (hpar : ∀ n : FGridNode, (f n).Parent = some c) (H' : List Nat)
    (hH' : ∀ n, n ∈ H' ↔ n = m ∨ n ∈ s.ToBeChecked) (hnd : H'.Nodup) :
    SearchInv g0 S E (fun v m' => v = c ∧ m' ∉ pre ++ [m])
      { s with Grid := s.Grid.setNode m f, ToBeChecked := H' } := by
  have hvalid : g0.ValidNode m := g0.validNode_of_mem_GetNeighbours hm.1
  have hlt : m < s.Grid.Nodes.length := by
    rw [hinv.cells.1.2.2.2.2.2.2.2.2.2]
    exact hvalid.lt hwf
  refine ⟨hinv.cells.cells_trans (s.Grid.setNode_sameCells m f hf), ?_, ?_, ?_, hinv.endNot, ?_,
    hnd, hinv.nodupV, ?_, ?_, ?_⟩
  · rintro n (hn | hn)
    · rcases (hH' n).1 hn with rfl | h
      · exact hvalid
      · exact hinv.valid n (Or.inl h)
    · exact hinv.valid n (Or.inr hn)
  · rintro n (hn | hn)
    · rcases (hH' n).1 hn with rfl | h
      · exact Relation.ReflTransGen.tail (hinv.reach c (Or.inr hc)) hm
      · exact hinv.reach n (Or.inl h)
    · exact hinv.reach n (Or.inr hn)
  · intro v hv' m' he
    rcases hinv.closed v hv' m' he with ⟨rfl, hp⟩ | h | h
    · by_cases hmm : m' = m
      · exact Or.inr (Or.inr ((hH' m').2 (Or.inl hmm)))
      · exact Or.inl ⟨rfl, by simp [hp, hmm]⟩
    · exact Or.inr (Or.inl h)
    · exact Or.inr (Or.inr ((hH' m').2 (Or.inr h)))
  · rcases hinv.start with h | h
    · exact Or.inl h
    · exact Or.inr ((hH' S).2 (Or.inr h))
  · intro n hn
    rcases (hH' n).1 hn with rfl | h
    · exact hv
    · exact hinv.disj n h
  · intro n hn
    by_cases hnm : n = m
    · subst hnm
      right
      refine ⟨c, ?_, hc, hm⟩
      show ((s.Grid.setNode n f).node n).Parent = some c
      rw [AMapGrid.node_setNode_same _ _ _ hlt]
      exact hpar _
    · rcases (hH' n).1 hn with h | h
      · exact absurd h hnm
      · rcases hinv.parentH n h with h1 | ⟨p, h1, h2, h3⟩
        · exact Or.inl h1
        · right
          refine ⟨p, ?_, h2, h3⟩
          show ((s.Grid.setNode m f).node n).Parent = some p
          rw [AMapGrid.node_setNode_other _ _ _ _ hnm]
          exact h1
  · refine VisitedOrdered_congr g0 s.Grid _ S s.Visited ?_ hinv.ordered
    intro v hv'
    have hne : v ≠ m := fun h => hv (h ▸ hv')
    show ((s.Grid.setNode m f).node v).Parent = _
    rw [AMapGrid.node_setNode_other _ _ _ _ hne]

/-- One turn of the neighbour loop keeps the invariant. -/
theorem RelaxNeighbour_inv {g0 : AMapGrid} (hwf : g0.WellFormed) {S E c : Nat}
    {pre : List Nat} {s : SearchState}
    (hinv : SearchInv g0 S E (fun v m' => v = c ∧ m' ∉ pre) s) (m : Nat)
    (hc : c ∈ s.Visited) (hm : m ∈ g0.GetNeighbours c) :
    SearchInv g0 S E (fun v m' => v = c ∧ m' ∉ pre ++ [m]) (RelaxNeighbour E c s m) := by
  have hwalk : (s.Grid.node m).IsWalkable = (g0.node m).IsWalkable :=
    hinv.cells.isWalkable m
  unfold RelaxNeighbour
  split
  · next hcond =>
    apply hinv.skip
    intro he
    left
    have hw : (s.Grid.node m).IsWalkable = true := by rw [hwalk]; exact he.2
    simpa [hw] using hcond
  · next hcond =>
    have hw : (g0.node m).IsWalkable = true := by
      rw [← hwalk]
      by_contra hcon
      exact hcond (by simp [hcon])
    have hv : m ∉ s.Visited := by
      intro hcon
      exact hcond (by simp [hcon])
    simp only
    split
    · split
      · next hnot =>
        have hnH : m ∉ s.ToBeChecked := by simpa using hnot
        refine hinv.update hwf m hc ⟨hm, hw⟩ hv
          (fun n => { n with
            GCost := (s.Grid.node c).GCost + GetCostToNode s.Grid c m
            HCost := GetCostToNode s.Grid m E
            Parent := some c })
          (fun n => ⟨rfl, rfl, rfl, rfl, rfl⟩) (fun n => rfl) _ ?_ ?_
        · intro n
          rw [(HeapPush_perm _ s.ToBeChecked m).mem_iff]
          simp
        · rw [(HeapPush_perm _ s.ToBeChecked m).nodup_iff]
          exact List.nodup_cons.2 ⟨hnH, hinv.nodupH⟩
      · next hin =>
        have hH : m ∈ s.ToBeChecked := by simpa using hin
        have := hinv.update hwf m hc ⟨hm, hw⟩ hv
          (fun n => { n with
            GCost := (s.Grid.node c).GCost + GetCostToNode s.Grid c m
            HCost := GetCostToNode s.Grid m E
            Parent := some c })
          (fun n => ⟨rfl, rfl, rfl, rfl, rfl⟩) (fun n => rfl) s.ToBeChecked
          (fun n => ⟨fun h => Or.inr h, fun h => h.elim (fun e => e ▸ hH) id⟩) hinv.nodupH
        exact this
    · next hno =>
      apply hinv.skip
      intro _
      right
      by_contra hcon
      exact hno (by simp [hcon])

end FPathfinder

/-! ## The search loop -/

namespace FPathfinder

theorem HeapPop_mem (g : AMapGrid) (H : List Nat) (hne : H ≠ []) : (HeapPop g H).1 ∈ H :=
  (HeapPop_perm g H hne).mem_iff.2 (List.mem_cons_self _ _)

theorem SearchInv.card_le {g0 : AMapGrid} (hwf : g0.WellFormed) {S E : Nat}
    {P : Nat → Nat → Prop} {s : SearchState} (hinv : SearchInv g0 S E P s) :
    s.ToBeChecked.length + s.Visited.length ≤ g0.Nodes.length := by
  have hnd : (s.ToBeChecked ++ s.Visited).Nodup :=
    List.nodup_append.2 ⟨hinv.nodupH, hinv.nodupV, fun a ha hb => hinv.disj a ha hb⟩
  have hsub : s.ToBeChecked ++ s.Visited ⊆ List.range g0.Nodes.length := by
    intro n hn
    rw [List.mem_range]
    exact (hinv.valid n (List.mem_append.1 hn)).lt hwf
  have := (List.subperm_of_subset hnd hsub).length_le
  simpa using this

/-- Popping the heap: the popped node was in the heap, is new to `Visited`, and the
invariant holds for the state the neighbour loop starts from. -/
theorem SearchInv.pop {g0 : AMapGrid} {S E : Nat} {s : SearchState}
    (hinv : SearchInv g0 S E (fun _ _ => False) s) (hne : s.ToBeChecked ≠ []) :
    (HeapPop s.Grid s.ToBeChecked).1 ∈ s.ToBeChecked ∧
    s.Visited.insert (HeapPop s.Grid s.ToBeChecked).1
      = (HeapPop s.Grid s.ToBeChecked).1 :: s.Visited ∧
    VisitedOrdered g0 s.Grid S ((HeapPop s.Grid s.ToBeChecked).1 :: s.Visited) ∧
    ((HeapPop s.Grid s.ToBeChecked).1 ≠ E →
      SearchInv g0 S E (fun v m' => v = (HeapPop s.Grid s.ToBeChecked).1 ∧ m' ∉ [])
        { s with
          ToBeChecked := (HeapPop s.Grid s.ToBeChecked).2
          Visited := s.Visited.insert (HeapPop s.Grid s.ToBeChecked).1 }) := by
  have hperm := HeapPop_perm s.Grid s.ToBeChecked hne
  generalize (HeapPop s.Grid s.ToBeChecked).1 = c at hperm
  generalize (HeapPop s.Grid s.ToBeChecked).2 = H' at hperm
  have hcH : c ∈ s.ToBeChecked := hperm.mem_iff.2 (List.mem_cons_self _ _)
  have hcV : c ∉ s.Visited := hinv.disj c hcH
  have hins : s.Visited.insert c = c :: s.Visited := List.insert_of_not_mem hcV
  have hnd : (c :: H').Nodup := hperm.nodup_iff.1 hinv.nodupH
  have hsubH : ∀ n, n ∈ H' → n ∈ s.ToBeChecked :=
    fun n hn => hperm.mem_iff.2 (List.mem_cons_of_mem _ hn)
  have hord : VisitedOrdered g0 s.Grid S (c :: s.Visited) := by
    refine ⟨?_, hinv.ordered⟩
    rcases hinv.parentH c hcH with h | ⟨p, h1, h2, h3⟩
    · exact Or.inl h
    · exact Or.inr ⟨p, h1, h2, h3⟩
  refine ⟨hcH, hins, hord, ?_⟩
  intro hcE
  rw [hins]
  refine ⟨hinv.cells, ?_, ?_, ?_, ?_, ?_, (List.nodup_cons.1 hnd).2,
    List.nodup_cons.2 ⟨hcV, hinv.nodupV⟩, ?_, ?_, hord⟩
  · rintro n (hn | hn)
    · exact hinv.valid n (Or.inl (hsubH n hn))
    · rcases List.mem_cons.1 hn with rfl | h
      · exact hinv.valid n (Or.inl hcH)
      · exact hinv.valid n (Or.inr h)
  · rintro n (hn | hn)
    · exact hinv.reach n (Or.inl (hsubH n hn))
    · rcases List.mem_cons.1 hn with rfl | h
      · exact hinv.reach n (Or.inl hcH)
      · exact hinv.reach n (Or.inr h)
  · intro v hv m' he
    rcases List.mem_cons.1 hv with rfl | h
    · exact Or.inl ⟨rfl, List.not_mem_nil _⟩
    · rcases hinv.closed v h m' he with hf | h' | h'
      · exact absurd hf id
      · exact Or.inr (Or.inl (List.mem_cons_of_mem _ h'))
      · rcases List.mem_cons.1 (hperm.mem_iff.1 h') with rfl | h''
        · exact Or.inr (Or.inl (List.mem_cons_self _ _))
        · exact Or.inr (Or.inr h'')
  · intro hE
    rcases List.mem_cons.1 hE with h | h
    · exact hcE h.symm
    · exact hinv.endNot h
  · rcases hinv.start with h | h
    · exact Or.inl (List.mem_cons_of_mem _ h)
    · rcases List.mem_cons.1 (hperm.mem_iff.1 h) with rfl | h'
      · exact Or.inl (List.mem_cons_self _ _)
      · exact Or.inr h'
  · intro n hn hV
    rcases List.mem_cons.1 hV with rfl | h
    · exact (List.nodup_cons.1 hnd).1 hn
    · exact hinv.disj n (hsubH n hn) h
  · intro n hn
    rcases hinv.parentH n (hsubH n hn) with h | ⟨p, h1, h2, h3⟩
    · exact Or.inl h
    · exact Or.inr ⟨p, h1, List.mem_cons_of_mem _ h2, h3⟩

/-- The whole neighbour loop re-establishes the loop-head invariant. -/
theorem relaxFold_inv {g0 : AMapGrid} (hwf : g0.WellFormed) {S E c : Nat} {s1 : SearchState}
    (hinv : SearchInv g0 S E (fun v m' => v = c ∧ m' ∉ []) s1) (hc : c ∈ s1.Visited) :
    SearchInv g0 S E (fun _ _ => False)
        ((s1.Grid.GetNeighbours c).foldl (RelaxNeighbour E c) s1) ∧
      ((s1.Grid.GetNeighbours c).foldl (RelaxNeighbour E c) s1).Visited = s1.Visited := by
  rw [hinv.cells.getNeighbours]
  have H := foldl_inv_prefix (RelaxNeighbour E c)
    (fun pre s => SearchInv g0 S E (fun v m' => v = c ∧ m' ∉ pre) s ∧ s.Visited = s1.Visited)
    (g0.GetNeighbours c) s1 ⟨hinv, rfl⟩
    (fun pre m s hm hI =>
      ⟨RelaxNeighbour_inv hwf hI.1 m (hI.2 ▸ hc) hm,
        (RelaxNeighbour_visited E c s m).trans hI.2⟩)
  refine ⟨{ H.1 with closed := ?_ }, H.2⟩
  intro v hv m' he
  rcases H.1.closed v hv m' he with ⟨rfl, hp⟩ | h
  · exact absurd he.1 hp
  · exact Or.inr h

/-- Following parent links from a visited node reaches the start node within the fuel. -/
theorem GetPathLoop_ordered (g0 g : AMapGrid) (S : Nat) (L : List Nat)
    (ho : VisitedOrdered g0 g S L) :
    ∀ v ∈ L, ∀ fuel, L.length < fuel → ∀ acc,
      ∃ P, GetPathLoop g S fuel v acc = some (acc ++ P) ∧ IsParentChain g0 g S v P := by
  induction L with
  | nil => intro v hv; exact absurd hv (List.not_mem_nil _)
  | cons w B ih =>
    obtain ⟨hw, hB⟩ := ho
    intro v hv fuel hfuel acc
    rcases List.mem_cons.1 hv with rfl | hvB
    · cases fuel with
      | zero => exact absurd hfuel (Nat.not_lt_zero _)
      | succ k =>
        by_cases hvS : v = S
        · refine ⟨[], ?_, hvS⟩
          simp [GetPathLoop, hvS]
        · rcases hw with h | ⟨p, h1, h2, h3⟩
          · exact absurd h hvS
          · obtain ⟨P', hP', hchain⟩ := ih hB p h2 k
              (by simp only [List.length_cons] at hfuel; omega) (acc ++ [v])
            refine ⟨v :: P', ?_, hvS, rfl, p, h1, h3, hchain⟩
            rw [GetPathLoop, if_neg hvS, h1]
            simp only
            rw [hP']
            simp
    · exact ih hB v hvB fuel (by simp only [List.length_cons] at hfuel; omega) acc

/-- With the heap empty, every node reachable from the start node has been visited. -/
theorem SearchInv.visited_of_reachable {g0 : AMapGrid} {S E : Nat} {s : SearchState}
    (hinv : SearchInv g0 S E (fun _ _ => False) s) (hemp : s.ToBeChecked = []) (n : Nat)
    (hr : g0.Reachable S n) : n ∈ s.Visited := by
  induction hr with
  | refl =>
    rcases hinv.start with h | h
    · exact h
    · rw [hemp] at h
      exact absurd h (List.not_mem_nil _)
  | tail _ he ih =>
    rcases hinv.closed _ ih _ he with h | h | h
    · exact absurd h id
    · exact h
    · rw [hemp] at h
      exact absurd h (List.not_mem_nil _)

/-- The search loop returns, and its result meets `SearchPost`. -/
theorem SearchLoop_spec {g0 : AMapGrid} (hwf : g0.WellFormed) (S E : Nat) :
    ∀ fuel s, SearchInv g0 S E (fun _ _ => False) s →
      g0.Nodes.length + 1 ≤ fuel + s.Visited.length →
      ∃ r, SearchLoop S E fuel s = some r ∧ SearchPost g0 S E r := by
  intro fuel
  induction fuel with
  | zero =>
    intro s hinv hfuel
    have := hinv.card_le hwf
    omega
  | succ k ih =>
    intro s hinv hfuel
    rw [SearchLoop]
    by_cases hemp : s.ToBeChecked = []
    · refine ⟨(false, [], s), by simp [hemp], ?_, fun _ => rfl, hinv.cells, ?_⟩
      · constructor
        · intro h
          exact absurd h (by simp)
        · intro hr
          exact absurd (hinv.visited_of_reachable hemp E hr) hinv.endNot
      · intro h
        exact absurd h (by simp)
    · have hne : s.ToBeChecked.isEmpty = false := by
        cases hH : s.ToBeChecked with
        | nil => exact absurd hH hemp
        | cons a t => rfl
      simp only [hne, Bool.false_eq_true, if_false]
      obtain ⟨hcH, hins, hord, hstep⟩ := hinv.pop hemp
      have hcard := hinv.card_le hwf
      have hHpos : 0 < s.ToBeChecked.length := List.length_pos.2 hemp
      by_cases hcE : (HeapPop s.Grid s.ToBeChecked).1 = E
      · rw [if_pos hcE]
        rw [hcE] at hord hcH
        obtain ⟨P, hP, hchain⟩ := GetPathLoop_ordered g0 s.Grid S _ hord E
          (List.mem_cons_self _ _) (s.Grid.Nodes.length + 1)
          (by
            rw [hinv.cells.1.2.2.2.2.2.2.2.2.2]
            simp only [List.length_cons]
            omega) []
        refine ⟨(true, P,
          { s with
            ToBeChecked := (HeapPop s.Grid s.ToBeChecked).2
            Visited := s.Visited.insert (HeapPop s.Grid s.ToBeChecked).1 }),
          ?_, ?_, ?_, hinv.cells, fun _ => hchain⟩
        · unfold GetPath
          rw [hP]
          rfl
        · exact ⟨fun _ => hinv.reach E (Or.inl hcH), fun _ => rfl⟩
        · intro h
          exact absurd h (by simp)
      · rw [if_neg hcE]
        have hinv1 := hstep hcE
        have hc1 : (HeapPop s.Grid s.ToBeChecked).1 ∈
            s.Visited.insert (HeapPop s.Grid s.ToBeChecked).1 := by
          rw [hins]
          exact List.mem_cons_self _ _
        obtain ⟨hinv2, hV2⟩ := relaxFold_inv hwf hinv1 hc1
        apply ih _ hinv2
        rw [hV2]
        simp only
        rw [hins]
        simp only [List.length_cons]
        omega

end FPathfinder

/-! ## FindPath when the search runs -/

namespace FPathfinder

theorem HeapPush_nil (g : AMapGrid) (x : Nat) : HeapPush g [] x = [x] := by
  simp [HeapPush, HeapSiftUp]

/-- The state `FindPath` enters its loop with satisfies the search invariant. -/
theorem SearchInv.init (g : AMapGrid) (S E : Nat) (hS : g.ValidNode S)
    (f : FGridNode → FGridNode) (hf : ∀ n : FGridNode, n.SameCell (f n)) :
    SearchInv g S E (fun _ _ => False)
      { Grid := g.setNode S f, ToBeChecked := HeapPush (g.setNode S f) [] S, Visited := [] } := by
  rw [HeapPush_nil]
  refine ⟨g.setNode_sameCells S f hf, ?_, ?_, ?_, List.not_mem_nil _, Or.inr (List.mem_singleton_self _),
    List.nodup_singleton _, List.nodup_nil, fun _ _ => List.not_mem_nil _, ?_, trivial⟩
  · rintro n (hn | hn)
    · rw [List.mem_singleton.1 hn]; exact hS
    · exact absurd hn (List.not_mem_nil _)
  · rintro n (hn | hn)
    · rw [List.mem_singleton.1 hn]; exact Relation.ReflTransGen.refl
    · exact absurd hn (List.not_mem_nil _)
  · intro v hv
    exact absurd hv (List.not_mem_nil _)
  · intro n hn
    exact Or.inl (List.mem_singleton.1 hn)

/-- A call of `FindPath` that runs the search returns, and its result is described by
reachability in the search graph and by the parent chain of the target. -/
theorem FindPath_search_spec (pf : FPathfinder) (g : AMapGrid) (hwf : g.WellFormed)
    (LineTrace : FVector → FVector → Bool) (PlayerLocation From To : FVector)
    (Path : List Nat)
    (hrun : some (GetTargetNode g LineTrace PlayerLocation To) ≠ pf.OldEndNode) :
    ∃ r, FindPath pf g LineTrace PlayerLocation From To Path = some r ∧
      r.bOutPlayerHasMoved = true ∧
      (r.Return = true ↔ g.Reachable (g.GetNodeFromWorldLocation From)
        (GetTargetNode g LineTrace PlayerLocation To)) ∧
      (r.Return = false → r.Path = []) ∧
      g.SameCells r.Grid ∧
      (r.Return = true → IsParentChain g r.Grid (g.GetNodeFromWorldLocation From)
        (GetTargetNode g LineTrace PlayerLocation To) r.Path) := by
  obtain ⟨r, hr, hpost⟩ := SearchLoop_spec hwf (g.GetNodeFromWorldLocation From)
    (GetTargetNode g LineTrace PlayerLocation To) (g.Nodes.length + 1) _
    (SearchInv.init g (g.GetNodeFromWorldLocation From)
      (GetTargetNode g LineTrace PlayerLocation To)
      (g.validNode_GetNodeFromWorldLocation hwf From)
      (fun n => { n with GCost := 0, HCost := 0 }) (fun n => ⟨rfl, rfl, rfl, rfl, rfl⟩))
    (by simp)
  refine ⟨{ Return := r.1, Path := r.2.1, bOutPlayerHasMoved := true, Grid := r.2.2.Grid,
            Pathfinder :=
              if !g.bDrawPath then
                { pf with OldEndNode := some (GetTargetNode g LineTrace PlayerLocation To) }
              else pf }, ?_, ?_⟩
  · unfold FindPath
    simp only [if_neg hrun]
    rw [hr]
    rfl
  · exact ⟨rfl, hpost.found_iff, hpost.notFound_path, hpost.cells, hpost.chain⟩

/-! ### What a parent chain says about the path -/

theorem IsParentChain.nil_iff {g0 g : AMapGrid} {S v : Nat} {P : List Nat}
    (h : IsParentChain g0 g S v P) : P = [] ↔ v = S := by
  cases P with
  | nil => exact ⟨fun _ => h, fun _ => rfl⟩
  | cons a t => exact ⟨fun e => absurd e (by simp), fun e => absurd e h.1⟩

theorem IsParentChain.head {g0 g : AMapGrid} {S v : Nat} {P : List Nat}
    (h : IsParentChain g0 g S v P) (hne : v ≠ S) : P.head? = some v := by
  cases P with
  | nil => exact absurd h hne
  | cons a t => simp [h.2.1]

theorem IsParentChain.start_not_mem {g0 g : AMapGrid} {S v : Nat} {P : List Nat}
    (h : IsParentChain g0 g S v P) : S ∉ P := by
  induction P generalizing v with
  | nil => exact List.not_mem_nil _
  | cons a t ih =>
    obtain ⟨h1, h2, p, _, _, h5⟩ := h
    intro hmem
    rcases List.mem_cons.1 hmem with e | e
    · exact h1 (h2 ▸ e.symm)
    · exact ih h5 e

theorem IsParentChain.parents {g0 g : AMapGrid} {S v : Nat} {P : List Nat}
    (h : IsParentChain g0 g S v P) :
    List.Chain' (fun a b => (g.node a).Parent = some b) P := by
  induction P generalizing v with
  | nil => exact List.chain'_nil
  | cons a t ih =>
    obtain ⟨h1, h2, p, h3, _, h5⟩ := h
    cases t with
    | nil => exact List.chain'_singleton _
    | cons b u =>
      refine List.chain'_cons.2 ⟨?_, ih h5⟩
      rw [h2, h3, h5.2.1]

theorem IsParentChain.last {g0 g : AMapGrid} {S v : Nat} {P : List Nat}
    (h : IsParentChain g0 g S v P) (hne : v ≠ S) :
    ∃ l, P.getLast? = some l ∧ (g.node l).Parent = some S ∧ g0.Edge S l := by
  induction P generalizing v with
  | nil => exact absurd h hne
  | cons a t ih =>
    obtain ⟨h1, h2, p, h3, h4, h5⟩ := h
    cases t with
    | nil =>
      have hp : p = S := h5
      subst hp
      exact ⟨a, rfl, by rw [h2]; exact h3, by rw [h2]; exact h4⟩
    | cons b u =>
      obtain ⟨l, hl, hl'⟩ := ih h5 h5.1
      exact ⟨l, by rw [List.getLast?_cons_cons]; exact hl, hl'⟩

/-- Read from its end, `P ++ [S]` is a walk in the search graph from `S` to `v`. -/
theorem IsParentChain.route {g0 g : AMapGrid} {S v : Nat} {P : List Nat}
    (h : IsParentChain g0 g S v P) :
    List.Chain' (fun a b => g0.Edge b a) (P ++ [S]) ∧ (P ++ [S]).head? = some v := by
  induction P generalizing v with
  | nil =>
    have hv : v = S := h
    subst hv
    exact ⟨List.chain'_singleton _, rfl⟩
  | cons a t ih =>
    obtain ⟨h1, h2, p, h3, h4, h5⟩ := h
    obtain ⟨ic, ihd⟩ := ih h5
    refine ⟨?_, by simp [h2]⟩
    rw [List.cons_append]
    refine List.chain'_cons'.2 ⟨?_, ic⟩
    intro y hy
    rw [ihd] at hy
    have : p = y := Option.some.inj hy
    rw [h2, ← this]
    exact h4

end FPathfinder

/-! ## Example grids for the pathfinder -/

theorem grid12Blocked_wellFormed : grid12Blocked.WellFormed :=
  AMapGrid.CreateGrid_wellFormed (overlapAt ⟨-50, -100, 50⟩) actor12 grid12Blocked
    (by decide!) (by decide!) (by decide!) (by decide!)

theorem grid12_first :
    FPathfinder.FindPath {} grid12Blocked noTrace grid12Pos0 grid12Pos10 grid12Pos0 []
      = some grid12First := by
  decide!

theorem grid12Blocked_runs :
    some (FPathfinder.GetTargetNode grid12Blocked noTrace grid12Pos0 grid12Pos0)
      ≠ ({} : FPathfinder).OldEndNode := by
  decide!

/-! ## Claims about `FindPath` -/

/-- C5: on a call that runs the search (the resolved target differs from the stored
previous target) `FindPath` returns, and it reports found exactly when the resolved
target node is the start node or is reached from it by a chain of steps, each to a
walkable 26-neighbour; when it reports not-found the output path is empty. -/
theorem FindPath_found_iff_walkable_chain (pf : FPathfinder) (g : AMapGrid)
    (hwf : g.WellFormed) (LineTrace : FVector → FVector → Bool)
    (PlayerLocation From To : FVector) (Path : List Nat)
    (hrun : some (FPathfinder.GetTargetNode g LineTrace PlayerLocation To) ≠ pf.OldEndNode) :
    ∃ r, FPathfinder.FindPath pf g LineTrace PlayerLocation From To Path = some r ∧
      (r.Return = true ↔
        (FPathfinder.GetTargetNode g LineTrace PlayerLocation To
            = g.GetNodeFromWorldLocation From ∨
          Relation.TransGen g.Edge (g.GetNodeFromWorldLocation From)
            (FPathfinder.GetTargetNode g LineTrace PlayerLocation To))) ∧
      (r.Return = false → r.Path = []) := by
  obtain ⟨r, hr, _, hiff, hnf, _, _⟩ :=
    FPathfinder.FindPath_search_spec pf g hwf LineTrace PlayerLocation From To Path hrun
  exact ⟨r, hr, hiff.trans Relation.reflTransGen_iff_eq_or_transGen, hnf⟩

/-- Witness of C5: the search from node 10 to node 0 of `grid12Blocked`. -/
theorem FindPath_found_iff_walkable_chain_witness :
    grid12Blocked.WellFormed ∧
    some (FPathfinder.GetTargetNode grid12Blocked noTrace grid12Pos0 grid12Pos0)
      ≠ ({} : FPathfinder).OldEndNode ∧
    ∃ r, FPathfinder.FindPath {} grid12Blocked noTrace grid12Pos0 grid12Pos10 grid12Pos0 []
        = some r ∧
      (r.Return = true ↔
        (FPathfinder.GetTargetNode grid12Blocked noTrace grid12Pos0 grid12Pos0
            = grid12Blocked.GetNodeFromWorldLocation grid12Pos10 ∨
          Relation.TransGen grid12Blocked.Edge
            (grid12Blocked.GetNodeFromWorldLocation grid12Pos10)
            (FPathfinder.GetTargetNode grid12Blocked noTrace grid12Pos0 grid12Pos0))) ∧
      (r.Return = false → r.Path = []) :=
  ⟨grid12Blocked_wellFormed, grid12Blocked_runs,
    FindPath_found_iff_walkable_chain {} grid12Blocked grid12Blocked_wellFormed noTrace
      grid12Pos0 grid12Pos10 grid12Pos0 [] grid12Blocked_runs⟩

/-- C7 (amended): whenever `FindPath` returns a path after running the search, that path
is a route in the search graph: `Path ++ [start]` begins with the target node and each of
its elements is a walkable 26-neighbour of the element after it. Nothing is claimed
about its total edge cost. -/
theorem FindPath_path_is_walkable_route (pf : FPathfinder) (g : AMapGrid)
    (hwf : g.WellFormed) (LineTrace : FVector → FVector → Bool)
    (PlayerLocation From To : FVector) (Path : List Nat)
    (hrun : some (FPathfinder.GetTargetNode g LineTrace PlayerLocation To) ≠ pf.OldEndNode)
    (r : FindPathResult)
    (hr : FPathfinder.FindPath pf g LineTrace PlayerLocation From To Path = some r)
    (hfound : r.Return = true) :
    List.Chain' (fun a b => g.Edge b a) (r.Path ++ [g.GetNodeFromWorldLocation From]) ∧
    (r.Path ++ [g.GetNodeFromWorldLocation From]).head?
      = some (FPathfinder.GetTargetNode g LineTrace PlayerLocation To) := by
  obtain ⟨r', hr', _, _, _, _, hchain⟩ :=
    FPathfinder.FindPath_search_spec pf g hwf LineTrace PlayerLocation From To Path hrun
  have he : r' = r := Option.some.inj (hr'.symm.trans hr)
  subst he
  exact (hchain hfound).route

/-- Witness of C7 (amended): the path `[0, 4, 6]` found from node 10 to node 0. -/
theorem FindPath_path_is_walkable_route_witness :
    grid12Blocked.WellFormed ∧
    FPathfinder.FindPath {} grid12Blocked noTrace grid12Pos0 grid12Pos10 grid12Pos0 []
      = some grid12First ∧
    grid12First.Return = true ∧
    List.Chain' (fun a b => grid12Blocked.Edge b a)
      (grid12First.Path ++ [grid12Blocked.GetNodeFromWorldLocation grid12Pos10]) ∧
    (grid12First.Path ++ [grid12Blocked.GetNodeFromWorldLocation grid12Pos10]).head?
      = some (FPathfinder.GetTargetNode grid12Blocked noTrace grid12Pos0 grid12Pos0) :=
  ⟨grid12Blocked_wellFormed, grid12_first, by decide!,
    FindPath_path_is_walkable_route {} grid12Blocked grid12Blocked_wellFormed noTrace
      grid12Pos0 grid12Pos10 grid12Pos0 [] grid12Blocked_runs grid12First grid12_first
      (by decide!)⟩

/-- C7 (counterexample): on the 4 x 3 grid with cell `(1, 0)` blocked, the search from
node 10 (cell `(3, 1)`) to node 0 (cell `(0, 0)`) returns the path `[0, 4, 6]`, of total
edge cost 60000, although the route `[0, 4, 7]` (steps 10 to 7 to 4 to 0, each to a
walkable neighbour) costs 40000. -/
theorem FindPath_path_not_cheapest :
    grid12Blocked.GetNodeFromWorldLocation grid12Pos10 = 10 ∧
    FPathfinder.GetTargetNode grid12Blocked noTrace grid12Pos0 grid12Pos0 = 0 ∧
    (FPathfinder.FindPath {} grid12Blocked noTrace grid12Pos0 grid12Pos10 grid12Pos0 []).map
        (fun r => (r.Return, r.Path)) = some (true, [0, 4, 6]) ∧
    RouteCost grid12Blocked ([0, 4, 6] ++ [10]) = 60000 ∧
    (grid12Blocked.Edge 10 7 ∧ grid12Blocked.Edge 7 4 ∧ grid12Blocked.Edge 4 0) ∧
    RouteCost grid12Blocked ([0, 4, 7] ++ [10]) = 40000 :=
  ⟨by decide!, by decide!, by decide!, by decide!, by decide!, by decide!⟩

theorem AMapGrid.Reachable.valid {g : AMapGrid} {S n : Nat} (hS : g.ValidNode S)
    (h : g.Reachable S n) : g.ValidNode n := by
  induction h with
  | refl => exact hS
  | tail _ he _ => exact g.validNode_of_mem_GetNeighbours he.1

theorem AMapGrid.Reachable.eq_or_walkable {g : AMapGrid} {S n : Nat}
    (h : g.Reachable S n) : n = S ∨ (g.node n).IsWalkable = true := by
  induction h with
  | refl => exact Or.inl rfl
  | tail _ he _ => exact Or.inr he.2

/-- A target all of whose neighbours are unwalkable is reached only from itself or, when
it is walkable, in one step from a start node that is its neighbour. -/
theorem AMapGrid.not_reachable_of_enclosed (g : AMapGrid) (hwf : g.WellFormed) {S E : Nat}
    (hS : g.ValidNode S)
    (hall : ∀ m ∈ g.GetNeighbours E, (g.node m).IsWalkable = false) (hne : S ≠ E)
    (hexc : ¬ (S ∈ g.GetNeighbours E ∧ (g.node E).IsWalkable = true)) :
    ¬ g.Reachable S E := by
  intro hr
  rcases Relation.ReflTransGen.cases_tail hr with h | ⟨c, hc, he⟩
  · exact hne h.symm
  · have hcE : c ∈ g.GetNeighbours E :=
      g.GetNeighbours_symm hwf (AMapGrid.Reachable.valid hS hc) he.1
    rcases AMapGrid.Reachable.eq_or_walkable hc with h | h
    · exact hexc ⟨h ▸ hcE, he.2⟩
    · rw [hall c hcE] at h
      exact absurd h (by simp)

theorem grid12First_found : grid12First.Return = true := by
  decide!

/-- C8 (amended): if every neighbour of the resolved target node is unwalkable, then a
call of `FindPath` that runs the search, from a start node other than the target,
reports not-found and empties the output path, unless the start node is itself a
neighbour of a walkable target (the start node's own walkability is never tested). -/
theorem FindPath_enclosed_target_not_found (pf : FPathfinder) (g : AMapGrid)
    (hwf : g.WellFormed) (LineTrace : FVector → FVector → Bool)
    (PlayerLocation From To : FVector) (Path : List Nat)
    (hrun : some (FPathfinder.GetTargetNode g LineTrace PlayerLocation To) ≠ pf.OldEndNode)
    (hall : ∀ m ∈ g.GetNeighbours (FPathfinder.GetTargetNode g LineTrace PlayerLocation To),
      (g.node m).IsWalkable = false)
    (hne : g.GetNodeFromWorldLocation From
      ≠ FPathfinder.GetTargetNode g LineTrace PlayerLocation To)
    (hexc : ¬ (g.GetNodeFromWorldLocation From
          ∈ g.GetNeighbours (FPathfinder.GetTargetNode g LineTrace PlayerLocation To) ∧
        (g.node (FPathfinder.GetTargetNode g LineTrace PlayerLocation To)).IsWalkable
          = true)) :
    ∃ r, FPathfinder.FindPath pf g LineTrace PlayerLocation From To Path = some r ∧
      r.Return = false ∧ r.Path = [] := by
  obtain ⟨r, hr, _, hiff, hnf, _, _⟩ :=
    FPathfinder.FindPath_search_spec pf g hwf LineTrace PlayerLocation From To Path hrun
  have hnot : ¬ r.Return = true := fun h =>
    g.not_reachable_of_enclosed hwf (g.validNode_GetNodeFromWorldLocation hwf From) hall hne
      hexc (hiff.1 h)
  have hfalse : r.Return = false := Bool.eq_false_iff.2 hnot
  exact ⟨r, hr, hfalse, hnf hfalse⟩

theorem grid3BlockedMid_wellFormed : grid3BlockedMid.WellFormed :=
  AMapGrid.CreateGrid_wellFormed (overlapAt ⟨0, 0, 50⟩) actor3 grid3BlockedMid
    (by decide!) (by decide!) (by decide!) (by decide!)

/-- Witness of C8 (amended): from node 0 to node 2 of the three-cell row whose middle
cell is blocked. -/
theorem FindPath_enclosed_target_not_found_witness :
    grid3BlockedMid.WellFormed ∧
    some (FPathfinder.GetTargetNode grid3BlockedMid noTrace grid3Pos2 grid3Pos2)
      ≠ ({} : FPathfinder).OldEndNode ∧
    (∀ m ∈ grid3BlockedMid.GetNeighbours
        (FPathfinder.GetTargetNode grid3BlockedMid noTrace grid3Pos2 grid3Pos2),
      (grid3BlockedMid.node m).IsWalkable = false) ∧
    grid3BlockedMid.GetNodeFromWorldLocation grid3Pos0
      ≠ FPathfinder.GetTargetNode grid3BlockedMid noTrace grid3Pos2 grid3Pos2 ∧
    ∃ r, FPathfinder.FindPath {} grid3BlockedMid noTrace grid3Pos2 grid3Pos0 grid3Pos2 [5]
        = some r ∧ r.Return = false ∧ r.Path = [] :=
  ⟨grid3BlockedMid_wellFormed, by decide!, by decide!, by decide!,
    FindPath_enclosed_target_not_found {} grid3BlockedMid grid3BlockedMid_wellFormed noTrace
      grid3Pos2 grid3Pos0 grid3Pos2 [5] (by decide!) (by decide!) (by decide!)
      (by decide!)⟩

/-- C8 (counterexample): on the two-cell grid whose node 0 is unwalkable, the only
neighbour of the target node 1 is node 0, yet the search from node 0 reports found with
the path `[1]`. And on the three-cell row with the middle cell blocked and `bDrawPath`
off, the call right after a not-found search to the enclosed node 2 returns `true`. -/
theorem FindPath_enclosed_target_found :
    (grid2Blocked0.GetNodeFromWorldLocation grid2Pos0 = 0 ∧
      FPathfinder.GetTargetNode grid2Blocked0 noTrace grid2Pos1 grid2Pos1 = 1 ∧
      (∀ m ∈ grid2Blocked0.GetNeighbours 1, (grid2Blocked0.node m).IsWalkable = false) ∧
      (FPathfinder.FindPath {} grid2Blocked0 noTrace grid2Pos1 grid2Pos0 grid2Pos1 []).map
        (fun r => (r.Return, r.Path)) = some (true, [1])) ∧
    (grid3BlockedMid.GetNodeFromWorldLocation grid3Pos0 = 0 ∧
      FPathfinder.GetTargetNode grid3First.Grid noTrace grid3Pos2 grid3Pos2 = 2 ∧
      (∀ m ∈ grid3First.Grid.GetNeighbours 2, (grid3First.Grid.node m).IsWalkable = false) ∧
      FPathfinder.FindPath {} grid3BlockedMid noTrace grid3Pos2 grid3Pos0 grid3Pos2 []
        = some grid3First ∧
      grid3First.Return = false ∧
      (FPathfinder.FindPath grid3First.Pathfinder grid3First.Grid noTrace grid3Pos2
          grid3Pos0 grid3Pos2 []).map (fun r => r.Return) = some true) :=
  ⟨⟨by decide!, by decide!, by decide!, by decide!⟩,
    ⟨by decide!, by decide!, by decide!, by decide!, by decide!, by decide!⟩⟩

/-- C9: after a successful search with start node different from the target node, the
returned path begins with the target node, ends with a node that is a 26-neighbour of
the start node (and whose parent is the start node), each element has the next element
as its `Parent`, and the start node is not in the path; when start and target are the
same node the path is empty. -/
theorem FindPath_path_target_to_start (pf : FPathfinder) (g : AMapGrid)
    (hwf : g.WellFormed) (LineTrace : FVector → FVector → Bool)
    (PlayerLocation From To : FVector) (Path : List Nat)
    (hrun : some (FPathfinder.GetTargetNode g LineTrace PlayerLocation To) ≠ pf.OldEndNode)
    (r : FindPathResult)
    (hr : FPathfinder.FindPath pf g LineTrace PlayerLocation From To Path = some r)
    (hfound : r.Return = true) :
    (g.GetNodeFromWorldLocation From
        = FPathfinder.GetTargetNode g LineTrace PlayerLocation To → r.Path = []) ∧
    (g.GetNodeFromWorldLocation From
        ≠ FPathfinder.GetTargetNode g LineTrace PlayerLocation To →
      r.Path.head? = some (FPathfinder.GetTargetNode g LineTrace PlayerLocation To) ∧
      (∃ l, r.Path.getLast? = some l ∧
        l ∈ g.GetNeighbours (g.GetNodeFromWorldLocation From) ∧
        (r.Grid.node l).Parent = some (g.GetNodeFromWorldLocation From)) ∧
      List.Chain' (fun a b => (r.Grid.node a).Parent = some b) r.Path ∧
      g.GetNodeFromWorldLocation From ∉ r.Path) := by
  obtain ⟨r', hr', _, _, _, _, hchain⟩ :=
    FPathfinder.FindPath_search_spec pf g hwf LineTrace PlayerLocation From To Path hrun
  have he : r' = r := Option.some.inj (hr'.symm.trans hr)
  subst he
  have hc := hchain hfound
  refine ⟨fun h => hc.nil_iff.2 h.symm, fun h => ?_⟩
  obtain ⟨l, hl, hp, hedge⟩ := hc.last (fun e => h e.symm)
  exact ⟨hc.head (fun e => h e.symm), ⟨l, hl, hedge.1, hp⟩, hc.parents, hc.start_not_mem⟩

/-- Witness of C9: the path `[0, 4, 6]` found from node 10 to node 0 of `grid12Blocked`. -/
theorem FindPath_path_target_to_start_witness :
    grid12Blocked.WellFormed ∧
    FPathfinder.FindPath {} grid12Blocked noTrace grid12Pos0 grid12Pos10 grid12Pos0 []
      = some grid12First ∧
    grid12First.Return = true ∧
    grid12First.Path = [0, 4, 6] ∧
    grid12Blocked.GetNodeFromWorldLocation grid12Pos10
      ≠ FPathfinder.GetTargetNode grid12Blocked noTrace grid12Pos0 grid12Pos0 ∧
    (grid12First.Path.head?
        = some (FPathfinder.GetTargetNode grid12Blocked noTrace grid12Pos0 grid12Pos0) ∧
      (∃ l, grid12First.Path.getLast? = some l ∧
        l ∈ grid12Blocked.GetNeighbours (grid12Blocked.GetNodeFromWorldLocation grid12Pos10) ∧
        (grid12First.Grid.node l).Parent
          = some (grid12Blocked.GetNodeFromWorldLocation grid12Pos10)) ∧
      List.Chain' (fun a b => (grid12First.Grid.node a).Parent = some b) grid12First.Path ∧
      grid12Blocked.GetNodeFromWorldLocation grid12Pos10 ∉ grid12First.Path) :=
  ⟨grid12Blocked_wellFormed, grid12_first, grid12First_found, by decide!, by decide!,
    (FindPath_path_target_to_start {} grid12Blocked grid12Blocked_wellFormed noTrace
      grid12Pos0 grid12Pos10 grid12Pos0 [] grid12Blocked_runs grid12First grid12_first
      grid12First_found).2 (by decide!)⟩

/-! ## The root of the heap after a push -/

theorem getD_mem (H : List Nat) (j : Nat) (hj : j < H.length) : H.getD j 0 ∈ H := by
  rw [List.getD_eq_getElem?_getD, List.getElem?_eq_getElem hj]
  exact List.getElem_mem hj

namespace DiagCtx

variable {g : AMapGrid} {D S E : Nat}

end DiagCtx

namespace DiagCtx

variable {g : AMapGrid} {D S E : Nat}

end DiagCtx

/-! ## One turn of the neighbour loop, case by case -/

namespace FPathfinder

/-- The three ways a turn of the neighbour loop can go: nothing changes; the scratch
fields of a node already in the heap are rewritten in place; or they are rewritten and
the node is pushed. -/
theorem RelaxNeighbour_cases (E c : Nat) (s : SearchState) (m : Nat) :
    (RelaxNeighbour E c s m = s ∧
      ((s.Grid.node m).IsWalkable = false ∨ m ∈ s.Visited ∨ m ∈ s.ToBeChecked)) ∨
    ((s.Grid.node m).IsWalkable = true ∧ m ∉ s.Visited ∧ m ∈ s.ToBeChecked ∧
      RelaxNeighbour E c s m = { s with Grid := relaxedGrid E c s m }) ∨
    ((s.Grid.node m).IsWalkable = true ∧ m ∉ s.Visited ∧ m ∉ s.ToBeChecked ∧
      RelaxNeighbour E c s m
        = { s with
            Grid := relaxedGrid E c s m
            ToBeChecked := HeapPush (relaxedGrid E c s m) s.ToBeChecked m }) := by
  unfold RelaxNeighbour relaxedGrid
  by_cases hw : (s.Grid.node m).IsWalkable = true
  · by_cases hv : m ∈ s.Visited
    · left
      simp [hw, hv]
    · by_cases hH : m ∈ s.ToBeChecked
      · by_cases hlt : (s.Grid.node c).GCost + GetCostToNode s.Grid c m < (s.Grid.node m).GCost
        · right; left
          simp [hw, hv, hH, hlt]
        · left
          simp [hw, hv, hH, hlt]
      · right; right
        simp [hw, hv, hH]
  · left
    have hw' : (s.Grid.node m).IsWalkable = false := Bool.eq_false_iff.2 hw
    simp [hw']

end FPathfinder

namespace DiagCtx

variable {g : AMapGrid} {D S E : Nat}

end DiagCtx

namespace DiagCtx

variable {g : AMapGrid} {D S E : Nat}

end DiagCtx

/-! ## The all-walkable search follows the diagonal-first walk -/

namespace DiagCtx

variable {g : AMapGrid} {D S E : Nat}

end DiagCtx

namespace DiagCtx

variable {g : AMapGrid} {D S E : Nat}

end DiagCtx

/-- C11: `GetTargetNode` returns the node `N` containing the location when `N` is walkable;
when `N` is unwalkable it returns the first node of `GetNeighbours N`, in list order, that is
walkable and whose line trace to the listener reports no hit; when no neighbour qualifies it
returns the unwalkable `N` itself. -/
theorem GetTargetNode_first_qualifying_neighbour (g : AMapGrid)
    (LineTrace : FVector → FVector → Bool) (PlayerLocation TargetLocation : FVector) :
    ((g.node (g.GetNodeFromWorldLocation TargetLocation)).IsWalkable = true →
      FPathfinder.GetTargetNode g LineTrace PlayerLocation TargetLocation
        = g.GetNodeFromWorldLocation TargetLocation) ∧
    ((g.node (g.GetNodeFromWorldLocation TargetLocation)).IsWalkable = false →
      ∀ (pre : List Nat) (m : Nat) (post : List Nat),
        g.GetNeighbours (g.GetNodeFromWorldLocation TargetLocation) = pre ++ m :: post →
        (∀ x ∈ pre, ¬ ((g.node x).IsWalkable = true ∧
          LineTrace (g.node x).GetWorldCoordinate PlayerLocation = false)) →
        (g.node m).IsWalkable = true →
        LineTrace (g.node m).GetWorldCoordinate PlayerLocation = false →
        FPathfinder.GetTargetNode g LineTrace PlayerLocation TargetLocation = m) ∧
    ((g.node (g.GetNodeFromWorldLocation TargetLocation)).IsWalkable = false →
      (∀ x ∈ g.GetNeighbours (g.GetNodeFromWorldLocation TargetLocation),
        ¬ ((g.node x).IsWalkable = true ∧
          LineTrace (g.node x).GetWorldCoordinate PlayerLocation = false)) →
      FPathfinder.GetTargetNode g LineTrace PlayerLocation TargetLocation
        = g.GetNodeFromWorldLocation TargetLocation) := by
  refine ⟨fun hw => ?_, fun hw pre m post hsplit hpre hm ht => ?_, fun hw hall => ?_⟩
  · simp [FPathfinder.GetTargetNode, hw]
  · have hfind : (g.GetNeighbours (g.GetNodeFromWorldLocation TargetLocation)).find?
          (fun Neighbour => (g.node Neighbour).IsWalkable &&
            !LineTrace (g.node Neighbour).GetWorldCoordinate PlayerLocation) = some m := by
      rw [hsplit, List.find?_append, List.find?_eq_none.2, Option.none_or,
        List.find?_cons_of_pos]
      · simp [hm, ht]
      · intro x hx
        have := hpre x hx
        simpa using this
    simp only [FPathfinder.GetTargetNode, hw, Bool.not_false, if_true, hfind]
  · have hfind : (g.GetNeighbours (g.GetNodeFromWorldLocation TargetLocation)).find?
          (fun Neighbour => (g.node Neighbour).IsWalkable &&
            !LineTrace (g.node Neighbour).GetWorldCoordinate PlayerLocation) = none := by
      rw [List.find?_eq_none]
      intro x hx
      have := hall x hx
      simpa using this
    simp only [FPathfinder.GetTargetNode, hw, Bool.not_false, if_true, hfind]

/-- On the three-cell row with a blocked middle cell: a walkable cell is its own target; from
the middle cell, with the ray from node 0 obstructed, the target is node 2; with every ray
obstructed the target stays the blocked middle node 1. -/
theorem GetTargetNode_first_qualifying_neighbour_witness :
    FPathfinder.GetTargetNode grid3BlockedMid noTrace grid3Pos0 grid3Pos0 = 0 ∧
    FPathfinder.GetTargetNode grid3BlockedMid (traceFrom grid3Pos0) ⟨0, 0, 50⟩ ⟨0, 0, 50⟩ = 2 ∧
    FPathfinder.GetTargetNode grid3BlockedMid (fun _ _ => true) ⟨0, 0, 50⟩ ⟨0, 0, 50⟩ = 1 :=
  ⟨((GetTargetNode_first_qualifying_neighbour grid3BlockedMid noTrace grid3Pos0
      grid3Pos0).1 (by decide!)).trans (by decide!),
   (GetTargetNode_first_qualifying_neighbour grid3BlockedMid (traceFrom grid3Pos0)
      ⟨0, 0, 50⟩ ⟨0, 0, 50⟩).2.1 (by decide!) [0] 2 [] (by decide!) (by decide!) (by decide!)
      (by decide!),
   ((GetTargetNode_first_qualifying_neighbour grid3BlockedMid (fun _ _ => true)
      ⟨0, 0, 50⟩ ⟨0, 0, 50⟩).2.2 (by decide!) (by decide!)).trans (by decide!)⟩

/-! ## Clamping -/

theorem FMath.ClampF_mem (X : ℚ) {Min Max : ℚ} (h : Min ≤ Max) :
    Min ≤ FMath.ClampF X Min Max ∧ FMath.ClampF X Min Max ≤ Max :=
  ⟨le_max_right _ _, max_le (min_le_right _ _) h⟩

theorem FMath.ClampF_mono {X Y : ℚ} (Min Max : ℚ) (h : X ≤ Y) :
    FMath.ClampF X Min Max ≤ FMath.ClampF Y Min Max :=
  max_le_max (min_le_min h le_rfl) le_rfl

theorem FMath.ClampF_of_mem {X Min Max : ℚ} (h1 : Min ≤ X) (h2 : X ≤ Max) :
    FMath.ClampF X Min Max = X := by
  unfold FMath.ClampF
  rw [min_eq_left h2, max_eq_left h1]

theorem FMath.ClampF_of_le_min {X Min Max : ℚ} (h : Min ≤ Max) (hX : X ≤ Min) :
    FMath.ClampF X Min Max = Min := by
  unfold FMath.ClampF
  rw [min_eq_left (hX.trans h), max_eq_right hX]

theorem FMath.ClampF_of_ge_max {X Min Max : ℚ} (h : Min ≤ Max) (hX : Max ≤ X) :
    FMath.ClampF X Min Max = Max := by
  unfold FMath.ClampF
  rw [min_eq_right hX, max_eq_left h]

/-! ## Occlusion: the branches of `UpdateAudioComp` -/

namespace UAudioOcclusionComponent

theorem UpdateAudioComp_noBlock (this : UAudioOcclusionComponent) (W : UWorld)
    (AudioComp : UAudioComponent) (DeltaTime : ℚ)
    (h : W.LineTraceMultiForObjects W.CameraLocation AudioComp.ComponentLocation
      [this.Owner, AudioComp.Owner] = []) :
    this.UpdateAudioComp W AudioComp DeltaTime =
      { This := this, AudioComp := ResetAudioComponentOnNoBlock AudioComp,
        Traces := [(W.CameraLocation, AudioComp.ComponentLocation)] } := by
  simp [UpdateAudioComp, DoLineTrace, UAudioComponent.GetComponentLocation, h]

theorem UpdateAudioComp_mismatch (this : UAudioOcclusionComponent) (W : UWorld)
    (AudioComp : UAudioComponent) (DeltaTime : ℚ)
    (h : W.LineTraceMultiForObjects W.CameraLocation AudioComp.ComponentLocation
      [this.Owner, AudioComp.Owner] ≠ [])
    (hlen : (W.LineTraceMultiForObjects AudioComp.ComponentLocation W.CameraLocation
        [this.Owner, AudioComp.Owner]).length ≠
      (W.LineTraceMultiForObjects W.CameraLocation AudioComp.ComponentLocation
        [this.Owner, AudioComp.Owner]).length) :
    this.UpdateAudioComp W AudioComp DeltaTime =
      { This := this, AudioComp := AudioComp,
        Traces := [(W.CameraLocation, AudioComp.ComponentLocation),
          (AudioComp.ComponentLocation, W.CameraLocation)] } := by
  simp [UpdateAudioComp, DoLineTrace, UAudioComponent.GetComponentLocation, h, hlen]

theorem UpdateAudioComp_blocked (this : UAudioOcclusionComponent) (W : UWorld)
    (AudioComp : UAudioComponent) (DeltaTime : ℚ)
    (h : W.LineTraceMultiForObjects W.CameraLocation AudioComp.ComponentLocation
      [this.Owner, AudioComp.Owner] ≠ [])
    (hlen : (W.LineTraceMultiForObjects AudioComp.ComponentLocation W.CameraLocation
        [this.Owner, AudioComp.Owner]).length =
      (W.LineTraceMultiForObjects W.CameraLocation AudioComp.ComponentLocation
        [this.Owner, AudioComp.Owner]).length) :
    this.UpdateAudioComp W AudioComp DeltaTime =
      { This := this,
        AudioComp :=
          if this.LowPassTimer > this.LowPassUpdateDelay then
            this.SetLowPassFilter W
              (AudioComp.SetVolumeMultiplier (occludedVolume this W AudioComp))
              (W.LineTraceMultiForObjects W.CameraLocation AudioComp.ComponentLocation
                [this.Owner, AudioComp.Owner])
          else AudioComp.SetVolumeMultiplier (occludedVolume this W AudioComp),
        Traces := [(W.CameraLocation, AudioComp.ComponentLocation),
          (AudioComp.ComponentLocation, W.CameraLocation)] } := by
  have he : (W.LineTraceMultiForObjects W.CameraLocation AudioComp.ComponentLocation
      [this.Owner, AudioComp.Owner]).isEmpty = false := by simpa using h
  simp only [UpdateAudioComp, DoLineTrace, UAudioComponent.GetComponentLocation, he,
    Bool.not_false, Bool.not_true, hlen, ne_eq, not_true_eq_false, if_false, occludedVolume,
    Bool.false_eq_true, List.singleton_append, gt_iff_lt]
  split <;> rfl

end UAudioOcclusionComponent

/-! ## Occlusion: volume range, clear ray and skipped source -/

namespace UAudioOcclusionComponent

theorem UpdateAudioComp_blocked_volume (this : UAudioOcclusionComponent) (W : UWorld)
    (AudioComp : UAudioComponent) (DeltaTime : ℚ)
    (h : W.LineTraceMultiForObjects W.CameraLocation AudioComp.ComponentLocation
      [this.Owner, AudioComp.Owner] ≠ [])
    (hlen : (W.LineTraceMultiForObjects AudioComp.ComponentLocation W.CameraLocation
        [this.Owner, AudioComp.Owner]).length =
      (W.LineTraceMultiForObjects W.CameraLocation AudioComp.ComponentLocation
        [this.Owner, AudioComp.Owner]).length) :
    (this.UpdateAudioComp W AudioComp DeltaTime).AudioComp.VolumeMultiplier
      = occludedVolume this W AudioComp := by
  rw [UpdateAudioComp_blocked this W AudioComp DeltaTime h hlen]
  dsimp only
  split <;> rfl

theorem occludedVolume_mem (this : UAudioOcclusionComponent) (W : UWorld)
    (AudioComp : UAudioComponent) :
    1 / 100 ≤ occludedVolume this W AudioComp ∧ occludedVolume this W AudioComp ≤ 1 :=
  FMath.ClampF_mem _ (by norm_num)

end UAudioOcclusionComponent

/-- C12: for a blocked source whose two opposed rays return hit lists of equal length, with
`MaxMeshDistanceToBlockAllAudio > 0` and whatever the hit distances and material factors,
the volume multiplier `UpdateAudioComp` sets lies in `[0.01, 1]`; it is never 0. -/
theorem UpdateAudioComp_volume_between_hundredth_and_one (this : UAudioOcclusionComponent)
    (W : UWorld) (AudioComp : UAudioComponent) (DeltaTime : ℚ)
    (_hMax : 0 < this.MaxMeshDistanceToBlockAllAudio)
    (hblocked : W.LineTraceMultiForObjects W.CameraLocation AudioComp.ComponentLocation
      [this.Owner, AudioComp.Owner] ≠ [])
    (hlen : (W.LineTraceMultiForObjects AudioComp.ComponentLocation W.CameraLocation
        [this.Owner, AudioComp.Owner]).length =
      (W.LineTraceMultiForObjects W.CameraLocation AudioComp.ComponentLocation
        [this.Owner, AudioComp.Owner]).length) :
    1 / 100 ≤ (this.UpdateAudioComp W AudioComp DeltaTime).AudioComp.VolumeMultiplier ∧
    (this.UpdateAudioComp W AudioComp DeltaTime).AudioComp.VolumeMultiplier ≤ 1 ∧
    (this.UpdateAudioComp W AudioComp DeltaTime).AudioComp.VolumeMultiplier ≠ 0 := by
  rw [UAudioOcclusionComponent.UpdateAudioComp_blocked_volume this W AudioComp DeltaTime
    hblocked hlen]
  have h := UAudioOcclusionComponent.occludedVolume_mem this W AudioComp
  refine ⟨h.1, h.2, fun h0 => ?_⟩
  rw [h0] at h
  norm_num at h

/-- The wall of `wallWorld`, 100 thick, leaves the default component's source at a volume
in range. -/
theorem UpdateAudioComp_volume_between_hundredth_and_one_witness :
    1 / 100 ≤ (UAudioOcclusionComponent.UpdateAudioComp {} wallWorld wallSource
      (1 / 60)).AudioComp.VolumeMultiplier ∧
    (UAudioOcclusionComponent.UpdateAudioComp {} wallWorld wallSource
      (1 / 60)).AudioComp.VolumeMultiplier ≤ 1 ∧
    (UAudioOcclusionComponent.UpdateAudioComp {} wallWorld wallSource
      (1 / 60)).AudioComp.VolumeMultiplier ≠ 0 :=
  UpdateAudioComp_volume_between_hundredth_and_one {} wallWorld wallSource (1 / 60)
    (by decide!) (by decide!) (by decide!)

/-- C14: when the listener-to-source ray hits nothing, `UpdateAudioComp` leaves the source
with volume multiplier 1 and the low-pass filter disabled, whatever they were before, and
does nothing else: every other field of the source, the cutoff among them, and the
component are unchanged, and the one ray cast is the listener-to-source ray. -/
theorem UpdateAudioComp_clear_ray_resets (this : UAudioOcclusionComponent) (W : UWorld)
    (AudioComp : UAudioComponent) (DeltaTime : ℚ)
    (hclear : W.LineTraceMultiForObjects W.CameraLocation AudioComp.ComponentLocation
      [this.Owner, AudioComp.Owner] = []) :
    (this.UpdateAudioComp W AudioComp DeltaTime).AudioComp
      = { AudioComp with VolumeMultiplier := 1, bEnableLowPassFilter := false } ∧
    (this.UpdateAudioComp W AudioComp DeltaTime).This = this ∧
    (this.UpdateAudioComp W AudioComp DeltaTime).Traces
      = [(W.CameraLocation, AudioComp.ComponentLocation)] := by
  rw [UAudioOcclusionComponent.UpdateAudioComp_noBlock this W AudioComp DeltaTime hclear]
  refine ⟨?_, rfl, rfl⟩
  dsimp only [UAudioOcclusionComponent.ResetAudioComponentOnNoBlock]
  split
  · rfl
  · rename_i h
    have h1 : AudioComp.VolumeMultiplier = 1 := not_not.1 h
    cases AudioComp
    simp only [UAudioComponent.SetLowPassFilterEnabled] at h1 ⊢
    subst h1
    rfl

/-- In `clearWorld` a source left at volume 1/2 with the filter on at 5000 comes back at
volume 1 with the filter off and the cutoff still 5000. -/
theorem UpdateAudioComp_clear_ray_resets_witness :
    (UAudioOcclusionComponent.UpdateAudioComp {} clearWorld wallSourceMuffled (1 / 60)).AudioComp
      = { wallSourceMuffled with VolumeMultiplier := 1, bEnableLowPassFilter := false } ∧
    (UAudioOcclusionComponent.UpdateAudioComp {} clearWorld wallSourceMuffled (1 / 60)).This
      = {} ∧
    (UAudioOcclusionComponent.UpdateAudioComp {} clearWorld wallSourceMuffled (1 / 60)).Traces
      = [(clearWorld.CameraLocation, wallSourceMuffled.ComponentLocation)] :=
  UpdateAudioComp_clear_ray_resets {} clearWorld wallSourceMuffled (1 / 60) (by decide!)

/-- C15: when the two opposed rays of a blocked source return different numbers of hits,
`UpdateAudioComp` leaves the source, its volume, low-pass flag and cutoff among its fields,
exactly as it was, and the component, its timer and tracked list among its fields,
unchanged. -/
theorem UpdateAudioComp_hit_count_mismatch_skips (this : UAudioOcclusionComponent)
    (W : UWorld) (AudioComp : UAudioComponent) (DeltaTime : ℚ)
    (hblocked : W.LineTraceMultiForObjects W.CameraLocation AudioComp.ComponentLocation
      [this.Owner, AudioComp.Owner] ≠ [])
    (hlen : (W.LineTraceMultiForObjects AudioComp.ComponentLocation W.CameraLocation
        [this.Owner, AudioComp.Owner]).length ≠
      (W.LineTraceMultiForObjects W.CameraLocation AudioComp.ComponentLocation
        [this.Owner, AudioComp.Owner]).length) :
    (this.UpdateAudioComp W AudioComp DeltaTime).AudioComp = AudioComp ∧
    (this.UpdateAudioComp W AudioComp DeltaTime).This = this := by
  rw [UAudioOcclusionComponent.UpdateAudioComp_mismatch this W AudioComp DeltaTime hblocked
    hlen]
  exact ⟨rfl, rfl⟩

/-- In `mismatchWorld`, one hit against two, the muffled source and a component whose timer
has passed the delay stay as they are. -/
theorem UpdateAudioComp_hit_count_mismatch_skips_witness :
    (UAudioOcclusionComponent.UpdateAudioComp { LowPassTimer := 1 } mismatchWorld
      wallSourceMuffled (1 / 60)).AudioComp = wallSourceMuffled ∧
    (UAudioOcclusionComponent.UpdateAudioComp { LowPassTimer := 1 } mismatchWorld
      wallSourceMuffled (1 / 60)).This = { LowPassTimer := 1 } :=
  UpdateAudioComp_hit_count_mismatch_skips { LowPassTimer := 1 } mismatchWorld
    wallSourceMuffled (1 / 60) (by decide!) (by decide!)

/-! ## Occlusion: monotonicity in thickness -/

theorem foldl_add_le_foldl_add (n : Nat) (f g : Nat → ℚ) (h : ∀ i < n, f i ≤ g i) :
    (List.range n).foldl (fun t (i : Nat) => t + f i) 0
      ≤ (List.range n).foldl (fun t (i : Nat) => t + g i) 0 := by
  induction n with
  | zero => simp
  | succ n ih =>
    rw [List.range_succ, List.foldl_append, List.foldl_append]
    simp only [List.foldl_cons, List.foldl_nil]
    exact add_le_add (ih fun i hi => h i (Nat.lt_succ_of_lt hi)) (h n (Nat.lt_succ_self n))

namespace UAudioOcclusionComponent

theorem GetThicknessValue_nonneg (this : UAudioOcclusionComponent) (W : UWorld)
    (p a : FHitResult) : 0 ≤ this.GetThicknessValue W p a :=
  (FMath.ClampF_mem _ (by norm_num)).1

theorem GetThicknessValue_mono (this : UAudioOcclusionComponent) (W1 W2 : UWorld)
    (p1 a1 p2 a2 : FHitResult)
    (h0 : 0 ≤ W1.Dist p1.ImpactPoint a1.ImpactPoint)
    (hd : W1.Dist p1.ImpactPoint a1.ImpactPoint ≤ W2.Dist p2.ImpactPoint a2.ImpactPoint) :
    this.GetThicknessValue W1 p1 a1 ≤ this.GetThicknessValue W2 p2 a2 := by
  by_cases hM : 0 ≤ this.MaxMeshDistanceToBlockAllAudio
  · exact FMath.ClampF_mono 0 1 (div_le_div_of_nonneg_right hd hM)
  · have h1 : this.GetThicknessValue W1 p1 a1 = 0 :=
      FMath.ClampF_of_le_min (by norm_num)
        (div_nonpos_of_nonneg_of_nonpos h0 (le_of_not_le hM))
    rw [h1]
    exact GetThicknessValue_nonneg this W2 p2 a2

theorem GetOcclusionValue_mono (this : UAudioOcclusionComponent) (W1 W2 : UWorld)
    (p1 a1 p2 a2 : FHitResult)
    (hm : this.GetMaterialValue W2 p2 = this.GetMaterialValue W1 p1)
    (h0 : 0 ≤ W1.Dist p1.ImpactPoint a1.ImpactPoint)
    (hd : W1.Dist p1.ImpactPoint a1.ImpactPoint ≤ W2.Dist p2.ImpactPoint a2.ImpactPoint) :
    this.GetOcclusionValue W1 p1 a1 ≤ this.GetOcclusionValue W2 p2 a2 := by
  have ht := GetThicknessValue_mono this W1 W2 p1 a1 p2 a2 h0 hd
  unfold GetOcclusionValue
  simp only [hm]
  by_cases hpos : 0 ≤ this.GetMaterialValue W1 p1
  · exact FMath.ClampF_mono 0 1 (mul_le_mul_of_nonneg_right ht hpos)
  · have h1 : FMath.ClampF (this.GetThicknessValue W1 p1 a1 * this.GetMaterialValue W1 p1) 0 1
        = 0 :=
      FMath.ClampF_of_le_min (by norm_num)
        (mul_nonpos_iff.2 (Or.inl ⟨GetThicknessValue_nonneg this W1 p1 a1, le_of_not_le hpos⟩))
    rw [h1]
    exact (FMath.ClampF_mem _ (by norm_num)).1

theorem occludedVolume_eq (this : UAudioOcclusionComponent) (W : UWorld)
    (AudioComp : UAudioComponent) (P A : List FHitResult)
    (hP : W.LineTraceMultiForObjects W.CameraLocation AudioComp.ComponentLocation
      [this.Owner, AudioComp.Owner] = P)
    (hA : W.LineTraceMultiForObjects AudioComp.ComponentLocation W.CameraLocation
      [this.Owner, AudioComp.Owner] = A) :
    occludedVolume this W AudioComp
      = FMath.ClampF (1 - FMath.ClampF (this.TotalOccValueLoop W P A.reverse) 0 1) (1 / 100) 1 := by
  unfold occludedVolume
  rw [hP, hA]

end UAudioOcclusionComponent

/-- C13: the occlusion volume does not increase with thickness. For two hit configurations
of blocked sources with the same number of hit pairs and the same material factor on every
pair, if every pair's travel distance in the second is at least that of the first, the
volume multiplier `UpdateAudioComp` sets for the second is at most that for the first. -/
theorem UpdateAudioComp_volume_antitone_in_thickness (this : UAudioOcclusionComponent)
    (W1 W2 : UWorld) (AudioComp1 AudioComp2 : UAudioComponent) (DeltaTime1 DeltaTime2 : ℚ)
    (P1 A1 P2 A2 : List FHitResult)
    (hP1 : W1.LineTraceMultiForObjects W1.CameraLocation AudioComp1.ComponentLocation
      [this.Owner, AudioComp1.Owner] = P1)
    (hA1 : W1.LineTraceMultiForObjects AudioComp1.ComponentLocation W1.CameraLocation
      [this.Owner, AudioComp1.Owner] = A1)
    (hP2 : W2.LineTraceMultiForObjects W2.CameraLocation AudioComp2.ComponentLocation
      [this.Owner, AudioComp2.Owner] = P2)
    (hA2 : W2.LineTraceMultiForObjects AudioComp2.ComponentLocation W2.CameraLocation
      [this.Owner, AudioComp2.Owner] = A2)
    (hblocked : P1 ≠ []) (hlen1 : A1.length = P1.length) (hlen2 : A2.length = P2.length)
    (hsame : P2.length = P1.length)
    (hmat : ∀ i < P1.length,
      this.GetMaterialValue W2 (P2.getD i default)
        = this.GetMaterialValue W1 (P1.getD i default))
    (hdist : ∀ i < P1.length,
      0 ≤ W1.Dist (P1.getD i default).ImpactPoint (A1.reverse.getD i default).ImpactPoint ∧
      W1.Dist (P1.getD i default).ImpactPoint (A1.reverse.getD i default).ImpactPoint
        ≤ W2.Dist (P2.getD i default).ImpactPoint (A2.reverse.getD i default).ImpactPoint) :
    (this.UpdateAudioComp W2 AudioComp2 DeltaTime2).AudioComp.VolumeMultiplier
      ≤ (this.UpdateAudioComp W1 AudioComp1 DeltaTime1).AudioComp.VolumeMultiplier := by
  have hblocked2 : P2 ≠ [] := by
    intro h
    rw [h] at hsame
    exact hblocked (List.length_eq_zero.1 hsame.symm)
  rw [UAudioOcclusionComponent.UpdateAudioComp_blocked_volume this W1 AudioComp1 DeltaTime1
      (by rw [hP1]; exact hblocked) (by rw [hP1, hA1]; exact hlen1),
    UAudioOcclusionComponent.UpdateAudioComp_blocked_volume this W2 AudioComp2 DeltaTime2
      (by rw [hP2]; exact hblocked2) (by rw [hP2, hA2]; exact hlen2),
    UAudioOcclusionComponent.occludedVolume_eq this W1 AudioComp1 P1 A1 hP1 hA1,
    UAudioOcclusionComponent.occludedVolume_eq this W2 AudioComp2 P2 A2 hP2 hA2]
  apply FMath.ClampF_mono
  apply sub_le_sub_left
  apply FMath.ClampF_mono
  unfold UAudioOcclusionComponent.TotalOccValueLoop
  rw [List.length_reverse, List.length_reverse, hlen2, hsame, hlen1]
  exact foldl_add_le_foldl_add _ _ _ fun i hi =>
    UAudioOcclusionComponent.GetOcclusionValue_mono this W1 W2 _ _ _ _ (hmat i hi)
      (hdist i hi).1 (hdist i hi).2

/-- The wall of `thickWallWorld` is 300 thick where that of `wallWorld` is 100: the source
behind it is no louder. -/
theorem UpdateAudioComp_volume_antitone_in_thickness_witness :
    (UAudioOcclusionComponent.UpdateAudioComp {} thickWallWorld wallSource
        (1 / 60)).AudioComp.VolumeMultiplier
      ≤ (UAudioOcclusionComponent.UpdateAudioComp {} wallWorld wallSource
        (1 / 60)).AudioComp.VolumeMultiplier :=
  UpdateAudioComp_volume_antitone_in_thickness {} wallWorld thickWallWorld wallSource
    wallSource (1 / 60) (1 / 60) [wallHitFromPlayer] [wallHitFromAudio] [wallHitFromPlayer]
    [{ bBlockingHit := true, ImpactPoint := ⟨700, 0, 0⟩, Component := 7 }]
    (by decide!) (by decide!) (by decide!) (by decide!) (by decide!) (by decide!)
    (by decide!) (by decide!)
    (fun i hi => by
      have hi0 : i = 0 := by simpa using hi
      subst hi0
      decide!)
    (fun i hi => by
      have hi0 : i = 0 := by simpa using hi
      subst hi0
      decide!)

/-- C17: a single hit pair whose impact points are 100 apart, with
`MaxMeshDistanceToBlockAllAudio = 900` and material factor 1, gives thickness factor 1/9
and volume multiplier 8/9. -/
theorem UpdateAudioComp_single_pair_hundred_apart (this : UAudioOcclusionComponent)
    (W : UWorld) (AudioComp : UAudioComponent) (DeltaTime : ℚ) (p a : FHitResult)
    (hP : W.LineTraceMultiForObjects W.CameraLocation AudioComp.ComponentLocation
      [this.Owner, AudioComp.Owner] = [p])
    (hA : W.LineTraceMultiForObjects AudioComp.ComponentLocation W.CameraLocation
      [this.Owner, AudioComp.Owner] = [a])
    (hdist : W.Dist p.ImpactPoint a.ImpactPoint = 100)
    (hMax : this.MaxMeshDistanceToBlockAllAudio = 900)
    (hmat : this.GetMaterialValue W p = 1) :
    this.GetThicknessValue W p a = 1 / 9 ∧
    (this.UpdateAudioComp W AudioComp DeltaTime).AudioComp.VolumeMultiplier = 8 / 9 := by
  have ht : this.GetThicknessValue W p a = 1 / 9 := by
    simp only [UAudioOcclusionComponent.GetThicknessValue, hdist, hMax]
    norm_num [FMath.ClampF]
  refine ⟨ht, ?_⟩
  rw [UAudioOcclusionComponent.UpdateAudioComp_blocked_volume this W AudioComp DeltaTime
      (by rw [hP]; simp) (by rw [hP, hA]; rfl),
    UAudioOcclusionComponent.occludedVolume_eq this W AudioComp [p] [a] hP hA]
  have hloop : this.TotalOccValueLoop W [p] [a].reverse = 0 + this.GetOcclusionValue W p a :=
    rfl
  rw [hloop, UAudioOcclusionComponent.GetOcclusionValue]
  simp only [ht, hmat]
  norm_num [FMath.ClampF]

/-- The wall of `wallWorld` is such a pair for the default component. -/
theorem UpdateAudioComp_single_pair_hundred_apart_witness :
    UAudioOcclusionComponent.GetThicknessValue {} wallWorld wallHitFromPlayer wallHitFromAudio
      = 1 / 9 ∧
    (UAudioOcclusionComponent.UpdateAudioComp {} wallWorld wallSource
      (1 / 60)).AudioComp.VolumeMultiplier = 8 / 9 :=
  UpdateAudioComp_single_pair_hundred_apart {} wallWorld wallSource (1 / 60)
    wallHitFromPlayer wallHitFromAudio (by decide!) (by decide!) (by decide!) (by decide!)
    (by decide!)

/-! ## Occlusion: idempotence and the low-pass cutoff -/

namespace UAudioOcclusionComponent

theorem ResetAudioComponentOnNoBlock_eq (AudioComp : UAudioComponent) :
    ResetAudioComponentOnNoBlock AudioComp
      = { AudioComp with VolumeMultiplier := 1, bEnableLowPassFilter := false } := by
  dsimp only [ResetAudioComponentOnNoBlock]
  split
  · rfl
  · rename_i h
    have h1 : AudioComp.VolumeMultiplier = 1 := not_not.1 h
    cases AudioComp
    simp only [UAudioComponent.SetLowPassFilterEnabled] at h1 ⊢
    subst h1
    rfl

/-- Applying `UpdateAudioComp` to the source it returned gives the same result again. -/
theorem UpdateAudioComp_twice (this : UAudioOcclusionComponent) (W : UWorld)
    (AudioComp : UAudioComponent) (DeltaTime DeltaTime2 : ℚ) :
    this.UpdateAudioComp W (this.UpdateAudioComp W AudioComp DeltaTime).AudioComp DeltaTime2
      = this.UpdateAudioComp W AudioComp DeltaTime := by
  by_cases h : W.LineTraceMultiForObjects W.CameraLocation AudioComp.ComponentLocation
      [this.Owner, AudioComp.Owner] = []
  · rw [UpdateAudioComp_noBlock this W AudioComp DeltaTime h, ResetAudioComponentOnNoBlock_eq]
    exact (UpdateAudioComp_noBlock this W
      { AudioComp with VolumeMultiplier := 1, bEnableLowPassFilter := false } DeltaTime2
      h).trans (by rw [ResetAudioComponentOnNoBlock_eq])
  · by_cases hlen : (W.LineTraceMultiForObjects AudioComp.ComponentLocation W.CameraLocation
        [this.Owner, AudioComp.Owner]).length =
      (W.LineTraceMultiForObjects W.CameraLocation AudioComp.ComponentLocation
        [this.Owner, AudioComp.Owner]).length
    · rw [UpdateAudioComp_blocked this W AudioComp DeltaTime h hlen]
      by_cases ht : this.LowPassTimer > this.LowPassUpdateDelay
      · simp only [ht, if_true]
        refine (UpdateAudioComp_blocked this W
          (this.SetLowPassFilter W
            (AudioComp.SetVolumeMultiplier (this.occludedVolume W AudioComp))
            (W.LineTraceMultiForObjects W.CameraLocation AudioComp.ComponentLocation
              [this.Owner, AudioComp.Owner])) DeltaTime2 h hlen).trans ?_
        simp only [ht, if_true]
        rfl
      · simp only [ht, if_false]
        refine (UpdateAudioComp_blocked this W
          (AudioComp.SetVolumeMultiplier (this.occludedVolume W AudioComp)) DeltaTime2
          h hlen).trans ?_
        simp only [ht, if_false]
        rfl
    · rw [UpdateAudioComp_mismatch this W AudioComp DeltaTime h hlen]
      exact UpdateAudioComp_mismatch this W AudioComp DeltaTime2 h hlen

end UAudioOcclusionComponent

/-- C16: with the raycast results fixed, `UpdateAudioComp` is idempotent: for any source
state and timer value, applying it twice in succession leaves the source and the component
in the same state as applying it once. -/
theorem UpdateAudioComp_idempotent (this : UAudioOcclusionComponent) (W : UWorld)
    (AudioComp : UAudioComponent) (DeltaTime DeltaTime2 : ℚ) :
    ((this.UpdateAudioComp W AudioComp DeltaTime).This.UpdateAudioComp W
        (this.UpdateAudioComp W AudioComp DeltaTime).AudioComp DeltaTime2).AudioComp
      = (this.UpdateAudioComp W AudioComp DeltaTime).AudioComp ∧
    ((this.UpdateAudioComp W AudioComp DeltaTime).This.UpdateAudioComp W
        (this.UpdateAudioComp W AudioComp DeltaTime).AudioComp DeltaTime2).This
      = (this.UpdateAudioComp W AudioComp DeltaTime).This := by
  have hthis : (this.UpdateAudioComp W AudioComp DeltaTime).This = this := by
    unfold UAudioOcclusionComponent.UpdateAudioComp
    dsimp only
    split_ifs <;> rfl
  rw [hthis, UAudioOcclusionComponent.UpdateAudioComp_twice, hthis]
  exact ⟨rfl, rfl⟩

/-- C18: with `MaxLowPassFrequency >= 200` and `DistanceToWallToStopAddingLowPass > 0`, the
cutoff `SetLowPassFilter` applies is
`clamp(Max * clamp(d - Offset, 0, Stop) / Stop, 200, Max)` for the distance `d` from the
listener to the closest point of the first-hit obstacle; it lies in `[200, Max]`, equals
`Max` once `d >= Offset + Stop`, and does not decrease when `d` grows. -/
theorem SetLowPassFilter_cutoff (this : UAudioOcclusionComponent) (W : UWorld)
    (AudioComp : UAudioComponent) (HitResultFromPlayer : List FHitResult)
    (hMax : 200 ≤ this.MaxLowPassFrequency)
    (hStop : 0 < this.DistanceToWallToStopAddingLowPass) :
    (this.SetLowPassFilter W AudioComp HitResultFromPlayer).LowPassFilterFrequency
      = FMath.ClampF
          (this.MaxLowPassFrequency *
            FMath.ClampF
              (W.Dist (W.GetClosestPointOnCollision (HitResultFromPlayer.getD 0 default).Component
                  W.CameraLocation) W.CameraLocation - this.DistanceToWallOffset)
              0 this.DistanceToWallToStopAddingLowPass
            / this.DistanceToWallToStopAddingLowPass)
          200 this.MaxLowPassFrequency ∧
    200 ≤ (this.SetLowPassFilter W AudioComp HitResultFromPlayer).LowPassFilterFrequency ∧
    (this.SetLowPassFilter W AudioComp HitResultFromPlayer).LowPassFilterFrequency
      ≤ this.MaxLowPassFrequency ∧
    (this.DistanceToWallOffset + this.DistanceToWallToStopAddingLowPass
        ≤ W.Dist (W.GetClosestPointOnCollision (HitResultFromPlayer.getD 0 default).Component
            W.CameraLocation) W.CameraLocation →
      (this.SetLowPassFilter W AudioComp HitResultFromPlayer).LowPassFilterFrequency
        = this.MaxLowPassFrequency) ∧
    ∀ (W2 : UWorld) (AudioComp2 : UAudioComponent) (HitResultFromPlayer2 : List FHitResult),
      W.Dist (W.GetClosestPointOnCollision (HitResultFromPlayer.getD 0 default).Component
          W.CameraLocation) W.CameraLocation
        ≤ W2.Dist (W2.GetClosestPointOnCollision (HitResultFromPlayer2.getD 0 default).Component
          W2.CameraLocation) W2.CameraLocation →
      (this.SetLowPassFilter W AudioComp HitResultFromPlayer).LowPassFilterFrequency
        ≤ (this.SetLowPassFilter W2 AudioComp2 HitResultFromPlayer2).LowPassFilterFrequency := by
  have hpos : (0 : ℚ) ≤ this.MaxLowPassFrequency := le_trans (by norm_num) hMax
  have key : ∀ (V : UWorld) (c : UAudioComponent) (hits : List FHitResult),
      (this.SetLowPassFilter V c hits).LowPassFilterFrequency
        = FMath.ClampF (this.MaxLowPassFrequency *
            (FMath.ClampF
              (V.Dist (V.GetClosestPointOnCollision (hits.getD 0 default).Component
                V.CameraLocation) V.CameraLocation - this.DistanceToWallOffset)
              0 this.DistanceToWallToStopAddingLowPass
              / this.DistanceToWallToStopAddingLowPass))
          200 this.MaxLowPassFrequency := fun _ _ _ => rfl
  refine ⟨?_, ?_, ?_, ?_, ?_⟩
  · rw [key, mul_div_assoc]
  · rw [key]
    exact (FMath.ClampF_mem _ hMax).1
  · rw [key]
    exact (FMath.ClampF_mem _ hMax).2
  · intro hd
    rw [key, FMath.ClampF_of_ge_max hStop.le (by linarith), div_self (ne_of_gt hStop), mul_one]
    exact FMath.ClampF_of_mem hMax le_rfl
  · intro W2 AudioComp2 HitResultFromPlayer2 hd
    rw [key, key]
    apply FMath.ClampF_mono
    apply mul_le_mul_of_nonneg_left _ hpos
    apply div_le_div_of_nonneg_right _ hStop.le
    apply FMath.ClampF_mono
    linarith

/-- In `wallWorld` the closest point of the wall is 400 from the listener: the default
component sets the cutoff `17000 * 340 / 700`. -/
theorem SetLowPassFilter_cutoff_witness :
    (UAudioOcclusionComponent.SetLowPassFilter {} wallWorld wallSource
      [wallHitFromPlayer]).LowPassFilterFrequency = 57800 / 7 ∧
    200 ≤ (UAudioOcclusionComponent.SetLowPassFilter {} wallWorld wallSource
      [wallHitFromPlayer]).LowPassFilterFrequency ∧
    (UAudioOcclusionComponent.SetLowPassFilter {} wallWorld wallSource
      [wallHitFromPlayer]).LowPassFilterFrequency ≤ 17000 :=
  have h := SetLowPassFilter_cutoff {} wallWorld wallSource [wallHitFromPlayer]
    (by decide!) (by decide!)
  ⟨h.1.trans (by decide!), h.2.1, h.2.2.1⟩

/-! ## Propagation: fading the secondary source -/

theorem FMath.ClampF_symm_of_nonneg {D S : ℚ} (hS : 0 ≤ S) (hD : 0 ≤ D) :
    FMath.ClampF D (-S) S = min D S := by
  unfold FMath.ClampF
  exact max_eq_left (le_trans (neg_nonpos.2 hS) (le_min hD hS))

theorem FMath.ClampF_symm_of_nonpos {D S : ℚ} (hS : 0 ≤ S) (hD : D ≤ 0) :
    FMath.ClampF D (-S) S = max D (-S) := by
  unfold FMath.ClampF
  rw [min_eq_left (le_trans hD hS)]

/-- With a non-negative step `FInterpConstantTo` stays between the current value and the
target, moves by at most the step unless it snaps to a target closer than 1e-4, and
lands on a target within the step. -/
theorem FMath.FInterpConstantTo_spec (Current Target DeltaTime InterpSpeed : ℚ)
    (hStep : 0 ≤ InterpSpeed * DeltaTime) :
    min Current Target ≤ FMath.FInterpConstantTo Current Target DeltaTime InterpSpeed ∧
    FMath.FInterpConstantTo Current Target DeltaTime InterpSpeed ≤ max Current Target ∧
    (|FMath.FInterpConstantTo Current Target DeltaTime InterpSpeed - Current|
        ≤ InterpSpeed * DeltaTime ∨
      ((Target - Current) * (Target - Current) < 1 / 100000000 ∧
        FMath.FInterpConstantTo Current Target DeltaTime InterpSpeed = Target)) ∧
    (|Target - Current| ≤ InterpSpeed * DeltaTime →
      FMath.FInterpConstantTo Current Target DeltaTime InterpSpeed = Target) := by
  unfold FMath.FInterpConstantTo
  dsimp only
  split
  · rename_i hsnap
    exact ⟨min_le_right _ _, le_max_right _ _, Or.inr ⟨hsnap, rfl⟩, fun _ => rfl⟩
  · rcases le_total 0 (Target - Current) with hD | hD
    · rw [FMath.ClampF_symm_of_nonneg hStep hD]
      have h1 : 0 ≤ min (Target - Current) (InterpSpeed * DeltaTime) := le_min hD hStep
      have h2 : min (Target - Current) (InterpSpeed * DeltaTime) ≤ Target - Current :=
        min_le_left _ _
      have h3 : min (Target - Current) (InterpSpeed * DeltaTime) ≤ InterpSpeed * DeltaTime :=
        min_le_right _ _
      refine ⟨le_trans (min_le_left _ _) (by linarith),
        le_trans (by linarith) (le_max_right _ _), Or.inl ?_, fun hle => ?_⟩
      · rw [add_sub_cancel_left, abs_of_nonneg h1]
        exact h3
      · rw [abs_of_nonneg hD] at hle
        rw [min_eq_left hle]
        ring
    · rw [FMath.ClampF_symm_of_nonpos hStep hD]
      have h1 : max (Target - Current) (-(InterpSpeed * DeltaTime)) ≤ 0 :=
        max_le hD (neg_nonpos.2 hStep)
      have h2 : Target - Current ≤ max (Target - Current) (-(InterpSpeed * DeltaTime)) :=
        le_max_left _ _
      have h3 : -(InterpSpeed * DeltaTime)
          ≤ max (Target - Current) (-(InterpSpeed * DeltaTime)) := le_max_right _ _
      refine ⟨le_trans (min_le_right _ _) (by linarith),
        le_trans (by linarith) (le_max_left _ _), Or.inl ?_, fun hle => ?_⟩
      · rw [add_sub_cancel_left, abs_of_nonpos h1]
        linarith
      · rw [abs_of_nonpos hD] at hle
        rw [max_eq_left (by linarith)]
        ring

namespace PropagationState

theorem comp_setComp_same (s : PropagationState) (p : Nat) (f : UAudioComponent → UAudioComponent)
    (hp : p < s.Comps.length) : (s.setComp p f).comp p = f (s.comp p) := by
  simp [setComp, comp, List.getD_eq_getElem?_getD, List.getElem?_set, hp]

theorem comp_setComp_other (s : PropagationState) (p q : Nat)
    (f : UAudioComponent → UAudioComponent) (hq : q ≠ p) :
    (s.setComp p f).comp q = s.comp q := by
  simp [setComp, comp, List.getD_eq_getElem?_getD, List.getElem?_set, Ne.symm hq]

theorem length_setComp (s : PropagationState) (p : Nat) (f : UAudioComponent → UAudioComponent) :
    (s.setComp p f).Comps.length = s.Comps.length := by
  simp [setComp]

end PropagationState

namespace USoundPropagationComponent

/-- What `RemovePropagatedSound` does to the state. -/
theorem RemovePropagatedSound_spec (s : PropagationState) (AudioComp : Nat) (DeltaTime : ℚ) :
    (RemovePropagatedSound s AudioComp DeltaTime).This = s.This ∧
    (RemovePropagatedSound s AudioComp DeltaTime).Grid = s.Grid ∧
    (RemovePropagatedSound s AudioComp DeltaTime).Traces = s.Traces ∧
    (RemovePropagatedSound s AudioComp DeltaTime).Comps.length = s.Comps.length ∧
    (TMap.Contains s.This.PropagatedSounds AudioComp = false →
      (RemovePropagatedSound s AudioComp DeltaTime).Comps = s.Comps) ∧
    (TMap.Contains s.This.PropagatedSounds AudioComp = true →
      TMap.Get s.This.PropagatedSounds AudioComp < s.Comps.length →
      (∀ q, q ≠ TMap.Get s.This.PropagatedSounds AudioComp →
        (RemovePropagatedSound s AudioComp DeltaTime).comp q = s.comp q) ∧
      (RemovePropagatedSound s AudioComp DeltaTime).comp
          (TMap.Get s.This.PropagatedSounds AudioComp)
        = { s.comp (TMap.Get s.This.PropagatedSounds AudioComp) with
            VolumeMultiplier :=
              FMath.FInterpConstantTo
                (s.comp (TMap.Get s.This.PropagatedSounds AudioComp)).VolumeMultiplier
                (1 / 100) DeltaTime s.This.PropVolumeLerpSpeed }) := by
  unfold RemovePropagatedSound
  by_cases hc : TMap.Contains s.This.PropagatedSounds AudioComp = true
  · simp only [hc, if_true]
    refine ⟨rfl, rfl, rfl, PropagationState.length_setComp _ _ _, fun h => by simp at h,
      fun _ hp => ⟨fun q hq => PropagationState.comp_setComp_other _ _ _ _ hq, ?_⟩⟩
    rw [PropagationState.comp_setComp_same _ _ _ hp]
    rfl
  · simp only [hc, if_false]
    exact ⟨rfl, rfl, rfl, rfl, fun _ => rfl, fun h => absurd h Bool.false_ne_true⟩

end USoundPropagationComponent

namespace USoundPropagationComponent

/-- The fade of `RemovePropagatedSound`, read against a state `s` that agrees with the
state it runs on in the audio components, the registry and the volume speed. -/
theorem RemovePropagatedSound_fade (s s1 : PropagationState) (AudioComp : Nat) (DeltaTime : ℚ)
    (hStep : 0 ≤ s.This.PropVolumeLerpSpeed * DeltaTime)
    (hComps : s1.Comps = s.Comps)
    (hReg : s1.This.PropagatedSounds = s.This.PropagatedSounds)
    (hSpeed : s1.This.PropVolumeLerpSpeed = s.This.PropVolumeLerpSpeed) :
    (RemovePropagatedSound s1 AudioComp DeltaTime).This.PropagatedSounds
      = s.This.PropagatedSounds ∧
    (RemovePropagatedSound s1 AudioComp DeltaTime).Comps.length = s.Comps.length ∧
    (TMap.Contains s.This.PropagatedSounds AudioComp = false →
      (RemovePropagatedSound s1 AudioComp DeltaTime).Comps = s.Comps) ∧
    (TMap.Contains s.This.PropagatedSounds AudioComp = true →
      ∀ p, TMap.Get s.This.PropagatedSounds AudioComp = p → p < s.Comps.length →
        (∀ q, q ≠ p → (RemovePropagatedSound s1 AudioComp DeltaTime).comp q = s.comp q) ∧
        (RemovePropagatedSound s1 AudioComp DeltaTime).comp p
          = { s.comp p with
              VolumeMultiplier :=
                ((RemovePropagatedSound s1 AudioComp DeltaTime).comp p).VolumeMultiplier } ∧
        min (s.comp p).VolumeMultiplier (1 / 100)
          ≤ ((RemovePropagatedSound s1 AudioComp DeltaTime).comp p).VolumeMultiplier ∧
        ((RemovePropagatedSound s1 AudioComp DeltaTime).comp p).VolumeMultiplier
          ≤ max (s.comp p).VolumeMultiplier (1 / 100) ∧
        (|((RemovePropagatedSound s1 AudioComp DeltaTime).comp p).VolumeMultiplier
              - (s.comp p).VolumeMultiplier| ≤ s.This.PropVolumeLerpSpeed * DeltaTime ∨
          ((1 / 100 - (s.comp p).VolumeMultiplier) * (1 / 100 - (s.comp p).VolumeMultiplier)
              < 1 / 100000000 ∧
            ((RemovePropagatedSound s1 AudioComp DeltaTime).comp p).VolumeMultiplier
              = 1 / 100)) ∧
        (|1 / 100 - (s.comp p).VolumeMultiplier| ≤ s.This.PropVolumeLerpSpeed * DeltaTime →
          ((RemovePropagatedSound s1 AudioComp DeltaTime).comp p).VolumeMultiplier = 1 / 100) ∧
        (1 / 100 ≤ (s.comp p).VolumeMultiplier →
          1 / 100
            ≤ ((RemovePropagatedSound s1 AudioComp DeltaTime).comp p).VolumeMultiplier)) := by
  have hcomp : ∀ q, s1.comp q = s.comp q := fun q => by
    unfold PropagationState.comp
    rw [hComps]
  obtain ⟨hT, -, -, hL, hN, hY⟩ := RemovePropagatedSound_spec s1 AudioComp DeltaTime
  rw [hReg] at hN hY
  refine ⟨by rw [hT, hReg], by rw [hL, hComps], fun h => by rw [hN h, hComps],
    fun h p hp hlt => ?_⟩
  obtain ⟨hO, hS⟩ := hY h (by rw [hp, hComps]; exact hlt)
  rw [hp] at hO hS
  rw [hcomp p, hSpeed] at hS
  have hv : ((RemovePropagatedSound s1 AudioComp DeltaTime).comp p).VolumeMultiplier
      = FMath.FInterpConstantTo (s.comp p).VolumeMultiplier (1 / 100) DeltaTime
          s.This.PropVolumeLerpSpeed := by
    rw [hS]
  obtain ⟨h1, h2, h3, h4⟩ := FMath.FInterpConstantTo_spec (s.comp p).VolumeMultiplier
    (1 / 100) DeltaTime s.This.PropVolumeLerpSpeed hStep
  refine ⟨fun q hq => (hO q hq).trans (hcomp q), ?_, ?_, ?_, ?_, ?_, ?_⟩
  · rw [hS]
  · rw [hv]; exact h1
  · rw [hv]; exact h2
  · rw [hv]; exact h3
  · rw [hv]; exact h4
  · intro hge
    rw [hv]
    exact le_trans (le_min hge le_rfl) h1

/-- The first branch of `UpdateSoundPropagation`: a clear direct ray. -/
theorem UpdateSoundPropagation_clear (W : UWorld) (s : PropagationState) (AudioComp : Nat)
    (DeltaTime : ℚ)
    (hd : W.LineTraceSingleForObjects (s.comp AudioComp).ComponentLocation W.CameraLocation
      [s.This.Owner, (s.comp AudioComp).Owner] = false) :
    UpdateSoundPropagation W s AudioComp DeltaTime
      = some (RemovePropagatedSound
          { s with Traces := s.Traces ++ [(s.comp AudioComp).ComponentLocation] }
          AudioComp DeltaTime) := by
  simp only [UpdateSoundPropagation, DoLineTrace, UAudioComponent.GetComponentLocation, hd,
    Bool.not_false, if_true]

/-- The branches of `UpdateSoundPropagation` after a blocked direct ray and a `FindPath`
that returned `Found`. -/
theorem UpdateSoundPropagation_blocked (W : UWorld) (s : PropagationState) (AudioComp : Nat)
    (DeltaTime : ℚ) (Found : FindPathResult)
    (hd : W.LineTraceSingleForObjects (s.comp AudioComp).ComponentLocation W.CameraLocation
      [s.This.Owner, (s.comp AudioComp).Owner] = true)
    (hfind : FPathfinder.FindPath s.This.Pathfinder s.Grid
      (fun Start End => W.LineTraceSingleForObjects Start End [s.This.Owner])
      W.OwnerLocation (s.comp AudioComp).ComponentLocation W.OwnerLocation [] = some Found) :
    UpdateSoundPropagation W s AudioComp DeltaTime
      = if !Found.Return then
          some (RemovePropagatedSound
            { s with
              Traces := s.Traces ++ [(s.comp AudioComp).ComponentLocation]
              Grid := Found.Grid
              This := { s.This with Pathfinder := Found.Pathfinder } }
            AudioComp DeltaTime)
        else
          PropagateAlongPath W
            { s with
              Traces := s.Traces ++ [(s.comp AudioComp).ComponentLocation]
              Grid := Found.Grid
              This := { s.This with Pathfinder := Found.Pathfinder } }
            AudioComp DeltaTime [s.This.Owner, (s.comp AudioComp).Owner] Found := by
  unfold UpdateSoundPropagation
  simp only [DoLineTrace, UAudioComponent.GetComponentLocation, hd, Bool.not_true,
    Bool.false_eq_true, if_false]
  have hcomp : ∀ t : List FVector, PropagationState.comp
      { This := s.This, Grid := s.Grid, Comps := s.Comps, Traces := t } AudioComp
        = s.comp AudioComp := fun _ => rfl
  simp only [hcomp, hfind]

end USoundPropagationComponent

/-- C19, amended: in a tick where the direct ray from the source to the listener is clear,
or where `FindPath` reports not-found, `UpdateSoundPropagation` returns and deletes
nothing. The registry is unchanged and no audio component is added or removed; nothing
changes when no secondary is registered for the source. The volume `v` of a registered
secondary, for a step `PropVolumeLerpSpeed * DeltaTime >= 0`, becomes a value between `v`
and 0.01 inclusive; it differs from `v` by at most the step, except that a `v` closer to
0.01 than 0.0001 becomes exactly 0.01 at once; it becomes exactly 0.01 once 0.01 is within
the step, and a volume of at least 0.01 never drops below 0.01. -/
theorem UpdateSoundPropagation_fades_registered_secondary (W : UWorld)
    (s : PropagationState) (AudioComp : Nat) (DeltaTime : ℚ)
    (hStep : 0 ≤ s.This.PropVolumeLerpSpeed * DeltaTime)
    (hbranch :
      W.LineTraceSingleForObjects (s.comp AudioComp).ComponentLocation W.CameraLocation
          [s.This.Owner, (s.comp AudioComp).Owner] = false ∨
      ∃ Found, FPathfinder.FindPath s.This.Pathfinder s.Grid
          (fun Start End => W.LineTraceSingleForObjects Start End [s.This.Owner])
          W.OwnerLocation (s.comp AudioComp).ComponentLocation W.OwnerLocation []
            = some Found ∧
        Found.Return = false) :
    ∃ s2, USoundPropagationComponent.UpdateSoundPropagation W s AudioComp DeltaTime = some s2 ∧
      s2.This.PropagatedSounds = s.This.PropagatedSounds ∧
      s2.Comps.length = s.Comps.length ∧
      (TMap.Contains s.This.PropagatedSounds AudioComp = false → s2.Comps = s.Comps) ∧
      (TMap.Contains s.This.PropagatedSounds AudioComp = true →
        ∀ p, TMap.Get s.This.PropagatedSounds AudioComp = p → p < s.Comps.length →
          (∀ q, q ≠ p → s2.comp q = s.comp q) ∧
          s2.comp p = { s.comp p with VolumeMultiplier := (s2.comp p).VolumeMultiplier } ∧
          min (s.comp p).VolumeMultiplier (1 / 100) ≤ (s2.comp p).VolumeMultiplier ∧
          (s2.comp p).VolumeMultiplier ≤ max (s.comp p).VolumeMultiplier (1 / 100) ∧
          (|(s2.comp p).VolumeMultiplier - (s.comp p).VolumeMultiplier|
                ≤ s.This.PropVolumeLerpSpeed * DeltaTime ∨
            ((1 / 100 - (s.comp p).VolumeMultiplier) * (1 / 100 - (s.comp p).VolumeMultiplier)
                < 1 / 100000000 ∧
              (s2.comp p).VolumeMultiplier = 1 / 100)) ∧
          (|1 / 100 - (s.comp p).VolumeMultiplier| ≤ s.This.PropVolumeLerpSpeed * DeltaTime →
            (s2.comp p).VolumeMultiplier = 1 / 100) ∧
          (1 / 100 ≤ (s.comp p).VolumeMultiplier →
            1 / 100 ≤ (s2.comp p).VolumeMultiplier)) := by
  by_cases hd : W.LineTraceSingleForObjects (s.comp AudioComp).ComponentLocation
      W.CameraLocation [s.This.Owner, (s.comp AudioComp).Owner] = false
  · exact ⟨_, USoundPropagationComponent.UpdateSoundPropagation_clear W s AudioComp DeltaTime
      hd, USoundPropagationComponent.RemovePropagatedSound_fade s _ AudioComp DeltaTime hStep
      rfl rfl rfl⟩
  · rcases hbranch with hclear | ⟨Found, hfind, hret⟩
    · exact absurd hclear hd
    · have hd2 : W.LineTraceSingleForObjects (s.comp AudioComp).ComponentLocation
          W.CameraLocation [s.This.Owner, (s.comp AudioComp).Owner] = true := by
        simpa using hd
      refine ⟨_, ?_, USoundPropagationComponent.RemovePropagatedSound_fade s
        { s with
          Traces := s.Traces ++ [(s.comp AudioComp).ComponentLocation]
          Grid := Found.Grid
          This := { s.This with Pathfinder := Found.Pathfinder } }
        AudioComp DeltaTime hStep rfl rfl rfl⟩
      rw [USoundPropagationComponent.UpdateSoundPropagation_blocked W s AudioComp DeltaTime
        Found hd2 hfind, hret]
      rfl

/-- Counterexample to C19 as stated: with the direct ray clear, a secondary at volume
0.01005 is set to 0.01 in one tick of 1/60 s at volume speed 0.001, a change of 0.00005
where `PropVolumeLerpSpeed * DeltaTime` is 1/60000. -/
theorem UpdateSoundPropagation_fade_exceeds_step :
    openWorld.LineTraceSingleForObjects (fadingState.comp 0).ComponentLocation
      openWorld.CameraLocation [fadingState.This.Owner, (fadingState.comp 0).Owner] = false ∧
    TMap.Get fadingState.This.PropagatedSounds 0 = 1 ∧
    (fadingState.comp 1).VolumeMultiplier = 201 / 20000 ∧
    (USoundPropagationComponent.UpdateSoundPropagation openWorld fadingState 0 (1 / 60)).map
      (fun s => (s.comp 1).VolumeMultiplier) = some (1 / 100) ∧
    ¬ (|(1 / 100 : ℚ) - 201 / 20000| ≤ fadingState.This.PropVolumeLerpSpeed * (1 / 60)) := by
  refine ⟨by decide!, by decide!, by decide!, by decide!, by decide!⟩

/-- The two branches on examples: in `openWorld` the direct ray is clear; in
`enclosedWorld` it is blocked and `FindPath` finds no path. Both ticks return and leave
the registry and the number of audio components as they were. -/
theorem UpdateSoundPropagation_fades_registered_secondary_witness :
    (∃ s2, USoundPropagationComponent.UpdateSoundPropagation openWorld fadingState 0 (1 / 60)
        = some s2 ∧
      s2.This.PropagatedSounds = [(0, 1)] ∧ s2.Comps.length = 2) ∧
    (∃ s2, USoundPropagationComponent.UpdateSoundPropagation enclosedWorld enclosedState 0
        (1 / 60) = some s2 ∧
      s2.This.PropagatedSounds = [(0, 1)] ∧ s2.Comps.length = 2) := by
  obtain ⟨s2, h1, h2, h3, -⟩ := UpdateSoundPropagation_fades_registered_secondary openWorld
    fadingState 0 (1 / 60) (by decide!) (Or.inl (by decide!))
  obtain ⟨s3, k1, k2, k3, -⟩ := UpdateSoundPropagation_fades_registered_secondary
    enclosedWorld enclosedState 0 (1 / 60) (by decide!)
    (Or.inr ⟨{ Return := false, Path := [], bOutPlayerHasMoved := true,
               Grid := (FPathfinder.FindPath {} grid3BlockedMid (fun _ _ => true) grid3Pos2
                 grid3Pos0 grid3Pos2 []).get (by decide!) |>.Grid,
               Pathfinder := { OldEndNode := some 2 } }, by decide!, rfl⟩)
  exact ⟨⟨s2, h1, h2, h3⟩, ⟨s3, k1, k2, k3⟩⟩

/-! ## Propagation: the placement node -/

theorem range'_eq_append_cons : ∀ (pre : List Nat) (a m i : Nat) (post : List Nat),
    List.range' a m = pre ++ i :: post →
    a ≤ i ∧ i < a + m ∧ ∀ j, a ≤ j → j < i → j ∈ pre := by
  intro pre
  induction pre with
  | nil =>
    intro a m i post h
    cases m with
    | zero => simp at h
    | succ m =>
      rw [List.range'_succ, List.nil_append] at h
      have hi : a = i := (List.cons.inj h).1
      subst hi
      exact ⟨le_rfl, by omega, fun j h1 h2 => absurd h1 (by omega)⟩
  | cons x pre ih =>
    intro a m i post h
    cases m with
    | zero => simp at h
    | succ m =>
      rw [List.range'_succ, List.cons_append] at h
      have hx : a = x := (List.cons.inj h).1
      obtain ⟨h1, h2, h3⟩ := ih (a + 1) m i post (List.cons.inj h).2
      subst hx
      refine ⟨by omega, by omega, fun j hj1 hj2 => ?_⟩
      rcases Nat.eq_or_lt_of_le hj1 with heq | hlt
      · rw [← heq]
        exact List.mem_cons_self _ _
      · exact List.mem_cons_of_mem _ (h3 j hlt hj2)

namespace PropagationState

theorem comp_setComp (s : PropagationState) (p q : Nat)
    (f : UAudioComponent → UAudioComponent) :
    (s.setComp p f).comp q = if q = p ∧ p < s.Comps.length then f (s.comp p) else s.comp q := by
  by_cases hq : q = p
  · subst hq
    by_cases hp : q < s.Comps.length
    · rw [comp_setComp_same s q f hp, if_pos ⟨rfl, hp⟩]
    · rw [if_neg fun h => hp h.2]
      unfold setComp comp
      rw [List.set_eq_of_length_le (not_lt.1 hp)]
  · rw [comp_setComp_other s p q f hq, if_neg fun h => hq h.1]

end PropagationState

namespace USoundPropagationComponent

/-- The scan changes nothing but the list of rays, stops at the first index whose ray is
blocked, and has cast the rays of the indices up to there. -/
theorem ScanPath_spec (W : UWorld) (ActorsToIgnore : List Nat) (Path : List Nat) :
    ∀ (idx : List Nat) (s : PropagationState),
      (∃ T, (ScanPath W ActorsToIgnore Path idx s).2 = { s with Traces := s.Traces ++ T } ∧
        match (ScanPath W ActorsToIgnore Path idx s).1 with
        | none =>
          (∀ j ∈ idx, W.LineTraceSingleForObjects
            (s.Grid.node (Path.getD j 0)).GetWorldCoordinate W.CameraLocation ActorsToIgnore
              = false) ∧
          T = idx.map fun j => (s.Grid.node (Path.getD j 0)).GetWorldCoordinate
        | some i =>
          ∃ pre post, idx = pre ++ i :: post ∧
            (∀ j ∈ pre, W.LineTraceSingleForObjects
              (s.Grid.node (Path.getD j 0)).GetWorldCoordinate W.CameraLocation ActorsToIgnore
                = false) ∧
            W.LineTraceSingleForObjects
              (s.Grid.node (Path.getD i 0)).GetWorldCoordinate W.CameraLocation ActorsToIgnore
                = true ∧
            T = (pre ++ [i]).map fun j => (s.Grid.node (Path.getD j 0)).GetWorldCoordinate) := by
  intro idx
  induction idx with
  | nil =>
    intro s
    exact ⟨[], by simp [ScanPath], by simp [ScanPath]⟩
  | cons i rest ih =>
    intro s
    by_cases hb : W.LineTraceSingleForObjects
        (s.Grid.node (Path.getD i 0)).GetWorldCoordinate W.CameraLocation ActorsToIgnore = true
    · refine ⟨[(s.Grid.node (Path.getD i 0)).GetWorldCoordinate], ?_, ?_⟩
      · simp only [ScanPath, DoLineTrace, hb, Bool.not_true, Bool.false_eq_true, if_false]
      · have h1 : (ScanPath W ActorsToIgnore Path (i :: rest) s).1 = some i := by
          simp only [ScanPath, DoLineTrace, hb, Bool.not_true, Bool.false_eq_true, if_false]
        rw [h1]
        exact ⟨[], rest, rfl, fun j hj => by simp at hj, hb, rfl⟩
    · have hb2 : W.LineTraceSingleForObjects
          (s.Grid.node (Path.getD i 0)).GetWorldCoordinate W.CameraLocation ActorsToIgnore
            = false := by simpa using hb
      have hstep : ScanPath W ActorsToIgnore Path (i :: rest) s
          = ScanPath W ActorsToIgnore Path rest
              { s with
                Traces := s.Traces ++ [(s.Grid.node (Path.getD i 0)).GetWorldCoordinate] } := by
        simp only [ScanPath, DoLineTrace, hb2, Bool.not_false, if_true]
      obtain ⟨T, hT, hm⟩ := ih
        { s with Traces := s.Traces ++ [(s.Grid.node (Path.getD i 0)).GetWorldCoordinate] }
      refine ⟨(s.Grid.node (Path.getD i 0)).GetWorldCoordinate :: T, ?_, ?_⟩
      · rw [hstep, hT]
        simp
      · rw [hstep]
        revert hm
        cases (ScanPath W ActorsToIgnore Path rest
          { s with
            Traces := s.Traces ++ [(s.Grid.node (Path.getD i 0)).GetWorldCoordinate] }).1 with
        | none =>
          rintro ⟨h1, h2⟩
          refine ⟨fun j hj => ?_, by rw [h2]; rfl⟩
          rcases List.mem_cons.1 hj with rfl | hj
          · exact hb2
          · exact h1 j hj
        | some k =>
          rintro ⟨pre, post, h1, h2, h3, h4⟩
          refine ⟨i :: pre, post, by rw [h1]; rfl, fun j hj => ?_, h3, by rw [h4]; rfl⟩
          rcases List.mem_cons.1 hj with rfl | hj
          · exact hb2
          · exact h2 j hj

theorem StorePath_state (s : PropagationState) (AudioComp : Nat) (Found : FindPathResult) :
    ∃ P, (StorePath s AudioComp Found).2 = { s with This := { s.This with Paths := P } } := by
  unfold StorePath
  split
  · exact ⟨s.This.Paths, rfl⟩
  · exact ⟨_, rfl⟩

theorem TMap.Get_Add_of_not_Contains (m : List (Nat × Nat)) (Key Value : Nat)
    (h : TMap.Contains m Key = false) : TMap.Get (TMap.Add m Key Value) Key = Value := by
  have hnone : m.lookup Key = none := by
    simpa [TMap.Contains] using h
  simp [TMap.Add, TMap.Get, h, List.lookup_append, hnone, List.lookup]

/-- `SetPropagatedSoundVolume` returns for a source with attenuation settings and writes
one volume. -/
theorem SetPropagatedSoundVolume_some (s : PropagationState)
    (AudioComp PropAudioComp PathSize : Nat) (DeltaTime : ℚ) (Att : USoundAttenuation)
    (hatt : (s.comp AudioComp).AttenuationSettings = some Att) :
    ∃ v, SetPropagatedSoundVolume s AudioComp PropAudioComp PathSize DeltaTime
      = some (s.setComp PropAudioComp fun c => c.SetVolumeMultiplier v) := by
  unfold SetPropagatedSoundVolume
  rw [hatt]
  exact ⟨_, rfl⟩

theorem location_setComp_volume (s : PropagationState) (p q : Nat) (v : ℚ) :
    ((s.setComp p fun c => c.SetVolumeMultiplier v).comp q).ComponentLocation
      = (s.comp q).ComponentLocation := by
  rw [PropagationState.comp_setComp]
  split
  · rename_i h
    rw [h.1]
    rfl
  · rfl

theorem attenuation_setComp_location (s : PropagationState) (p q : Nat) (L : FVector) :
    ((s.setComp p fun c => c.SetWorldLocation L).comp q).AttenuationSettings
      = (s.comp q).AttenuationSettings := by
  rw [PropagationState.comp_setComp]
  split
  · rename_i h
    rw [h.1]
    rfl
  · rfl

theorem lt_length_of_attenuation (s : PropagationState) (AudioComp : Nat)
    (Att : USoundAttenuation) (hatt : (s.comp AudioComp).AttenuationSettings = some Att) :
    AudioComp < s.Comps.length := by
  by_contra hge
  have hdef : s.comp AudioComp = default := by
    unfold PropagationState.comp
    exact List.getD_eq_default _ _ (not_lt.1 hge)
  rw [hdef] at hatt
  cases hatt

/-- Where `PlacePropagatedSound` puts the secondary source: a new one at the centre of
`Path[i - 1]`, a registered one one interpolation step towards it. -/
theorem PlacePropagatedSound_spec (W : UWorld) (s : PropagationState) (AudioComp : Nat)
    (DeltaTime : ℚ) (Path : List Nat) (i : Nat) (Att : USoundAttenuation)
    (hatt : (s.comp AudioComp).AttenuationSettings = some Att) :
    ∃ s3, PlacePropagatedSound W s AudioComp DeltaTime Path i = some s3 ∧
      (TMap.Contains s.This.PropagatedSounds AudioComp = false →
        TMap.Get s3.This.PropagatedSounds AudioComp = s.Comps.length ∧
        (s3.comp s.Comps.length).ComponentLocation
          = (s.Grid.node (Path.getD (i - 1) 0)).GetWorldCoordinate) ∧
      (TMap.Contains s.This.PropagatedSounds AudioComp = true →
        ∀ p, TMap.Get s.This.PropagatedSounds AudioComp = p → p < s.Comps.length →
          s3.This.PropagatedSounds = s.This.PropagatedSounds ∧
          (s3.comp p).ComponentLocation
            = if (s.comp p).ComponentLocation.Equals
                  (s.Grid.node (Path.getD (i - 1) 0)).GetWorldCoordinate then
                (s.comp p).ComponentLocation
              else
                FMath.VInterpConstantTo W.Dist (s.comp p).ComponentLocation
                  (s.Grid.node (Path.getD (i - 1) 0)).GetWorldCoordinate DeltaTime
                  s.This.PropagateLerpSpeed) := by
  have hlt := lt_length_of_attenuation s AudioComp Att hatt
  by_cases hc : TMap.Contains s.This.PropagatedSounds AudioComp = true
  · -- a registered secondary is moved
    by_cases he :
        (s.comp (TMap.Get s.This.PropagatedSounds AudioComp)).ComponentLocation.Equals
          (s.Grid.node (Path.getD (i - 1) 0)).GetWorldCoordinate = true
    · obtain ⟨v, hv⟩ := SetPropagatedSoundVolume_some s AudioComp
        (TMap.Get s.This.PropagatedSounds AudioComp) Path.length DeltaTime Att hatt
      refine ⟨s.setComp (TMap.Get s.This.PropagatedSounds AudioComp) fun c =>
        c.SetVolumeMultiplier v, ?_, fun h => absurd hc (by rw [h]; exact Bool.false_ne_true),
        ?_⟩
      · simp only [PlacePropagatedSound, hc, Bool.not_true, Bool.false_eq_true, if_false,
          UAudioComponent.GetComponentLocation, he]
        exact hv
      · intro _ p hp _
        subst hp
        refine ⟨rfl, ?_⟩
        rw [location_setComp_volume, if_pos he]
    · have hatt2 : ((MovePropagatedAudioComp W s (TMap.Get s.This.PropagatedSounds AudioComp)
          (Path.getD (i - 1) 0) DeltaTime).comp AudioComp).AttenuationSettings = some Att := by
        unfold MovePropagatedAudioComp
        dsimp only
        rw [attenuation_setComp_location]
        exact hatt
      obtain ⟨v, hv⟩ := SetPropagatedSoundVolume_some
        (MovePropagatedAudioComp W s (TMap.Get s.This.PropagatedSounds AudioComp)
          (Path.getD (i - 1) 0) DeltaTime) AudioComp
        (TMap.Get s.This.PropagatedSounds AudioComp) Path.length DeltaTime Att hatt2
      refine ⟨(MovePropagatedAudioComp W s (TMap.Get s.This.PropagatedSounds AudioComp)
          (Path.getD (i - 1) 0) DeltaTime).setComp (TMap.Get s.This.PropagatedSounds AudioComp)
          fun c => c.SetVolumeMultiplier v, ?_,
        fun h => absurd hc (by rw [h]; exact Bool.false_ne_true), ?_⟩
      · simp only [PlacePropagatedSound, hc, Bool.not_true, Bool.false_eq_true, if_false,
          UAudioComponent.GetComponentLocation, he, Bool.not_false, if_true]
        exact hv
      · intro _ p hp hplt
        subst hp
        refine ⟨rfl, ?_⟩
        rw [location_setComp_volume, if_neg he]
        unfold MovePropagatedAudioComp
        dsimp only
        rw [PropagationState.comp_setComp_same _ _ _ hplt]
        rfl
  · -- no secondary yet: one is spawned
    have hc2 : TMap.Contains s.This.PropagatedSounds AudioComp = false := by simpa using hc
    have hatt2 : ((SpawnPropagatedSound s AudioComp
        (s.Grid.node (Path.getD (i - 1) 0)).GetWorldCoordinate Path.length).1.comp
          AudioComp).AttenuationSettings = some Att := by
      have : (SpawnPropagatedSound s AudioComp
          (s.Grid.node (Path.getD (i - 1) 0)).GetWorldCoordinate Path.length).1.comp AudioComp
            = s.comp AudioComp := by
        simp only [SpawnPropagatedSound, PropagationState.comp]
        rw [List.getD_append _ _ _ _ hlt]
      rw [this]
      exact hatt
    obtain ⟨v, hv⟩ := SetPropagatedSoundVolume_some
      (SpawnPropagatedSound s AudioComp
        (s.Grid.node (Path.getD (i - 1) 0)).GetWorldCoordinate Path.length).1 AudioComp
      (SpawnPropagatedSound s AudioComp
        (s.Grid.node (Path.getD (i - 1) 0)).GetWorldCoordinate Path.length).2
      Path.length DeltaTime Att hatt2
    refine ⟨(SpawnPropagatedSound s AudioComp
        (s.Grid.node (Path.getD (i - 1) 0)).GetWorldCoordinate Path.length).1.setComp
        (SpawnPropagatedSound s AudioComp
          (s.Grid.node (Path.getD (i - 1) 0)).GetWorldCoordinate Path.length).2
        fun c => c.SetVolumeMultiplier v, ?_, fun _ => ⟨?_, ?_⟩, fun h => absurd h hc⟩
    · simp only [PlacePropagatedSound, hc2, Bool.not_false, if_true]
      exact hv
    · exact TMap.Get_Add_of_not_Contains _ _ _ hc2
    · rw [location_setComp_volume]
      simp only [SpawnPropagatedSound, PropagationState.comp]
      rw [List.getD_append_right _ _ _ _ le_rfl]
      simp [UAudioComponent.Play, UAudioComponent.SetSourceEffectChain,
        UAudioComponent.SetWorldLocation]

theorem StorePath_path (s : PropagationState) (AudioComp : Nat) (Found : FindPathResult) :
    (StorePath s AudioComp Found).1
      = if !Found.bOutPlayerHasMoved && TMap.Contains s.This.Paths AudioComp then
          TMap.Get s.This.Paths AudioComp
        else Found.Path := by
  unfold StorePath
  split <;> rfl

/-- The scan and the placement after it, on an arbitrary state and path. -/
theorem PropagateAlongPath_spec (W : UWorld) (s : PropagationState) (AudioComp : Nat)
    (DeltaTime : ℚ) (ActorsToIgnore : List Nat) (Path : List Nat) (Att : USoundAttenuation)
    (hatt : (s.comp AudioComp).AttenuationSettings = some Att) :
    ∃ s3,
      (match (ScanPath W ActorsToIgnore Path (List.range' 1 (Path.length - 1)) s).1 with
        | none => some (ScanPath W ActorsToIgnore Path (List.range' 1 (Path.length - 1)) s).2
        | some i =>
          PlacePropagatedSound W
            (ScanPath W ActorsToIgnore Path (List.range' 1 (Path.length - 1)) s).2
            AudioComp DeltaTime Path i) = some s3 ∧
      (((∀ j, 1 ≤ j → j < Path.length →
            W.LineTraceSingleForObjects (s.Grid.node (Path.getD j 0)).GetWorldCoordinate
              W.CameraLocation ActorsToIgnore = false) ∧
          s3.Comps = s.Comps ∧ s3.This = s.This) ∨
        ∃ i, 1 ≤ i ∧ i < Path.length ∧
          W.LineTraceSingleForObjects (s.Grid.node (Path.getD i 0)).GetWorldCoordinate
            W.CameraLocation ActorsToIgnore = true ∧
          (∀ j, 1 ≤ j → j < i →
            W.LineTraceSingleForObjects (s.Grid.node (Path.getD j 0)).GetWorldCoordinate
              W.CameraLocation ActorsToIgnore = false) ∧
          (TMap.Contains s.This.PropagatedSounds AudioComp = false →
            TMap.Get s3.This.PropagatedSounds AudioComp = s.Comps.length ∧
            (s3.comp s.Comps.length).ComponentLocation
              = (s.Grid.node (Path.getD (i - 1) 0)).GetWorldCoordinate) ∧
          (TMap.Contains s.This.PropagatedSounds AudioComp = true →
            ∀ p, TMap.Get s.This.PropagatedSounds AudioComp = p → p < s.Comps.length →
              s3.This.PropagatedSounds = s.This.PropagatedSounds ∧
              (s3.comp p).ComponentLocation
                = if (s.comp p).ComponentLocation.Equals
                      (s.Grid.node (Path.getD (i - 1) 0)).GetWorldCoordinate then
                    (s.comp p).ComponentLocation
                  else
                    FMath.VInterpConstantTo W.Dist (s.comp p).ComponentLocation
                      (s.Grid.node (Path.getD (i - 1) 0)).GetWorldCoordinate DeltaTime
                      s.This.PropagateLerpSpeed)) := by
  obtain ⟨T, hT, hm⟩ := ScanPath_spec W ActorsToIgnore Path
    (List.range' 1 (Path.length - 1)) s
  rcases hs : (ScanPath W ActorsToIgnore Path (List.range' 1 (Path.length - 1)) s).1
    with _ | i
  · rw [hs] at hm
    refine ⟨_, rfl, Or.inl ⟨fun j h1 h2 => hm.1 j ?_, by rw [hT], by rw [hT]⟩⟩
    rw [List.mem_range'_1]
    omega
  · rw [hs] at hm
    obtain ⟨pre, post, hsplit, hpre, hblocked, -⟩ := hm
    obtain ⟨h1, h2, h3⟩ := range'_eq_append_cons pre 1 (Path.length - 1) i post hsplit
    have hatt2 : ((ScanPath W ActorsToIgnore Path (List.range' 1 (Path.length - 1)) s).2.comp
        AudioComp).AttenuationSettings = some Att := by
      rw [hT]
      exact hatt
    obtain ⟨s3, hrun, hspawn, hmove⟩ := PlacePropagatedSound_spec W
      (ScanPath W ActorsToIgnore Path (List.range' 1 (Path.length - 1)) s).2 AudioComp
      DeltaTime Path i Att hatt2
    rw [hT] at hspawn hmove
    exact ⟨s3, hrun, Or.inr ⟨i, h1, by omega, hblocked,
      fun j hj1 hj2 => hpre j (h3 j hj1 hj2), hspawn, hmove⟩⟩

end USoundPropagationComponent

/-- C30: the material factor of a hit is the table value of the first material, in the
struck component's material order, that has an entry in `MaterialOcclusionMap`, and is 1
when none of the struck component's materials has an entry, also when it has no
materials. -/
theorem GetMaterialValue_first_entry (this : UAudioOcclusionComponent) (W : UWorld)
    (HitResult : FHitResult) :
    (∀ (pre : List Nat) (m : Nat) (post : List Nat) (v : ℚ),
      W.GetUsedMaterials HitResult.Component = pre ++ m :: post →
      (∀ x ∈ pre, this.MaterialOcclusionMap.lookup x = none) →
      this.MaterialOcclusionMap.lookup m = some v →
      this.GetMaterialValue W HitResult = v) ∧
    ((∀ x ∈ W.GetUsedMaterials HitResult.Component,
        this.MaterialOcclusionMap.lookup x = none) →
      this.GetMaterialValue W HitResult = 1) := by
  refine ⟨fun pre m post v hsplit hpre hm => ?_, fun hall => ?_⟩
  · have hfind : (W.GetUsedMaterials HitResult.Component).find?
        (fun Material => TMap.Contains this.MaterialOcclusionMap Material) = some m := by
      rw [hsplit, List.find?_append, List.find?_eq_none.2, Option.none_or,
        List.find?_cons_of_pos]
      · simp [TMap.Contains, hm]
      · intro x hx
        simp [TMap.Contains, hpre x hx]
    simp only [UAudioOcclusionComponent.GetMaterialValue, hfind, TMap.Get, hm,
      Option.getD_some]
  · have hfind : (W.GetUsedMaterials HitResult.Component).find?
        (fun Material => TMap.Contains this.MaterialOcclusionMap Material) = none := by
      rw [List.find?_eq_none]
      intro x hx
      simp [TMap.Contains, hall x hx]
    simp only [UAudioOcclusionComponent.GetMaterialValue, hfind]

/-- A component with materials 5 then 3: with both in the table the value of 5 is taken
whatever the table's order; with only 3 in the table its value; with neither, 1. -/
theorem GetMaterialValue_first_entry_witness :
    UAudioOcclusionComponent.GetMaterialValue
      { MaterialOcclusionMap := [(3, 1 / 2), (5, 1 / 4)] }
      { wallWorld with GetUsedMaterials := fun _ => [5, 3] } wallHitFromPlayer = 1 / 4 ∧
    UAudioOcclusionComponent.GetMaterialValue { MaterialOcclusionMap := [(3, 1 / 2)] }
      { wallWorld with GetUsedMaterials := fun _ => [5, 3] } wallHitFromPlayer = 1 / 2 ∧
    UAudioOcclusionComponent.GetMaterialValue { MaterialOcclusionMap := [(4, 1 / 2)] }
      { wallWorld with GetUsedMaterials := fun _ => [5, 3] } wallHitFromPlayer = 1 :=
  ⟨(GetMaterialValue_first_entry { MaterialOcclusionMap := [(3, 1 / 2), (5, 1 / 4)] }
      { wallWorld with GetUsedMaterials := fun _ => [5, 3] } wallHitFromPlayer).1
      [] 5 [3] (1 / 4) rfl (fun _ h => absurd h (List.not_mem_nil _)) (by decide!),
   (GetMaterialValue_first_entry { MaterialOcclusionMap := [(3, 1 / 2)] }
      { wallWorld with GetUsedMaterials := fun _ => [5, 3] } wallHitFromPlayer).1
      [5] 3 [] (1 / 2) rfl (by decide!) (by decide!),
   (GetMaterialValue_first_entry { MaterialOcclusionMap := [(4, 1 / 2)] }
      { wallWorld with GetUsedMaterials := fun _ => [5, 3] } wallHitFromPlayer).2
      (by decide!)⟩

/-- Two running sums over the same indices stay related when every step keeps them
related. -/
theorem foldl_range_rel (R : ℚ → ℚ → Prop) (n : Nat) (f g : Nat → ℚ) (a b : ℚ) (h0 : R a b)
    (hstep : ∀ i < n, ∀ x y, R x y → R (x + f i) (y + g i)) :
    R ((List.range n).foldl (fun t (i : Nat) => t + f i) a)
      ((List.range n).foldl (fun t (i : Nat) => t + g i) b) := by
  induction n with
  | zero => simpa using h0
  | succ n ih =>
    rw [List.range_succ, List.foldl_append, List.foldl_append]
    simp only [List.foldl_cons, List.foldl_nil]
    exact hstep n (Nat.lt_succ_self n) _ _
      (ih fun i hi => hstep i (Nat.lt_succ_of_lt hi))

theorem sum_map_range_eq_foldl (n : Nat) (f : Nat → ℚ) :
    ((List.range n).map f).sum = (List.range n).foldl (fun t (i : Nat) => t + f i) 0 := by
  induction n with
  | zero => simp
  | succ n ih =>
    rw [List.range_succ, List.map_append, List.sum_append, List.foldl_append, ih]
    simp

namespace UAudioOcclusionComponent

/-- With non-negative material factors, clamping every contribution before the sum does
not change the clamped total. -/
theorem clamp_TotalOccValueLoop_eq_spec (this : UAudioOcclusionComponent) (W : UWorld)
    (P A : List FHitResult)
    (hmat : ∀ i < A.length, 0 ≤ this.GetMaterialValue W (P.getD i default)) :
    FMath.ClampF (this.TotalOccValueLoop W P A) 0 1 = this.TotalOcclusionSpec W P A := by
  unfold TotalOcclusionSpec TotalOccValueLoop
  rw [sum_map_range_eq_foldl]
  have hrel := foldl_range_rel (fun x y => 0 ≤ x ∧ x ≤ y ∧ (x = y ∨ 1 ≤ x)) A.length
    (fun i => this.GetOcclusionValue W (P.getD i default) (A.getD i default))
    (fun i => FMath.ClampF
        (W.Dist (P.getD i default).ImpactPoint (A.getD i default).ImpactPoint
          / this.MaxMeshDistanceToBlockAllAudio) 0 1
      * this.GetMaterialValue W (P.getD i default)) 0 0 ⟨le_rfl, le_rfl, Or.inl rfl⟩
    (fun i hi x y hxy => by
      obtain ⟨hx0, hxy, hcase⟩ := hxy
      have ht : 0 ≤ FMath.ClampF
          (W.Dist (P.getD i default).ImpactPoint (A.getD i default).ImpactPoint
            / this.MaxMeshDistanceToBlockAllAudio) 0 1 :=
        (FMath.ClampF_mem _ (by norm_num)).1
      have hc : 0 ≤ FMath.ClampF
          (W.Dist (P.getD i default).ImpactPoint (A.getD i default).ImpactPoint
            / this.MaxMeshDistanceToBlockAllAudio) 0 1
          * this.GetMaterialValue W (P.getD i default) := mul_nonneg ht (hmat i hi)
      have hocc : this.GetOcclusionValue W (P.getD i default) (A.getD i default)
          = FMath.ClampF (FMath.ClampF
              (W.Dist (P.getD i default).ImpactPoint (A.getD i default).ImpactPoint
                / this.MaxMeshDistanceToBlockAllAudio) 0 1
            * this.GetMaterialValue W (P.getD i default)) 0 1 := rfl
      beta_reduce
      rw [hocc]
      by_cases h1 : FMath.ClampF
          (W.Dist (P.getD i default).ImpactPoint (A.getD i default).ImpactPoint
            / this.MaxMeshDistanceToBlockAllAudio) 0 1
          * this.GetMaterialValue W (P.getD i default) ≤ 1
      · rw [FMath.ClampF_of_mem hc h1]
        refine ⟨by linarith, by linarith, ?_⟩
        rcases hcase with h | h
        · exact Or.inl (by rw [h])
        · exact Or.inr (by linarith)
      · rw [FMath.ClampF_of_ge_max (by norm_num) (le_of_not_le h1)]
        exact ⟨by linarith, by linarith [le_of_not_le h1], Or.inr (by linarith)⟩)
  obtain ⟨_, hle, hcase⟩ := hrel
  rcases hcase with h | h
  · rw [h]
  · rw [FMath.ClampF_of_ge_max (by norm_num) h,
      FMath.ClampF_of_ge_max (by norm_num) (le_trans h hle)]

end UAudioOcclusionComponent

/-- C29: for a blocked source whose hit pairs have positive material factors, the total
occlusion the code computes, the clamp to `[0, 1]` of the sum of per-pair values that are
each already clamped to `[0, 1]`, equals the specified
`clamp(sum of thickness-factor * material-factor, 0, 1)`, and the volume set is
`clamp(1 - that total, 0.01, 1)`. -/
theorem UpdateAudioComp_total_refines_spec (this : UAudioOcclusionComponent) (W : UWorld)
    (AudioComp : UAudioComponent) (DeltaTime : ℚ) (P A : List FHitResult)
    (hP : W.LineTraceMultiForObjects W.CameraLocation AudioComp.ComponentLocation
      [this.Owner, AudioComp.Owner] = P)
    (hA : W.LineTraceMultiForObjects AudioComp.ComponentLocation W.CameraLocation
      [this.Owner, AudioComp.Owner] = A)
    (hblocked : P ≠ []) (hlen : A.length = P.length)
    (hmat : ∀ i < P.length, 0 < this.GetMaterialValue W (P.getD i default)) :
    FMath.ClampF (this.TotalOccValueLoop W P A.reverse) 0 1
      = this.TotalOcclusionSpec W P A.reverse ∧
    (this.UpdateAudioComp W AudioComp DeltaTime).AudioComp.VolumeMultiplier
      = FMath.ClampF (1 - this.TotalOcclusionSpec W P A.reverse) (1 / 100) 1 := by
  have h := UAudioOcclusionComponent.clamp_TotalOccValueLoop_eq_spec this W P A.reverse
    (fun i hi => le_of_lt (hmat i (by rw [List.length_reverse, hlen] at hi; exact hi)))
  refine ⟨h, ?_⟩
  rw [UAudioOcclusionComponent.UpdateAudioComp_blocked_volume this W AudioComp DeltaTime
      (by rw [hP]; exact hblocked) (by rw [hP, hA]; exact hlen),
    UAudioOcclusionComponent.occludedVolume_eq this W AudioComp P A hP hA, h]

/-- In `twoWallWorld` with material factors 4 for material 3 and 2 for material 5 the
first wall alone contributes `4 / 9` and the second `1 / 9`: the total is `5 / 9` and
the volume `4 / 9`. -/
theorem UpdateAudioComp_total_refines_spec_witness :
    UAudioOcclusionComponent.TotalOcclusionSpec { MaterialOcclusionMap := [(3, 4), (5, 2)] }
      twoWallWorld
      [wallHitFromPlayer, { bBlockingHit := true, ImpactPoint := ⟨700, 0, 0⟩, Component := 9 }]
      [{ bBlockingHit := true, ImpactPoint := ⟨750, 0, 0⟩, Component := 9 },
        wallHitFromAudio].reverse = 5 / 9 ∧
    (UAudioOcclusionComponent.UpdateAudioComp { MaterialOcclusionMap := [(3, 4), (5, 2)] }
      twoWallWorld wallSource (1 / 60)).AudioComp.VolumeMultiplier = 4 / 9 := by
  have h := UpdateAudioComp_total_refines_spec { MaterialOcclusionMap := [(3, 4), (5, 2)] }
    twoWallWorld wallSource (1 / 60)
    [wallHitFromPlayer, { bBlockingHit := true, ImpactPoint := ⟨700, 0, 0⟩, Component := 9 }]
    [{ bBlockingHit := true, ImpactPoint := ⟨750, 0, 0⟩, Component := 9 }, wallHitFromAudio]
    (by decide!) (by decide!) (by decide!) (by decide!)
    (fun i hi => by
      have hi2 : i = 0 ∨ i = 1 := by
        simp only [List.length_cons, List.length_nil] at hi
        omega
      rcases hi2 with rfl | rfl <;> decide!)
  have hs : UAudioOcclusionComponent.TotalOcclusionSpec
      { MaterialOcclusionMap := [(3, 4), (5, 2)] } twoWallWorld
      [wallHitFromPlayer, { bBlockingHit := true, ImpactPoint := ⟨700, 0, 0⟩, Component := 9 }]
      [{ bBlockingHit := true, ImpactPoint := ⟨750, 0, 0⟩, Component := 9 },
        wallHitFromAudio].reverse = 5 / 9 := by decide!
  refine ⟨hs, ?_⟩
  rw [h.2, hs]
  decide!

/-! ## Propagation: the target volume -/

theorem AMapGrid.SameFrame.getNodeFromWorldLocation {g g' : AMapGrid} (h : g.SameFrame g')
    (WorldLoc : FVector) :
    g'.GetNodeFromWorldLocation WorldLoc = g.GetNodeFromWorldLocation WorldLoc := by
  have hh := h
  obtain ⟨a1, a2, _, a4, a5, a6, a7, _⟩ := hh
  unfold AMapGrid.GetNodeFromWorldLocation
  simp only [h.getNodeFromArray, a1, a2, a4, a5, a6, a7]

/-- `BeginPlay` returns when no cell count is negative, and leaves the grid that
`CreateGrid` describes for the diameter `NodeRadius * 2`. -/
theorem AMapGrid.BeginPlay_spec (Overlap : FVector → ℚ → Bool) (g : AMapGrid)
    (hx : 0 ≤ FMath.RoundToInt (g.GridSize.X / (g.NodeRadius * 2)))
    (hy : 0 ≤ FMath.RoundToInt (g.GridSize.Y / (g.NodeRadius * 2)))
    (hz : 0 ≤ FMath.RoundToInt (g.GridSize.Z / (g.NodeRadius * 2))) :
    ∃ g', AMapGrid.BeginPlay Overlap g = some g' ∧
      (AMapGrid.CreateGridInit { g with NodeDiameter := g.NodeRadius * 2 }).SameFrame g' ∧
      g'.Nodes.length
        = (g'.GridArrayLengthX * g'.GridArrayLengthY * g'.GridArrayLengthZ).toNat ∧
      ∀ x y z, g'.InBounds x y z →
        g'.node (g'.GetNodeFromArray x y z) = AMapGrid.CellNode Overlap g' x y z := by
  have hsome : AMapGrid.BeginPlay Overlap g
      = some (AMapGrid.CreateGridLoops Overlap
          (AMapGrid.CreateGridInit { g with NodeDiameter := g.NodeRadius * 2 })) := by
    unfold AMapGrid.BeginPlay AMapGrid.CreateGrid
    simp only
    rw [if_neg]
    exact not_lt.2 (mul_nonneg (mul_nonneg hx hy) hz)
  exact ⟨_, hsome, AMapGrid.CreateGrid_spec Overlap _ _ hsome⟩

/-- C24: `BeginPlay` sets the diameter to `2 * NodeRadius` and `CreateGrid` makes
`round(size / diameter)` cells on each axis, when these counts are not negative: one node
per cell, carrying the cell's coordinates, and as many nodes as the product of the counts.
For a grid sized 300 x 300 x 300 with cell radius 50 this is 3 cells per axis and 27
nodes. -/
theorem BeginPlay_makes_rounded_cell_counts (Overlap : FVector → ℚ → Bool) (g : AMapGrid)
    (hx : 0 ≤ FMath.RoundToInt (g.GridSize.X / (g.NodeRadius * 2)))
    (hy : 0 ≤ FMath.RoundToInt (g.GridSize.Y / (g.NodeRadius * 2)))
    (hz : 0 ≤ FMath.RoundToInt (g.GridSize.Z / (g.NodeRadius * 2))) :
    ∃ g', AMapGrid.BeginPlay Overlap g = some g' ∧
      g'.NodeDiameter = g.NodeRadius * 2 ∧
      g'.GridArrayLengthX = FMath.RoundToInt (g.GridSize.X / (g.NodeRadius * 2)) ∧
      g'.GridArrayLengthY = FMath.RoundToInt (g.GridSize.Y / (g.NodeRadius * 2)) ∧
      g'.GridArrayLengthZ = FMath.RoundToInt (g.GridSize.Z / (g.NodeRadius * 2)) ∧
      g'.Nodes.length
        = (g'.GridArrayLengthX * g'.GridArrayLengthY * g'.GridArrayLengthZ).toNat ∧
      (∀ x y z, g'.InBounds x y z →
        g'.GetNodeFromArray x y z < g'.Nodes.length ∧
        (g'.node (g'.GetNodeFromArray x y z)).GridX = x ∧
        (g'.node (g'.GetNodeFromArray x y z)).GridY = y ∧
        (g'.node (g'.GetNodeFromArray x y z)).GridZ = z) ∧
      (g.GridSize = ⟨300, 300, 300⟩ → g.NodeRadius = 50 →
        g'.GridArrayLengthX = 3 ∧ g'.GridArrayLengthY = 3 ∧ g'.GridArrayLengthZ = 3 ∧
        g'.Nodes.length = 27) := by
  obtain ⟨g', hrun, hf, hlen, hcells⟩ := AMapGrid.BeginPlay_spec Overlap g hx hy hz
  have hh := hf
  obtain ⟨_, a2, _, a4, a5, a6, _⟩ := hh
  have hX : g'.GridArrayLengthX = FMath.RoundToInt (g.GridSize.X / (g.NodeRadius * 2)) := a4
  have hY : g'.GridArrayLengthY = FMath.RoundToInt (g.GridSize.Y / (g.NodeRadius * 2)) := a5
  have hZ : g'.GridArrayLengthZ = FMath.RoundToInt (g.GridSize.Z / (g.NodeRadius * 2)) := a6
  refine ⟨g', hrun, a2, hX, hY, hZ, hlen, fun x y z hb => ?_, fun hs hr => ?_⟩
  · refine ⟨?_, ?_⟩
    · rw [hlen]
      exact AMapGrid.GetNodeFromArray_lt g' x y z hb
    · rw [hcells x y z hb]
      exact ⟨rfl, rfl, rfl⟩
  · have h3 : FMath.RoundToInt ((300 : ℚ) / (50 * 2)) = 3 := by decide!
    rw [hs, hr] at hX hY hZ
    simp only at hX hY hZ
    rw [h3] at hX hY hZ
    refine ⟨hX, hY, hZ, ?_⟩
    rw [hlen, hX, hY, hZ]
    rfl

/-- The scenario grid in an empty world: 3 cells per axis, 27 nodes. -/
theorem BeginPlay_makes_rounded_cell_counts_witness :
    ∃ g', AMapGrid.BeginPlay noOverlap (exampleGrid 300 300 300) = some g' ∧
      g'.GridArrayLengthX = 3 ∧ g'.GridArrayLengthY = 3 ∧ g'.GridArrayLengthZ = 3 ∧
      g'.Nodes.length = 27 := by
  obtain ⟨g', hrun, _, _, _, _, _, _, h⟩ := BeginPlay_makes_rounded_cell_counts noOverlap
    (exampleGrid 300 300 300) (by decide!) (by decide!) (by decide!)
  exact ⟨g', hrun, h rfl rfl⟩

/-- Counterexample to C25 as stated: on the scenario grid built at the world origin the
node of `(0, 0, 0)` has grid coordinates `(1, 1, 0)`. -/
theorem GetNodeFromWorldLocation_origin_in_bottom_layer :
    AMapGrid.BeginPlay noOverlap (exampleGrid 300 300 300) = some grid27 ∧
    (exampleGrid 300 300 300).ActorLocation = ⟨0, 0, 0⟩ ∧
    (grid27.node (grid27.GetNodeFromWorldLocation ⟨0, 0, 0⟩)).GridX = 1 ∧
    (grid27.node (grid27.GetNodeFromWorldLocation ⟨0, 0, 0⟩)).GridY = 1 ∧
    (grid27.node (grid27.GetNodeFromWorldLocation ⟨0, 0, 0⟩)).GridZ = 0 := by
  refine ⟨by decide!, by decide!, by decide!, by decide!, by decide!⟩

/-- C25, amended: for the 300 x 300 x 300 grid with cell radius 50 built by `CreateGrid`
with the grid actor at the world origin, whatever the blocking geometry,
`GetNodeFromWorldLocation((0, 0, 0))` returns the node with grid coordinates `(1, 1, 0)`:
the grid extends upwards from the actor, its bottom layer starting at the actor's height.
The node with grid coordinates `(1, 1, 1)` is the one returned for the centre of the grid
volume, `(0, 0, 150)`. -/
theorem GetNodeFromWorldLocation_scenario_origin (Overlap : FVector → ℚ → Bool)
    (g : AMapGrid) (hsize : g.GridSize = ⟨300, 300, 300⟩) (hradius : g.NodeRadius = 50)
    (hloc : g.ActorLocation = ⟨0, 0, 0⟩) :
    ∃ g', AMapGrid.BeginPlay Overlap g = some g' ∧
      (g'.node (g'.GetNodeFromWorldLocation ⟨0, 0, 0⟩)).GridX = 1 ∧
      (g'.node (g'.GetNodeFromWorldLocation ⟨0, 0, 0⟩)).GridY = 1 ∧
      (g'.node (g'.GetNodeFromWorldLocation ⟨0, 0, 0⟩)).GridZ = 0 ∧
      (g'.node (g'.GetNodeFromWorldLocation ⟨0, 0, 150⟩)).GridX = 1 ∧
      (g'.node (g'.GetNodeFromWorldLocation ⟨0, 0, 150⟩)).GridY = 1 ∧
      (g'.node (g'.GetNodeFromWorldLocation ⟨0, 0, 150⟩)).GridZ = 1 := by
  have h3 : FMath.RoundToInt ((300 : ℚ) / (50 * 2)) = 3 := by decide!
  obtain ⟨g', hrun, hf, _, hcells⟩ := AMapGrid.BeginPlay_spec Overlap g
    (by rw [hsize, hradius]; decide!) (by rw [hsize, hradius]; decide!)
    (by rw [hsize, hradius]; decide!)
  have hh := hf
  obtain ⟨a1, a2, _, a4, a5, a6, a7, _⟩ := hh
  have hX : g'.GridArrayLengthX = 3 := by
    rw [a4]; show FMath.RoundToInt (g.GridSize.X / (g.NodeRadius * 2)) = 3
    rw [hsize, hradius]; exact h3
  have hY : g'.GridArrayLengthY = 3 := by
    rw [a5]; show FMath.RoundToInt (g.GridSize.Y / (g.NodeRadius * 2)) = 3
    rw [hsize, hradius]; exact h3
  have hZ : g'.GridArrayLengthZ = 3 := by
    rw [a6]; show FMath.RoundToInt (g.GridSize.Z / (g.NodeRadius * 2)) = 3
    rw [hsize, hradius]; exact h3
  have hR : g'.NodeRadius = 50 := by rw [a1]; exact hradius
  have hD : g'.NodeDiameter = 50 * 2 := by
    rw [a2]; show g.NodeRadius * 2 = 50 * 2
    rw [hradius]
  have hB : g'.GridBottomLeftLocation = ⟨-150, -150, 0⟩ := by
    rw [a7]
    show (⟨g.ActorLocation.X - g.GridSize.X / 2, g.ActorLocation.Y - g.GridSize.Y / 2,
      g.ActorLocation.Z⟩ : FVector) = ⟨-150, -150, 0⟩
    rw [hloc, hsize]
    norm_num
  have h0 : g'.GetNodeFromWorldLocation ⟨0, 0, 0⟩ = g'.GetNodeFromArray 1 1 0 := by
    unfold AMapGrid.GetNodeFromWorldLocation
    simp only [hX, hY, hZ, hR, hD, hB]
    have e1 : FMath.Clamp (FMath.RoundToInt ((((⟨0, 0, 0⟩ : FVector).sub
        ⟨-150, -150, 0⟩).subScalar 50).divScalar (50 * 2)).X) 0 (3 - 1) = 1 := by decide!
    have e2 : FMath.Clamp (FMath.RoundToInt ((((⟨0, 0, 0⟩ : FVector).sub
        ⟨-150, -150, 0⟩).subScalar 50).divScalar (50 * 2)).Y) 0 (3 - 1) = 1 := by decide!
    have e3 : FMath.Clamp (FMath.RoundToInt ((((⟨0, 0, 0⟩ : FVector).sub
        ⟨-150, -150, 0⟩).subScalar 50).divScalar (50 * 2)).Z) 0 (3 - 1) = 0 := by decide!
    rw [e1, e2, e3]
  have h1 : g'.GetNodeFromWorldLocation ⟨0, 0, 150⟩ = g'.GetNodeFromArray 1 1 1 := by
    unfold AMapGrid.GetNodeFromWorldLocation
    simp only [hX, hY, hZ, hR, hD, hB]
    have e1 : FMath.Clamp (FMath.RoundToInt ((((⟨0, 0, 150⟩ : FVector).sub
        ⟨-150, -150, 0⟩).subScalar 50).divScalar (50 * 2)).X) 0 (3 - 1) = 1 := by decide!
    have e2 : FMath.Clamp (FMath.RoundToInt ((((⟨0, 0, 150⟩ : FVector).sub
        ⟨-150, -150, 0⟩).subScalar 50).divScalar (50 * 2)).Y) 0 (3 - 1) = 1 := by decide!
    have e3 : FMath.Clamp (FMath.RoundToInt ((((⟨0, 0, 150⟩ : FVector).sub
        ⟨-150, -150, 0⟩).subScalar 50).divScalar (50 * 2)).Z) 0 (3 - 1) = 1 := by decide!
    rw [e1, e2, e3]
  have hb0 : g'.InBounds 1 1 0 := by
    unfold AMapGrid.InBounds
    rw [hX, hY, hZ]
    decide
  have hb1 : g'.InBounds 1 1 1 := by
    unfold AMapGrid.InBounds
    rw [hX, hY, hZ]
    decide
  refine ⟨g', hrun, ?_⟩
  rw [h0, h1, hcells 1 1 0 hb0, hcells 1 1 1 hb1]
  exact ⟨rfl, rfl, rfl, rfl, rfl, rfl⟩

/-- The scenario grid in an empty world. -/
theorem GetNodeFromWorldLocation_scenario_origin_witness :
    ∃ g', AMapGrid.BeginPlay noOverlap (exampleGrid 300 300 300) = some g' ∧
      (g'.node (g'.GetNodeFromWorldLocation ⟨0, 0, 0⟩)).GridZ = 0 ∧
      (g'.node (g'.GetNodeFromWorldLocation ⟨0, 0, 150⟩)).GridZ = 1 := by
  obtain ⟨g', hrun, _, _, h0, _, _, h1⟩ := GetNodeFromWorldLocation_scenario_origin noOverlap
    (exampleGrid 300 300 300) rfl rfl rfl
  exact ⟨g', hrun, h0, h1⟩

/-! ## Propagation: removal of a tracked source -/

theorem lookup_filter_key {V : Type} (m : List (Nat × V)) (keep : Nat → Bool) (k : Nat) :
    (m.filter fun kv => keep kv.1).lookup k = if keep k then m.lookup k else none := by
  induction m with
  | nil => simp
  | cons kv m ih =>
    obtain ⟨a, v⟩ := kv
    by_cases hka : k = a
    · subst hka
      by_cases hk : keep k = true
      · simp [List.filter_cons, hk, List.lookup]
      · simp [List.filter_cons, hk, ih]
    · have hne : (k == a) = false := by simpa using hka
      by_cases ha : keep a = true
      · simp [List.filter_cons, ha, List.lookup, hne, ih]
      · simp [List.filter_cons, ha, List.lookup, hne, ih]

namespace USoundPropagationComponent

theorem TMap.Remove_of_not_Contains {V : Type} (m : List (Nat × V)) (Key : Nat)
    (h : TMap.Contains m Key = false) : TMap.Remove m Key = m := by
  unfold TMap.Remove
  rw [List.filter_eq_self]
  intro kv hkv
  have hnone : m.lookup Key = none := by simpa [TMap.Contains] using h
  by_contra hk
  have hk2 : kv.1 = Key := by simpa using hk
  have : Key ∈ m.map Prod.fst := by
    rw [← hk2]
    exact List.mem_map_of_mem _ hkv
  rw [List.lookup_eq_none_iff] at hnone
  exact absurd (by simpa using hnone kv hkv) (by simpa using hk2.symm)

/-- `RemoveAudioComp` in one piece: the guards around `TMap::Remove` change nothing. -/
theorem RemoveAudioComp_eq (this : USoundPropagationComponent) (AudioComp : Nat) :
    RemoveAudioComp this AudioComp
      = { this with
          AudioComponents := this.AudioComponents.filter (· != AudioComp)
          PropagatedSounds := TMap.Remove this.PropagatedSounds AudioComp
          Paths := TMap.Remove this.Paths AudioComp } := by
  unfold RemoveAudioComp
  by_cases h1 : TMap.Contains this.PropagatedSounds AudioComp = true
  · by_cases h2 : TMap.Contains this.Paths AudioComp = true
    · simp [h1, h2]
    · have h2f : TMap.Contains this.Paths AudioComp = false := by simpa using h2
      simp [h1, h2, TMap.Remove_of_not_Contains _ _ h2f]
  · have h1f : TMap.Contains this.PropagatedSounds AudioComp = false := by simpa using h1
    by_cases h2 : TMap.Contains this.Paths AudioComp = true
    · simp [h1, h2, TMap.Remove_of_not_Contains _ _ h1f]
    · have h2f : TMap.Contains this.Paths AudioComp = false := by simpa using h2
      simp [h1, h2, TMap.Remove_of_not_Contains _ _ h1f, TMap.Remove_of_not_Contains _ _ h2f]

/-- Removing a list of components filters the three collections by it. -/
theorem foldl_RemoveAudioComp (L : List Nat) (this : USoundPropagationComponent) :
    L.foldl RemoveAudioComp this
      = { this with
          AudioComponents := this.AudioComponents.filter fun q => !decide (q ∈ L)
          PropagatedSounds := this.PropagatedSounds.filter fun kv => !decide (kv.1 ∈ L)
          Paths := this.Paths.filter fun kv => !decide (kv.1 ∈ L) } := by
  induction L generalizing this with
  | nil => simp
  | cons a L ih =>
    rw [List.foldl_cons, ih, RemoveAudioComp_eq]
    simp only [TMap.Remove, List.filter_filter]
    have hN : (this.AudioComponents.filter fun q => !decide (q ∈ L) && (q != a))
        = this.AudioComponents.filter fun q => !decide (q ∈ a :: L) := by
      apply List.filter_congr
      intro x _
      by_cases h1 : x = a <;> by_cases h2 : x ∈ L <;> simp [h1, h2]
    have hP : (this.PropagatedSounds.filter fun kv => !decide (kv.1 ∈ L) && (kv.1 != a))
        = this.PropagatedSounds.filter fun kv => !decide (kv.1 ∈ a :: L) := by
      apply List.filter_congr
      intro x _
      by_cases h1 : x.1 = a <;> by_cases h2 : x.1 ∈ L <;> simp [h1, h2]
    have hQ : (this.Paths.filter fun kv => !decide (kv.1 ∈ L) && (kv.1 != a))
        = this.Paths.filter fun kv => !decide (kv.1 ∈ a :: L) := by
      apply List.filter_congr
      intro x _
      by_cases h1 : x.1 = a <;> by_cases h2 : x.1 ∈ L <;> simp [h1, h2]
    rw [hN, hP, hQ]

end USoundPropagationComponent

/-- C22: `ActorWithCompDestroyed` for an actor removes every audio component of that actor
from the tracked list, drops its stored path and drops its registry entry; for every
source owned by another actor the tracked status, the stored path and the registry entry
are unchanged, and the remaining tracked sources keep their order. -/
theorem ActorWithCompDestroyed_drops_the_actors_sources (s : PropagationState)
    (DestroyedActor : Nat) :
    (∀ p, p < s.Comps.length → (s.comp p).Owner = DestroyedActor →
      p ∉ (USoundPropagationComponent.ActorWithCompDestroyed s
        DestroyedActor).This.AudioComponents ∧
      (USoundPropagationComponent.ActorWithCompDestroyed s
        DestroyedActor).This.Paths.lookup p = none ∧
      (USoundPropagationComponent.ActorWithCompDestroyed s
        DestroyedActor).This.PropagatedSounds.lookup p = none) ∧
    (∀ q, (s.comp q).Owner ≠ DestroyedActor →
      (q ∈ (USoundPropagationComponent.ActorWithCompDestroyed s
          DestroyedActor).This.AudioComponents ↔ q ∈ s.This.AudioComponents) ∧
      (USoundPropagationComponent.ActorWithCompDestroyed s
        DestroyedActor).This.Paths.lookup q = s.This.Paths.lookup q ∧
      (USoundPropagationComponent.ActorWithCompDestroyed s
        DestroyedActor).This.PropagatedSounds.lookup q = s.This.PropagatedSounds.lookup q) ∧
    (USoundPropagationComponent.ActorWithCompDestroyed s DestroyedActor).This.AudioComponents
      = s.This.AudioComponents.filter (fun q =>
          !(decide (q < s.Comps.length) && (s.comp q).Owner == DestroyedActor)) ∧
    (USoundPropagationComponent.ActorWithCompDestroyed s DestroyedActor).Comps = s.Comps := by
  have hmem : ∀ q, q ∈ (List.range s.Comps.length).filter
      (fun p => (s.comp p).Owner == DestroyedActor)
        ↔ q < s.Comps.length ∧ (s.comp q).Owner = DestroyedActor := by
    intro q
    simp [List.mem_filter]
  have hrun : (USoundPropagationComponent.ActorWithCompDestroyed s DestroyedActor).This
      = _ := USoundPropagationComponent.foldl_RemoveAudioComp
        ((List.range s.Comps.length).filter fun p => (s.comp p).Owner == DestroyedActor) s.This
  refine ⟨fun p hp ho => ?_, fun q hq => ?_, ?_, rfl⟩
  · have hpL := (hmem p).2 ⟨hp, ho⟩
    rw [hrun]
    refine ⟨?_, ?_, ?_⟩
    · intro hin
      have := (List.mem_filter.1 hin).2
      simp [hpL] at this
    · rw [lookup_filter_key s.This.Paths (fun k => !decide (k ∈ (List.range s.Comps.length).filter
        fun p => (s.comp p).Owner == DestroyedActor)) p]
      simp [hpL]
    · rw [lookup_filter_key s.This.PropagatedSounds
        (fun k => !decide (k ∈ (List.range s.Comps.length).filter
          fun p => (s.comp p).Owner == DestroyedActor)) p]
      simp [hpL]
  · have hqL : q ∉ (List.range s.Comps.length).filter
        (fun p => (s.comp p).Owner == DestroyedActor) := fun h => hq ((hmem q).1 h).2
    rw [hrun]
    refine ⟨?_, ?_, ?_⟩
    · simp only [List.mem_filter]
      constructor
      · exact fun h => h.1
      · exact fun h => ⟨h, by simp [hq]⟩
    · rw [lookup_filter_key s.This.Paths (fun k => !decide (k ∈ (List.range s.Comps.length).filter
        fun p => (s.comp p).Owner == DestroyedActor)) q]
      simp [hqL]
    · rw [lookup_filter_key s.This.PropagatedSounds
        (fun k => !decide (k ∈ (List.range s.Comps.length).filter
          fun p => (s.comp p).Owner == DestroyedActor)) q]
      simp [hqL]
  · rw [hrun]
    apply List.filter_congr
    intro q _
    by_cases h1 : q < s.Comps.length <;> by_cases h2 : (s.comp q).Owner = DestroyedActor <;>
      simp [List.mem_filter, h1, h2]

/-- In `threeSourceState` the destruction of actor 1 drops its sources 0 and 2 and keeps
source 1 of actor 2 with its path and its secondary. -/
theorem ActorWithCompDestroyed_drops_the_actors_sources_witness :
    (USoundPropagationComponent.ActorWithCompDestroyed threeSourceState 1).This.AudioComponents
      = [1] ∧
    (USoundPropagationComponent.ActorWithCompDestroyed threeSourceState 1).This.Paths.lookup 0
      = none ∧
    (USoundPropagationComponent.ActorWithCompDestroyed threeSourceState 1).This.Paths.lookup 1
      = some [10] ∧
    (USoundPropagationComponent.ActorWithCompDestroyed
      threeSourceState 1).This.PropagatedSounds.lookup 1 = some 4 ∧
    (USoundPropagationComponent.ActorWithCompDestroyed
      threeSourceState 1).This.PropagatedSounds.lookup 2 = none := by
  have h := ActorWithCompDestroyed_drops_the_actors_sources threeSourceState 1
  refine ⟨h.2.2.1.trans (by decide!), (h.1 0 (by decide!) (by decide!)).2.1,
    ((h.2.1 1 (by decide!)).2.1).trans (by decide!),
    ((h.2.1 1 (by decide!)).2.2).trans (by decide!),
    (h.1 2 (by decide!) (by decide!)).2.2⟩

/-! ## Propagation: the rays of the scan -/

theorem range'_prefix_of_append_cons : ∀ (pre : List Nat) (a m i : Nat) (post : List Nat),
    List.range' a m = pre ++ i :: post → pre = List.range' a (i - a) := by
  intro pre
  induction pre with
  | nil =>
    intro a m i post h
    cases m with
    | zero => simp at h
    | succ m =>
      rw [List.range'_succ, List.nil_append] at h
      have hi : a = i := (List.cons.inj h).1
      subst hi
      simp
  | cons x pre ih =>
    intro a m i post h
    cases m with
    | zero => simp at h
    | succ m =>
      rw [List.range'_succ, List.cons_append] at h
      have hx : a = x := (List.cons.inj h).1
      have hrest := (List.cons.inj h).2
      have hpre := ih (a + 1) m i post hrest
      obtain ⟨h1, _, _⟩ := range'_eq_append_cons pre (a + 1) m i post hrest
      subst hx
      have hsub : i - a = (i - (a + 1)) + 1 := by omega
      rw [hsub, List.range'_succ, ← hpre]

namespace USoundPropagationComponent

theorem SetPropagatedSoundVolume_frame (s s3 : PropagationState)
    (AudioComp PropAudioComp PathSize : Nat) (DeltaTime : ℚ)
    (h : SetPropagatedSoundVolume s AudioComp PropAudioComp PathSize DeltaTime = some s3) :
    s3.Traces = s.Traces ∧ s3.Grid = s.Grid ∧ s3.This = s.This := by
  unfold SetPropagatedSoundVolume at h
  split at h
  · exact absurd h (by simp)
  · have := Option.some.inj h
    rw [← this]
    exact ⟨rfl, rfl, rfl⟩

theorem PlacePropagatedSound_frame (W : UWorld) (s s3 : PropagationState) (AudioComp : Nat)
    (DeltaTime : ℚ) (Path : List Nat) (i : Nat)
    (h : PlacePropagatedSound W s AudioComp DeltaTime Path i = some s3) :
    s3.Traces = s.Traces ∧ s3.Grid = s.Grid := by
  unfold PlacePropagatedSound at h
  split at h
  · obtain ⟨h1, h2, _⟩ := SetPropagatedSoundVolume_frame _ _ _ _ _ _ h
    exact ⟨h1, h2⟩
  · obtain ⟨h1, h2, _⟩ := SetPropagatedSoundVolume_frame _ _ _ _ _ _ h
    refine ⟨h1.trans ?_, h2.trans ?_⟩
    · dsimp only
      split <;> rfl
    · dsimp only
      split <;> rfl

/-- The rays of the scan: the nodes at the indices 1 up to the first blocked index, in
that order, and no other. -/
theorem PropagateAlongPath_traces (W : UWorld) (s s3 : PropagationState) (AudioComp : Nat)
    (DeltaTime : ℚ) (ActorsToIgnore : List Nat) (Path : List Nat)
    (hrun : (match (ScanPath W ActorsToIgnore Path (List.range' 1 (Path.length - 1)) s).1 with
        | none => some (ScanPath W ActorsToIgnore Path (List.range' 1 (Path.length - 1)) s).2
        | some i =>
          PlacePropagatedSound W
            (ScanPath W ActorsToIgnore Path (List.range' 1 (Path.length - 1)) s).2
            AudioComp DeltaTime Path i) = some s3) :
    ((∀ j, 1 ≤ j → j < Path.length →
          W.LineTraceSingleForObjects (s.Grid.node (Path.getD j 0)).GetWorldCoordinate
            W.CameraLocation ActorsToIgnore = false) ∧
        s3.Traces = s.Traces ++ (List.range' 1 (Path.length - 1)).map fun j =>
          (s.Grid.node (Path.getD j 0)).GetWorldCoordinate) ∨
      ∃ i, 1 ≤ i ∧ i < Path.length ∧
        W.LineTraceSingleForObjects (s.Grid.node (Path.getD i 0)).GetWorldCoordinate
          W.CameraLocation ActorsToIgnore = true ∧
        (∀ j, 1 ≤ j → j < i →
          W.LineTraceSingleForObjects (s.Grid.node (Path.getD j 0)).GetWorldCoordinate
            W.CameraLocation ActorsToIgnore = false) ∧
        s3.Traces = s.Traces ++ (List.range' 1 i).map fun j =>
          (s.Grid.node (Path.getD j 0)).GetWorldCoordinate := by
  obtain ⟨T, hT, hm⟩ := ScanPath_spec W ActorsToIgnore Path
    (List.range' 1 (Path.length - 1)) s
  rcases hs : (ScanPath W ActorsToIgnore Path (List.range' 1 (Path.length - 1)) s).1
    with _ | i
  · rw [hs] at hm hrun
    have h3 : s3 = (ScanPath W ActorsToIgnore Path (List.range' 1 (Path.length - 1)) s).2 :=
      (Option.some.inj hrun).symm
    refine Or.inl ⟨fun j h1 h2 => hm.1 j ?_, ?_⟩
    · rw [List.mem_range'_1]
      omega
    · rw [h3, hT, hm.2]
  · rw [hs] at hm hrun
    obtain ⟨pre, post, hsplit, hpre, hblocked, hTi⟩ := hm
    obtain ⟨h1, h2, h3⟩ := range'_eq_append_cons pre 1 (Path.length - 1) i post hsplit
    have hpreEq := range'_prefix_of_append_cons pre 1 (Path.length - 1) i post hsplit
    obtain ⟨ht, _⟩ := PlacePropagatedSound_frame W _ s3 AudioComp DeltaTime Path i hrun
    refine Or.inr ⟨i, h1, by omega, hblocked, fun j hj1 hj2 => hpre j (h3 j hj1 hj2), ?_⟩
    rw [ht, hT, hTi, hpreEq]
    have hr : List.range' 1 (i - 1) ++ [i] = List.range' 1 i := by
      have hi : i = (i - 1) + 1 := by omega
      conv_rhs => rw [hi, List.range'_concat]
      have : 1 + 1 * (i - 1) = i := by omega
      rw [this]
    rw [hr]

end USoundPropagationComponent

/-- C26: when the direct ray is blocked and the path `Path` is in use, for a source with
attenuation settings, let `i` be the smallest index `>= 1` such that the ray from
`Path[i]` to the listener is blocked, every `Path[j]` with `1 <= j < i` having line of
sight. Then the secondary source is spawned at the centre of `Path[i - 1]`, or, when one
is registered, moved one step towards it unless it is there already, and the rays
`DoLineTrace` casts in that tick are the direct ray and those of `Path[1]` to `Path[i]`
in this order: no node after `Path[i]` is raycast. -/
theorem UpdateSoundPropagation_scan_stops_at_first_blocked (W : UWorld)
    (s : PropagationState) (AudioComp : Nat) (DeltaTime : ℚ) (Found : FindPathResult)
    (Att : USoundAttenuation) (Path : List Nat) (i : Nat)
    (hatt : (s.comp AudioComp).AttenuationSettings = some Att)
    (hd : W.LineTraceSingleForObjects (s.comp AudioComp).ComponentLocation W.CameraLocation
      [s.This.Owner, (s.comp AudioComp).Owner] = true)
    (hfind : FPathfinder.FindPath s.This.Pathfinder s.Grid
      (fun Start End => W.LineTraceSingleForObjects Start End [s.This.Owner])
      W.OwnerLocation (s.comp AudioComp).ComponentLocation W.OwnerLocation [] = some Found)
    (hfound : Found.Return = true)
    (hPath : Path = (if !Found.bOutPlayerHasMoved && TMap.Contains s.This.Paths AudioComp then
        TMap.Get s.This.Paths AudioComp
      else Found.Path))
    (hi1 : 1 ≤ i) (hilt : i < Path.length)
    (hblocked : W.LineTraceSingleForObjects
      (Found.Grid.node (Path.getD i 0)).GetWorldCoordinate W.CameraLocation
      [s.This.Owner, (s.comp AudioComp).Owner] = true)
    (hclear : ∀ j, 1 ≤ j → j < i →
      W.LineTraceSingleForObjects (Found.Grid.node (Path.getD j 0)).GetWorldCoordinate
        W.CameraLocation [s.This.Owner, (s.comp AudioComp).Owner] = false) :
    ∃ s3, USoundPropagationComponent.UpdateSoundPropagation W s AudioComp DeltaTime = some s3 ∧
      (TMap.Contains s.This.PropagatedSounds AudioComp = false →
        TMap.Get s3.This.PropagatedSounds AudioComp = s.Comps.length ∧
        (s3.comp s.Comps.length).ComponentLocation
          = (Found.Grid.node (Path.getD (i - 1) 0)).GetWorldCoordinate) ∧
      (TMap.Contains s.This.PropagatedSounds AudioComp = true →
        ∀ p, TMap.Get s.This.PropagatedSounds AudioComp = p → p < s.Comps.length →
          s3.This.PropagatedSounds = s.This.PropagatedSounds ∧
          (s3.comp p).ComponentLocation
            = if (s.comp p).ComponentLocation.Equals
                  (Found.Grid.node (Path.getD (i - 1) 0)).GetWorldCoordinate then
                (s.comp p).ComponentLocation
              else
                FMath.VInterpConstantTo W.Dist (s.comp p).ComponentLocation
                  (Found.Grid.node (Path.getD (i - 1) 0)).GetWorldCoordinate DeltaTime
                  s.This.PropagateLerpSpeed) ∧
      s3.Traces = s.Traces ++ (s.comp AudioComp).ComponentLocation ::
        (List.range' 1 i).map fun j => (Found.Grid.node (Path.getD j 0)).GetWorldCoordinate := by
  obtain ⟨P, hP⟩ := USoundPropagationComponent.StorePath_state
    { s with
      Traces := s.Traces ++ [(s.comp AudioComp).ComponentLocation]
      Grid := Found.Grid
      This := { s.This with Pathfinder := Found.Pathfinder } } AudioComp Found
  have hpath := USoundPropagationComponent.StorePath_path
    { s with
      Traces := s.Traces ++ [(s.comp AudioComp).ComponentLocation]
      Grid := Found.Grid
      This := { s.This with Pathfinder := Found.Pathfinder } } AudioComp Found
  obtain ⟨s3, hrun, hrest⟩ := USoundPropagationComponent.PropagateAlongPath_spec W
    { s with
      Traces := s.Traces ++ [(s.comp AudioComp).ComponentLocation]
      Grid := Found.Grid
      This := { s.This with Pathfinder := Found.Pathfinder, Paths := P } } AudioComp DeltaTime
    [s.This.Owner, (s.comp AudioComp).Owner] Path Att hatt
  have htr := USoundPropagationComponent.PropagateAlongPath_traces W
    { s with
      Traces := s.Traces ++ [(s.comp AudioComp).ComponentLocation]
      Grid := Found.Grid
      This := { s.This with Pathfinder := Found.Pathfinder, Paths := P } } s3 AudioComp
    DeltaTime [s.This.Owner, (s.comp AudioComp).Owner] Path hrun
  have hupd : USoundPropagationComponent.UpdateSoundPropagation W s AudioComp DeltaTime
      = some s3 := by
    rw [USoundPropagationComponent.UpdateSoundPropagation_blocked W s AudioComp DeltaTime
      Found hd hfind, hfound]
    simp only [Bool.not_true, Bool.false_eq_true, if_false,
      USoundPropagationComponent.PropagateAlongPath]
    rw [hP, hpath, ← hPath]
    exact hrun
  refine ⟨s3, hupd, ?_⟩
  rcases hrest with ⟨hall, _, _⟩ | ⟨k, hk1, hk2, hk3, hk4, hspawn, hmove⟩
  · have := hall i hi1 hilt
    rw [hblocked] at this
    exact absurd this (by simp)
  · have hki : k = i := by
      rcases Nat.lt_trichotomy k i with hlt | heq | hgt
      · have := hclear k hk1 hlt
        rw [hk3] at this
        exact absurd this (by simp)
      · exact heq
      · have := hk4 i hi1 hgt
        rw [hblocked] at this
        exact absurd this (by simp)
    subst hki
    refine ⟨hspawn, hmove, ?_⟩
    rcases htr with ⟨hall, _⟩ | ⟨k2, h1, h2, h3, h4, h5⟩
    · have := hall k hi1 hilt
      rw [hblocked] at this
      exact absurd this (by simp)
    · have hk2 : k2 = k := by
        rcases Nat.lt_trichotomy k2 k with hlt | heq | hgt
        · have := hclear k2 h1 hlt
          rw [h3] at this
          exact absurd this (by simp)
        · exact heq
        · have := h4 k hi1 hgt
          rw [hblocked] at this
          exact absurd this (by simp)
      subst hk2
      rw [h5]
      simp

/-- In `pillarWorld` the ray of `Path[1]`, node 7, is the first blocked one: the new
secondary, component 1, is at the centre of `Path[0]`, node 10, and the rays cast are the
direct ray and that of node 7. -/
theorem UpdateSoundPropagation_scan_stops_at_first_blocked_witness :
    ∃ s3, USoundPropagationComponent.UpdateSoundPropagation pillarWorld pillarState 0 (1 / 60)
        = some s3 ∧
      (s3.comp 1).ComponentLocation = grid12Pos10 ∧
      s3.Traces = [grid12Pos0, ⟨50, 0, 50⟩] := by
  obtain ⟨s3, hrun, hspawn, _, htr⟩ :=
    UpdateSoundPropagation_scan_stops_at_first_blocked pillarWorld pillarState 0 (1 / 60)
      ((FPathfinder.FindPath {} grid12Blocked
        (fun Start End => pillarWorld.LineTraceSingleForObjects Start End [0])
        pillarWorld.OwnerLocation grid12Pos0 pillarWorld.OwnerLocation []).get (by decide!))
      { FalloffDistance := 3000, MaxFalloffDistance := 3000 } [10, 7, 4] 1 (by decide!)
      (by decide!) (by decide!) (by decide!) (by decide!) (by decide!) (by decide!)
      (by decide!) (fun j h1 h2 => absurd h1 (by omega))
  refine ⟨s3, hrun, (hspawn (by decide!)).2.trans (by decide!), htr.trans (by decide!)⟩

/-! ## The heap of the search and the shared target memory -/

namespace FPathfinder

/-- A turn of the loop that finds the heap non-empty and pops a node other than the end
node goes on with the state `SearchTurn` describes. -/
theorem SearchLoop_turn (StartNode EndNode fuel : Nat) (s : SearchState)
    (hne : s.ToBeChecked.isEmpty = false)
    (hpop : (HeapPop s.Grid s.ToBeChecked).1 ≠ EndNode) :
    SearchLoop StartNode EndNode (fuel + 1) s
      = SearchLoop StartNode EndNode fuel (SearchTurn EndNode s) := by
  rw [SearchLoop]
  simp only [hne, Bool.false_eq_true, if_false, hpop]
  rfl

theorem SearchLoop_turns (StartNode EndNode : Nat) :
    ∀ (n fuel : Nat) (s : SearchState),
      (∀ k < n, (SearchTurns EndNode k s).ToBeChecked.isEmpty = false ∧
        (HeapPop (SearchTurns EndNode k s).Grid (SearchTurns EndNode k s).ToBeChecked).1
          ≠ EndNode) →
      SearchLoop StartNode EndNode (fuel + n) s
        = SearchLoop StartNode EndNode fuel (SearchTurns EndNode n s) := by
  intro n
  induction n with
  | zero => intro fuel s _; rfl
  | succ n ih =>
    intro fuel s h
    have h0 := h 0 (Nat.succ_pos n)
    rw [← Nat.add_assoc, SearchLoop_turn StartNode EndNode (fuel + n) s h0.1 h0.2]
    exact ih fuel (SearchTurn EndNode s) fun k hk => h (k + 1) (Nat.succ_lt_succ hk)

/-- `FindPath` runs the loop on `SearchInit` whenever the target is not the remembered
one. -/
theorem FindPath_eq_SearchLoop (pf : FPathfinder) (g : AMapGrid)
    (LineTrace : FVector → FVector → Bool) (PlayerLocation From To : FVector)
    (Path : List Nat)
    (hrun : some (GetTargetNode g LineTrace PlayerLocation To) ≠ pf.OldEndNode) :
    (FindPath pf g LineTrace PlayerLocation From To Path).map (fun r => (r.Return, r.Path))
      = (SearchLoop (g.GetNodeFromWorldLocation From)
          (GetTargetNode g LineTrace PlayerLocation To) (g.Nodes.length + 1)
          (SearchInit g (g.GetNodeFromWorldLocation From))).map fun r => (r.1, r.2.1) := by
  unfold FindPath
  simp only [hrun, if_false, Option.map_map]
  rfl

end FPathfinder

/-- C27, the divergence: the search on `gridWall20` from node 0 to node 3 runs five turns
of its loop without returning; its sixth pop removes node 13, of f-cost 170000, while
node 8, whose g-cost an earlier turn lowered in place, is in the heap with f-cost 150000.
The search goes on from there and returns a path. -/
theorem FindPath_pops_node_that_is_not_minimal :
    (∀ k < 5,
      (FPathfinder.SearchTurns 3 k (FPathfinder.SearchInit gridWall20 0)).ToBeChecked.isEmpty
        = false ∧
      (HeapPop (FPathfinder.SearchTurns 3 k (FPathfinder.SearchInit gridWall20 0)).Grid
        (FPathfinder.SearchTurns 3 k (FPathfinder.SearchInit gridWall20 0)).ToBeChecked).1
        ≠ 3) ∧
    (FPathfinder.SearchTurns 3 5 (FPathfinder.SearchInit gridWall20 0)).ToBeChecked
      = [13, 8, 12] ∧
    (HeapPop (FPathfinder.SearchTurns 3 5 (FPathfinder.SearchInit gridWall20 0)).Grid
      (FPathfinder.SearchTurns 3 5 (FPathfinder.SearchInit gridWall20 0)).ToBeChecked).1
      = 13 ∧
    ((FPathfinder.SearchTurns 3 5 (FPathfinder.SearchInit gridWall20 0)).Grid.node 13).GetFCost
      = 170000 ∧
    ((FPathfinder.SearchTurns 3 5 (FPathfinder.SearchInit gridWall20 0)).Grid.node 8).GetFCost
      = 150000 ∧
    HeapPred ((FPathfinder.SearchTurns 3 5 (FPathfinder.SearchInit gridWall20 0)).Grid.node 8)
      ((FPathfinder.SearchTurns 3 5 (FPathfinder.SearchInit gridWall20 0)).Grid.node 13)
      = true ∧
    ((FPathfinder.SearchTurns 3 3 (FPathfinder.SearchInit gridWall20 0)).Grid.node 8).GCost
      = 40000 ∧
    ((FPathfinder.SearchTurns 3 5 (FPathfinder.SearchInit gridWall20 0)).Grid.node 8).GCost
      = 20000 ∧
    gridWall20.GetNodeFromWorldLocation ⟨-200, -150, 50⟩ = 0 ∧
    FPathfinder.GetTargetNode gridWall20 noTrace ⟨-200, 150, 50⟩ ⟨-200, 150, 50⟩ = 3 ∧
    (FPathfinder.FindPath {} gridWall20 noTrace ⟨-200, 150, 50⟩ ⟨-200, -150, 50⟩
      ⟨-200, 150, 50⟩ []).map (fun r => (r.Return, r.Path))
      = (FPathfinder.SearchLoop 0 3 16
          (FPathfinder.SearchTurns 3 5 (FPathfinder.SearchInit gridWall20 0))).map
          (fun r => (r.1, r.2.1)) ∧
    (FPathfinder.FindPath {} gridWall20 noTrace ⟨-200, 150, 50⟩ ⟨-200, -150, 50⟩
      ⟨-200, 150, 50⟩ []).map (fun r => (r.Return, r.Path))
      = some (true, [3, 7, 11, 15, 18, 13, 9, 5]) := by
  have hturns : ∀ k < 5,
      (FPathfinder.SearchTurns 3 k (FPathfinder.SearchInit gridWall20 0)).ToBeChecked.isEmpty
        = false ∧
      (HeapPop (FPathfinder.SearchTurns 3 k (FPathfinder.SearchInit gridWall20 0)).Grid
        (FPathfinder.SearchTurns 3 k (FPathfinder.SearchInit gridWall20 0)).ToBeChecked).1
        ≠ 3 := by decide!
  have hs : gridWall20.GetNodeFromWorldLocation ⟨-200, -150, 50⟩ = 0 := by decide!
  have he : FPathfinder.GetTargetNode gridWall20 noTrace ⟨-200, 150, 50⟩ ⟨-200, 150, 50⟩
      = 3 := by decide!
  refine ⟨hturns, by decide!, by decide!, by decide!, by decide!, by decide!, by decide!,
    by decide!, hs, he, ?_, by decide!⟩
  rw [FPathfinder.FindPath_eq_SearchLoop {} gridWall20 noTrace _ _ _ _ (by rw [he]; simp),
    hs, he]
  have hlen : gridWall20.Nodes.length + 1 = 16 + 5 := by decide!
  rw [hlen, FPathfinder.SearchLoop_turns 0 3 5 16 _ hturns]

/-- C23, the divergence: in `wallWorld20` two sources are updated in one tick with the
listener at one position and the path drawing off. After the update of source 0, `FindPath`
reports "unchanged" for source 1, for which no path is stored: the update of source 1
stores the empty path for it and places no secondary source, although its direct ray is
blocked and a search of its own finds the path `[3, 7, 11, 15, 18, 13, 9]`. -/
theorem UpdateSoundPropagation_second_source_left_without_path :
    ((USoundPropagationComponent.UpdateSoundPropagation wallWorld20 twoSourceState 0
        (1 / 60)).bind fun s1 =>
      (FPathfinder.FindPath s1.This.Pathfinder s1.Grid
        (fun Start End => wallWorld20.LineTraceSingleForObjects Start End [s1.This.Owner])
        wallWorld20.OwnerLocation (s1.comp 1).ComponentLocation wallWorld20.OwnerLocation
        []).map fun r =>
          (r.Return, r.bOutPlayerHasMoved, r.Path, TMap.Contains s1.This.Paths 1))
      = some (true, false, [], false) ∧
    ((USoundPropagationComponent.UpdateSoundPropagation wallWorld20 twoSourceState 0
        (1 / 60)).bind fun s1 =>
      (USoundPropagationComponent.UpdateSoundPropagation wallWorld20 s1 1 (1 / 60)).map
        fun s2 => (s2.This.Paths, s2.This.PropagatedSounds, s2.Comps.length))
      = some ([(0, [3, 7, 11, 15, 18, 13, 9, 5]), (1, [])], [(0, 2)], 3) ∧
    wallWorld20.LineTraceSingleForObjects (twoSourceState.comp 1).ComponentLocation
      wallWorld20.CameraLocation [twoSourceState.This.Owner, (twoSourceState.comp 1).Owner]
      = true ∧
    (FPathfinder.FindPath {} gridWall20
      (fun Start End => wallWorld20.LineTraceSingleForObjects Start End [0])
      wallWorld20.OwnerLocation (twoSourceState.comp 1).ComponentLocation
      wallWorld20.OwnerLocation []).map (fun r => (r.Return, r.Path))
      = some (true, [3, 7, 11, 15, 18, 13, 9]) := by
  refine ⟨by decide!, by decide!, by decide!, by decide!⟩

/-! ## The search does not read stale scratch values -/

theorem HeapPred_congr {g g' : AMapGrid} {a b : Nat} (ha : g.AgreeAt g' a)
    (hb : g.AgreeAt g' b) :
    HeapPred (g'.node a) (g'.node b) = HeapPred (g.node a) (g.node b) := by
  unfold HeapPred FGridNode.GetFCost
  rw [ha.1, ha.2, hb.1, hb.2]

theorem mem_heapSwap (H : List Nat) (i j : Nat) (hi : i < H.length) (hj : j < H.length)
    (x : Nat) : x ∈ heapSwap H i j ↔ x ∈ H :=
  (heapSwap_perm H i j hi hj).mem_iff

theorem HeapSiftUp_congr {g g' : AMapGrid} :
    ∀ (fuel : Nat) (H : List Nat) (NodeIndex : Nat), NodeIndex < H.length →
      (∀ n ∈ H, g.AgreeAt g' n) →
      HeapSiftUp g' fuel H NodeIndex = HeapSiftUp g fuel H NodeIndex := by
  intro fuel
  induction fuel with
  | zero => intro H i _ _; rfl
  | succ k ih =>
    intro H i hi hagree
    unfold HeapSiftUp
    by_cases hpos : i > 0
    · have hp : (i - 1) / 2 < H.length := by omega
      simp only [hpos, if_true]
      rw [HeapPred_congr (hagree _ (getD_mem H i hi)) (hagree _ (getD_mem H _ hp))]
      split
      · rfl
      · exact ih _ _ (by rw [heapSwap_length]; exact hp)
          fun n hn => hagree n ((mem_heapSwap H i _ hi hp n).1 hn)
    · simp only [hpos, if_false]

theorem HeapMinChildIndex_congr {g g' : AMapGrid} (H : List Nat) (Index Count : Nat)
    (hC : Count ≤ H.length) (hagree : ∀ n ∈ H, g.AgreeAt g' n) :
    HeapMinChildIndex g' H Index Count = HeapMinChildIndex g H Index Count := by
  unfold HeapMinChildIndex
  simp only
  split
  · next hr =>
    rw [HeapPred_congr (hagree _ (getD_mem H _ (by omega)))
      (hagree _ (getD_mem H _ (by omega)))]
  · rfl

theorem HeapSiftDown_congr {g g' : AMapGrid} (Count : Nat) :
    ∀ (fuel : Nat) (H : List Nat) (Index : Nat), Count ≤ H.length →
      (∀ n ∈ H, g.AgreeAt g' n) →
      HeapSiftDown g' fuel H Index Count = HeapSiftDown g fuel H Index Count := by
  intro fuel
  induction fuel with
  | zero => intro H i _ _; rfl
  | succ k ih =>
    intro H i hC hagree
    unfold HeapSiftDown
    by_cases hleaf : 2 * i + 1 ≥ Count
    · simp only [hleaf, if_true]
    · simp only [hleaf, if_false]
      have hlt : 2 * i + 1 < Count := by omega
      obtain ⟨hm1, hm2⟩ := HeapMinChildIndex_lt g H i Count hlt
      rw [HeapMinChildIndex_congr H i Count hC hagree,
        HeapPred_congr (hagree _ (getD_mem H _ (by omega)))
          (hagree _ (getD_mem H i (by omega)))]
      split
      · rfl
      · exact ih _ _ (by rw [heapSwap_length]; exact hC)
          fun n hn => hagree n ((mem_heapSwap H i _ (by omega) (by omega) n).1 hn)

theorem HeapPush_congr {g g' : AMapGrid} (H : List Nat) (x : Nat)
    (hagree : ∀ n ∈ H, g.AgreeAt g' n) (hx : g.AgreeAt g' x) :
    HeapPush g' H x = HeapPush g H x := by
  unfold HeapPush
  simp only
  exact HeapSiftUp_congr _ _ _ (by simp) fun n hn => by
    rcases List.mem_append.1 hn with h | h
    · exact hagree n h
    · rw [List.mem_singleton.1 h]
      exact hx

theorem HeapPop_congr {g g' : AMapGrid} (H : List Nat)
    (hagree : ∀ n ∈ H, g.AgreeAt g' n) : HeapPop g' H = HeapPop g H := by
  unfold HeapPop
  simp only
  congr 1
  apply HeapSiftDown_congr _ _ _ _ le_rfl
  intro n hn
  have h1 := List.mem_of_mem_dropLast hn
  cases H with
  | nil => simp at h1
  | cons a t =>
    rcases List.mem_or_eq_of_mem_set h1 with h | h
    · exact hagree n h
    · rw [h]
      exact hagree _ (getD_mem _ _ (by simp))

theorem AMapGrid.SameFrame.frame_symm {g g' : AMapGrid} (h : g.SameFrame g') :
    g'.SameFrame g := by
  obtain ⟨a1, a2, a3, a4, a5, a6, a7, a8, a9, a10⟩ := h
  exact ⟨a1.symm, a2.symm, a3.symm, a4.symm, a5.symm, a6.symm, a7.symm, a8.symm, a9.symm,
    a10.symm⟩

theorem AMapGrid.SameCells.cells_symm {g g' : AMapGrid} (h : g.SameCells g') :
    g'.SameCells g := by
  refine ⟨h.1.frame_symm, fun p => ?_⟩
  obtain ⟨c1, c2, c3, c4, c5⟩ := h.2 p
  exact ⟨c1.symm, c2.symm, c3.symm, c4.symm, c5.symm⟩

theorem AMapGrid.lt_length_of_isWalkable (g : AMapGrid) (n : Nat)
    (h : (g.node n).IsWalkable = true) : n < g.Nodes.length := by
  by_contra hge
  have hdef : g.node n = default := by
    unfold AMapGrid.node
    exact List.getD_eq_default _ _ (not_lt.1 hge)
  rw [hdef] at h
  exact absurd h (by decide)

namespace FPathfinder

theorem RelaxNeighbour_skip (E c : Nat) (s : SearchState) (m : Nat)
    (h : (s.Grid.node m).IsWalkable = false ∨ m ∈ s.Visited) : RelaxNeighbour E c s m = s := by
  unfold RelaxNeighbour
  rcases h with h | h <;> simp [h]

theorem RelaxNeighbour_keep (E c : Nat) (s : SearchState) (m : Nat)
    (hw : (s.Grid.node m).IsWalkable = true) (hv : m ∉ s.Visited) (hH : m ∈ s.ToBeChecked)
    (hlt : ¬ (s.Grid.node c).GCost + GetCostToNode s.Grid c m < (s.Grid.node m).GCost) :
    RelaxNeighbour E c s m = s := by
  unfold RelaxNeighbour
  simp [hw, hv, hH, hlt]

theorem RelaxNeighbour_update (E c : Nat) (s : SearchState) (m : Nat)
    (hw : (s.Grid.node m).IsWalkable = true) (hv : m ∉ s.Visited) (hH : m ∈ s.ToBeChecked)
    (hlt : (s.Grid.node c).GCost + GetCostToNode s.Grid c m < (s.Grid.node m).GCost) :
    RelaxNeighbour E c s m = { s with Grid := relaxedGrid E c s m } := by
  unfold RelaxNeighbour relaxedGrid
  simp [hw, hv, hH, hlt]

theorem RelaxNeighbour_push (E c : Nat) (s : SearchState) (m : Nat)
    (hw : (s.Grid.node m).IsWalkable = true) (hv : m ∉ s.Visited) (hH : m ∉ s.ToBeChecked) :
    RelaxNeighbour E c s m
      = { s with
          Grid := relaxedGrid E c s m
          ToBeChecked := HeapPush (relaxedGrid E c s m) s.ToBeChecked m } := by
  unfold RelaxNeighbour relaxedGrid
  simp [hw, hv, hH]

/-- The relaxed grids of two coupled runs: same up to scratch fields, same costs in the
relaxed node and wherever the runs agreed before, same parent in the relaxed node. -/
theorem relaxedGrid_coupled (StartNode EndNode Current : Nat) (s s' : SearchState)
    (h : Coupled StartNode s s') (hcur : Current ∈ s.Visited) (m : Nat)
    (hw : (s.Grid.node m).IsWalkable = true) :
    (relaxedGrid EndNode Current s m).SameCells (relaxedGrid EndNode Current s' m) ∧
    (∀ n, n = m ∨ n ∈ s.ToBeChecked ∨ n ∈ s.Visited →
      (relaxedGrid EndNode Current s m).AgreeAt (relaxedGrid EndNode Current s' m) n) ∧
    (∀ n, n = m ∨ n ∈ s.ToBeChecked ∨ n ∈ s.Visited → n ≠ StartNode →
      ((relaxedGrid EndNode Current s' m).node n).Parent
          = ((relaxedGrid EndNode Current s m).node n).Parent ∧
        ∃ p, ((relaxedGrid EndNode Current s m).node n).Parent = some p ∧ p ∈ s.Visited) := by
  obtain ⟨hheap, hvis, hcells, hcosts, hpar⟩ := h
  have hG : (s'.Grid.node Current).GCost + GetCostToNode s'.Grid Current m
      = (s.Grid.node Current).GCost + GetCostToNode s.Grid Current m := by
    rw [(hcosts Current (Or.inr hcur)).1, hcells.getCostToNode]
  have hH : GetCostToNode s'.Grid m EndNode = GetCostToNode s.Grid m EndNode :=
    hcells.getCostToNode _ _
  have hlt : m < s.Grid.Nodes.length := AMapGrid.lt_length_of_isWalkable _ _ hw
  have hlt' : m < s'.Grid.Nodes.length := by
    rw [hcells.1.2.2.2.2.2.2.2.2.2]
    exact hlt
  have hsc : ∀ (g : AMapGrid) (f : FGridNode → FGridNode),
      (∀ n : FGridNode, n.SameCell (f n)) → g.SameCells (g.setNode m f) :=
    fun g f hf => AMapGrid.setNode_sameCells g m f hf
  refine ⟨?_, fun n hn => ?_, fun n hn hne => ?_⟩
  · unfold relaxedGrid
    exact ((hsc s.Grid (fun n =>
        { n with
          GCost := (s.Grid.node Current).GCost + GetCostToNode s.Grid Current m
          HCost := GetCostToNode s.Grid m EndNode
          Parent := some Current }) (fun n => ⟨rfl, rfl, rfl, rfl, rfl⟩)).cells_symm.cells_trans
      hcells).cells_trans (hsc s'.Grid (fun n =>
        { n with
          GCost := (s'.Grid.node Current).GCost + GetCostToNode s'.Grid Current m
          HCost := GetCostToNode s'.Grid m EndNode
          Parent := some Current }) (fun n => ⟨rfl, rfl, rfl, rfl, rfl⟩))
  · unfold AMapGrid.AgreeAt relaxedGrid
    simp only [AMapGrid.node_setNode]
    by_cases hnn : n = m
    · rw [if_pos ⟨hnn, hlt'⟩, if_pos ⟨hnn, hlt⟩]
      exact ⟨hG, hH⟩
    · rw [if_neg (fun hc => hnn hc.1), if_neg (fun hc => hnn hc.1)]
      rcases hn with h1 | h2
      · exact absurd h1 hnn
      · exact hcosts n h2
  · unfold relaxedGrid
    simp only [AMapGrid.node_setNode]
    by_cases hnn : n = m
    · rw [if_pos ⟨hnn, hlt'⟩, if_pos ⟨hnn, hlt⟩]
      exact ⟨rfl, Current, rfl, hcur⟩
    · rw [if_neg (fun hc => hnn hc.1), if_neg (fun hc => hnn hc.1)]
      rcases hn with h1 | h2
      · exact absurd h1 hnn
      · exact hpar n h2 hne

/-- The loop body keeps two coupled runs coupled. -/
theorem RelaxNeighbour_coupled (StartNode EndNode Current : Nat) (s s' : SearchState)
    (h : Coupled StartNode s s') (hcur : Current ∈ s.Visited) (Neighbour : Nat) :
    Coupled StartNode (RelaxNeighbour EndNode Current s Neighbour)
      (RelaxNeighbour EndNode Current s' Neighbour) := by
  have hh := h
  obtain ⟨hheap, hvis, hcells, hcosts, hpar⟩ := hh
  have hw : (s'.Grid.node Neighbour).IsWalkable = (s.Grid.node Neighbour).IsWalkable :=
    hcells.isWalkable Neighbour
  by_cases hwalk : (s.Grid.node Neighbour).IsWalkable = true
  · by_cases hv : Neighbour ∈ s.Visited
    · rw [RelaxNeighbour_skip _ _ s _ (Or.inr hv),
        RelaxNeighbour_skip _ _ s' _ (Or.inr (by rw [hvis]; exact hv))]
      exact h
    · have hv' : Neighbour ∉ s'.Visited := by rw [hvis]; exact hv
      have hwalk' : (s'.Grid.node Neighbour).IsWalkable = true := by rw [hw]; exact hwalk
      obtain ⟨hc1, hagree, hparents⟩ :=
        relaxedGrid_coupled StartNode EndNode Current s s' h hcur Neighbour hwalk
      by_cases hin : Neighbour ∈ s.ToBeChecked
      · have hin' : Neighbour ∈ s'.ToBeChecked := by rw [hheap]; exact hin
        have hG : (s'.Grid.node Current).GCost + GetCostToNode s'.Grid Current Neighbour
            = (s.Grid.node Current).GCost + GetCostToNode s.Grid Current Neighbour := by
          rw [(hcosts Current (Or.inr hcur)).1, hcells.getCostToNode]
        have hGn : (s'.Grid.node Neighbour).GCost = (s.Grid.node Neighbour).GCost :=
          (hcosts Neighbour (Or.inl hin)).1
        by_cases hlt : (s.Grid.node Current).GCost + GetCostToNode s.Grid Current Neighbour
            < (s.Grid.node Neighbour).GCost
        · rw [RelaxNeighbour_update _ _ s _ hwalk hv hin hlt,
            RelaxNeighbour_update _ _ s' _ hwalk' hv' hin' (by rw [hG, hGn]; exact hlt)]
          exact ⟨hheap, hvis, hc1, fun n hn => hagree n (Or.inr hn),
            fun n hn hne => hparents n (Or.inr hn) hne⟩
        · rw [RelaxNeighbour_keep _ _ s _ hwalk hv hin hlt,
            RelaxNeighbour_keep _ _ s' _ hwalk' hv' hin' (by rw [hG, hGn]; exact hlt)]
          exact h
      · have hin' : Neighbour ∉ s'.ToBeChecked := by rw [hheap]; exact hin
        rw [RelaxNeighbour_push _ _ s _ hwalk hv hin,
          RelaxNeighbour_push _ _ s' _ hwalk' hv' hin']
        have hmem : ∀ n, n ∈ HeapPush (relaxedGrid EndNode Current s Neighbour)
            s.ToBeChecked Neighbour → n = Neighbour ∨ n ∈ s.ToBeChecked := fun n hn =>
          List.mem_cons.1 ((HeapPush_perm _ _ _).mem_iff.1 hn)
        refine ⟨?_, hvis, hc1, fun n hn => ?_, fun n hn hne => ?_⟩
        · show HeapPush (relaxedGrid EndNode Current s' Neighbour) s'.ToBeChecked Neighbour
            = HeapPush (relaxedGrid EndNode Current s Neighbour) s.ToBeChecked Neighbour
          rw [hheap]
          exact HeapPush_congr s.ToBeChecked Neighbour
            (fun n hn => hagree n (Or.inr (Or.inl hn))) (hagree Neighbour (Or.inl rfl))
        · rcases hn with h1 | h2
          · rcases hmem n h1 with h3 | h3
            · exact hagree n (Or.inl h3)
            · exact hagree n (Or.inr (Or.inl h3))
          · exact hagree n (Or.inr (Or.inr h2))
        · rcases hn with h1 | h2
          · rcases hmem n h1 with h3 | h3
            · exact hparents n (Or.inl h3) hne
            · exact hparents n (Or.inr (Or.inl h3)) hne
          · exact hparents n (Or.inr (Or.inr h2)) hne
  · have hwf : (s.Grid.node Neighbour).IsWalkable = false := by simpa using hwalk
    rw [RelaxNeighbour_skip _ _ s _ (Or.inl hwf),
      RelaxNeighbour_skip _ _ s' _ (Or.inl (by rw [hw]; exact hwf))]
    exact h

end FPathfinder

namespace FPathfinder

theorem relaxFold_coupled (StartNode EndNode Current : Nat) :
    ∀ (L : List Nat) (s s' : SearchState), Coupled StartNode s s' → Current ∈ s.Visited →
      Coupled StartNode (L.foldl (RelaxNeighbour EndNode Current) s)
        (L.foldl (RelaxNeighbour EndNode Current) s') := by
  intro L
  induction L with
  | nil => intro s s' h _; exact h
  | cons m L ih =>
    intro s s' h hcur
    rw [List.foldl_cons, List.foldl_cons]
    exact ih _ _ (RelaxNeighbour_coupled StartNode EndNode Current s s' h hcur m)
      (by rw [RelaxNeighbour_visited]; exact hcur)

/-- Popping the root keeps two coupled runs coupled. -/
theorem pop_coupled (StartNode : Nat) (s s' : SearchState) (h : Coupled StartNode s s')
    (hne : s.ToBeChecked ≠ []) :
    HeapPop s'.Grid s'.ToBeChecked = HeapPop s.Grid s.ToBeChecked ∧
    Coupled StartNode
      { s with
        ToBeChecked := (HeapPop s.Grid s.ToBeChecked).2
        Visited := s.Visited.insert (HeapPop s.Grid s.ToBeChecked).1 }
      { s' with
        ToBeChecked := (HeapPop s'.Grid s'.ToBeChecked).2
        Visited := s'.Visited.insert (HeapPop s'.Grid s'.ToBeChecked).1 } := by
  obtain ⟨hheap, hvis, hcells, hcosts, hpar⟩ := h
  have hpop : HeapPop s'.Grid s'.ToBeChecked = HeapPop s.Grid s.ToBeChecked := by
    rw [hheap]
    exact HeapPop_congr s.ToBeChecked fun n hn => hcosts n (Or.inl hn)
  have hsub : ∀ n, n ∈ (HeapPop s.Grid s.ToBeChecked).2 ∨
      n ∈ s.Visited.insert (HeapPop s.Grid s.ToBeChecked).1 →
      n ∈ s.ToBeChecked ∨ n ∈ s.Visited := by
    intro n hn
    have hperm := HeapPop_perm s.Grid s.ToBeChecked hne
    rcases hn with h1 | h2
    · exact Or.inl (hperm.mem_iff.2 (List.mem_cons_of_mem _ h1))
    · rcases List.mem_insert_iff.1 h2 with h3 | h3
      · rw [h3]
        exact Or.inl (HeapPop_mem s.Grid s.ToBeChecked hne)
      · exact Or.inr h3
  refine ⟨hpop, ?_, ?_, hcells, fun n hn => hcosts n (hsub n hn), fun n hn hne2 => ?_⟩
  · show (HeapPop s'.Grid s'.ToBeChecked).2 = (HeapPop s.Grid s.ToBeChecked).2
    rw [hpop]
  · show s'.Visited.insert (HeapPop s'.Grid s'.ToBeChecked).1
      = s.Visited.insert (HeapPop s.Grid s.ToBeChecked).1
    rw [hpop, hvis]
  · obtain ⟨h1, p, h2, h3⟩ := hpar n (hsub n hn) hne2
    exact ⟨h1, p, h2, List.mem_insert_iff.2 (Or.inr h3)⟩

/-- Following parents from a visited node reads the same links in two coupled runs. -/
theorem GetPathLoop_coupled (StartNode : Nat) (s s' : SearchState)
    (h : Coupled StartNode s s') :
    ∀ (fuel Current : Nat) (Path : List Nat), Current ∈ s.Visited →
      GetPathLoop s'.Grid StartNode fuel Current Path
        = GetPathLoop s.Grid StartNode fuel Current Path := by
  intro fuel
  induction fuel with
  | zero => intro _ _ _; rfl
  | succ k ih =>
    intro Current Path hc
    unfold GetPathLoop
    by_cases hcs : Current = StartNode
    · simp only [hcs, if_true]
    · simp only [hcs, if_false]
      obtain ⟨h1, p, h2, h3⟩ := h.parents Current (Or.inr hc) hcs
      rw [h1, h2]
      exact ih p _ h3

/-- Two coupled runs of the loop return the same answer and the same path. -/
theorem SearchLoop_coupled (StartNode EndNode : Nat) :
    ∀ (fuel : Nat) (s s' : SearchState), Coupled StartNode s s' →
      (SearchLoop StartNode EndNode fuel s').map (fun r => (r.1, r.2.1))
        = (SearchLoop StartNode EndNode fuel s).map (fun r => (r.1, r.2.1)) := by
  intro fuel
  induction fuel with
  | zero => intro _ _ _; rfl
  | succ k ih =>
    intro s s' h
    have e : ∀ (t : SearchState) (o : Option (List Nat)),
        (o.map fun Path => (true, Path, t)).map
          (fun r : Bool × List Nat × SearchState => (r.1, r.2.1))
        = o.map fun Path => (true, Path) := by
      intro t o
      cases o <;> rfl
    simp only [SearchLoop]
    by_cases hempty : s.ToBeChecked.isEmpty = true
    · have hempty' : s'.ToBeChecked.isEmpty = true := by rw [h.heap]; exact hempty
      rw [if_pos hempty, if_pos hempty']
      rfl
    · have hempty' : ¬ s'.ToBeChecked.isEmpty = true := by rw [h.heap]; exact hempty
      have hne : s.ToBeChecked ≠ [] := by
        intro hnil
        rw [hnil] at hempty
        exact hempty rfl
      obtain ⟨hpop, hc⟩ := pop_coupled StartNode s s' h hne
      rw [if_neg hempty, if_neg hempty']
      rw [hpop] at hc
      rw [hpop]
      by_cases hend : (HeapPop s.Grid s.ToBeChecked).1 = EndNode
      · rw [if_pos hend, if_pos hend]
        have hvisE : EndNode ∈ s.Visited.insert (HeapPop s.Grid s.ToBeChecked).1 := by
          rw [hend]
          exact List.mem_insert_self _ _
        have hlen : s'.Grid.Nodes.length = s.Grid.Nodes.length := h.cells.1.2.2.2.2.2.2.2.2.2
        have hpath : GetPath s'.Grid StartNode EndNode = GetPath s.Grid StartNode EndNode := by
          unfold GetPath
          rw [hlen]
          exact GetPathLoop_coupled StartNode _ _ hc _ _ _ hvisE
        exact (e _ _).trans ((congrArg _ hpath).trans (e _ _).symm)
      · rw [if_neg hend, if_neg hend]
        have hnb : s'.Grid.GetNeighbours (HeapPop s.Grid s.ToBeChecked).1
            = s.Grid.GetNeighbours (HeapPop s.Grid s.ToBeChecked).1 :=
          h.cells.getNeighbours _
        have hstep := ih _ _ (relaxFold_coupled StartNode EndNode
          (HeapPop s.Grid s.ToBeChecked).1
          (s.Grid.GetNeighbours (HeapPop s.Grid s.ToBeChecked).1) _ _ hc
          (List.mem_insert_self _ _))
        rw [hnb]
        exact hstep

theorem GetTargetNode_sameCells {g g' : AMapGrid} (h : g.SameCells g')
    (LineTrace : FVector → FVector → Bool) (PlayerLocation TargetLocation : FVector) :
    GetTargetNode g' LineTrace PlayerLocation TargetLocation
      = GetTargetNode g LineTrace PlayerLocation TargetLocation := by
  unfold GetTargetNode
  simp only [h.1.getNodeFromWorldLocation, h.isWalkable, h.getNeighbours]
  have hw : ∀ n, (g'.node n).GetWorldCoordinate = (g.node n).GetWorldCoordinate :=
    fun n => (h.2 n).2.2.2.2
  simp only [hw]

/-- The states two searches enter their loops with are coupled. -/
theorem SearchInit_coupled {g g' : AMapGrid} (h : g.SameCells g') (StartNode : Nat) :
    Coupled StartNode (SearchInit g StartNode) (SearchInit g' StartNode) := by
  have hlen : g'.Nodes.length = g.Nodes.length := h.1.2.2.2.2.2.2.2.2.2
  unfold SearchInit
  simp only [HeapPush_nil]
  refine ⟨rfl, rfl, ?_, fun n hn => ?_, fun n hn hne => ?_⟩
  · exact ((AMapGrid.setNode_sameCells g StartNode
      (fun n => { n with GCost := 0, HCost := 0 })
      (fun n => ⟨rfl, rfl, rfl, rfl, rfl⟩)).cells_symm.cells_trans h).cells_trans
      (AMapGrid.setNode_sameCells g' StartNode (fun n => { n with GCost := 0, HCost := 0 })
        (fun n => ⟨rfl, rfl, rfl, rfl, rfl⟩))
  · rcases hn with h1 | h1
    · have hn : n = StartNode := List.mem_singleton.1 h1
      subst hn
      unfold AMapGrid.AgreeAt
      simp only [AMapGrid.node_setNode, true_and, hlen]
      by_cases hlt : n < g.Nodes.length
      · simp only [hlt, if_true, and_self]
      · have hd : g.node n = default := by
          unfold AMapGrid.node
          exact List.getD_eq_default _ _ (not_lt.1 hlt)
        have hd' : g'.node n = default := by
          unfold AMapGrid.node
          exact List.getD_eq_default _ _ (by rw [hlen]; exact not_lt.1 hlt)
        simp only [hlt, if_false, hd, hd', and_self]
    · exact absurd h1 (List.not_mem_nil _)
  · rcases hn with h1 | h1
    · exact absurd (List.mem_singleton.1 h1) hne
    · exact absurd h1 (List.not_mem_nil _)

end FPathfinder

/-- C28: the result of a search does not depend on scratch values left in the nodes by
earlier searches. For two grids that agree on the frame and on every node's coordinates,
walkability and position, but differ arbitrarily in every node's stored g-cost, h-cost
and parent, `FindPath` with the same pathfinder, start and target returns the same
found or not-found answer, the same path and the same flag, and leaves the same
pathfinder. -/
theorem FindPath_independent_of_scratch_values (pf : FPathfinder) (g g' : AMapGrid)
    (LineTrace : FVector → FVector → Bool) (PlayerLocation From To : FVector)
    (Path : List Nat) (hsame : g.SameCells g') :
    (FPathfinder.FindPath pf g' LineTrace PlayerLocation From To Path).map
        (fun r => (r.Return, r.Path, r.bOutPlayerHasMoved, r.Pathfinder))
      = (FPathfinder.FindPath pf g LineTrace PlayerLocation From To Path).map
        (fun r => (r.Return, r.Path, r.bOutPlayerHasMoved, r.Pathfinder)) := by
  have hstart : g'.GetNodeFromWorldLocation From = g.GetNodeFromWorldLocation From :=
    hsame.1.getNodeFromWorldLocation From
  have hend := FPathfinder.GetTargetNode_sameCells hsame LineTrace PlayerLocation To
  have hdraw : g'.bDrawPath = g.bDrawPath := hsame.1.2.2.2.2.2.2.2.1
  have hlen : g'.Nodes.length = g.Nodes.length := hsame.1.2.2.2.2.2.2.2.2.2
  have hloop := FPathfinder.SearchLoop_coupled (g.GetNodeFromWorldLocation From)
    (FPathfinder.GetTargetNode g LineTrace PlayerLocation To) (g.Nodes.length + 1) _ _
    (FPathfinder.SearchInit_coupled hsame (g.GetNodeFromWorldLocation From))
  unfold FPathfinder.FindPath
  simp only [hstart, hend, hdraw, hlen]
  split
  · rfl
  · simp only [Option.map_map]
    have key : ∀ (o o' : Option (Bool × List Nat × SearchState)) (pf1 : FPathfinder),
        o'.map (fun r => (r.1, r.2.1)) = o.map (fun r => (r.1, r.2.1)) →
        o'.map ((fun r : FindPathResult =>
            (r.Return, r.Path, r.bOutPlayerHasMoved, r.Pathfinder)) ∘
          fun r => { Return := r.1, Path := r.2.1, bOutPlayerHasMoved := true,
                     Grid := r.2.2.Grid, Pathfinder := pf1 })
        = o.map ((fun r : FindPathResult =>
            (r.Return, r.Path, r.bOutPlayerHasMoved, r.Pathfinder)) ∘
          fun r => { Return := r.1, Path := r.2.1, bOutPlayerHasMoved := true,
                     Grid := r.2.2.Grid, Pathfinder := pf1 }) := by
      intro o o' pf1 ho
      cases o <;> cases o' <;> simp_all
    exact key _ _ _ hloop

/-- The grid `staleWall20` is `gridWall20` up to scratch fields. -/
theorem staleWall20_sameCells : gridWall20.SameCells staleWall20 :=
  (AMapGrid.setNode_sameCells gridWall20 8
      (fun n => { n with GCost := 1, HCost := 2, Parent := some 12 })
      (fun _ => ⟨rfl, rfl, rfl, rfl, rfl⟩)).cells_trans
    (AMapGrid.setNode_sameCells _ 7
      (fun n => { n with GCost := 900000, HCost := 0, Parent := some 7 })
      (fun _ => ⟨rfl, rfl, rfl, rfl, rfl⟩))

/-- C28 at a concrete input: `staleWall20` differs from `gridWall20` in the g-cost and the
parent of node 7, which lies on the path found, and the search from node 0 to node 3
gives the same result on both. -/
theorem FindPath_independent_of_scratch_values_witness :
    gridWall20.SameCells staleWall20 ∧
    ((staleWall20.node 7).GCost = 900000 ∧ (gridWall20.node 7).GCost = -1 ∧
      (staleWall20.node 7).Parent = some 7 ∧ (gridWall20.node 7).Parent = none ∧
      (FPathfinder.FindPath {} gridWall20 noTrace ⟨-200, 150, 50⟩ ⟨-200, -150, 50⟩
          ⟨-200, 150, 50⟩ []).map (fun r => (r.Return, r.Path))
        = some (true, [3, 7, 11, 15, 18, 13, 9, 5])) ∧
    (FPathfinder.FindPath {} staleWall20 noTrace ⟨-200, 150, 50⟩ ⟨-200, -150, 50⟩
        ⟨-200, 150, 50⟩ []).map
        (fun r => (r.Return, r.Path, r.bOutPlayerHasMoved, r.Pathfinder))
      = (FPathfinder.FindPath {} gridWall20 noTrace ⟨-200, 150, 50⟩ ⟨-200, -150, 50⟩
        ⟨-200, 150, 50⟩ []).map
        (fun r => (r.Return, r.Path, r.bOutPlayerHasMoved, r.Pathfinder)) :=
  ⟨staleWall20_sameCells, by decide!,
    FindPath_independent_of_scratch_values {} gridWall20 staleWall20 noTrace
      ⟨-200, 150, 50⟩ ⟨-200, -150, 50⟩ ⟨-200, 150, 50⟩ [] staleWall20_sameCells⟩

/-! ## A path without a blocked node -/

namespace USoundPropagationComponent

/-- A scan over indices whose rays are all clear finds no blocked index and only notes
the rays. -/
theorem ScanPath_all_clear (W : UWorld) (ActorsToIgnore : List Nat) (Path : List Nat) :
    ∀ (idx : List Nat) (s : PropagationState),
      (∀ j ∈ idx, W.LineTraceSingleForObjects
        (s.Grid.node (Path.getD j 0)).GetWorldCoordinate W.CameraLocation ActorsToIgnore
          = false) →
      ScanPath W ActorsToIgnore Path idx s
        = (none, { s with Traces := s.Traces ++ idx.map fun j =>
            (s.Grid.node (Path.getD j 0)).GetWorldCoordinate }) := by
  intro idx
  induction idx with
  | nil =>
    intro s _
    simp [ScanPath]
  | cons i rest ih =>
    intro s h
    have hi := h i (List.mem_cons_self _ _)
    rw [ScanPath]
    simp only [DoLineTrace, hi, Bool.not_false, if_true]
    rw [ih { s with Traces := s.Traces ++ [(s.Grid.node (Path.getD i 0)).GetWorldCoordinate] }
      (fun j hj => h j (List.mem_cons_of_mem _ hj))]
    simp

end USoundPropagationComponent

/-- C38: when the direct ray of a source is blocked and `FindPath` reports a path, and no
element of the path in use at an index from 1 on has its ray to the listener blocked
(which includes paths of length 0 and 1), `UpdateSoundPropagation` returns and neither
spawns, moves, fades nor changes the volume of a secondary source: the audio components
of the level and the registry are exactly as before. What changes is the stored path,
the pathfinder and grid as `FindPath` left them, and the noted rays. -/
theorem UpdateSoundPropagation_clear_path_leaves_secondary (W : UWorld)
    (s : PropagationState) (AudioComp : Nat) (DeltaTime : ℚ) (Found : FindPathResult)
    (Path : List Nat)
    (hd : W.LineTraceSingleForObjects (s.comp AudioComp).ComponentLocation W.CameraLocation
      [s.This.Owner, (s.comp AudioComp).Owner] = true)
    (hfind : FPathfinder.FindPath s.This.Pathfinder s.Grid
      (fun Start End => W.LineTraceSingleForObjects Start End [s.This.Owner])
      W.OwnerLocation (s.comp AudioComp).ComponentLocation W.OwnerLocation [] = some Found)
    (hfound : Found.Return = true)
    (hPath : Path = (if !Found.bOutPlayerHasMoved && TMap.Contains s.This.Paths AudioComp then
        TMap.Get s.This.Paths AudioComp
      else Found.Path))
    (hclear : ∀ j, 1 ≤ j → j < Path.length →
      W.LineTraceSingleForObjects (Found.Grid.node (Path.getD j 0)).GetWorldCoordinate
        W.CameraLocation [s.This.Owner, (s.comp AudioComp).Owner] = false) :
    ∃ s3, USoundPropagationComponent.UpdateSoundPropagation W s AudioComp DeltaTime = some s3 ∧
      s3.Comps = s.Comps ∧
      s3.This.PropagatedSounds = s.This.PropagatedSounds ∧
      (∀ p, (s3.comp p).ComponentLocation = (s.comp p).ComponentLocation ∧
        (s3.comp p).VolumeMultiplier = (s.comp p).VolumeMultiplier) ∧
      s3.This = { s.This with
        Pathfinder := Found.Pathfinder
        Paths := if !Found.bOutPlayerHasMoved && TMap.Contains s.This.Paths AudioComp then
            s.This.Paths
          else TMap.Add s.This.Paths AudioComp Found.Path } ∧
      s3.Grid = Found.Grid ∧
      s3.Traces = s.Traces ++ (s.comp AudioComp).ComponentLocation ::
        (List.range' 1 (Path.length - 1)).map fun j =>
          (Found.Grid.node (Path.getD j 0)).GetWorldCoordinate := by
  rw [USoundPropagationComponent.UpdateSoundPropagation_blocked W s AudioComp DeltaTime Found
    hd hfind]
  simp only [hfound, Bool.not_true, Bool.false_eq_true, if_false]
  unfold USoundPropagationComponent.PropagateAlongPath
  simp only
  have hP := USoundPropagationComponent.StorePath_path
    { s with
      Traces := s.Traces ++ [(s.comp AudioComp).ComponentLocation]
      Grid := Found.Grid
      This := { s.This with Pathfinder := Found.Pathfinder } } AudioComp Found
  simp only at hP
  rw [← hPath] at hP
  rw [hP]
  by_cases hc : (!Found.bOutPlayerHasMoved && TMap.Contains s.This.Paths AudioComp) = true
  · have hS : (USoundPropagationComponent.StorePath
        { s with
          Traces := s.Traces ++ [(s.comp AudioComp).ComponentLocation]
          Grid := Found.Grid
          This := { s.This with Pathfinder := Found.Pathfinder } } AudioComp Found).2
        = { s with
            Traces := s.Traces ++ [(s.comp AudioComp).ComponentLocation]
            Grid := Found.Grid
            This := { s.This with Pathfinder := Found.Pathfinder } } := by
      unfold USoundPropagationComponent.StorePath
      simp only [hc, if_true]
    rw [hS, USoundPropagationComponent.ScanPath_all_clear W _ Path _ _ (by
      intro j hj
      have := List.mem_range'_1.1 hj
      exact hclear j this.1 (by omega))]
    refine ⟨_, rfl, rfl, rfl, fun p => ⟨rfl, rfl⟩, ?_, rfl, ?_⟩
    · simp only [hc, if_true]
    · simp
  · have hS : (USoundPropagationComponent.StorePath
        { s with
          Traces := s.Traces ++ [(s.comp AudioComp).ComponentLocation]
          Grid := Found.Grid
          This := { s.This with Pathfinder := Found.Pathfinder } } AudioComp Found).2
        = { s with
            Traces := s.Traces ++ [(s.comp AudioComp).ComponentLocation]
            Grid := Found.Grid
            This := { s.This with
              Pathfinder := Found.Pathfinder
              Paths := TMap.Add s.This.Paths AudioComp Found.Path } } := by
      unfold USoundPropagationComponent.StorePath
      simp only [hc, if_false]
      simp
    rw [hS, USoundPropagationComponent.ScanPath_all_clear W _ Path _ _ (by
      intro j hj
      have := List.mem_range'_1.1 hj
      exact hclear j this.1 (by omega))]
    refine ⟨_, rfl, rfl, rfl, fun p => ⟨rfl, rfl⟩, ?_, rfl, ?_⟩
    · simp only [hc, if_false]
      simp
    · simp

/-- In `shadowWorld` the direct ray of the source is blocked, the search finds the path
`[10, 7, 4]` and the rays of nodes 7 and 4 are clear: the registered secondary source of
`fadingState`, component 1, keeps its place and its volume, the registry is unchanged and
the path is stored. -/
theorem UpdateSoundPropagation_clear_path_leaves_secondary_witness :
    ∃ s3, USoundPropagationComponent.UpdateSoundPropagation shadowWorld fadingState 0 (1 / 60)
        = some s3 ∧
      s3.Comps = fadingState.Comps ∧
      s3.This.PropagatedSounds = [(0, 1)] ∧
      s3.This.Paths = [(0, [10, 7, 4])] ∧
      s3.Traces = [grid12Pos0, ⟨50, 0, 50⟩, ⟨-50, 0, 50⟩] := by
  obtain ⟨s3, hrun, hcomps, hreg, _, hthis, _, htr⟩ :=
    UpdateSoundPropagation_clear_path_leaves_secondary shadowWorld fadingState 0 (1 / 60)
      ((FPathfinder.FindPath {} grid12Blocked
        (fun Start End => shadowWorld.LineTraceSingleForObjects Start End [0])
        shadowWorld.OwnerLocation grid12Pos0 shadowWorld.OwnerLocation []).get (by decide!))
      [10, 7, 4] (by decide!) (by decide!) (by decide!) (by decide!)
      (fun j h1 h2 => by
        have hj : j = 1 ∨ j = 2 := by
          simp only [List.length_cons, List.length_nil] at h2
          omega
        rcases hj with rfl | rfl <;> decide!)
  refine ⟨s3, hrun, hcomps, hreg.trans (by decide!), ?_, htr.trans (by decide!)⟩
  rw [hthis]
  decide!

/-! ## What CreateGrid stores and GetNodeFromWorldLocation finds -/

/-- Every offset into the flat array is the index of an in-bounds triple. -/
theorem AMapGrid.GetIndex_surj (g : AMapGrid) (hy : 0 < g.GridArrayLengthY)
    (hz : 0 < g.GridArrayLengthZ) (i : Int) (h0 : 0 ≤ i)
    (hi : i < g.GridArrayLengthX * g.GridArrayLengthY * g.GridArrayLengthZ) :
    ∃ x y z, g.InBounds x y z ∧ g.GetIndex x y z = i := by
  have hyz : 0 < g.GridArrayLengthY * g.GridArrayLengthZ := Int.mul_pos hy hz
  refine ⟨i / (g.GridArrayLengthY * g.GridArrayLengthZ),
    (i % (g.GridArrayLengthY * g.GridArrayLengthZ)) % g.GridArrayLengthY,
    (i % (g.GridArrayLengthY * g.GridArrayLengthZ)) / g.GridArrayLengthY,
    ⟨⟨?_, ?_⟩, ⟨?_, ?_⟩, ?_, ?_⟩, ?_⟩
  · exact Int.ediv_nonneg h0 hyz.le
  · apply Int.ediv_lt_of_lt_mul hyz
    rw [← mul_assoc]
    exact hi
  · exact Int.emod_nonneg _ hy.ne'
  · exact Int.emod_lt_of_pos _ hy
  · exact Int.ediv_nonneg (Int.emod_nonneg _ hyz.ne') hy.le
  · apply Int.ediv_lt_of_lt_mul hy
    have := Int.emod_lt_of_pos i hyz
    linarith [mul_comm g.GridArrayLengthY g.GridArrayLengthZ]
  · unfold AMapGrid.GetIndex
    have e1 := Int.ediv_add_emod i (g.GridArrayLengthY * g.GridArrayLengthZ)
    have e2 := Int.ediv_add_emod (i % (g.GridArrayLengthY * g.GridArrayLengthZ))
      g.GridArrayLengthY
    nlinarith [e1, e2]

/-- With positive cell counts `CreateGrid` returns, and the grid it builds is well
formed and holds in every in-bounds cell the node the loop body constructs. -/
theorem AMapGrid.CreateGrid_positive (Overlap : FVector → ℚ → Bool) (g : AMapGrid)
    (hx : 0 < FMath.RoundToInt (g.GridSize.X / g.NodeDiameter))
    (hy : 0 < FMath.RoundToInt (g.GridSize.Y / g.NodeDiameter))
    (hz : 0 < FMath.RoundToInt (g.GridSize.Z / g.NodeDiameter)) :
    ∃ g', AMapGrid.CreateGrid Overlap g = some g' ∧ g'.WellFormed ∧
      g'.NodeRadius = g.NodeRadius ∧ g'.NodeDiameter = g.NodeDiameter ∧
      g'.GridArrayLengthX = FMath.RoundToInt (g.GridSize.X / g.NodeDiameter) ∧
      g'.GridArrayLengthY = FMath.RoundToInt (g.GridSize.Y / g.NodeDiameter) ∧
      g'.GridArrayLengthZ = FMath.RoundToInt (g.GridSize.Z / g.NodeDiameter) ∧
      g'.GridBottomLeftLocation
        = ⟨g.ActorLocation.X - g.GridSize.X / 2, g.ActorLocation.Y - g.GridSize.Y / 2,
            g.ActorLocation.Z⟩ ∧
      ∀ x y z, g'.InBounds x y z →
        g'.node (g'.GetNodeFromArray x y z) = AMapGrid.CellNode Overlap g' x y z := by
  have hrun : AMapGrid.CreateGrid Overlap g
      = some (AMapGrid.CreateGridLoops Overlap (AMapGrid.CreateGridInit g)) := by
    unfold AMapGrid.CreateGrid
    have hpos : ¬ (AMapGrid.CreateGridInit g).GridArrayLengthX
        * (AMapGrid.CreateGridInit g).GridArrayLengthY
        * (AMapGrid.CreateGridInit g).GridArrayLengthZ < 0 := by
      have : 0 < (AMapGrid.CreateGridInit g).GridArrayLengthX
          * (AMapGrid.CreateGridInit g).GridArrayLengthY
          * (AMapGrid.CreateGridInit g).GridArrayLengthZ :=
        Int.mul_pos (Int.mul_pos hx hy) hz
      omega
    simp only [hpos, if_false]
  obtain ⟨hf, _, hc⟩ := AMapGrid.CreateGrid_spec Overlap g _ hrun
  have hX : (AMapGrid.CreateGridLoops Overlap (AMapGrid.CreateGridInit g)).GridArrayLengthX
      = FMath.RoundToInt (g.GridSize.X / g.NodeDiameter) := hf.2.2.2.1
  have hY : (AMapGrid.CreateGridLoops Overlap (AMapGrid.CreateGridInit g)).GridArrayLengthY
      = FMath.RoundToInt (g.GridSize.Y / g.NodeDiameter) := hf.2.2.2.2.1
  have hZ : (AMapGrid.CreateGridLoops Overlap (AMapGrid.CreateGridInit g)).GridArrayLengthZ
      = FMath.RoundToInt (g.GridSize.Z / g.NodeDiameter) := hf.2.2.2.2.2.1
  exact ⟨_, hrun,
    AMapGrid.CreateGrid_wellFormed Overlap g _ hrun (by rw [hX]; exact hx)
      (by rw [hY]; exact hy) (by rw [hZ]; exact hz),
    hf.1, hf.2.1, hX, hY, hZ, hf.2.2.2.2.2.2.1, hc⟩

/-- C34: after `CreateGrid` on a grid with positive cell counts, whose diameter is twice
the cell radius `r` as `BeginPlay` sets it, for every in-bounds `(x, y, z)` the node stored
at `GetIndex(x, y, z)` has `GridX = x`, `GridY = y`, `GridZ = z`, has the world position
`bottomLeft + ((2x+1)r, (2y+1)r, (2z+1)r)`, and is walkable exactly when the overlap test
at that position with radius `r` reported no blocking actor. The flat array has one slot
per cell and every slot is the index of an in-bounds triple, so every slot is written. -/
theorem CreateGrid_writes_every_cell (Overlap : FVector → ℚ → Bool) (g : AMapGrid)
    (hD : g.NodeDiameter = g.NodeRadius * 2)
    (hx : 0 < FMath.RoundToInt (g.GridSize.X / g.NodeDiameter))
    (hy : 0 < FMath.RoundToInt (g.GridSize.Y / g.NodeDiameter))
    (hz : 0 < FMath.RoundToInt (g.GridSize.Z / g.NodeDiameter)) :
    ∃ g', AMapGrid.CreateGrid Overlap g = some g' ∧
      g'.GridBottomLeftLocation
        = ⟨g.ActorLocation.X - g.GridSize.X / 2, g.ActorLocation.Y - g.GridSize.Y / 2,
            g.ActorLocation.Z⟩ ∧
      (∀ x y z, g'.InBounds x y z →
        (g'.node (g'.GetIndex x y z).toNat).GridX = x ∧
        (g'.node (g'.GetIndex x y z).toNat).GridY = y ∧
        (g'.node (g'.GetIndex x y z).toNat).GridZ = z ∧
        (g'.node (g'.GetIndex x y z).toNat).GetWorldCoordinate
          = ⟨g'.GridBottomLeftLocation.X + (2 * (x : ℚ) + 1) * g.NodeRadius,
              g'.GridBottomLeftLocation.Y + (2 * (y : ℚ) + 1) * g.NodeRadius,
              g'.GridBottomLeftLocation.Z + (2 * (z : ℚ) + 1) * g.NodeRadius⟩ ∧
        ((g'.node (g'.GetIndex x y z).toNat).IsWalkable = true ↔
          Overlap (g'.node (g'.GetIndex x y z).toNat).GetWorldCoordinate g.NodeRadius
            = false)) ∧
      g'.Nodes.length
        = (g'.GridArrayLengthX * g'.GridArrayLengthY * g'.GridArrayLengthZ).toNat ∧
      (∀ i, i < g'.Nodes.length →
        ∃ x y z, g'.InBounds x y z ∧ (g'.GetIndex x y z).toNat = i) := by
  obtain ⟨g', hrun, hwf, hR, hDia, _, _, _, hBL, hc⟩ :=
    AMapGrid.CreateGrid_positive Overlap g hx hy hz
  refine ⟨g', hrun, hBL, fun x y z hb => ?_, hwf.size, fun i hi => ?_⟩
  · have hcell := hc x y z hb
    unfold AMapGrid.GetNodeFromArray at hcell
    have hpos : g'.NodePos g'.GridBottomLeftLocation x y z
        = ⟨g'.GridBottomLeftLocation.X + (2 * (x : ℚ) + 1) * g.NodeRadius,
            g'.GridBottomLeftLocation.Y + (2 * (y : ℚ) + 1) * g.NodeRadius,
            g'.GridBottomLeftLocation.Z + (2 * (z : ℚ) + 1) * g.NodeRadius⟩ := by
      unfold AMapGrid.NodePos
      rw [hDia, hR, hD]
      congr 1 <;> ring
    rw [hcell]
    unfold AMapGrid.CellNode FGridNode.mk5 FGridNode.GetWorldCoordinate FGridNode.IsWalkable
    simp only [hpos, hR, Bool.not_eq_true', true_and]
  · rw [hwf.size] at hi
    have hi' : (i : Int) < g'.GridArrayLengthX * g'.GridArrayLengthY * g'.GridArrayLengthZ := by
      omega
    obtain ⟨x, y, z, hb, he⟩ := g'.GetIndex_surj hwf.posY hwf.posZ i (Int.natCast_nonneg _) hi'
    exact ⟨x, y, z, hb, by rw [he]; rfl⟩

/-- C34 on the 4 x 3 x 1 grid of `actor12` with blocking geometry around the centre of
cell `(1, 0, 0)`: twelve slots, and the node of that cell has its coordinates, the centre
`(-50, -100, 50)` and is not walkable, while the node of cell `(3, 1, 0)` is walkable. -/
theorem CreateGrid_writes_every_cell_witness :
    ∃ g', AMapGrid.CreateGrid (overlapAt ⟨-50, -100, 50⟩) actor12 = some g' ∧
      g'.Nodes.length = 12 ∧
      (g'.node (g'.GetIndex 1 0 0).toNat).GridX = 1 ∧
      (g'.node (g'.GetIndex 1 0 0).toNat).GetWorldCoordinate = ⟨-50, -100, 50⟩ ∧
      (g'.node (g'.GetIndex 1 0 0).toNat).IsWalkable = false ∧
      (g'.node (g'.GetIndex 3 1 0).toNat).IsWalkable = true := by
  obtain ⟨g', hrun, _, hcell, hlen, _⟩ :=
    CreateGrid_writes_every_cell (overlapAt ⟨-50, -100, 50⟩) actor12 (by decide!) (by decide!)
      (by decide!) (by decide!)
  have hg : g' = grid12Blocked := Option.some.inj (hrun.symm.trans (by decide!))
  subst hg
  obtain ⟨h1, _, _, h4, _⟩ := hcell 1 0 0 (by decide!)
  exact ⟨_, hrun, hlen.trans (by decide!), h1, h4.trans (by decide!), by decide!,
    ((hcell 3 1 0 (by decide!)).2.2.2.2).2 (by decide!)⟩

namespace FPathfinder

/-- The parent chain from a node is determined by the node. -/
theorem IsParentChain.chain_unique {g0 g : AMapGrid} {S : Nat} :
    ∀ {P1 P2 : List Nat} {v : Nat}, IsParentChain g0 g S v P1 → IsParentChain g0 g S v P2 →
      P1 = P2 := by
  intro P1
  induction P1 with
  | nil =>
    intro P2 v h1 h2
    cases P2 with
    | nil => rfl
    | cons a t => exact absurd h1 h2.1
  | cons a t ih =>
    intro P2 v h1 h2
    cases P2 with
    | nil => exact absurd h2 h1.1
    | cons b u =>
      obtain ⟨_, ha, p, hp, _, hc⟩ := h1
      obtain ⟨_, hb, q, hq, _, hc'⟩ := h2
      have hpq : p = q := Option.some.inj (hp.symm.trans hq)
      subst hpq
      rw [ha, hb, ih hc hc']

/-- From every element of a parent chain on, the rest of the chain is the parent chain
of that element. -/
theorem IsParentChain.chain_suffix {g0 g : AMapGrid} {S : Nat} :
    ∀ {P : List Nat} {v : Nat}, IsParentChain g0 g S v P → ∀ a ∈ P,
      ∃ T, T.length ≤ P.length ∧ IsParentChain g0 g S a T := by
  intro P
  induction P with
  | nil => intro v _ a ha; exact absurd ha (List.not_mem_nil _)
  | cons b t ih =>
    intro v h a ha
    rcases List.mem_cons.1 ha with e | e
    · refine ⟨b :: t, le_refl _, ?_⟩
      have hav : a = v := e.trans h.2.1
      rw [hav]
      exact h
    · obtain ⟨_, _, p, _, _, hc⟩ := h
      obtain ⟨T, hT, hcT⟩ := ih hc a e
      exact ⟨T, by simp only [List.length_cons]; omega, hcT⟩

/-- No node occurs twice in a parent chain. -/
theorem IsParentChain.chain_nodup {g0 g : AMapGrid} {S : Nat} :
    ∀ {P : List Nat} {v : Nat}, IsParentChain g0 g S v P → P.Nodup := by
  intro P
  induction P with
  | nil => intro v _; exact List.nodup_nil
  | cons a t ih =>
    intro v h
    have h' := h
    obtain ⟨_, ha, p, _, _, hc⟩ := h'
    refine List.nodup_cons.2 ⟨fun hmem => ?_, ih hc⟩
    obtain ⟨T, hT, hcT⟩ := hc.chain_suffix a hmem
    rw [ha] at hcT
    have := hcT.chain_unique h
    rw [this] at hT
    simp only [List.length_cons] at hT
    omega

/-- A parent chain is a walk through walkable nodes of in-bounds cells: neighbouring
elements are 26-neighbours of each other, and the last element and the start node are. -/
theorem IsParentChain.walk {g0 g : AMapGrid} (hwf : g0.WellFormed) {S : Nat}
    (hS : g0.ValidNode S) :
    ∀ {P : List Nat} {v : Nat}, IsParentChain g0 g S v P →
      (∀ n ∈ P, (g0.node n).IsWalkable = true ∧ g0.ValidNode n) ∧
      (∀ i, i + 1 < P.length →
        P.getD (i + 1) 0 ∈ g0.GetNeighbours (P.getD i 0) ∧
        P.getD i 0 ∈ g0.GetNeighbours (P.getD (i + 1) 0)) ∧
      (∀ l, P.getLast? = some l → l ∈ g0.GetNeighbours S ∧ S ∈ g0.GetNeighbours l) := by
  intro P
  induction P with
  | nil =>
    intro v _
    exact ⟨fun n hn => absurd hn (List.not_mem_nil _),
      fun i hi => absurd hi (Nat.not_lt_zero _), fun l hl => absurd hl (by simp)⟩
  | cons a t ih =>
    intro v h
    obtain ⟨_, ha, p, _, he, hc⟩ := h
    obtain ⟨ih1, ih2, ih3⟩ := ih hc
    have hva : g0.ValidNode a := by
      rw [ha]
      exact g0.validNode_of_mem_GetNeighbours he.1
    have hwa : (g0.node a).IsWalkable = true := by
      rw [ha]
      exact he.2
    have hmem : ∀ n ∈ a :: t, (g0.node n).IsWalkable = true ∧ g0.ValidNode n := by
      intro n hn
      rcases List.mem_cons.1 hn with e | e
      · rw [e]
        exact ⟨hwa, hva⟩
      · exact ih1 n e
    cases t with
    | nil =>
      have hp : p = S := hc
      subst hp
      refine ⟨hmem, fun i hi => ?_, fun l hl => ?_⟩
      · simp only [List.length_cons, List.length_nil] at hi
        omega
      · have hl' : a = l := by
          simpa using hl
        rw [← hl', ha]
        exact ⟨he.1, g0.GetNeighbours_symm hwf hS he.1⟩
    | cons b u =>
      have hb : b = p := hc.2.1
      have hvp : g0.ValidNode p := by
        rw [← hb]
        exact (ih1 b (List.mem_cons_self _ _)).2
      refine ⟨hmem, fun i hi => ?_, fun l hl => ?_⟩
      · cases i with
        | zero =>
          show b ∈ g0.GetNeighbours a ∧ a ∈ g0.GetNeighbours b
          rw [hb, ha]
          exact ⟨g0.GetNeighbours_symm hwf hvp he.1, he.1⟩
        | succ k =>
          have := ih2 k (by simp only [List.length_cons] at hi ⊢; omega)
          simpa using this
      · rw [List.getLast?_cons_cons] at hl
        exact ih3 l hl

end FPathfinder

/-- C36: every path `FindPath` returns after a search on a well-formed grid is a valid
walk: the call returns, all nodes of the output path are walkable, no node occurs twice,
any two consecutive elements are 26-neighbours of each other, and the last element and
the start node are 26-neighbours of each other. -/
theorem FindPath_path_is_simple_walk (pf : FPathfinder) (g : AMapGrid)
    (hwf : g.WellFormed) (LineTrace : FVector → FVector → Bool)
    (PlayerLocation From To : FVector) (Path : List Nat)
    (hrun : some (FPathfinder.GetTargetNode g LineTrace PlayerLocation To) ≠ pf.OldEndNode) :
    ∃ r, FPathfinder.FindPath pf g LineTrace PlayerLocation From To Path = some r ∧
      (∀ n ∈ r.Path, (g.node n).IsWalkable = true ∧ (r.Grid.node n).IsWalkable = true) ∧
      r.Path.Nodup ∧
      (∀ i, i + 1 < r.Path.length →
        r.Path.getD (i + 1) 0 ∈ g.GetNeighbours (r.Path.getD i 0) ∧
        r.Path.getD i 0 ∈ g.GetNeighbours (r.Path.getD (i + 1) 0)) ∧
      (∀ l, r.Path.getLast? = some l →
        l ∈ g.GetNeighbours (g.GetNodeFromWorldLocation From) ∧
        g.GetNodeFromWorldLocation From ∈ g.GetNeighbours l) := by
  obtain ⟨r, hr, _, _, hnot, hcells, hchain⟩ :=
    FPathfinder.FindPath_search_spec pf g hwf LineTrace PlayerLocation From To Path hrun
  refine ⟨r, hr, ?_⟩
  cases hret : r.Return with
  | false =>
    rw [hnot hret]
    exact ⟨fun n hn => absurd hn (List.not_mem_nil _), List.nodup_nil,
      fun i hi => absurd hi (Nat.not_lt_zero _), fun l hl => absurd hl (by simp)⟩
  | true =>
    have hc := hchain hret
    obtain ⟨h1, h2, h3⟩ := hc.walk hwf (g.validNode_GetNodeFromWorldLocation hwf From)
    refine ⟨fun n hn => ⟨(h1 n hn).1, ?_⟩, hc.chain_nodup, h2, h3⟩
    rw [← (h1 n hn).1]
    exact (hcells.isWalkable n)

/-- C36 on `grid12Blocked`: the search from node 10 to node 0 returns the path
`[0, 4, 6]`, three different walkable nodes, each a 26-neighbour of the next, the last
one a 26-neighbour of the start node 10. -/
theorem FindPath_path_is_simple_walk_witness :
    ∃ r, FPathfinder.FindPath {} grid12Blocked noTrace grid12Pos0 grid12Pos10 grid12Pos0 []
        = some r ∧
      r.Path = [0, 4, 6] ∧
      grid12Blocked.GetNodeFromWorldLocation grid12Pos10 = 10 ∧
      (∀ n ∈ r.Path,
        (grid12Blocked.node n).IsWalkable = true ∧ (r.Grid.node n).IsWalkable = true) ∧
      r.Path.Nodup ∧
      (∀ i, i + 1 < r.Path.length →
        r.Path.getD (i + 1) 0 ∈ grid12Blocked.GetNeighbours (r.Path.getD i 0) ∧
        r.Path.getD i 0 ∈ grid12Blocked.GetNeighbours (r.Path.getD (i + 1) 0)) ∧
      (∀ l, r.Path.getLast? = some l →
        l ∈ grid12Blocked.GetNeighbours (grid12Blocked.GetNodeFromWorldLocation grid12Pos10) ∧
        grid12Blocked.GetNodeFromWorldLocation grid12Pos10
          ∈ grid12Blocked.GetNeighbours l) := by
  obtain ⟨r, hr, h⟩ :=
    FindPath_path_is_simple_walk {} grid12Blocked grid12Blocked_wellFormed noTrace
      grid12Pos0 grid12Pos10 grid12Pos0 [] grid12Blocked_runs
  have he : r = grid12First := Option.some.inj (hr.symm.trans grid12_first)
  refine ⟨r, hr, ?_, by decide!, h⟩
  rw [he]
  decide!

/-! ## A search that failed, asked again -/

theorem UAudioComponent.SameSource.source_refl (c : UAudioComponent) : c.SameSource c :=
  ⟨rfl, rfl, rfl, rfl, rfl⟩

theorem UAudioComponent.SameSource.source_trans {a b c : UAudioComponent}
    (h : a.SameSource b) (h' : b.SameSource c) : a.SameSource c :=
  ⟨h'.1.trans h.1, h'.2.1.trans h.2.1, h'.2.2.1.trans h.2.2.1, h'.2.2.2.1.trans h.2.2.2.1,
    h'.2.2.2.2.trans h.2.2.2.2⟩

namespace UAudioOcclusionComponent

theorem Blocked_congr (this : UAudioOcclusionComponent) (W : UWorld)
    {c c' : UAudioComponent} (h : c.SameSource c') : Blocked this W c' ↔ Blocked this W c := by
  unfold Blocked
  rw [h.1, h.2.1]

theorem HitsMatch_congr (this : UAudioOcclusionComponent) (W : UWorld)
    {c c' : UAudioComponent} (h : c.SameSource c') :
    HitsMatch this W c' ↔ HitsMatch this W c := by
  unfold HitsMatch
  rw [h.1, h.2.1]

theorem occludedVolume_congr (this : UAudioOcclusionComponent) (W : UWorld)
    {c c' : UAudioComponent} (h : c.SameSource c') :
    occludedVolume this W c' = occludedVolume this W c := by
  unfold occludedVolume
  rw [h.1, h.2.1]

theorem lowPassCutoff_congr (this : UAudioOcclusionComponent) (W : UWorld)
    {c c' : UAudioComponent} (h : c.SameSource c') :
    lowPassCutoff this W c' = lowPassCutoff this W c := by
  unfold lowPassCutoff
  rw [h.1, h.2.1]

/-- Whatever the rays find, `UpdateAudioComp` leaves the component itself and every field
of the source other than the volume and the low-pass settings as they were. -/
theorem UpdateAudioComp_sameSource (this : UAudioOcclusionComponent) (W : UWorld)
    (c : UAudioComponent) (DeltaTime : ℚ) :
    (this.UpdateAudioComp W c DeltaTime).This = this ∧
      c.SameSource (this.UpdateAudioComp W c DeltaTime).AudioComp := by
  by_cases hb : W.LineTraceMultiForObjects W.CameraLocation c.ComponentLocation
      [this.Owner, c.Owner] = []
  · rw [UpdateAudioComp_noBlock this W c DeltaTime hb]
    refine ⟨rfl, ?_⟩
    unfold ResetAudioComponentOnNoBlock UAudioComponent.SetLowPassFilterEnabled
      UAudioComponent.SetVolumeMultiplier
    split <;> exact ⟨rfl, rfl, rfl, rfl, rfl⟩
  · by_cases hl : HitsMatch this W c
    · rw [UpdateAudioComp_blocked this W c DeltaTime hb hl]
      refine ⟨rfl, ?_⟩
      simp only
      split <;> exact ⟨rfl, rfl, rfl, rfl, rfl⟩
    · rw [UpdateAudioComp_mismatch this W c DeltaTime hb hl]
      exact ⟨rfl, UAudioComponent.SameSource.source_refl c⟩

/-- While the timer does not exceed the delay, `UpdateAudioComp` on a blocked source
changes the volume multiplier only. -/
theorem UpdateAudioComp_blocked_early (this : UAudioOcclusionComponent) (W : UWorld)
    (c : UAudioComponent) (DeltaTime : ℚ) (hb : Blocked this W c)
    (ht : ¬ this.LowPassTimer > this.LowPassUpdateDelay) :
    (this.UpdateAudioComp W c DeltaTime).AudioComp
      = { c with
          VolumeMultiplier := (this.UpdateAudioComp W c DeltaTime).AudioComp.VolumeMultiplier }
      := by
  by_cases hl : HitsMatch this W c
  · rw [UpdateAudioComp_blocked this W c DeltaTime hb hl]
    simp only [ht, if_false]
    rfl
  · rw [UpdateAudioComp_mismatch this W c DeltaTime hb hl]

/-- Once the timer exceeds the delay, `UpdateAudioComp` on a blocked source whose traces
match writes the volume and the low-pass settings. -/
theorem UpdateAudioComp_blocked_late (this : UAudioOcclusionComponent) (W : UWorld)
    (c : UAudioComponent) (DeltaTime : ℚ) (hb : Blocked this W c) (hl : HitsMatch this W c)
    (ht : this.LowPassTimer > this.LowPassUpdateDelay) :
    (this.UpdateAudioComp W c DeltaTime).AudioComp.VolumeMultiplier = occludedVolume this W c ∧
    (this.UpdateAudioComp W c DeltaTime).AudioComp.bEnableLowPassFilter = true ∧
    (this.UpdateAudioComp W c DeltaTime).AudioComp.LowPassFilterFrequency
      = lowPassCutoff this W c := by
  rw [UpdateAudioComp_blocked this W c DeltaTime hb hl]
  simp only [ht, if_true]
  exact ⟨rfl, rfl, rfl⟩

theorem InRange_congr (W : UWorld) {c c' : UAudioComponent} (h : c.SameSource c') :
    InRange W c' ↔ InRange W c := by
  unfold InRange
  rw [h.2.1, h.2.2.1]

theorem comp_set (s : OcclusionState) (a p : Nat) (x : UAudioComponent)
    (T : List (FVector × FVector)) (this : UAudioOcclusionComponent) :
    ({ This := this, Comps := s.Comps.set a x, Traces := T } : OcclusionState).comp p
      = if p = a ∧ a < s.Comps.length then x else s.comp p := by
  unfold OcclusionState.comp
  simp only [List.getD_eq_getElem?_getD, List.getElem?_set]
  by_cases hpa : p = a
  · subst hpa
    by_cases hlt : p < s.Comps.length
    · simp [hlt]
    · simp [hlt, List.getElem?_eq_none (not_lt.1 hlt)]
  · simp [hpa, Ne.symm hpa]

/-- One turn of the loop of `TickComponent`: the source is skipped, or it is valid and in
range and `UpdateAudioComp` is applied to it. -/
theorem TickAudioComp_cases (W : UWorld) (DeltaTime : ℚ) (s : OcclusionState) (a : Nat)
    (hatt : a < s.Comps.length → (s.comp a).AttenuationSettings ≠ none) :
    (TickAudioComp W DeltaTime s a = some s ∧
      ¬ (a < s.Comps.length ∧ InRange W (s.comp a))) ∨
    (a < s.Comps.length ∧ InRange W (s.comp a) ∧
      TickAudioComp W DeltaTime s a
        = some { This := (s.This.UpdateAudioComp W (s.comp a) DeltaTime).This,
                 Comps := s.Comps.set a (s.This.UpdateAudioComp W (s.comp a) DeltaTime).AudioComp,
                 Traces := s.Traces ++ (s.This.UpdateAudioComp W (s.comp a) DeltaTime).Traces })
    := by
  unfold TickAudioComp OcclusionState.IsValid
  by_cases hv : a < s.Comps.length
  · cases hA : (s.comp a).AttenuationSettings with
    | none => exact absurd hA (hatt hv)
    | some A =>
      by_cases hr : A.FalloffDistance > W.Dist W.OwnerLocation (s.comp a).ComponentLocation
      · refine Or.inr ⟨hv, ⟨A, hA, hr⟩, ?_⟩
        simp only [hv, decide_True, Bool.not_true, Bool.false_eq_true, if_false,
          UAudioComponent.GetComponentLocation, hr, if_true]
      · refine Or.inl ⟨?_, ?_⟩
        · simp only [hv, decide_True, Bool.not_true, Bool.false_eq_true, if_false,
            UAudioComponent.GetComponentLocation, hr]
        · rintro ⟨_, A', hA', hr'⟩
          rw [hA] at hA'
          cases hA'
          exact hr hr'
  · refine Or.inl ⟨?_, fun h => hv h.1⟩
    simp only [hv, decide_False, Bool.not_false, if_true]

/-- The loop of `TickComponent` returns when every valid tracked source has attenuation
settings. It leaves the component as it is and changes, in the sources, the volume and
the low-pass settings only; the low-pass settings of a blocked source are kept while the
timer does not exceed the delay, and are written for every visited source that is valid,
in range and blocked with matching traces once it does. -/
theorem TickLoop_spec (W : UWorld) (DeltaTime : ℚ) (s0 : OcclusionState) :
    ∀ (L : List Nat) (s : OcclusionState), s.This = s0.This →
      s.Comps.length = s0.Comps.length → (∀ p, (s0.comp p).SameSource (s.comp p)) →
      (∀ p ∈ L, p < s0.Comps.length → (s0.comp p).AttenuationSettings ≠ none) →
      ∃ s', TickLoop W DeltaTime L s = some s' ∧ s'.This = s0.This ∧
        s'.Comps.length = s0.Comps.length ∧ (∀ p, (s0.comp p).SameSource (s'.comp p)) ∧
        (¬ s0.This.LowPassTimer > s0.This.LowPassUpdateDelay →
          ∀ p, Blocked s0.This W (s0.comp p) →
            (s'.comp p).bEnableLowPassFilter = (s.comp p).bEnableLowPassFilter ∧
            (s'.comp p).LowPassFilterFrequency = (s.comp p).LowPassFilterFrequency) ∧
        (s0.This.LowPassTimer > s0.This.LowPassUpdateDelay →
          ∀ p, p < s0.Comps.length → InRange W (s0.comp p) → Blocked s0.This W (s0.comp p) →
            HitsMatch s0.This W (s0.comp p) →
            (p ∈ L ∨
              ((s.comp p).VolumeMultiplier = occludedVolume s0.This W (s0.comp p) ∧
                (s.comp p).bEnableLowPassFilter = true ∧
                (s.comp p).LowPassFilterFrequency = lowPassCutoff s0.This W (s0.comp p))) →
            (s'.comp p).VolumeMultiplier = occludedVolume s0.This W (s0.comp p) ∧
            (s'.comp p).bEnableLowPassFilter = true ∧
            (s'.comp p).LowPassFilterFrequency = lowPassCutoff s0.This W (s0.comp p)) := by
  intro L
  induction L with
  | nil =>
    intro s hT hlen hsame _
    refine ⟨s, rfl, hT, hlen, hsame, fun _ p _ => ⟨rfl, rfl⟩, fun _ p _ _ _ _ h => ?_⟩
    rcases h with h | h
    · exact absurd h (List.not_mem_nil _)
    · exact h
  | cons a rest ih =>
    intro s hT hlen hsame hatt
    have hatt_a : a < s.Comps.length → (s.comp a).AttenuationSettings ≠ none := by
      intro hv
      rw [(hsame a).2.2.1]
      exact hatt a (List.mem_cons_self _ _) (by rw [← hlen]; exact hv)
    have hatt_rest : ∀ p ∈ rest, p < s0.Comps.length →
        (s0.comp p).AttenuationSettings ≠ none :=
      fun p hp => hatt p (List.mem_cons_of_mem _ hp)
    rcases TickAudioComp_cases W DeltaTime s a hatt_a with ⟨hrun, hskip⟩ | ⟨hv, hr, hrun⟩
    · obtain ⟨s', hs', h1, h2, h3, h4, h5⟩ := ih s hT hlen hsame hatt_rest
      refine ⟨s', ?_, h1, h2, h3, h4, fun ht p hp hir hb hm h => ?_⟩
      · rw [TickLoop, hrun]
        exact hs'
      · refine h5 ht p hp hir hb hm ?_
        rcases h with h | h
        · rcases List.mem_cons.1 h with e | e
          · subst e
            exact absurd ⟨by rw [hlen]; exact hp, (InRange_congr W (hsame p)).2 hir⟩ hskip
          · exact Or.inl e
        · exact Or.inr h
    · obtain ⟨hUT, hUS⟩ := UpdateAudioComp_sameSource s.This W (s.comp a) DeltaTime
      have hcomp : ∀ p,
          ({ This := (s.This.UpdateAudioComp W (s.comp a) DeltaTime).This,
             Comps := s.Comps.set a (s.This.UpdateAudioComp W (s.comp a) DeltaTime).AudioComp,
             Traces := s.Traces ++ (s.This.UpdateAudioComp W (s.comp a) DeltaTime).Traces }
            : OcclusionState).comp p
            = if p = a then (s.This.UpdateAudioComp W (s.comp a) DeltaTime).AudioComp
              else s.comp p := by
        intro p
        rw [comp_set]
        by_cases hpa : p = a
        · simp [hpa, hv]
        · simp [hpa]
      obtain ⟨s', hs', h1, h2, h3, h4, h5⟩ := ih
        { This := (s.This.UpdateAudioComp W (s.comp a) DeltaTime).This,
          Comps := s.Comps.set a (s.This.UpdateAudioComp W (s.comp a) DeltaTime).AudioComp,
          Traces := s.Traces ++ (s.This.UpdateAudioComp W (s.comp a) DeltaTime).Traces }
        (hUT.trans hT) (by simp only [List.length_set]; exact hlen)
        (fun p => by
          rw [hcomp]
          by_cases hpa : p = a
          · simp only [hpa, if_true]
            exact (hsame a).source_trans hUS
          · simp only [hpa, if_false]
            exact hsame p)
        hatt_rest
      refine ⟨s', ?_, h1, h2, h3, fun ht p hb => ?_, fun ht p hp hir hb hm h => ?_⟩
      · rw [TickLoop, hrun]
        exact hs'
      · obtain ⟨e1, e2⟩ := h4 ht p hb
        rw [hcomp] at e1 e2
        by_cases hpa : p = a
        · subst hpa
          simp only [if_true] at e1 e2
          have hearly := UpdateAudioComp_blocked_early s.This W (s.comp p) DeltaTime
            ((Blocked_congr s.This W (hsame p)).2 (by rw [hT]; exact hb))
            (by rw [hT]; exact ht)
          rw [hearly] at e1 e2
          exact ⟨e1, e2⟩
        · simp only [hpa, if_false] at e1 e2
          exact ⟨e1, e2⟩
      · refine h5 ht p hp hir hb hm ?_
        rw [hcomp]
        by_cases hpa : p = a
        · subst hpa
          simp only [if_true]
          right
          have hlate := UpdateAudioComp_blocked_late s.This W (s.comp p) DeltaTime
            ((Blocked_congr s.This W (hsame p)).2 (by rw [hT]; exact hb))
            ((HitsMatch_congr s.This W (hsame p)).2 (by rw [hT]; exact hm))
            (by rw [hT]; exact ht)
          rw [occludedVolume_congr s.This W (hsame p),
            lowPassCutoff_congr s.This W (hsame p)] at hlate
          rw [← hT]
          exact hlate
        · simp only [hpa, if_false]
          rcases h with h | h
          · rcases List.mem_cons.1 h with e | e
            · exact absurd e hpa
            · exact Or.inl e
          · exact Or.inr h

end UAudioOcclusionComponent

/-- C31: `TickComponent` of an enabled occlusion component returns when every valid
tracked source has attenuation settings, and adds `DeltaTime` to `LowPassTimer` first.
`UpdateAudioComp` on a blocked source changes the volume multiplier only while the timer
does not exceed `LowPassUpdateDelay`. So in a tick whose accumulated timer does not
exceed the delay every blocked source keeps its low-pass flag and cutoff, and every
other field but the volume: the low-pass of a blocked source is rewritten only in a tick
whose accumulated timer exceeds the delay. In such a tick every tracked source that is
valid, in range and blocked with matching traces has its low-pass enabled and its cutoff
written, and at the end of the tick the timer is reset to 0; otherwise the timer keeps
the accumulated value. -/
theorem TickComponent_low_pass_only_after_delay (W : UWorld) (s : OcclusionState)
    (DeltaTime : ℚ) (hen : s.This.bEnabled = true)
    (hatt : ∀ p ∈ s.This.AudioComponents, p < s.Comps.length →
      (s.comp p).AttenuationSettings ≠ none) :
    (∀ (this : UAudioOcclusionComponent) (c : UAudioComponent), this.Blocked W c →
      ¬ this.LowPassTimer > this.LowPassUpdateDelay →
      (this.UpdateAudioComp W c DeltaTime).AudioComp
        = { c with
            VolumeMultiplier :=
              (this.UpdateAudioComp W c DeltaTime).AudioComp.VolumeMultiplier }) ∧
    ∃ s', UAudioOcclusionComponent.TickComponent W s DeltaTime = some s' ∧
      s'.This = { s.This with
        LowPassTimer :=
          if s.This.LowPassTimer + DeltaTime > s.This.LowPassUpdateDelay then 0
          else s.This.LowPassTimer + DeltaTime } ∧
      s'.Comps.length = s.Comps.length ∧
      (¬ s.This.LowPassTimer + DeltaTime > s.This.LowPassUpdateDelay →
        ∀ p, s.This.Blocked W (s.comp p) →
          s'.comp p = { s.comp p with VolumeMultiplier := (s'.comp p).VolumeMultiplier }) ∧
      (s.This.LowPassTimer + DeltaTime > s.This.LowPassUpdateDelay →
        ∀ p ∈ s.This.AudioComponents, p < s.Comps.length →
          UAudioOcclusionComponent.InRange W (s.comp p) → s.This.Blocked W (s.comp p) →
          s.This.HitsMatch W (s.comp p) →
          (s'.comp p).VolumeMultiplier = s.This.occludedVolume W (s.comp p) ∧
          (s'.comp p).bEnableLowPassFilter = true ∧
          (s'.comp p).LowPassFilterFrequency = s.This.lowPassCutoff W (s.comp p)) := by
  refine ⟨fun this c hb ht =>
    UAudioOcclusionComponent.UpdateAudioComp_blocked_early this W c DeltaTime hb ht, ?_⟩
  obtain ⟨s1, hrun, hT, hlen, hsame, hearly, hlate⟩ :=
    UAudioOcclusionComponent.TickLoop_spec W DeltaTime
      { s with This := { s.This with LowPassTimer := s.This.LowPassTimer + DeltaTime } }
      s.This.AudioComponents
      { s with This := { s.This with LowPassTimer := s.This.LowPassTimer + DeltaTime } }
      rfl rfl (fun p => UAudioComponent.SameSource.source_refl _) hatt
  have hcomp0 : ∀ p,
      ({ s with This := { s.This with LowPassTimer := s.This.LowPassTimer + DeltaTime } }
        : OcclusionState).comp p = s.comp p := fun _ => rfl
  simp only [hcomp0] at hsame hearly hlate
  have hstep : UAudioOcclusionComponent.TickComponent W s DeltaTime
      = if s1.This.LowPassTimer > s1.This.LowPassUpdateDelay then
          some { s1 with This := { s1.This with LowPassTimer := 0 } }
        else some s1 := by
    unfold UAudioOcclusionComponent.TickComponent
    rw [if_neg (by rw [hen]; simp)]
    dsimp only
    rw [hrun]
  dsimp only at hT hlen
  rw [hstep, hT]
  dsimp only
  by_cases ht : s.This.LowPassTimer + DeltaTime > s.This.LowPassUpdateDelay
  · rw [if_pos ht, if_pos ht]
    exact ⟨_, rfl, rfl, hlen, fun h => absurd ht h,
      fun _ p hp hv hir hb hm => hlate ht p hv hir hb hm (Or.inl hp)⟩
  · rw [if_neg ht, if_neg ht]
    refine ⟨_, rfl, hT, hlen, fun _ p hb => ?_, fun h => absurd h ht⟩
    obtain ⟨e1, e2⟩ := hearly ht p hb
    obtain ⟨f1, f2, f3, f4, f5⟩ := hsame p
    cases hc : s1.comp p
    cases hc0 : s.comp p
    rw [hc, hc0] at e1 e2 f1 f2 f3 f4 f5
    simp only at e1 e2 f1 f2 f3 f4 f5
    simp only [UAudioComponent.mk.injEq]
    exact ⟨f1, f2, f3, trivial, e1, e2, f4, f5⟩

/-- C31 on the source behind the wall of `wallWorld`, hit counts matching: a tick of 1/60
from timer 0 changes the volume to 8/9 and nothing else, the timer going to 1/60; the
same tick from timer 1/10 also enables the low-pass with cutoff 57800/7 and resets the
timer to 0. -/
theorem TickComponent_low_pass_only_after_delay_witness :
    (∃ s', UAudioOcclusionComponent.TickComponent wallWorld (wallOcclusion 0) (1 / 60)
        = some s' ∧
      s'.This.LowPassTimer = 1 / 60 ∧
      s'.comp 0 = { wallSource with VolumeMultiplier := 8 / 9 }) ∧
    (∃ s', UAudioOcclusionComponent.TickComponent wallWorld (wallOcclusion (1 / 10)) (1 / 60)
        = some s' ∧
      s'.This.LowPassTimer = 0 ∧
      (s'.comp 0).VolumeMultiplier = 8 / 9 ∧
      (s'.comp 0).bEnableLowPassFilter = true ∧
      (s'.comp 0).LowPassFilterFrequency = 57800 / 7) := by
  have hatt : ∀ t : ℚ, ∀ p ∈ (wallOcclusion t).This.AudioComponents,
      p < (wallOcclusion t).Comps.length →
      ((wallOcclusion t).comp p).AttenuationSettings ≠ none := by
    intro t p hp _
    have hp0 : p = 0 := List.mem_singleton.1 hp
    subst hp0
    exact Option.some_ne_none _
  constructor
  · obtain ⟨_, s', hrun, hT, _, hearly, _⟩ :=
      TickComponent_low_pass_only_after_delay wallWorld (wallOcclusion 0) (1 / 60) rfl
        (hatt 0)
    have hs : s' = (UAudioOcclusionComponent.TickComponent wallWorld (wallOcclusion 0)
        (1 / 60)).getD {} := by rw [hrun]; rfl
    refine ⟨s', hrun, by rw [hT]; decide!, ?_⟩
    rw [hearly (by decide!) 0 (by unfold UAudioOcclusionComponent.Blocked; decide!)]
    rw [hs]
    decide!
  · obtain ⟨_, s', hrun, hT, _, _, hlate⟩ :=
      TickComponent_low_pass_only_after_delay wallWorld (wallOcclusion (1 / 10)) (1 / 60) rfl
        (hatt (1 / 10))
    obtain ⟨h1, h2, h3⟩ := hlate (by decide!) 0 (List.mem_singleton_self _) (by decide!)
      ⟨{ FalloffDistance := 3000, MaxFalloffDistance := 3000 }, rfl, by decide!⟩
      (by unfold UAudioOcclusionComponent.Blocked; decide!)
      (by unfold UAudioOcclusionComponent.HitsMatch; decide!)
    exact ⟨s', hrun, by rw [hT]; decide!, h1.trans (by decide!), h2, h3.trans (by decide!)⟩

/-! ## The registry of secondary sources over ticks -/

namespace PropagationState

theorem RegistryKept.kept_refl (s : PropagationState) : s.RegistryKept s :=
  ⟨fun _ _ h => h, fun h => h, rfl, le_refl _, rfl, rfl⟩

theorem RegistryKept.kept_trans {s s' s'' : PropagationState} (h : s.RegistryKept s')
    (h' : s'.RegistryKept s'') : s.RegistryKept s'' :=
  ⟨fun a p e => h'.entries a p (h.entries a p e), fun e => h'.single (h.single e),
    by have := h.spawned; have := h'.spawned; omega, le_trans h.grown h'.grown,
    h'.tracked.trans h.tracked, h'.enabled.trans h.enabled⟩

/-- A step that leaves the registry and the number of audio components as they are. -/
theorem RegistryKept.of_same {s s' : PropagationState}
    (hreg : s'.This.PropagatedSounds = s.This.PropagatedSounds)
    (hlen : s'.Comps.length = s.Comps.length)
    (htr : s'.This.AudioComponents = s.This.AudioComponents)
    (hen : s'.This.bEnabled = s.This.bEnabled) : s.RegistryKept s' :=
  ⟨fun a p e => by rw [hreg]; exact e, fun e => by rw [hreg]; exact e,
    by rw [hreg, hlen], by rw [hreg], htr, hen⟩

/-- A step that registers a new audio component for a source without an entry. -/
theorem RegistryKept.of_spawn {s s' : PropagationState} (a : Nat)
    (hnew : TMap.Contains s.This.PropagatedSounds a = false)
    (hreg : s'.This.PropagatedSounds = s.This.PropagatedSounds ++ [(a, s.Comps.length)])
    (hlen : s'.Comps.length = s.Comps.length + 1)
    (htr : s'.This.AudioComponents = s.This.AudioComponents)
    (hen : s'.This.bEnabled = s.This.bEnabled) : s.RegistryKept s' := by
  have hnone : s.This.PropagatedSounds.lookup a = none := by
    unfold TMap.Contains at hnew
    cases h : s.This.PropagatedSounds.lookup a with
    | none => rfl
    | some v => rw [h] at hnew; exact absurd hnew (by simp)
  refine ⟨fun k p e => ?_, fun e => ?_, ?_, ?_, htr, hen⟩
  · rw [hreg, List.lookup_append, e]
    rfl
  · rw [hreg, List.map_append, List.nodup_append]
    refine ⟨e, List.nodup_singleton _, ?_⟩
    intro k hk hk'
    have hka : k = a := by simpa using hk'
    subst hka
    obtain ⟨kv, hkv, hfst⟩ := List.mem_map.1 hk
    have := List.lookup_eq_none_iff.1 hnone kv hkv
    rw [hfst] at this
    simp at this
  · rw [hreg, hlen, List.length_append, List.length_singleton]
    omega
  · rw [hreg, List.length_append]
    omega

end PropagationState

namespace USoundPropagationComponent

theorem SetPropagatedSoundVolume_comps (s s3 : PropagationState)
    (AudioComp PropAudioComp PathSize : Nat) (DeltaTime : ℚ)
    (h : SetPropagatedSoundVolume s AudioComp PropAudioComp PathSize DeltaTime = some s3) :
    s3.Comps.length = s.Comps.length ∧ s3.This = s.This := by
  unfold SetPropagatedSoundVolume at h
  split at h
  · exact absurd h (by simp)
  · simp only [Option.some.injEq] at h
    subst h
    exact ⟨PropagationState.length_setComp _ _ _, rfl⟩

/-- Placing the secondary source registers a new audio component when the source has no
entry, and otherwise leaves the registry and the number of audio components alone. -/
theorem PlacePropagatedSound_registry (W : UWorld) (s s3 : PropagationState)
    (AudioComp : Nat) (DeltaTime : ℚ) (Path : List Nat) (i : Nat)
    (h : PlacePropagatedSound W s AudioComp DeltaTime Path i = some s3) :
    s3.This.AudioComponents = s.This.AudioComponents ∧ s3.This.bEnabled = s.This.bEnabled ∧
    ((TMap.Contains s.This.PropagatedSounds AudioComp = true ∧
        s3.This.PropagatedSounds = s.This.PropagatedSounds ∧
        s3.Comps.length = s.Comps.length) ∨
      (TMap.Contains s.This.PropagatedSounds AudioComp = false ∧
        s3.This.PropagatedSounds = s.This.PropagatedSounds ++ [(AudioComp, s.Comps.length)] ∧
        s3.Comps.length = s.Comps.length + 1)) := by
  unfold PlacePropagatedSound at h
  by_cases hc : TMap.Contains s.This.PropagatedSounds AudioComp = true
  · rw [if_neg (by rw [hc]; simp)] at h
    dsimp only at h
    by_cases hm :
        (!(s.comp (TMap.Get s.This.PropagatedSounds AudioComp)).GetComponentLocation.Equals
          (s.Grid.node (Path.getD (i - 1) 0)).GetWorldCoordinate) = true
    · rw [if_pos hm] at h
      obtain ⟨h1, h2⟩ := SetPropagatedSoundVolume_comps _ _ _ _ _ _ h
      have hl : (MovePropagatedAudioComp W s (TMap.Get s.This.PropagatedSounds AudioComp)
          (Path.getD (i - 1) 0) DeltaTime).Comps.length = s.Comps.length :=
        PropagationState.length_setComp _ _ _
      have ht : (MovePropagatedAudioComp W s (TMap.Get s.This.PropagatedSounds AudioComp)
          (Path.getD (i - 1) 0) DeltaTime).This = s.This := rfl
      rw [hl] at h1
      rw [ht] at h2
      exact ⟨by rw [h2], by rw [h2], Or.inl ⟨hc, by rw [h2], h1⟩⟩
    · rw [if_neg hm] at h
      obtain ⟨h1, h2⟩ := SetPropagatedSoundVolume_comps _ _ _ _ _ _ h
      exact ⟨by rw [h2], by rw [h2], Or.inl ⟨hc, by rw [h2], h1⟩⟩
  · have hc' : TMap.Contains s.This.PropagatedSounds AudioComp = false := by
      simpa using hc
    rw [if_pos (by rw [hc']; rfl)] at h
    obtain ⟨h1, h2⟩ := SetPropagatedSoundVolume_comps _ _ _ _ _ _ h
    unfold SpawnPropagatedSound at h1 h2
    simp only [List.length_append, List.length_singleton] at h1
    refine ⟨by rw [h2], by rw [h2], Or.inr ⟨hc', ?_, h1⟩⟩
    rw [h2]
    simp only [TMap.Add, hc', Bool.false_eq_true, if_false]

/-- An update of a source leaves the registry and the number of audio components alone,
or registers one new audio component for the source, which had no entry. -/
theorem UpdateSoundPropagation_registry (W : UWorld) (s s3 : PropagationState)
    (AudioComp : Nat) (DeltaTime : ℚ)
    (h : UpdateSoundPropagation W s AudioComp DeltaTime = some s3) :
    s3.This.AudioComponents = s.This.AudioComponents ∧ s3.This.bEnabled = s.This.bEnabled ∧
    ((s3.This.PropagatedSounds = s.This.PropagatedSounds ∧
        s3.Comps.length = s.Comps.length) ∨
      (TMap.Contains s.This.PropagatedSounds AudioComp = false ∧
        s3.This.PropagatedSounds = s.This.PropagatedSounds ++ [(AudioComp, s.Comps.length)] ∧
        s3.Comps.length = s.Comps.length + 1)) := by
  by_cases hd : W.LineTraceSingleForObjects (s.comp AudioComp).ComponentLocation
      W.CameraLocation [s.This.Owner, (s.comp AudioComp).Owner] = true
  · cases hfind : FPathfinder.FindPath s.This.Pathfinder s.Grid
        (fun Start End => W.LineTraceSingleForObjects Start End [s.This.Owner])
        W.OwnerLocation (s.comp AudioComp).ComponentLocation W.OwnerLocation [] with
    | none =>
      unfold UpdateSoundPropagation at h
      simp only [DoLineTrace, UAudioComponent.GetComponentLocation, hd, Bool.not_true,
        Bool.false_eq_true, if_false] at h
      have hcomp : ∀ t : List FVector, PropagationState.comp
          { This := s.This, Grid := s.Grid, Comps := s.Comps, Traces := t } AudioComp
            = s.comp AudioComp := fun _ => rfl
      simp only [hcomp, hfind] at h
      exact absurd h (by simp)
    | some Found =>
      rw [UpdateSoundPropagation_blocked W s AudioComp DeltaTime Found hd hfind] at h
      by_cases hret : Found.Return = true
      · rw [if_neg (by rw [hret]; simp)] at h
        unfold PropagateAlongPath at h
        dsimp only at h
        obtain ⟨P, hP⟩ := StorePath_state
          { s with
            Traces := s.Traces ++ [(s.comp AudioComp).ComponentLocation]
            Grid := Found.Grid
            This := { s.This with Pathfinder := Found.Pathfinder } } AudioComp Found
        rw [hP] at h
        obtain ⟨T, hT, _⟩ := ScanPath_spec W [s.This.Owner, (s.comp AudioComp).Owner]
          (StorePath
            { s with
              Traces := s.Traces ++ [(s.comp AudioComp).ComponentLocation]
              Grid := Found.Grid
              This := { s.This with Pathfinder := Found.Pathfinder } } AudioComp Found).1
          (List.range' 1 ((StorePath
            { s with
              Traces := s.Traces ++ [(s.comp AudioComp).ComponentLocation]
              Grid := Found.Grid
              This := { s.This with Pathfinder := Found.Pathfinder } } AudioComp
              Found).1.length - 1))
          { s with
            Traces := s.Traces ++ [(s.comp AudioComp).ComponentLocation]
            Grid := Found.Grid
            This := { s.This with Pathfinder := Found.Pathfinder, Paths := P } }
        dsimp only at hT h
        rw [hT] at h
        split at h
        · simp only [Option.some.injEq] at h
          subst h
          exact ⟨rfl, rfl, Or.inl ⟨rfl, rfl⟩⟩
        · obtain ⟨h1, h2, h3⟩ := PlacePropagatedSound_registry W _ _ _ _ _ _ h
          refine ⟨h1, h2, ?_⟩
          rcases h3 with ⟨_, h4, h5⟩ | ⟨h4, h5, h6⟩
          · exact Or.inl ⟨h4, h5⟩
          · exact Or.inr ⟨h4, h5, h6⟩
      · rw [if_pos (by simpa using hret)] at h
        simp only [Option.some.injEq] at h
        subst h
        obtain ⟨h1, _, _, h4, _⟩ := RemovePropagatedSound_spec
          { s with
            Traces := s.Traces ++ [(s.comp AudioComp).ComponentLocation]
            Grid := Found.Grid
            This := { s.This with Pathfinder := Found.Pathfinder } } AudioComp DeltaTime
        exact ⟨by rw [h1], by rw [h1], Or.inl ⟨by rw [h1], h4⟩⟩
  · have hd' : W.LineTraceSingleForObjects (s.comp AudioComp).ComponentLocation
        W.CameraLocation [s.This.Owner, (s.comp AudioComp).Owner] = false := by
      simpa using hd
    rw [UpdateSoundPropagation_clear W s AudioComp DeltaTime hd'] at h
    simp only [Option.some.injEq] at h
    subst h
    obtain ⟨h1, _, _, h4, _⟩ := RemovePropagatedSound_spec
      { s with Traces := s.Traces ++ [(s.comp AudioComp).ComponentLocation] } AudioComp
      DeltaTime
    exact ⟨by rw [h1], by rw [h1], Or.inl ⟨by rw [h1], h4⟩⟩

theorem UpdateSoundPropagation_kept (W : UWorld) (s s3 : PropagationState)
    (AudioComp : Nat) (DeltaTime : ℚ)
    (h : UpdateSoundPropagation W s AudioComp DeltaTime = some s3) : s.RegistryKept s3 := by
  obtain ⟨h1, h2, h3⟩ := UpdateSoundPropagation_registry W s s3 AudioComp DeltaTime h
  rcases h3 with ⟨h4, h5⟩ | ⟨h4, h5, h6⟩
  · exact PropagationState.RegistryKept.of_same h4 h5 h1 h2
  · exact PropagationState.RegistryKept.of_spawn AudioComp h4 h5 h6 h1 h2

theorem TickAudioComp_kept (W : UWorld) (DeltaTime : ℚ) (s s3 : PropagationState)
    (AudioComp : Nat) (h : TickAudioComp W DeltaTime s AudioComp = some s3) :
    s.RegistryKept s3 := by
  unfold TickAudioComp at h
  split at h
  · simp only [Option.some.injEq] at h
    subst h
    exact PropagationState.RegistryKept.kept_refl s
  · dsimp only at h
    split at h
    · exact absurd h (by simp)
    · split at h
      · exact UpdateSoundPropagation_kept W s s3 AudioComp DeltaTime h
      · simp only [Option.some.injEq] at h
        subst h
        exact PropagationState.RegistryKept.kept_refl s

theorem TickLoop_kept (W : UWorld) (DeltaTime : ℚ) :
    ∀ (L : List Nat) (s s3 : PropagationState), TickLoop W DeltaTime L s = some s3 →
      s.RegistryKept s3 := by
  intro L
  induction L with
  | nil =>
    intro s s3 h
    simp only [TickLoop, Option.some.injEq] at h
    subst h
    exact PropagationState.RegistryKept.kept_refl s
  | cons a rest ih =>
    intro s s3 h
    rw [TickLoop] at h
    cases h1 : TickAudioComp W DeltaTime s a with
    | none => rw [h1] at h; exact absurd h (by simp)
    | some s1 =>
      rw [h1] at h
      exact (TickAudioComp_kept W DeltaTime s s1 a h1).kept_trans (ih s1 s3 h)

theorem TickComponent_kept (W : UWorld) (s s3 : PropagationState) (DeltaTime : ℚ)
    (h : TickComponent W s DeltaTime = some s3) : s.RegistryKept s3 := by
  unfold TickComponent at h
  split at h
  · simp only [Option.some.injEq] at h
    subst h
    exact PropagationState.RegistryKept.kept_refl s
  · exact TickLoop_kept W DeltaTime _ s s3 h

theorem Ticks_kept :
    ∀ (Frames : List (UWorld × ℚ)) (s s3 : PropagationState), Ticks Frames s = some s3 →
      s.RegistryKept s3 := by
  intro Frames
  induction Frames with
  | nil =>
    intro s s3 h
    simp only [Ticks, Option.some.injEq] at h
    subst h
    exact PropagationState.RegistryKept.kept_refl s
  | cons F rest ih =>
    intro s s3 h
    rw [Ticks] at h
    cases h1 : TickComponent F.1 s F.2 with
    | none => rw [h1] at h; exact absurd h (by simp)
    | some s1 =>
      rw [h1] at h
      exact (TickComponent_kept F.1 s s1 F.2 h1).kept_trans (ih s1 s3 h)

end USoundPropagationComponent

/-- C33: an `UpdateSoundPropagation` call either leaves the registry and the number of
audio components of the level as they are, or spawns one audio component and registers it
for the updated source, which had no entry: it spawns only for a source without an entry
and removes no entry. So over any sequence of ticks of the component every entry stays
registered with the same secondary source, a registry with one entry per source keeps one
entry per source, and the audio components gained are as many as the entries gained: no
source gets a second secondary source. -/
theorem Ticks_keep_one_secondary_per_source (Frames : List (UWorld × ℚ))
    (s s3 : PropagationState)
    (hrun : USoundPropagationComponent.Ticks Frames s = some s3) :
    (∀ (W : UWorld) (t t1 : PropagationState) (AudioComp : Nat) (DeltaTime : ℚ),
      USoundPropagationComponent.UpdateSoundPropagation W t AudioComp DeltaTime = some t1 →
      (t1.This.PropagatedSounds = t.This.PropagatedSounds ∧
          t1.Comps.length = t.Comps.length) ∨
        (TMap.Contains t.This.PropagatedSounds AudioComp = false ∧
          t1.This.PropagatedSounds
            = t.This.PropagatedSounds ++ [(AudioComp, t.Comps.length)] ∧
          t1.Comps.length = t.Comps.length + 1)) ∧
    (∀ a p, s.This.PropagatedSounds.lookup a = some p →
      s3.This.PropagatedSounds.lookup a = some p) ∧
    ((s.This.PropagatedSounds.map Prod.fst).Nodup →
      (s3.This.PropagatedSounds.map Prod.fst).Nodup) ∧
    s3.Comps.length + s.This.PropagatedSounds.length
      = s.Comps.length + s3.This.PropagatedSounds.length ∧
    s.This.PropagatedSounds.length ≤ s3.This.PropagatedSounds.length := by
  have hk := USoundPropagationComponent.Ticks_kept Frames s s3 hrun
  refine ⟨fun W t t1 a dt h =>
    (USoundPropagationComponent.UpdateSoundPropagation_registry W t t1 a dt h).2.2,
    hk.entries, hk.single, hk.spawned, hk.grown⟩

/-- C33 over three ticks of `pillarState`: two in `pillarWorld`, where the source is
blocked and a secondary source is spawned in the first and kept in the second, and one in
`openWorld`, where it fades. The registry ends with the one entry `(0, 1)` and the level
with two audio components. -/
theorem Ticks_keep_one_secondary_per_source_witness :
    ∃ s3, USoundPropagationComponent.Ticks
        [(pillarWorld, 1 / 60), (pillarWorld, 1 / 60), (openWorld, 1 / 60)] pillarState
        = some s3 ∧
      s3.This.PropagatedSounds = [(0, 1)] ∧
      (s3.This.PropagatedSounds.map Prod.fst).Nodup ∧
      s3.Comps.length + pillarState.This.PropagatedSounds.length
        = pillarState.Comps.length + s3.This.PropagatedSounds.length := by
  have hsome : (USoundPropagationComponent.Ticks
      [(pillarWorld, 1 / 60), (pillarWorld, 1 / 60), (openWorld, 1 / 60)]
      pillarState).isSome = true := by decide!
  obtain ⟨_, _, h3, h4, _⟩ := Ticks_keep_one_secondary_per_source
    [(pillarWorld, 1 / 60), (pillarWorld, 1 / 60), (openWorld, 1 / 60)] pillarState
    ((USoundPropagationComponent.Ticks
      [(pillarWorld, 1 / 60), (pillarWorld, 1 / 60), (openWorld, 1 / 60)]
      pillarState).get hsome) (Option.some_get hsome).symm
  have hreg : (USoundPropagationComponent.Ticks
      [(pillarWorld, 1 / 60), (pillarWorld, 1 / 60), (openWorld, 1 / 60)]
      pillarState).map (fun s => s.This.PropagatedSounds) = some [(0, 1)] := by decide!
  rw [← Option.some_get hsome, Option.map_some'] at hreg
  exact ⟨_, (Option.some_get hsome).symm, Option.some.inj hreg, h3 List.nodup_nil, h4⟩

/-! ## Termination of the search -/

namespace FPathfinder

/-- A turn that pops a node other than the end node keeps the invariant of the search
and adds the popped node, which was in the heap and not visited, to the visited nodes. -/
theorem SearchInv.turn {g0 : AMapGrid} (hwf : g0.WellFormed) {S E : Nat} {s : SearchState}
    (hinv : SearchInv g0 S E (fun _ _ => False) s) (hne : s.ToBeChecked ≠ [])
    (hpop : (HeapPop s.Grid s.ToBeChecked).1 ≠ E) :
    SearchInv g0 S E (fun _ _ => False) (SearchTurn E s) ∧
      (SearchTurn E s).Visited = (HeapPop s.Grid s.ToBeChecked).1 :: s.Visited := by
  obtain ⟨_, hins, _, hstep⟩ := hinv.pop hne
  have hc1 : (HeapPop s.Grid s.ToBeChecked).1 ∈
      s.Visited.insert (HeapPop s.Grid s.ToBeChecked).1 := by
    rw [hins]
    exact List.mem_cons_self _ _
  obtain ⟨hinv2, hV2⟩ := relaxFold_inv hwf (hstep hpop) hc1
  refine ⟨hinv2, ?_⟩
  unfold SearchTurn
  rw [hV2]
  exact hins

/-- From a state of the search, the loop returns after at most as many further turns as
there are nodes not yet visited: `k` turns pop a node other than the end node, and in the
turn after them the heap is found empty or the end node is popped. All along the
invariant of the search holds and every turn visits one more node. -/
theorem SearchInv.turns_until_return {g0 : AMapGrid} (hwf : g0.WellFormed) (S E : Nat) :
    ∀ (d : Nat) (s : SearchState), SearchInv g0 S E (fun _ _ => False) s →
      g0.Nodes.length ≤ d + s.Visited.length →
      ∃ k, k + s.Visited.length ≤ g0.Nodes.length ∧
        (∀ j, j ≤ k → SearchInv g0 S E (fun _ _ => False) (SearchTurns E j s) ∧
          (SearchTurns E j s).Visited.length = s.Visited.length + j) ∧
        (∀ j, j < k → (SearchTurns E j s).ToBeChecked ≠ [] ∧
          (HeapPop (SearchTurns E j s).Grid (SearchTurns E j s).ToBeChecked).1 ≠ E) ∧
        ((SearchTurns E k s).ToBeChecked = [] ∨
          ((SearchTurns E k s).ToBeChecked ≠ [] ∧
            (HeapPop (SearchTurns E k s).Grid (SearchTurns E k s).ToBeChecked).1 = E ∧
            k + s.Visited.length + 1 ≤ g0.Nodes.length)) := by
  intro d
  induction d with
  | zero =>
    intro s hinv hd
    have hcard := hinv.card_le hwf
    have hH : s.ToBeChecked = [] := List.length_eq_zero.1 (by omega)
    refine ⟨0, by omega, fun j hj => ?_, fun j hj => absurd hj (Nat.not_lt_zero _),
      Or.inl hH⟩
    have hj0 : j = 0 := by omega
    subst hj0
    exact ⟨hinv, rfl⟩
  | succ d ih =>
    intro s hinv hd
    have hcard := hinv.card_le hwf
    by_cases hH : s.ToBeChecked = []
    · refine ⟨0, by omega, fun j hj => ?_, fun j hj => absurd hj (Nat.not_lt_zero _),
        Or.inl hH⟩
      have hj0 : j = 0 := by omega
      subst hj0
      exact ⟨hinv, rfl⟩
    · have hpos : 0 < s.ToBeChecked.length := List.length_pos.2 hH
      by_cases hE : (HeapPop s.Grid s.ToBeChecked).1 = E
      · refine ⟨0, by omega, fun j hj => ?_, fun j hj => absurd hj (Nat.not_lt_zero _),
          Or.inr ⟨hH, hE, by omega⟩⟩
        have hj0 : j = 0 := by omega
        subst hj0
        exact ⟨hinv, rfl⟩
      · obtain ⟨hinv1, hV1⟩ := hinv.turn hwf hH hE
        have hlen1 : (SearchTurn E s).Visited.length = s.Visited.length + 1 := by
          rw [hV1, List.length_cons]
        obtain ⟨k, hk, hall, hnon, hfin⟩ := ih (SearchTurn E s) hinv1 (by omega)
        refine ⟨k + 1, by omega, fun j hj => ?_, fun j hj => ?_, ?_⟩
        · cases j with
          | zero => exact ⟨hinv, rfl⟩
          | succ j =>
            obtain ⟨h1, h2⟩ := hall j (by omega)
            exact ⟨h1, by rw [SearchTurns, h2, hlen1]; omega⟩
        · cases j with
          | zero => exact ⟨hH, hE⟩
          | succ j => exact hnon j (by omega)
        · rcases hfin with h | ⟨h1, h2, h3⟩
          · exact Or.inl h
          · exact Or.inr ⟨h1, h2, by rw [hlen1] at h3; omega⟩

theorem SearchTurns_succ (E : Nat) :
    ∀ (j : Nat) (s : SearchState),
      SearchTurns E (j + 1) s = SearchTurn E (SearchTurns E j s) := by
  intro j
  induction j with
  | zero => intro s; rfl
  | succ j ih =>
    intro s
    rw [SearchTurns, ih (SearchTurn E s)]
    rfl

/-- The neighbour loop pushes a node only when it is neither in the heap nor visited, and
the heap then holds that one node more. -/
theorem RelaxNeighbour_push_new (E c : Nat) (s : SearchState) (m : Nat) :
    (RelaxNeighbour E c s m).ToBeChecked = s.ToBeChecked ∨
      (m ∉ s.ToBeChecked ∧ m ∉ s.Visited ∧
        (RelaxNeighbour E c s m).ToBeChecked.Perm (m :: s.ToBeChecked)) := by
  rcases RelaxNeighbour_cases E c s m with ⟨h, _⟩ | ⟨_, _, _, h⟩ | ⟨_, h2, h3, h⟩
  · exact Or.inl (by rw [h])
  · exact Or.inl (by rw [h])
  · refine Or.inr ⟨h3, h2, ?_⟩
    rw [h]
    exact HeapPush_perm _ _ _

/-- A list of different nodes of in-bounds cells is no longer than the node array. -/
theorem length_le_of_nodup_valid {g : AMapGrid} (hwf : g.WellFormed) (P : List Nat)
    (hnd : P.Nodup) (hv : ∀ n ∈ P, g.ValidNode n) : P.length ≤ g.Nodes.length := by
  have hsub : P ⊆ List.range g.Nodes.length := by
    intro n hn
    rw [List.mem_range]
    exact (hv n hn).lt hwf
  have := (List.subperm_of_subset hnd hsub).length_le
  simpa using this

end FPathfinder

/-- C37: `FindPath` terminates on every well-formed grid, whatever scratch values its
nodes hold: the call returns. Its loop makes `k` turns that pop a node other than the
target, with `k` at most the number of nodes, and returns in the turn after them, in
which the heap is empty (not-found) or the target is popped, the pops being at most as
many as the nodes. After every turn the visited nodes are as many as the turns, without
repetition, the heap has no repetition and shares no node with the visited ones; the
node a turn pops was in the heap and not visited, and the neighbour loop pushes a node
only when it is neither in the heap nor visited: every node is pushed at most once and
popped at most once. On success `GetPath` follows the parent links from the target to
the start node and returns a path without repetition of at most as many nodes as the
grid has. -/
theorem FindPath_terminates_within_node_count (pf : FPathfinder) (g : AMapGrid)
    (hwf : g.WellFormed) (LineTrace : FVector → FVector → Bool)
    (PlayerLocation From To : FVector) (Path : List Nat) :
    ∃ r k, FPathfinder.FindPath pf g LineTrace PlayerLocation From To Path = some r ∧
      k ≤ g.Nodes.length ∧
      (∀ j, j ≤ k →
        (FPathfinder.SearchTurns (FPathfinder.GetTargetNode g LineTrace PlayerLocation To) j
          (FPathfinder.SearchInit g (g.GetNodeFromWorldLocation From))).Visited.length = j ∧
        (FPathfinder.SearchTurns (FPathfinder.GetTargetNode g LineTrace PlayerLocation To) j
          (FPathfinder.SearchInit g (g.GetNodeFromWorldLocation From))).Visited.Nodup ∧
        (FPathfinder.SearchTurns (FPathfinder.GetTargetNode g LineTrace PlayerLocation To) j
          (FPathfinder.SearchInit g (g.GetNodeFromWorldLocation From))).ToBeChecked.Nodup ∧
        (∀ n ∈ (FPathfinder.SearchTurns
            (FPathfinder.GetTargetNode g LineTrace PlayerLocation To) j
            (FPathfinder.SearchInit g (g.GetNodeFromWorldLocation From))).ToBeChecked,
          n ∉ (FPathfinder.SearchTurns
            (FPathfinder.GetTargetNode g LineTrace PlayerLocation To) j
            (FPathfinder.SearchInit g (g.GetNodeFromWorldLocation From))).Visited)) ∧
      (∀ j, j < k →
        (FPathfinder.SearchTurns (FPathfinder.GetTargetNode g LineTrace PlayerLocation To) j
          (FPathfinder.SearchInit g (g.GetNodeFromWorldLocation From))).ToBeChecked ≠ [] ∧
        (HeapPop
          (FPathfinder.SearchTurns (FPathfinder.GetTargetNode g LineTrace PlayerLocation To) j
            (FPathfinder.SearchInit g (g.GetNodeFromWorldLocation From))).Grid
          (FPathfinder.SearchTurns (FPathfinder.GetTargetNode g LineTrace PlayerLocation To) j
            (FPathfinder.SearchInit g (g.GetNodeFromWorldLocation From))).ToBeChecked).1
          ≠ FPathfinder.GetTargetNode g LineTrace PlayerLocation To ∧
        (HeapPop
          (FPathfinder.SearchTurns (FPathfinder.GetTargetNode g LineTrace PlayerLocation To) j
            (FPathfinder.SearchInit g (g.GetNodeFromWorldLocation From))).Grid
          (FPathfinder.SearchTurns (FPathfinder.GetTargetNode g LineTrace PlayerLocation To) j
            (FPathfinder.SearchInit g (g.GetNodeFromWorldLocation From))).ToBeChecked).1
          ∈ (FPathfinder.SearchTurns
            (FPathfinder.GetTargetNode g LineTrace PlayerLocation To) j
            (FPathfinder.SearchInit g (g.GetNodeFromWorldLocation From))).ToBeChecked ∧
        (FPathfinder.SearchTurns (FPathfinder.GetTargetNode g LineTrace PlayerLocation To)
          (j + 1) (FPathfinder.SearchInit g (g.GetNodeFromWorldLocation From))).Visited
          = (HeapPop
            (FPathfinder.SearchTurns
              (FPathfinder.GetTargetNode g LineTrace PlayerLocation To) j
              (FPathfinder.SearchInit g (g.GetNodeFromWorldLocation From))).Grid
            (FPathfinder.SearchTurns
              (FPathfinder.GetTargetNode g LineTrace PlayerLocation To) j
              (FPathfinder.SearchInit g (g.GetNodeFromWorldLocation From))).ToBeChecked).1
            :: (FPathfinder.SearchTurns
              (FPathfinder.GetTargetNode g LineTrace PlayerLocation To) j
              (FPathfinder.SearchInit g (g.GetNodeFromWorldLocation From))).Visited) ∧
      (some (FPathfinder.GetTargetNode g LineTrace PlayerLocation To) ≠ pf.OldEndNode →
        ((FPathfinder.SearchTurns (FPathfinder.GetTargetNode g LineTrace PlayerLocation To) k
            (FPathfinder.SearchInit g (g.GetNodeFromWorldLocation From))).ToBeChecked = [] ∧
          r.Return = false ∧ r.Path = []) ∨
        ((HeapPop
            (FPathfinder.SearchTurns
              (FPathfinder.GetTargetNode g LineTrace PlayerLocation To) k
              (FPathfinder.SearchInit g (g.GetNodeFromWorldLocation From))).Grid
            (FPathfinder.SearchTurns
              (FPathfinder.GetTargetNode g LineTrace PlayerLocation To) k
              (FPathfinder.SearchInit g (g.GetNodeFromWorldLocation From))).ToBeChecked).1
            = FPathfinder.GetTargetNode g LineTrace PlayerLocation To ∧
          k + 1 ≤ g.Nodes.length ∧ r.Return = true ∧
          FPathfinder.GetPath
            (FPathfinder.SearchTurns
              (FPathfinder.GetTargetNode g LineTrace PlayerLocation To) k
              (FPathfinder.SearchInit g (g.GetNodeFromWorldLocation From))).Grid
            (g.GetNodeFromWorldLocation From)
            (FPathfinder.GetTargetNode g LineTrace PlayerLocation To) = some r.Path ∧
          r.Path.Nodup ∧ r.Path.length ≤ g.Nodes.length)) ∧
      (∀ (c : Nat) (s : SearchState) (m : Nat),
        (FPathfinder.RelaxNeighbour (FPathfinder.GetTargetNode g LineTrace PlayerLocation To)
            c s m).ToBeChecked = s.ToBeChecked ∨
          (m ∉ s.ToBeChecked ∧ m ∉ s.Visited ∧
            (FPathfinder.RelaxNeighbour
              (FPathfinder.GetTargetNode g LineTrace PlayerLocation To) c s
              m).ToBeChecked.Perm (m :: s.ToBeChecked))) := by
  generalize hS : g.GetNodeFromWorldLocation From = S
  generalize hE : FPathfinder.GetTargetNode g LineTrace PlayerLocation To = E
  have hSv : g.ValidNode S := by
    rw [← hS]
    exact g.validNode_GetNodeFromWorldLocation hwf From
  have hinit : FPathfinder.SearchInv g S E (fun _ _ => False) (FPathfinder.SearchInit g S) :=
    FPathfinder.SearchInv.init g S E hSv (fun n => { n with GCost := 0, HCost := 0 })
      (fun n => ⟨rfl, rfl, rfl, rfl, rfl⟩)
  obtain ⟨k, hk, hall, hnon, hfin⟩ :=
    FPathfinder.SearchInv.turns_until_return hwf S E g.Nodes.length
      (FPathfinder.SearchInit g S) hinit (by omega)
  have hk' : k ≤ g.Nodes.length := by
    have : (FPathfinder.SearchInit g S).Visited.length = 0 := rfl
    omega
  have hinv_j : ∀ j, j ≤ k →
      (FPathfinder.SearchTurns E j (FPathfinder.SearchInit g S)).Visited.length = j ∧
      (FPathfinder.SearchTurns E j (FPathfinder.SearchInit g S)).Visited.Nodup ∧
      (FPathfinder.SearchTurns E j (FPathfinder.SearchInit g S)).ToBeChecked.Nodup ∧
      (∀ n ∈ (FPathfinder.SearchTurns E j (FPathfinder.SearchInit g S)).ToBeChecked,
        n ∉ (FPathfinder.SearchTurns E j (FPathfinder.SearchInit g S)).Visited) := by
    intro j hj
    obtain ⟨h1, h2⟩ := hall j hj
    refine ⟨?_, h1.nodupV, h1.nodupH, h1.disj⟩
    rw [h2]
    exact Nat.zero_add j
  have hturn_j : ∀ j, j < k →
      (FPathfinder.SearchTurns E j (FPathfinder.SearchInit g S)).ToBeChecked ≠ [] ∧
      (HeapPop (FPathfinder.SearchTurns E j (FPathfinder.SearchInit g S)).Grid
        (FPathfinder.SearchTurns E j (FPathfinder.SearchInit g S)).ToBeChecked).1 ≠ E ∧
      (HeapPop (FPathfinder.SearchTurns E j (FPathfinder.SearchInit g S)).Grid
        (FPathfinder.SearchTurns E j (FPathfinder.SearchInit g S)).ToBeChecked).1
        ∈ (FPathfinder.SearchTurns E j (FPathfinder.SearchInit g S)).ToBeChecked ∧
      (FPathfinder.SearchTurns E (j + 1) (FPathfinder.SearchInit g S)).Visited
        = (HeapPop (FPathfinder.SearchTurns E j (FPathfinder.SearchInit g S)).Grid
            (FPathfinder.SearchTurns E j (FPathfinder.SearchInit g S)).ToBeChecked).1
          :: (FPathfinder.SearchTurns E j (FPathfinder.SearchInit g S)).Visited := by
    intro j hj
    obtain ⟨h1, h2⟩ := hnon j hj
    obtain ⟨hinv, _⟩ := hall j (le_of_lt hj)
    refine ⟨h1, h2, FPathfinder.HeapPop_mem _ _ h1, ?_⟩
    rw [FPathfinder.SearchTurns_succ]
    exact (hinv.turn hwf h1 h2).2
  by_cases hrun : some E = pf.OldEndNode
  · refine ⟨{ Return := true, Path := Path, bOutPlayerHasMoved := false, Grid := g,
              Pathfinder := pf }, k, ?_, hk', hinv_j, hturn_j, fun h => absurd hrun h,
      FPathfinder.RelaxNeighbour_push_new E⟩
    unfold FPathfinder.FindPath
    simp only [hS, hE, hrun, if_true]
  · have hrun' : some (FPathfinder.GetTargetNode g LineTrace PlayerLocation To)
        ≠ pf.OldEndNode := by rw [hE]; exact hrun
    obtain ⟨r, hr, _, _, hnot, _, hchain⟩ :=
      FPathfinder.FindPath_search_spec pf g hwf LineTrace PlayerLocation From To Path hrun'
    rw [hS, hE] at hchain
    refine ⟨r, k, hr, hk', hinv_j, hturn_j, fun _ => ?_,
      FPathfinder.RelaxNeighbour_push_new E⟩
    have hmap := FPathfinder.FindPath_eq_SearchLoop pf g LineTrace PlayerLocation From To
      Path hrun'
    rw [hr, hS, hE] at hmap
    have hfuel : g.Nodes.length + 1 = (g.Nodes.length - k + 1) + k := by omega
    rw [hfuel, FPathfinder.SearchLoop_turns S E k (g.Nodes.length - k + 1) _ (fun j hj => by
      obtain ⟨h1, h2⟩ := hnon j hj
      refine ⟨?_, h2⟩
      cases hH : (FPathfinder.SearchTurns E j (FPathfinder.SearchInit g S)).ToBeChecked with
      | nil => exact absurd hH h1
      | cons a t => rfl)] at hmap
    rw [FPathfinder.SearchLoop] at hmap
    rcases hfin with hemp | ⟨hne, hpop, hk1⟩
    · left
      rw [hemp] at hmap
      simp only [List.isEmpty_nil, if_true, Option.map_some', Option.some.injEq,
        Prod.mk.injEq] at hmap
      exact ⟨hemp, hmap.1, hmap.2⟩
    · right
      have hne' : (FPathfinder.SearchTurns E k
          (FPathfinder.SearchInit g S)).ToBeChecked.isEmpty = false := by
        cases hH : (FPathfinder.SearchTurns E k (FPathfinder.SearchInit g S)).ToBeChecked with
        | nil => exact absurd hH hne
        | cons a t => rfl
      rw [if_neg (by rw [hne']; simp)] at hmap
      dsimp only at hmap
      rw [if_pos hpop] at hmap
      cases hG : FPathfinder.GetPath
          (FPathfinder.SearchTurns E k (FPathfinder.SearchInit g S)).Grid S E with
      | none =>
        rw [hG] at hmap
        exact absurd hmap (by simp)
      | some P =>
        rw [hG] at hmap
        simp only [Option.map_some', Option.some.injEq, Prod.mk.injEq] at hmap
        have hc := hchain hmap.1
        refine ⟨hpop, by omega, hmap.1, by rw [hmap.2], hc.chain_nodup, ?_⟩
        exact FPathfinder.length_le_of_nodup_valid hwf r.Path hc.chain_nodup
          (fun n hn => ((hc.walk hwf hSv).1 n hn).2)

theorem gridWall20_wellFormed : gridWall20.WellFormed :=
  AMapGrid.CreateGrid_wellFormed
    (fun P _ =>
      decide (P ∈ ([⟨-200, 50, 50⟩, ⟨-100, 50, 50⟩, ⟨0, 50, 50⟩, ⟨100, 50, 50⟩] :
        List FVector)))
    actor20 gridWall20 (by decide!) (by decide!) (by decide!) (by decide!)

/-- C37 on `staleWall20`, whose node 7 holds a parent link to itself left behind: the
search from node 0 to node 3 returns, after at most 20 turns of its loop, the path
`[3, 7, 11, 15, 18, 13, 9, 5]`, which runs through node 7. -/
theorem FindPath_terminates_within_node_count_witness :
    staleWall20.WellFormed ∧ staleWall20.Nodes.length = 20 ∧
    (staleWall20.node 7).Parent = some 7 ∧
    ∃ r k, FPathfinder.FindPath {} staleWall20 noTrace ⟨-200, 150, 50⟩ ⟨-200, -150, 50⟩
        ⟨-200, 150, 50⟩ [] = some r ∧
      k ≤ staleWall20.Nodes.length ∧ r.Return = true ∧
      r.Path = [3, 7, 11, 15, 18, 13, 9, 5] := by
  have hwf : staleWall20.WellFormed := staleWall20_sameCells.wellFormed gridWall20_wellFormed
  obtain ⟨r, k, hr, hk, _⟩ :=
    FindPath_terminates_within_node_count {} staleWall20 hwf noTrace ⟨-200, 150, 50⟩
      ⟨-200, -150, 50⟩ ⟨-200, 150, 50⟩ []
  have hmap : (FPathfinder.FindPath {} staleWall20 noTrace ⟨-200, 150, 50⟩ ⟨-200, -150, 50⟩
      ⟨-200, 150, 50⟩ []).map (fun r => (r.Return, r.Path))
      = some (true, [3, 7, 11, 15, 18, 13, 9, 5]) := by decide!
  rw [hr] at hmap
  simp only [Option.map_some', Option.some.injEq, Prod.mk.injEq] at hmap
  exact ⟨hwf, by decide!, by decide!, r, k, hr, hk, hmap.1, hmap.2⟩

end UEAudioSystem
